import Mathlib

/-!
# Edyn: contact manifold cache, rigid body factory, networking and constraint rows

A shallow embedding of parts of the Edyn physics engine, with theorems about
the embedded functions.

Scalars (`float` or `double` in the engine, depending on the build) are
idealised as exact rationals, so every comparison and every arithmetic
identity below is the one of exact arithmetic. Machine integers are natural
numbers; where a conversion can leave the range of its type, as the elapsed
milliseconds of the snapshot exporter can, the modulus is written out.
-/

namespace edyn

/-! ## Math primitives -/

/-- Scalar type of the engine, idealised as an exact rational number. -/
abbrev scalar := ℚ

/-- Modelled from the spec: `edyn/math/vector3.hpp` is not among the sources;
the spec assumes the usual three-component vector. -/
structure vector3 where
  x : scalar
  y : scalar
  z : scalar
deriving DecidableEq

/-- Modelled from the spec: `vector3_zero` of `edyn/math/vector3.hpp`. -/
def vector3_zero : vector3 := ⟨0, 0, 0⟩

instance : Add vector3 := ⟨fun a b => ⟨a.x + b.x, a.y + b.y, a.z + b.z⟩⟩

instance : Sub vector3 := ⟨fun a b => ⟨a.x - b.x, a.y - b.y, a.z - b.z⟩⟩

instance : Neg vector3 := ⟨fun a => ⟨-a.x, -a.y, -a.z⟩⟩

instance : HMul scalar vector3 vector3 := ⟨fun s a => ⟨s * a.x, s * a.y, s * a.z⟩⟩

/-- Modelled from the spec: dot product of `edyn/math/vector3.hpp`. -/
def dot (a b : vector3) : scalar := a.x * b.x + a.y * b.y + a.z * b.z

/-- Modelled from the spec: squared length of `edyn/math/vector3.hpp`. -/
def length_sqr (v : vector3) : scalar := dot v v

/-- Modelled from the spec: `square` of `edyn/math/math.hpp`. -/
def square (a : scalar) : scalar := a * a

/-- Modelled from the spec: `edyn/math/quaternion.hpp` is not among the
sources; the spec assumes the usual quaternion with vector part `x y z` and
scalar part `w`. -/
structure quaternion where
  x : scalar
  y : scalar
  z : scalar
  w : scalar
deriving DecidableEq

/-- Modelled from the spec: the identity rotation. -/
def quaternion_identity : quaternion := ⟨0, 0, 0, 1⟩

/-- Modelled from the spec: quaternion conjugate. -/
def conjugate (q : quaternion) : quaternion := ⟨-q.x, -q.y, -q.z, q.w⟩

/-- Modelled from the spec: Hamilton product of two quaternions. -/
def quaternion.mul (q r : quaternion) : quaternion :=
  ⟨q.w * r.x + q.x * r.w + q.y * r.z - q.z * r.y,
   q.w * r.y + q.y * r.w + q.z * r.x - q.x * r.z,
   q.w * r.z + q.z * r.w + q.x * r.y - q.y * r.x,
   q.w * r.w - q.x * r.x - q.y * r.y - q.z * r.z⟩

/-- Modelled from the spec: product of a quaternion and a vector seen as a
quaternion with zero scalar part. -/
def quaternion.mul_vec (q : quaternion) (v : vector3) : quaternion :=
  ⟨q.w * v.x + q.y * v.z - q.z * v.y,
   q.w * v.y + q.z * v.x - q.x * v.z,
   q.w * v.z + q.x * v.y - q.y * v.x,
   -(q.x * v.x) - q.y * v.y - q.z * v.z⟩

/-- Modelled from the spec: rotation of a vector by a quaternion,
`q * v * conjugate(q)`. -/
def rotate (q : quaternion) (v : vector3) : vector3 :=
  let r := (q.mul_vec v).mul (conjugate q)
  ⟨r.x, r.y, r.z⟩

/-- Modelled from the spec: `to_world_space(p, pos, orn) = pos + rotate(orn, p)`
of `edyn/math/geom.hpp`. -/
def to_world_space (p pos : vector3) (orn : quaternion) : vector3 :=
  pos + rotate orn p

/-- Modelled from the spec: `edyn/math/matrix3x3.hpp` is not among the
sources; a matrix is three rows. -/
structure matrix3x3 where
  row0 : vector3
  row1 : vector3
  row2 : vector3
deriving DecidableEq

/-- Modelled from the spec: `matrix3x3_zero`. -/
def matrix3x3_zero : matrix3x3 := ⟨vector3_zero, vector3_zero, vector3_zero⟩

/-- Modelled from the spec: column `0`, `1` or `2` of a matrix. -/
def matrix3x3.column (m : matrix3x3) : Fin 3 → vector3
  | 0 => ⟨m.row0.x, m.row1.x, m.row2.x⟩
  | 1 => ⟨m.row0.y, m.row1.y, m.row2.y⟩
  | 2 => ⟨m.row0.z, m.row1.z, m.row2.z⟩

/-- Modelled from the spec: matrix transpose. -/
def transpose (m : matrix3x3) : matrix3x3 := ⟨m.column 0, m.column 1, m.column 2⟩

/-- Modelled from the spec: matrix product. -/
def matrix3x3.mul (m n : matrix3x3) : matrix3x3 :=
  ⟨⟨dot m.row0 (n.column 0), dot m.row0 (n.column 1), dot m.row0 (n.column 2)⟩,
   ⟨dot m.row1 (n.column 0), dot m.row1 (n.column 1), dot m.row1 (n.column 2)⟩,
   ⟨dot m.row2 (n.column 0), dot m.row2 (n.column 1), dot m.row2 (n.column 2)⟩⟩

instance : Mul matrix3x3 := ⟨matrix3x3.mul⟩

/-- Modelled from the spec: determinant of a matrix. -/
def determinant (m : matrix3x3) : scalar :=
  m.row0.x * (m.row1.y * m.row2.z - m.row1.z * m.row2.y)
  - m.row0.y * (m.row1.x * m.row2.z - m.row1.z * m.row2.x)
  + m.row0.z * (m.row1.x * m.row2.y - m.row1.y * m.row2.x)

/-- Modelled from the spec: inverse of a symmetric matrix, the adjugate
(built from the upper triangle) divided by the determinant. -/
def inverse_matrix_symmetric (m : matrix3x3) : matrix3x3 :=
  let det_inv := 1 / determinant m
  let a11 := m.row0.x
  let a12 := m.row0.y
  let a13 := m.row0.z
  let a22 := m.row1.y
  let a23 := m.row1.z
  let a33 := m.row2.z
  let i00 := (a22 * a33 - a23 * a23) * det_inv
  let i01 := (a13 * a23 - a12 * a33) * det_inv
  let i02 := (a12 * a23 - a13 * a22) * det_inv
  let i11 := (a11 * a33 - a13 * a13) * det_inv
  let i12 := (a12 * a13 - a11 * a23) * det_inv
  let i22 := (a11 * a22 - a12 * a12) * det_inv
  ⟨⟨i00, i01, i02⟩, ⟨i01, i11, i12⟩, ⟨i02, i12, i22⟩⟩

/-- Modelled from the spec: rotation matrix of a quaternion
(`to_matrix3x3` of `edyn/math/matrix3x3.hpp`). -/
def to_matrix3x3 (q : quaternion) : matrix3x3 :=
  let d := q.x * q.x + q.y * q.y + q.z * q.z + q.w * q.w
  let s := 2 / d
  let xs := q.x * s
  let ys := q.y * s
  let zs := q.z * s
  let wx := q.w * xs
  let wy := q.w * ys
  let wz := q.w * zs
  let xx := q.x * xs
  let xy := q.x * ys
  let xz := q.x * zs
  let yy := q.y * ys
  let yz := q.y * zs
  let zz := q.z * zs
  ⟨⟨1 - (yy + zz), xy - wz, xz + wy⟩,
   ⟨xy + wz, 1 - (xx + zz), yz - wx⟩,
   ⟨xz - wy, yz + wx, 1 - (xx + yy)⟩⟩

/-! ## Entities, collision results, contact points and manifolds -/

/-- Modelled from the spec: an entity is an opaque handle with the
distinguished value `null` (the `entt` library is not among the sources). -/
inductive entity where
  | null : entity
  | id (n : Nat) : entity
deriving DecidableEq

/-- Modelled from the spec: `max_contacts` of `edyn/config/constants.hpp`,
"typically 4". -/
def max_contacts : Nat := 4

/-- Body to which the local normal of a contact is attached. The values are
those that `collision_util.cpp` uses (`none`, `normal_on_A`, `normal_on_B`);
the header `contact_point.hpp` among the sources is an earlier revision
without `none`. -/
inductive contact_normal_attachment where
  | none : contact_normal_attachment
  | normal_on_A : contact_normal_attachment
  | normal_on_B : contact_normal_attachment
deriving DecidableEq

/-- Feature kinds of a triangle, as switched over by `get_trimesh_friction`. -/
inductive triangle_feature where
  | vertex : triangle_feature
  | edge : triangle_feature
  | face : triangle_feature
deriving DecidableEq

/-- Modelled from the spec: the feature variant of a `collision_feature`;
only the triangle alternative is inspected by `collision_util.cpp`. -/
inductive feature_variant where
  | triangle (f : triangle_feature) : feature_variant
  | other (tag : Nat) : feature_variant
deriving DecidableEq

/-- Modelled from the spec: a contact feature "vertex/edge/face + index",
with the submesh `part` read by `get_paged_mesh_friction`. -/
structure collision_feature where
  feature : feature_variant
  index : Nat
  part : Nat
deriving DecidableEq

/-- Modelled from the spec: candidate point `collision_result::collision_point`
(`edyn/collision/collision_result.hpp` is not among the sources), with the
fields that `merge_point` and `create_contact_point` read. -/
structure collision_point where
  pivotA : vector3
  pivotB : vector3
  normal : vector3
  distance : scalar
  normal_attachment : contact_normal_attachment
  featureA : Option collision_feature
  featureB : Option collision_feature
deriving DecidableEq

/-- Modelled from the spec: result of the narrowphase `collision_result`, "up
to K candidate points"; `point` is the array of candidates, indexed from `0`,
of which the first `num_points` are meaningful. -/
structure collision_result where
  num_points : Nat
  point : Nat → collision_point

/-- Component `contact_point`, with the fields in the order in which
`create_contact_point` emplaces them; the header `contact_point.hpp` among
the sources is an earlier revision with fewer fields. -/
structure contact_point where
  body : entity × entity
  pivotA : vector3
  pivotB : vector3
  normal : vector3
  local_normal : vector3
  normal_attachment : contact_normal_attachment
  friction : scalar
  spin_friction : scalar
  roll_friction : scalar
  restitution : scalar
  lifetime : Nat
  distance : scalar
  featureA : Option collision_feature
  featureB : Option collision_feature
deriving DecidableEq

/-- Modelled from the spec: component `contact_manifold`
(`edyn/collision/contact_manifold.hpp` is not among the sources), "fields
`body[2]`, `point[max_contacts]`, each an entity holding a `contact_point`",
a slot without a point being `null` as `maybe_remove_point` leaves it, and
the `separation_threshold` that `detect_collision` mentions. -/
structure contact_manifold where
  body : entity × entity
  separation_threshold : scalar
  point : Fin max_contacts → entity

/-- Modelled from the spec: `contact_manifold::num_points()`, the number of
live points of the manifold: the number of slots of `point` that hold a
contact point (are not `null`). -/
def contact_manifold.num_points (m : contact_manifold) : Nat :=
  (Finset.univ.filter (fun i : Fin max_contacts => m.point i ≠ entity.null)).card

/-- Element `body[idx]` of a pair of bodies. -/
def body_at (body : entity × entity) (idx : Fin 2) : entity :=
  if idx = 0 then body.1 else body.2

/-! ## `collision_util.cpp` -/

/-- One iteration `i` of the loop of `find_nearest_contact` on the loop state
`(shortest_dist_sqr, nearest_idx)`. -/
def find_nearest_contact_step (cp : contact_point) (result : collision_result)
    (i : Nat) (st : scalar × Nat) : scalar × Nat :=
  let coll_pt := result.point i
  let dA := length_sqr (coll_pt.pivotA - cp.pivotA)
  let dB := length_sqr (coll_pt.pivotB - cp.pivotB)
  let st1 := if dA < st.1 then (dA, i) else st
  if dB < st1.1 then (dB, i) else st1

/-- Loop state of `find_nearest_contact` after the iterations `0 .. k-1`;
the constant `contact_caching_threshold` (of `edyn/config/constants.hpp`,
not among the sources) is a parameter. -/
def find_nearest_contact_loop (contact_caching_threshold : scalar) (cp : contact_point)
    (result : collision_result) : Nat → scalar × Nat
  | 0 => (square contact_caching_threshold, result.num_points)
  | k + 1 =>
    find_nearest_contact_step cp result k
      (find_nearest_contact_loop contact_caching_threshold cp result k)

/-- Function `find_nearest_contact(cp, result)`: the loop run over
`i = 0 .. result.num_points - 1`, then `nearest_idx` is returned. -/
def find_nearest_contact (contact_caching_threshold : scalar) (cp : contact_point)
    (result : collision_result) : Nat :=
  (find_nearest_contact_loop contact_caching_threshold cp result result.num_points).2

/-- What `create_contact_point` leaves behind: the updated manifold, the
entity it returns, the `contact_point` emplaced on it and whether the
`continuous` component was emplaced on it too. -/
structure create_contact_point_result where
  manifold : contact_manifold
  contact_entity : entity
  cp : contact_point
  continuous : Bool

/-- Function `create_contact_point(registry, manifold_entity, manifold, rp)`.
The registry is seen through `orn` (orientation of a body),
`continuous_contacts_tag` (presence of the tag on a body) and `fresh`, the
identifier of the entity that `registry.create()` hands out. A failed
`EDYN_ASSERT` yields `none`. The `dirty` bookkeeping is not modelled. -/
def create_contact_point (EDYN_EPSILON : scalar) (orn : entity → quaternion)
    (continuous_contacts_tag : entity → Bool) (fresh : Nat)
    (manifold : contact_manifold) (rp : collision_point) :
    Option create_contact_point_result :=
  let idx := manifold.num_points
  if h : idx < max_contacts then
    let contact_entity := entity.id fresh
    let manifold1 : contact_manifold :=
      { manifold with point := Function.update manifold.point ⟨idx, h⟩ contact_entity }
    if EDYN_EPSILON < length_sqr rp.normal then
      let local_normal :=
        if rp.normal_attachment ≠ contact_normal_attachment.none then
          let idx : Fin 2 :=
            if rp.normal_attachment = contact_normal_attachment.normal_on_A then 0 else 1
          rotate (conjugate (orn (body_at manifold.body idx))) rp.normal
        else vector3_zero
      some
        { manifold := manifold1
          contact_entity := contact_entity
          cp :=
            { body := manifold.body
              pivotA := rp.pivotA
              pivotB := rp.pivotB
              normal := rp.normal
              local_normal := local_normal
              normal_attachment := rp.normal_attachment
              friction := 0
              spin_friction := 0
              roll_friction := 0
              restitution := 0
              lifetime := 0
              distance := rp.distance
              featureA := rp.featureA
              featureB := rp.featureB }
          continuous :=
            continuous_contacts_tag manifold.body.1 || continuous_contacts_tag manifold.body.2 }
    else none
  else none

/-- Function `maybe_remove_point(manifold, cp, pt_idx, posA, ornA, posB, ornB)`:
the returned flag together with the manifold it leaves behind; `none` when
`EDYN_ASSERT(manifold.num_points() > 0)` fails. The constant
`contact_breaking_threshold` (not among the sources) is a parameter. -/
def maybe_remove_point (contact_breaking_threshold : scalar) (manifold : contact_manifold)
    (cp : contact_point) (pt_idx : Fin max_contacts)
    (posA : vector3) (ornA : quaternion) (posB : vector3) (ornB : quaternion) :
    Option (Bool × contact_manifold) :=
  let threshold := contact_breaking_threshold
  let threshold_sqr := threshold * threshold
  let pA := to_world_space cp.pivotA posA ornA
  let pB := to_world_space cp.pivotB posB ornB
  let n := cp.normal
  let d := pA - pB
  let normal_dist := dot d n
  let tangential_dir := d - normal_dist * n
  let tangential_dist_sqr := length_sqr tangential_dir
  if normal_dist < threshold ∧ tangential_dist_sqr < threshold_sqr then
    some (false, manifold)
  else if h : 0 < manifold.num_points then
    let last_idx : Fin max_contacts :=
      ⟨manifold.num_points - 1, by
        have hle := Finset.card_filter_le (Finset.univ : Finset (Fin max_contacts))
          (fun i => manifold.point i ≠ entity.null)
        rw [Finset.card_univ, Fintype.card_fin] at hle
        unfold contact_manifold.num_points at h ⊢
        omega⟩
    let point1 := Function.update manifold.point pt_idx (manifold.point last_idx)
    let point2 := Function.update point1 last_idx entity.null
    some (true, { manifold with point := point2 })
  else none

/-- Modelled from the spec: `material_base` of `edyn/comp/material.hpp`, the
values that an entry of the material mix table stores and
`create_contact_constraint` reads. -/
structure material_base where
  restitution : scalar
  friction : scalar
  spin_friction : scalar
  roll_friction : scalar
  stiffness : scalar
  damping : scalar
deriving DecidableEq

/-- Modelled from the spec: component `material` as `collision_util.cpp` reads
it, a `material_base` with the `id` that keys the material mix table (a later
revision than the one `rigidbody.cpp` emplaces). -/
structure contact_material extends material_base where
  id : Nat
deriving DecidableEq

/-- Modelled from the spec: the functions `material_mix_friction`,
`material_mix_restitution`, `material_mix_roll_friction`,
`material_mix_spin_friction`, `material_mix_stiffness` and
`material_mix_damping` of `edyn/dynamics/material_mixing.hpp`, parameters of
the model. -/
structure material_mixing where
  material_mix_friction : scalar → scalar → scalar
  material_mix_restitution : scalar → scalar → scalar
  material_mix_roll_friction : scalar → scalar → scalar
  material_mix_spin_friction : scalar → scalar → scalar
  material_mix_stiffness : scalar → scalar → scalar
  material_mix_damping : scalar → scalar → scalar

/-- Modelled from the spec: `triangle_mesh` of
`edyn/shapes/triangle_mesh.hpp`, as the member functions that
`collision_util.cpp` calls. -/
structure triangle_mesh where
  has_per_vertex_friction : Bool
  has_per_vertex_restitution : Bool
  get_vertex_friction : Nat → scalar
  get_edge_friction : Nat → vector3 → scalar
  get_face_friction : Nat → vector3 → scalar
  get_vertex_restitution : Nat → scalar
  get_edge_restitution : Nat → vector3 → scalar
  get_face_restitution : Nat → vector3 → scalar

/-- Modelled from the spec: `paged_triangle_mesh` of
`edyn/shapes/paged_triangle_mesh.hpp`, as the member functions that
`collision_util.cpp` calls; `get_submesh` answers `none` for a submesh that
is not loaded. -/
structure paged_triangle_mesh where
  has_per_vertex_friction : Bool
  has_per_vertex_restitution : Bool
  get_submesh : Nat → Option triangle_mesh

/-- The views of the registry that `create_contact_constraint` and
`merge_point` read: the `material` of a body, the `trimesh` of its
`mesh_shape` or `paged_mesh_shape`, and `try_get` of the material mix table
of the registry context. -/
structure contact_registry where
  material_view : entity → Option contact_material
  mesh_shape_view : entity → Option triangle_mesh
  paged_mesh_shape_view : entity → Option paged_triangle_mesh
  material_table : Nat × Nat → Option material_base

/-- Function `get_trimesh_friction(trimesh, pivot, coll_feature)`; `none` when
`std::get<triangle_feature>` fails because the feature is not a triangle
feature. -/
def get_trimesh_friction (trimesh : triangle_mesh) (pivot : vector3)
    (coll_feature : collision_feature) : Option scalar :=
  match coll_feature.feature with
  | feature_variant.triangle feature =>
    match feature with
    | triangle_feature.vertex => some (trimesh.get_vertex_friction coll_feature.index)
    | triangle_feature.edge => some (trimesh.get_edge_friction coll_feature.index pivot)
    | triangle_feature.face => some (trimesh.get_face_friction coll_feature.index pivot)
  | feature_variant.other _ => none

/-- Function `get_trimesh_restitution(trimesh, pivot, coll_feature)`; `none`
when `std::get<triangle_feature>` fails. -/
def get_trimesh_restitution (trimesh : triangle_mesh) (pivot : vector3)
    (coll_feature : collision_feature) : Option scalar :=
  match coll_feature.feature with
  | feature_variant.triangle feature =>
    match feature with
    | triangle_feature.vertex => some (trimesh.get_vertex_restitution coll_feature.index)
    | triangle_feature.edge => some (trimesh.get_edge_restitution coll_feature.index pivot)
    | triangle_feature.face => some (trimesh.get_face_restitution coll_feature.index pivot)
  | feature_variant.other _ => none

/-- Function `get_paged_mesh_friction(shape, pivot, coll_feature)`: the
friction of the submesh `coll_feature.part`, or `0` (`return {}`) when that
submesh is not loaded. -/
def get_paged_mesh_friction (shape : paged_triangle_mesh) (pivot : vector3)
    (coll_feature : collision_feature) : Option scalar :=
  match shape.get_submesh coll_feature.part with
  | some submesh => get_trimesh_friction submesh pivot coll_feature
  | none => some 0

/-- Function `get_paged_mesh_restitution(shape, pivot, coll_feature)`. -/
def get_paged_mesh_restitution (shape : paged_triangle_mesh) (pivot : vector3)
    (coll_feature : collision_feature) : Option scalar :=
  match shape.get_submesh coll_feature.part with
  | some submesh => get_trimesh_restitution submesh pivot coll_feature
  | none => some 0

/-- Function `try_assign_per_vertex_friction`: the returned flag and the
contact point it leaves behind; `none` when a body read through
`material_view.get` has no material, when the dereferenced feature is empty,
or when the feature is not a triangle feature. -/
def try_assign_per_vertex_friction (mix : material_mixing) (r : contact_registry)
    (cp : contact_point) : Option (Bool × contact_point) :=
  match r.mesh_shape_view cp.body.1 with
  | some shapeA =>
    if shapeA.has_per_vertex_friction then do
      let materialB ← r.material_view cp.body.2
      let featureA ← cp.featureA
      let friction ← get_trimesh_friction shapeA cp.pivotA featureA
      some (true,
        { cp with friction := mix.material_mix_friction friction materialB.friction })
    else some (false, cp)
  | none =>
    match r.mesh_shape_view cp.body.2 with
    | some shapeB =>
      if shapeB.has_per_vertex_friction then do
        let materialA ← r.material_view cp.body.1
        let featureB ← cp.featureB
        let friction ← get_trimesh_friction shapeB cp.pivotB featureB
        some (true,
          { cp with friction := mix.material_mix_friction materialA.friction friction })
      else some (false, cp)
    | none =>
      match r.paged_mesh_shape_view cp.body.1 with
      | some shapeA =>
        if shapeA.has_per_vertex_friction then do
          let materialB ← r.material_view cp.body.2
          let featureA ← cp.featureA
          let friction ← get_paged_mesh_friction shapeA cp.pivotA featureA
          some (true,
            { cp with friction := mix.material_mix_friction friction materialB.friction })
        else some (false, cp)
      | none =>
        match r.paged_mesh_shape_view cp.body.2 with
        | some shapeB =>
          if shapeB.has_per_vertex_friction then do
            let materialA ← r.material_view cp.body.1
            let featureB ← cp.featureB
            let friction ← get_paged_mesh_friction shapeB cp.pivotB featureB
            some (true,
              { cp with friction := mix.material_mix_friction materialA.friction friction })
          else some (false, cp)
        | none => some (false, cp)

/-- Function `try_assign_per_vertex_restitution`, the counterpart of
`try_assign_per_vertex_friction` for the restitution. -/
def try_assign_per_vertex_restitution (mix : material_mixing) (r : contact_registry)
    (cp : contact_point) : Option (Bool × contact_point) :=
  match r.mesh_shape_view cp.body.1 with
  | some shapeA =>
    if shapeA.has_per_vertex_restitution then do
      let materialB ← r.material_view cp.body.2
      let featureA ← cp.featureA
      let restitution ← get_trimesh_restitution shapeA cp.pivotA featureA
      some (true,
        { cp with
          restitution := mix.material_mix_restitution restitution materialB.restitution })
    else some (false, cp)
  | none =>
    match r.mesh_shape_view cp.body.2 with
    | some shapeB =>
      if shapeB.has_per_vertex_restitution then do
        let materialA ← r.material_view cp.body.1
        let featureB ← cp.featureB
        let restitution ← get_trimesh_restitution shapeB cp.pivotB featureB
        some (true,
          { cp with
            restitution := mix.material_mix_restitution materialA.restitution restitution })
      else some (false, cp)
    | none =>
      match r.paged_mesh_shape_view cp.body.1 with
      | some shapeA =>
        if shapeA.has_per_vertex_restitution then do
          let materialB ← r.material_view cp.body.2
          let featureA ← cp.featureA
          let restitution ← get_paged_mesh_restitution shapeA cp.pivotA featureA
          some (true,
            { cp with
              restitution :=
                mix.material_mix_restitution restitution materialB.restitution })
        else some (false, cp)
      | none =>
        match r.paged_mesh_shape_view cp.body.2 with
        | some shapeB =>
          if shapeB.has_per_vertex_restitution then do
            let materialA ← r.material_view cp.body.1
            let featureB ← cp.featureB
            let restitution ← get_paged_mesh_restitution shapeB cp.pivotB featureB
            some (true,
              { cp with
                restitution :=
                  mix.material_mix_restitution materialA.restitution restitution })
          else some (false, cp)
        | none => some (false, cp)

/-- Modelled from the spec: the `contact_constraint` that `make_constraint`
emplaces, with the bodies it is made for and the fields that
`create_contact_constraint` writes. -/
structure contact_constraint where
  body : entity × entity
  stiffness : scalar
  damping : scalar
deriving DecidableEq

/-- Function `create_contact_constraint(registry, contact_entity, cp)`: the
contact point it leaves behind and the constraint it emplaces on the contact
entity; `none` when a body has no material or a feature that is read is
missing. The constant `large_scalar` is a parameter. -/
def create_contact_constraint (mix : material_mixing) (large_scalar : scalar)
    (r : contact_registry) (cp : contact_point) : Option (contact_point × contact_constraint) := do
  let materialA ← r.material_view cp.body.1
  let materialB ← r.material_view cp.body.2
  match r.material_table (materialA.id, materialB.id) with
  | some material =>
    some ({ cp with
            restitution := material.restitution
            friction := material.friction
            roll_friction := material.roll_friction
            spin_friction := material.spin_friction },
          { body := cp.body, stiffness := material.stiffness, damping := material.damping })
  | none =>
    let assigned ← try_assign_per_vertex_friction mix r cp
    let cp :=
      if ¬ assigned.1 then
        { assigned.2 with
          friction := mix.material_mix_friction materialA.friction materialB.friction }
      else assigned.2
    let assigned ← try_assign_per_vertex_restitution mix r cp
    let cp :=
      if ¬ assigned.1 then
        { assigned.2 with
          restitution :=
            mix.material_mix_restitution materialA.restitution materialB.restitution }
      else assigned.2
    let cp :=
      { cp with
        roll_friction :=
          mix.material_mix_roll_friction materialA.roll_friction materialB.roll_friction
        spin_friction :=
          mix.material_mix_spin_friction materialA.spin_friction materialB.spin_friction }
    let stiffness_damping :=
      if materialA.stiffness < large_scalar ∨ materialB.stiffness < large_scalar then
        (mix.material_mix_stiffness materialA.stiffness materialB.stiffness,
          mix.material_mix_damping materialA.damping materialB.damping)
      else (large_scalar, large_scalar)
    some (cp, { body := cp.body, stiffness := stiffness_damping.1,
                damping := stiffness_damping.2 })

/-- Function `merge_point(rp, cp, orn_view, material_view, mesh_shape_view,
paged_mesh_shape_view)`: the contact point it leaves behind; `orn` is the
orientation of a body; `none` when one of the two `try_assign_per_vertex`
functions fails. What these return is not looked at. -/
def merge_point (mix : material_mixing) (orn : entity → quaternion) (r : contact_registry)
    (rp : collision_point) (cp : contact_point) : Option contact_point := do
  let cp :=
    { cp with
      pivotA := rp.pivotA
      pivotB := rp.pivotB
      normal := rp.normal
      distance := rp.distance
      normal_attachment := rp.normal_attachment
      featureA := rp.featureA
      featureB := rp.featureB }
  let cp :=
    if rp.normal_attachment ≠ contact_normal_attachment.none then
      let idx : Fin 2 :=
        if rp.normal_attachment = contact_normal_attachment.normal_on_A then 0 else 1
      { cp with local_normal := rotate (conjugate (orn (body_at cp.body idx))) rp.normal }
    else { cp with local_normal := vector3_zero }
  let assigned ← try_assign_per_vertex_friction mix r cp
  let assigned ← try_assign_per_vertex_restitution mix r assigned.2
  some assigned.2

/-! ## Quantities in which the properties of `collision_util.cpp` are stated -/

/-- Squared distance of candidate `j` of `result` to the cached point `cp`,
the smaller of the squared distances of the two pivots. -/
def pivot_dist_sqr (cp : contact_point) (result : collision_result) (j : Nat) : scalar :=
  min (length_sqr ((result.point j).pivotA - cp.pivotA))
    (length_sqr ((result.point j).pivotB - cp.pivotB))

/-- Normal separation `dot(pA - pB, n)` of a contact point under the given
body transforms, `pA` and `pB` being its pivots in world space. -/
def normal_separation (cp : contact_point) (posA : vector3) (ornA : quaternion)
    (posB : vector3) (ornB : quaternion) : scalar :=
  dot (to_world_space cp.pivotA posA ornA - to_world_space cp.pivotB posB ornB) cp.normal

/-- Squared tangential separation `|(pA - pB) - dot(pA - pB, n) n|²` of a
contact point under the given body transforms. -/
def tangential_separation_sqr (cp : contact_point) (posA : vector3) (ornA : quaternion)
    (posB : vector3) (ornB : quaternion) : scalar :=
  length_sqr
    ((to_world_space cp.pivotA posA ornA - to_world_space cp.pivotB posB ornB)
      - normal_separation cp posA ornA posB ornB * cp.normal)

/-- The live points of a manifold occupy exactly its first `num_points()`
slots: slot `i` holds a contact point if and only if `i < num_points()`. -/
def contact_manifold.compact (m : contact_manifold) : Prop :=
  ∀ i : Fin max_contacts, m.point i ≠ entity.null ↔ i.val < m.num_points

instance (m : contact_manifold) : Decidable m.compact := by
  unfold contact_manifold.compact
  infer_instance

/-- No body of the pair carries a mesh or a paged mesh with a per-vertex
material, be it friction or restitution. -/
def contact_registry.no_per_vertex_material (r : contact_registry) (body : entity × entity) :
    Prop :=
  ∀ i : Fin 2,
    (∀ shape, r.mesh_shape_view (body_at body i) = some shape →
      shape.has_per_vertex_friction = false ∧ shape.has_per_vertex_restitution = false) ∧
    (∀ shape, r.paged_mesh_shape_view (body_at body i) = some shape →
      shape.has_per_vertex_friction = false ∧ shape.has_per_vertex_restitution = false)

/-- What the `try_assign_per_vertex` functions dereference on a contact
between the bodies `body` with the features `featureA` and `featureB`: both
bodies have a material, and the feature on the side of a body that carries a
mesh or a paged mesh is present and is a triangle feature. -/
def contact_registry.features_readable (r : contact_registry) (body : entity × entity)
    (featureA featureB : Option collision_feature) : Prop :=
  (r.material_view body.1).isSome = true ∧ (r.material_view body.2).isSome = true ∧
  ((r.mesh_shape_view body.1).isSome = true ∨ (r.paged_mesh_shape_view body.1).isSome = true →
    ∃ fA tf, featureA = some fA ∧ fA.feature = feature_variant.triangle tf) ∧
  ((r.mesh_shape_view body.2).isSome = true ∨ (r.paged_mesh_shape_view body.2).isSome = true →
    ∃ fB tf, featureB = some fB ∧ fB.feature = feature_variant.triangle tf)

/-- A quaternion of unit length. -/
def quaternion.is_unit (q : quaternion) : Prop :=
  q.x * q.x + q.y * q.y + q.z * q.z + q.w * q.w = 1

/-- The cached point `cp` with the fields that `merge_point` copies from the
candidate `rp` and with the local normal that it computes; `orn` is the
orientation of a body. -/
def merged_fields (orn : entity → quaternion) (rp : collision_point) (cp : contact_point) :
    contact_point :=
  { cp with
    pivotA := rp.pivotA
    pivotB := rp.pivotB
    normal := rp.normal
    distance := rp.distance
    normal_attachment := rp.normal_attachment
    featureA := rp.featureA
    featureB := rp.featureB
    local_normal :=
      match rp.normal_attachment with
      | contact_normal_attachment.none => vector3_zero
      | contact_normal_attachment.normal_on_A => rotate (conjugate (orn cp.body.1)) rp.normal
      | contact_normal_attachment.normal_on_B => rotate (conjugate (orn cp.body.2)) rp.normal }

/-! ## `rigidbody.cpp` -/

/-- Kinds of rigid body, `rigidbody_kind`. -/
inductive rigidbody_kind where
  | rb_dynamic : rigidbody_kind
  | rb_kinematic : rigidbody_kind
  | rb_static : rigidbody_kind
deriving DecidableEq

/-- Component `material` emplaced by `make_rigidbody`. -/
structure material where
  restitution : scalar
  friction : scalar
  stiffness : scalar
  damping : scalar
deriving DecidableEq

/-- Component `collision_filter`. -/
structure collision_filter where
  group : Nat
  mask : Nat
deriving DecidableEq

/-- Component `AABB`. -/
structure AABB where
  min : vector3
  max : vector3
deriving DecidableEq

/-- Modelled from the spec: `rigidbody_def` is declared in
`edyn/util/rigidbody.hpp`, which is not among the sources; the fields are
the options that `make_rigidbody` reads. The type of a shape is a parameter. -/
structure rigidbody_def (Shape : Type) where
  kind : rigidbody_kind
  position : vector3
  orientation : quaternion
  mass : scalar
  inertia : matrix3x3
  linvel : vector3
  angvel : vector3
  gravity : vector3
  restitution : scalar
  friction : scalar
  stiffness : scalar
  damping : scalar
  sensor : Bool
  presentation : Bool
  continuous_contacts : Bool
  shape_opt : Option Shape
  collision_group : Nat
  collision_mask : Nat

/-- The components that a rigid body entity holds in the registry, a
component that may be absent being an `Option` and a tag a `Bool`.
`continuous` tells whether the `continuous` component (listing position,
orientation, linvel and angvel) is present and `non_connecting` is the flag
with which the entity was inserted in the entity graph. -/
structure rigidbody (Shape : Type) where
  position : vector3
  orientation : quaternion
  mass : scalar
  mass_inv : scalar
  inertia : matrix3x3
  inertia_inv : matrix3x3
  inertia_world_inv : matrix3x3
  linvel : vector3
  angvel : vector3
  linacc : Option vector3
  material : Option material
  present_position : Option vector3
  present_orientation : Option quaternion
  shape : Option Shape
  aabb : Option AABB
  collision_filter : Option collision_filter
  continuous_contacts_tag : Bool
  dynamic_tag : Bool
  procedural_tag : Bool
  kinematic_tag : Bool
  static_tag : Bool
  continuous : Bool
  non_connecting : Bool

/-- The components `mass`, `mass_inv`, `inertia`, `inertia_inv` and
`inertia_world_inv` that `make_rigidbody` emplaces (first `if` of the
function), or `none` when `EDYN_ASSERT(def.mass > 0)` fails. -/
def make_rigidbody_mass_inertia {Shape : Type} (EDYN_SCALAR_MAX : scalar)
    (d : rigidbody_def Shape) :
    Option (scalar × scalar × matrix3x3 × matrix3x3 × matrix3x3) :=
  if d.kind = rigidbody_kind.rb_dynamic then
    if 0 < d.mass then
      let I_inv := inverse_matrix_symmetric d.inertia
      some (d.mass, (if d.mass < EDYN_SCALAR_MAX then 1 / d.mass else 0), d.inertia, I_inv, I_inv)
    else none
  else
    some (EDYN_SCALAR_MAX, 0, matrix3x3_zero, matrix3x3_zero, matrix3x3_zero)

/-- The components `linvel` and `angvel` that `make_rigidbody` emplaces
(second `if` of the function). -/
def make_rigidbody_velocity {Shape : Type} (d : rigidbody_def Shape) : vector3 × vector3 :=
  if d.kind = rigidbody_kind.rb_static then (vector3_zero, vector3_zero)
  else (d.linvel, d.angvel)

/-- Function `make_rigidbody(entity, registry, def)`: the components emplaced
on the new entity, or `none` when `EDYN_ASSERT(def.mass > 0)` fails. The
constant `EDYN_SCALAR_MAX` and the function `shape_aabb` (not among the
sources) are parameters. -/
def make_rigidbody {Shape : Type} (EDYN_SCALAR_MAX : scalar)
    (shape_aabb : Shape → vector3 → quaternion → AABB) (d : rigidbody_def Shape) :
    Option (rigidbody Shape) :=
  match make_rigidbody_mass_inertia EDYN_SCALAR_MAX d with
  | none => none
  | some (mass, mass_inv, inertia, inertia_inv, inertia_world_inv) =>
    some
      { position := d.position
        orientation := d.orientation
        mass := mass
        mass_inv := mass_inv
        inertia := inertia
        inertia_inv := inertia_inv
        inertia_world_inv := inertia_world_inv
        linvel := (make_rigidbody_velocity d).1
        angvel := (make_rigidbody_velocity d).2
        linacc :=
          if d.gravity ≠ vector3_zero ∧ d.kind = rigidbody_kind.rb_dynamic then some d.gravity
          else none
        material :=
          if ¬ d.sensor then some ⟨d.restitution, d.friction, d.stiffness, d.damping⟩ else none
        present_position :=
          if d.presentation ∧ d.kind = rigidbody_kind.rb_dynamic then some d.position else none
        present_orientation :=
          if d.presentation ∧ d.kind = rigidbody_kind.rb_dynamic then some d.orientation
          else none
        shape := d.shape_opt
        aabb := d.shape_opt.map (fun sh => shape_aabb sh d.position d.orientation)
        collision_filter := d.shape_opt.map (fun _ => ⟨d.collision_group, d.collision_mask⟩)
        continuous_contacts_tag := d.continuous_contacts
        dynamic_tag := decide (d.kind = rigidbody_kind.rb_dynamic)
        procedural_tag := decide (d.kind = rigidbody_kind.rb_dynamic)
        kinematic_tag := decide (d.kind = rigidbody_kind.rb_kinematic)
        static_tag := decide (d.kind = rigidbody_kind.rb_static)
        continuous := decide (d.kind = rigidbody_kind.rb_dynamic)
        non_connecting := decide (d.kind ≠ rigidbody_kind.rb_dynamic) }

/-- Function `rigidbody_update_inertia(registry, entity)` on the components of
the entity; `none` when the entity has no shape. The function
`moment_of_inertia` (not among the sources) is a parameter. -/
def rigidbody_update_inertia {Shape : Type} (moment_of_inertia : Shape → scalar → matrix3x3)
    (b : rigidbody Shape) : Option (rigidbody Shape) :=
  match b.shape with
  | none => none
  | some shape =>
    let mass := b.mass
    let I := moment_of_inertia shape mass
    let inv_I := inverse_matrix_symmetric I
    let basis := to_matrix3x3 b.orientation
    let inv_IW := basis * inv_I * transpose basis
    some { b with inertia := I, inertia_inv := inv_I, inertia_world_inv := inv_IW }

/-- Function `rigidbody_set_mass(registry, entity, mass)`: the `mass`
component is replaced, then `rigidbody_update_inertia` runs. -/
def rigidbody_set_mass {Shape : Type} (moment_of_inertia : Shape → scalar → matrix3x3)
    (b : rigidbody Shape) (mass : scalar) : Option (rigidbody Shape) :=
  rigidbody_update_inertia moment_of_inertia { b with mass := mass }

/-- Listener `on_construct_or_replace_mass` of `world.cpp`: the `mass_inv`
that it assigns for the mass `m`, or `none` when `EDYN_ASSERT(m > 0)` fails. -/
def on_construct_or_replace_mass (EDYN_SCALAR_MAX : scalar) (m : scalar) : Option scalar :=
  if 0 < m then some (if m < EDYN_SCALAR_MAX then 1 / m else 0) else none

/-! ## `server_import_pool.hpp` -/

/-- Modelled from the spec: the client's entity map, a collection of
`(remote, local)` pairs (`edyn/networking/util/entity_map.hpp` is not among
the sources). -/
abbrev entity_map := List (entity × entity)

/-- Modelled from the spec: `entity_map::has_rem`, whether the remote entity
has a mapping. -/
def entity_map.has_rem (map : entity_map) (remote : entity) : Bool :=
  map.any (fun p => decide (p.1 = remote))

/-- Modelled from the spec: `entity_map::remloc`, the local entity that the
remote entity is mapped to (`null` when it has no mapping). -/
def entity_map.remloc (map : entity_map) (remote : entity) : entity :=
  match map.find? (fun p => decide (p.1 = remote)) with
  | some p => p.2
  | none => entity.null

/-- Modelled from the spec: `entity_map::erase_loc`, the map without the
mapping of the local entity. -/
def entity_map.erase_loc (map : entity_map) (loc : entity) : entity_map :=
  map.filter (fun p => decide (p.2 ≠ loc))

/-- Modelled from the spec: the `dirty` component (`edyn/comp/dirty.hpp` is
not among the sources), the indices of the component types marked created
and updated on an entity. -/
structure dirty where
  created_indexes : List Nat
  updated_indexes : List Nat
deriving DecidableEq

/-- Modelled from the spec: `dirty::created<Component>()`. -/
def dirty.created (d : dirty) (component_index : Nat) : dirty :=
  { d with created_indexes := d.created_indexes ++ [component_index] }

/-- Modelled from the spec: `dirty::updated<Component>()`. -/
def dirty.updated (d : dirty) (component_index : Nat) : dirty :=
  { d with updated_indexes := d.updated_indexes ++ [component_index] }

/-- The part of the registry that `import_pool_server` works on: which
entities are valid, the components of each entity by component index (the
payload type is a parameter), the `dirty` component of each entity and, for
a client entity, the entity map of its `remote_client` component. -/
structure registry (Payload : Type) where
  valid : entity → Bool
  component : entity → Nat → Option Payload
  dirty : entity → Option dirty
  remote_client : entity → Option entity_map

/-- Expression `registry.any_of<Component>(entity)`. -/
def registry.any_of {Payload : Type} (r : registry Payload) (component_index : Nat)
    (e : entity) : Bool :=
  (r.component e component_index).isSome

/-- Effect of `registry.emplace<Component>` or `registry.replace<Component>`
on the component store. -/
def registry.set_component {Payload : Type} (r : registry Payload) (e : entity)
    (component_index : Nat) (value : Payload) : registry Payload :=
  { r with
    component := Function.update r.component e
      (Function.update (r.component e) component_index (some value)) }

/-- Statement `registry.emplace_or_replace<dirty>(entity).created<Component>()`. -/
def registry.mark_created {Payload : Type} (r : registry Payload) (e : entity)
    (component_index : Nat) : registry Payload :=
  { r with dirty := Function.update r.dirty e (some ((dirty.mk [] []).created component_index)) }

/-- Modelled from the spec: `refresh<Component>(registry, entity)` marks the
component dirty, `registry.get_or_emplace<dirty>(entity).updated<Component>()`. -/
def refresh {Payload : Type} (r : registry Payload) (e : entity) (component_index : Nat) :
    registry Payload :=
  { r with
    dirty := Function.update r.dirty e
      (some (((r.dirty e).getD (dirty.mk [] [])).updated component_index)) }

/-- What `import_pool_server` is instantiated with: the index of the pool's
component type, whether that type is empty (`std::is_empty_v<Component>`),
the index of `dynamic_tag`, and the two functions it calls that are not among
the sources, `is_fully_owned_by_client` (declared only) and `merge` (which
remaps the entities nested in a value, reading the registry and the client's
entity map). -/
structure import_pool_config (Payload : Type) where
  component_index : Nat
  is_empty : Bool
  dynamic_tag_index : Nat
  is_fully_owned_by_client : registry Payload → entity → entity → Bool
  merge : registry Payload → Payload → Payload

/-- The entity map `client.entity_map` of the client entity. -/
def registry.client_entity_map {Payload : Type} (r : registry Payload)
    (client_entity : entity) : entity_map :=
  (r.remote_client client_entity).getD []

/-- One iteration of the loop of `import_pool_server` over the pool. -/
def import_pool_entry {Payload : Type} (cfg : import_pool_config Payload)
    (client_entity : entity) (r : registry Payload) (pair : entity × Payload) :
    registry Payload :=
  let remote_entity := pair.1
  if ¬ (r.client_entity_map client_entity).has_rem pair.1 then r
  else
    let local_entity := (r.client_entity_map client_entity).remloc remote_entity
    if ¬ r.valid local_entity then
      { r with
        remote_client := Function.update r.remote_client client_entity
          (some ((r.client_entity_map client_entity).erase_loc local_entity)) }
    else if r.any_of cfg.dynamic_tag_index local_entity ∧
        ¬ cfg.is_fully_owned_by_client r client_entity local_entity then r
    else if cfg.is_empty then
      if ¬ r.any_of cfg.component_index local_entity then
        (r.set_component local_entity cfg.component_index pair.2).mark_created local_entity
          cfg.component_index
      else r
    else
      let comp := cfg.merge r pair.2
      if r.any_of cfg.component_index local_entity then
        refresh (r.set_component local_entity cfg.component_index comp) local_entity
          cfg.component_index
      else
        (r.set_component local_entity cfg.component_index comp).mark_created local_entity
          cfg.component_index

/-- Loop of `import_pool_server` over the pairs of the pool, in order. -/
def import_pool_loop {Payload : Type} (cfg : import_pool_config Payload)
    (client_entity : entity) (r : registry Payload) (pool : List (entity × Payload)) :
    registry Payload :=
  pool.foldl (import_pool_entry cfg client_entity) r

/-- Function `import_pool_server<Component>(registry, client_entity, pool)`;
`none` when the client entity has no `remote_client` component, which
`registry.get<remote_client>(client_entity)` requires. -/
def import_pool_server {Payload : Type} (cfg : import_pool_config Payload)
    (r : registry Payload) (client_entity : entity) (pool : List (entity × Payload)) :
    Option (registry Payload) :=
  match r.remote_client client_entity with
  | none => none
  | some _ => some (import_pool_loop cfg client_entity r pool)

/-! ## `client_snapshot_exporter.hpp` -/

/-- Element `comp_index_time` of `modified_components`: the index of a
component type and the milliseconds for which it is still reported. Both are
`uint16_t` in the source, where no operation takes them out of that range:
`on_update` stores the index of a component type and `400`, and `update` only
lowers the remaining time, by no more than its value. -/
structure comp_index_time where
  index : Nat
  remaining : Nat
deriving DecidableEq

/-- Component `modified_components`. The list `entry` stands for the first
`count` elements of the array `entry` of the source and `count` is its
length: the elements of the array past `count` are never read before they
are written. -/
structure modified_components where
  entry : List comp_index_time
deriving DecidableEq

/-- Field `count` of `modified_components`. -/
def modified_components.count (m : modified_components) : Nat := m.entry.length

/-- Method `modified_components::empty()`. -/
def modified_components.empty (m : modified_components) : Bool :=
  m.entry.all (fun e => ¬ (0 < e.remaining))

/-- Body of `on_update<Component>` on the `modified_components` of the entity,
`index` being the index of `Component` among the `N = sizeof...(Components)`
networked component types; `none` when
`EDYN_ASSERT(modified->count < sizeof...(Components))` fails. -/
def on_update_modified (N : Nat) (index : Nat) (modified : modified_components) :
    Option modified_components :=
  let time_remaining := 400
  let found := modified.entry.any (fun e => decide (e.index = index))
  let entry :=
    modified.entry.map (fun e => if e.index = index then { e with remaining := time_remaining }
      else e)
  if ¬ found then
    if modified.count < N then some ⟨entry ++ [⟨index, time_remaining⟩]⟩ else none
  else some ⟨entry⟩

/-- Method `on_update<Component>(registry, entity)`; the registry is seen
through the `modified_components` of each entity. -/
def on_update (N : Nat) (m_observer_enabled : Bool) (index : Nat)
    (registry : entity → Option modified_components) (e : entity) :
    Option (entity → Option modified_components) :=
  if ¬ m_observer_enabled then some registry
  else
    match registry e with
    | none => some registry
    | some modified =>
      match on_update_modified N index modified with
      | none => none
      | some modified1 => some (Function.update registry e (some modified1))

/-- Loop of `update` over the entries of one `modified_components`, from the
position `i`: an entry with less remaining time than `elapsed_ms` is
overwritten with the last one and `count` is decremented, without moving on;
otherwise its remaining time is lowered and the loop moves on. Each iteration
lowers `count - i`, which bounds the `fuel`. -/
def update_modified_loop (elapsed_ms : Nat) :
    Nat → Nat → List comp_index_time → List comp_index_time
  | 0, _, l => l
  | fuel + 1, i, l =>
    match l[i]? with
    | none => l
    | some entry =>
      if elapsed_ms > entry.remaining then
        update_modified_loop elapsed_ms fuel i ((l.set i (l.getLastD entry)).dropLast)
      else
        update_modified_loop elapsed_ms fuel (i + 1)
          (l.set i { entry with remaining := entry.remaining - elapsed_ms })

/-- What `update` does to one `modified_components`. -/
def update_modified (elapsed_ms : Nat) (modified : modified_components) : modified_components :=
  ⟨update_modified_loop elapsed_ms modified.count 0 modified.entry⟩

/-- The value `static_cast<unsigned>((time - m_last_time) * 1000u)`: the whole
milliseconds elapsed since the last update, as a 32-bit `unsigned`. The
function `update` asserts that the time is not earlier than the last one, so
the product is not negative and the conversion rounds it down. A count of
`2 ^ 32` or more is outside the range of `unsigned`, where the language does
not define the conversion; it is taken modulo `2 ^ 32` here, which is what the
conversion through a 64-bit integer gives. -/
def elapsed_ms (m_last_time time : scalar) : Nat :=
  Int.toNat ⌊(time - m_last_time) * 1000⌋ % 2 ^ 32

/-- State of a `client_snapshot_exporter_impl` that `update` works on: the
time of the last update and the `modified_components` of each entity. -/
structure exporter_state where
  m_last_time : scalar
  modified : entity → Option modified_components

/-- Method `update(time)`; `none` when `EDYN_ASSERT(!(time < m_last_time))`
fails. -/
def update (s : exporter_state) (time : scalar) : Option exporter_state :=
  if time < s.m_last_time then none
  else
    some
      { m_last_time := time
        modified := fun e => (s.modified e).map (update_modified (elapsed_ms s.m_last_time time)) }

/-- Modelled from the spec: component `action_history`
(`edyn/networking/comp/action_history.hpp` is not among the sources), the
pending entries `(time, action index, data)` that `append_actions` appends. -/
structure action_history where
  entries : List (scalar × Nat × List Nat)

/-- What `export_modified` is instantiated with: the number `N` of networked
component types, the indices of `position`, `orientation`, `linvel`, `angvel`
and `action_history` among them (`index_of_v`), and which component types
derive from `network_input`. -/
structure exporter_config where
  N : Nat
  position_index : Nat
  orientation_index : Nat
  linvel_index : Nat
  angvel_index : Nat
  action_history_index : Nat
  is_network_input : Nat → Bool

/-- The part of the registry that `export_modified` reads: the views over
`modified_components`, `sleeping_tag`, `entity_owner` (the client entity of
the owner), `graph_node` (the node index), `graph_edge` (the edge index),
the body view (`position`, `orientation`, `linvel`, `angvel`, `dynamic_tag`
all present) and `action_history`, and the entity graph of the context.
Modelled from the spec: `edyn/core/entity_graph.hpp` is not among the
sources; the graph is seen through `edge_node_entities`, `node_entity` and
`traverse`, the node indices that `graph.traverse` visits from a node index,
in the order of the visits. -/
structure exporter_registry where
  modified : entity → Option modified_components
  sleeping : entity → Bool
  owner : entity → Option entity
  node : entity → Option Nat
  edge : entity → Option Nat
  body : entity → Bool
  history : entity → Option action_history
  edge_node_entities : Nat → entity × entity
  node_entity : Nat → entity
  traverse : Nat → List Nat

/-- Modelled from the spec: `internal::snapshot_insert_entity<Component>`
adds the tuple of the entity and the component index (with the component
value, which is not modelled) to the snapshot. -/
def snapshot_insert_entity (ent : entity) (snap : List (entity × Nat)) (index : Nat) :
    List (entity × Nat) :=
  snap ++ [(ent, index)]

/-- Loop over the owned entities that collects `to_visit`, the nodes from
which the entity graph is visited; a `sparse_set` is a list without
duplicates, `emplace` appending to it. -/
def export_collect_to_visit (r : exporter_registry) (owned_entities : List entity) :
    List entity :=
  owned_entities.foldl
    (fun to_visit ent =>
      if r.sleeping ent then to_visit
      else
        match r.edge ent with
        | some edge_index =>
          let edge_node_entity := (r.edge_node_entities edge_index).1
          if ¬ edge_node_entity ∈ to_visit then to_visit ++ [edge_node_entity] else to_visit
        | none =>
          if (r.node ent).isSome ∧ ¬ ent ∈ to_visit then to_visit ++ [ent]
          else to_visit)
    []

/-- The entities of the nodes that `graph.traverse` visits from a node index. -/
def exporter_registry.visited_entities (r : exporter_registry) (node_index : Nat) :
    List entity :=
  (r.traverse node_index).map r.node_entity

/-- Body of the loop over `entities_export` in the full ownership mode: the
modified components of the entity and, for a body, its position,
orientation and velocities, unless another client owns the entity.
`visit_tuple` calls its argument for an index below `N` only. -/
def export_entity_full (cfg : exporter_config) (r : exporter_registry) (client_entity : entity)
    (snap : List (entity × Nat)) (ent : entity) : List (entity × Nat) :=
  let is_owned_by_another_client :=
    match r.owner ent with
    | some owner => decide (owner ≠ client_entity)
    | none => false
  if is_owned_by_another_client then snap
  else
    let snap1 :=
      match r.modified ent with
      | some modified =>
        modified.entry.foldl
          (fun s e =>
            let comp_index := e.index
            if comp_index < cfg.N then snapshot_insert_entity ent s comp_index else s)
          snap
      | none => snap
    if r.body ent then
      snapshot_insert_entity ent
        (snapshot_insert_entity ent
          (snapshot_insert_entity ent
            (snapshot_insert_entity ent snap1 cfg.position_index)
            cfg.orientation_index)
          cfg.linvel_index)
        cfg.angvel_index
    else snap1

/-- Loop `while (!to_visit.empty())` of the full ownership mode. Each turn
visits the graph from the first node of `to_visit`, removes the visited nodes
from `to_visit` and exports the visited entities when one of them is owned by
the client. `none` when the first entity has no `graph_node`, or when the
`fuel` runs out, which happens only if a traversal does not visit the node it
starts from. -/
def export_visit_loop (cfg : exporter_config) (r : exporter_registry) (client_entity : entity) :
    Nat → List entity → List (entity × Nat) → Option (List (entity × Nat))
  | _, [], snap => some snap
  | 0, _ :: _, _ => none
  | fuel + 1, first :: rest, snap =>
    match r.node first with
    | none => none
    | some node_index =>
      let entities_export := r.visited_entities node_index
      let to_visit := (first :: rest).filter (fun e => ¬ e ∈ entities_export)
      let client_reachable :=
        entities_export.any (fun node_entity => decide (r.owner node_entity = some client_entity))
      let snap1 :=
        if client_reachable then
          entities_export.foldl (export_entity_full cfg r client_entity) snap
        else snap
      export_visit_loop cfg r client_entity fuel to_visit snap1

/-- Loop over the owned entities in the input-only mode; `none` when an owned
entity that is not sleeping has no `modified_components`, which
`modified_view.get(entity)` requires. -/
def export_input_only (cfg : exporter_config) (r : exporter_registry) :
    List entity → List (entity × Nat) → Option (List (entity × Nat))
  | [], snap => some snap
  | ent :: rest, snap =>
    if r.sleeping ent then export_input_only cfg r rest snap
    else
      match r.modified ent with
      | none => none
      | some modified =>
        export_input_only cfg r rest
          (modified.entry.foldl
            (fun s e =>
              let comp_index := e.index
              if comp_index < cfg.N ∧ cfg.is_network_input comp_index then
                snapshot_insert_entity ent s comp_index
              else s)
            snap)

/-- Last loop of `export_modified`, "always include actions". -/
def export_actions (cfg : exporter_config) (r : exporter_registry)
    (owned_entities : List entity) (snap : List (entity × Nat)) : List (entity × Nat) :=
  owned_entities.foldl
    (fun s ent =>
      match r.history ent with
      | some history =>
        if ¬ history.entries.isEmpty then snapshot_insert_entity ent s cfg.action_history_index
        else s
      | none => s)
    snap

/-- Method `export_modified(snap, client_entity, owned_entities,
allow_full_ownership)`: the snapshot after the call, as the list of the
tuples (entity, component index) that it holds. -/
def export_modified (cfg : exporter_config) (r : exporter_registry)
    (snap : List (entity × Nat)) (client_entity : entity) (owned_entities : List entity)
    (allow_full_ownership : Bool) : Option (List (entity × Nat)) :=
  let exported :=
    if allow_full_ownership then
      let to_visit := export_collect_to_visit r owned_entities
      export_visit_loop cfg r client_entity to_visit.length to_visit snap
    else export_input_only cfg r owned_entities snap
  match exported with
  | none => none
  | some snap1 => some (export_actions cfg r owned_entities snap1)

/-! ## `client_side.cpp` -/

/-- Modelled from the spec: `entity_map::contains`, whether the remote entity
has a mapping. -/
def entity_map.contains (map : entity_map) (remote : entity) : Bool :=
  map.any (fun p => decide (p.1 = remote))

/-- Modelled from the spec: `entity_map::at`, the local entity that the
remote entity is mapped to. -/
def entity_map.at_rem (map : entity_map) (remote : entity) : entity :=
  match map.find? (fun p => decide (p.1 = remote)) with
  | some p => p.2
  | none => entity.null

/-- Modelled from the spec: packet `registry_snapshot{entities[], pools[],
timestamp}`; the type of the pools is a parameter. -/
structure registry_snapshot (Pools : Type) where
  entities : List entity
  pools : Pools
  timestamp : scalar

/-- What `process_packet(registry_snapshot)` reads: the client network
context (entity map, owned entities, clock sync, playout delay, client
entity), the settings (fixed time step, round trip time, whether
extrapolation is enabled, action time threshold) and the registry (valid
entities, the views over `graph_node`, `contact_manifold`, `static_tag` and
`entity_owner`). Modelled from the spec: the entity graph is seen through
`is_connecting_node` and `reach`, the visits that `graph.reach` makes from a
sorted list of node indices, in order, each the entity of a node (`true`) or
of an edge (`false`); `convert_pools` is what `convert_remloc` does to the
pools. -/
structure client_state (Pools : Type) where
  entity_map : entity_map
  owned_entities : List entity
  clock_sync_count : Nat
  clock_sync_time_delta : scalar
  server_playout_delay : scalar
  client_entity : entity
  fixed_dt : scalar
  round_trip_time : scalar
  extrapolation_enabled : Bool
  action_time_threshold : scalar
  valid : entity → Bool
  graph_node : entity → Option Nat
  contact_manifold : entity → Bool
  static_tag : List entity
  entity_owner : entity → Option entity
  is_connecting_node : Nat → Bool
  reach : List Nat → List (Bool × entity)
  convert_pools : edyn.entity_map → Pools → Pools

/-- Modelled from the spec: the `extrapolation_request` sent to the worker,
without the registry operations `ops` that the builder produces. -/
structure extrapolation_request (Pools : Type) where
  start_time : scalar
  entities : List entity
  owned_entities : List entity
  snapshot : registry_snapshot Pools
  should_remap : Bool

/-- What processing a `registry_snapshot` does: the call
`input_history->emplace(snap, unowned_entities, time)` if made, the snapshot
handed to `snap_to_registry_snapshot` if one is (the only way in which
components are changed), the value assigned to
`input_history->action_time_threshold` if one is, and the extrapolation
request sent if one is. -/
structure process_packet_result (Pools : Type) where
  history_insert : Option (List entity × scalar)
  snapped : Option (registry_snapshot Pools)
  action_time_threshold : Option scalar
  request : Option (extrapolation_request Pools)

/-- Function `contains_unknown_entities(registry, remote_entities)`. -/
def contains_unknown_entities {Pools : Type} (s : client_state Pools) :
    List entity → Bool
  | [] => false
  | remote_entity :: rest =>
    if ¬ s.entity_map.contains remote_entity then true
    else
      let local_entity := s.entity_map.at_rem remote_entity
      if ¬ s.valid local_entity then true
      else contains_unknown_entities s rest

/-- Modelled from the spec: `registry_snapshot::convert_remloc`, "remap
entity handles". -/
def convert_remloc {Pools : Type} (s : client_state Pools) (snapshot : registry_snapshot Pools) :
    registry_snapshot Pools :=
  { entities := snapshot.entities.map s.entity_map.at_rem
    pools := s.convert_pools s.entity_map snapshot.pools
    timestamp := snapshot.timestamp }

/-- The `snapshot_time` computed by `process_packet(registry_snapshot)`, `time`
being the value of `performance_time()`. -/
def snapshot_time {Pools : Type} (s : client_state Pools) (time : scalar)
    (snapshot : registry_snapshot Pools) : scalar :=
  if s.clock_sync_count > 0 then
    snapshot.timestamp + s.clock_sync_time_delta - s.server_playout_delay
  else
    let client_server_time_difference := s.server_playout_delay + s.round_trip_time / 2
    time - client_server_time_difference

/-- Function `insert_input_to_state_history(registry, snap, time)`: the
arguments of the call `input_history->emplace`, if it is made. -/
def insert_input_to_state_history {Pools : Type} (s : client_state Pools)
    (snap : registry_snapshot Pools) (time : scalar) : Option (List entity × scalar) :=
  let unowned_entities :=
    snap.entities.foldl
      (fun unowned ent =>
        if ¬ ent ∈ s.owned_entities ∧ ¬ ent ∈ unowned then unowned ++ [ent] else unowned)
      []
  if ¬ unowned_entities.isEmpty then some (unowned_entities, time) else none

/-- Insertion into a `std::set` of node indices, kept sorted and without
duplicates. -/
def set_insert (x : Nat) : List Nat → List Nat
  | [] => [x]
  | y :: ys => if x < y then x :: y :: ys else if x = y then y :: ys else y :: set_insert x ys

/-- The set `node_indices` of the connecting nodes among the entities of the
snapshot. -/
def connecting_node_indices {Pools : Type} (s : client_state Pools)
    (snapshot : registry_snapshot Pools) : List Nat :=
  snapshot.entities.foldl
    (fun node_indices ent =>
      match s.graph_node ent with
      | some node_index =>
        if s.is_connecting_node node_index then set_insert node_index node_indices
        else node_indices
      | none => node_indices)
    []

/-- The entities to extrapolate: those that `graph.reach` visits from
`node_indices`, the edges that are contact manifolds left out, and all
entities with `static_tag`. -/
def extrapolation_entities {Pools : Type} (s : client_state Pools) (node_indices : List Nat) :
    List entity :=
  let entities :=
    (s.reach node_indices).foldl
      (fun entities visit =>
        if visit.1 then
          if ¬ visit.2 ∈ entities then entities ++ [visit.2] else entities
        else
          if ¬ s.contact_manifold visit.2 ∧ ¬ visit.2 ∈ entities then entities ++ [visit.2]
          else entities)
      []
  s.static_tag.foldl
    (fun entities ent => if ¬ ent ∈ entities then entities ++ [ent] else entities)
    entities

/-- Function `process_packet(registry, registry_snapshot)`, `time` being the
value of `performance_time()`. -/
def process_packet_registry_snapshot {Pools : Type} (s : client_state Pools) (time : scalar)
    (snapshot : registry_snapshot Pools) : process_packet_result Pools :=
  if contains_unknown_entities s snapshot.entities then
    { history_insert := none, snapped := none, action_time_threshold := none, request := none }
  else
    let snapshot := convert_remloc s snapshot
    let snapshot_time := snapshot_time s time snapshot
    let history_insert := insert_input_to_state_history s snapshot snapshot_time
    let needs_extrapolation := decide (time - snapshot_time > s.fixed_dt)
    if ¬ needs_extrapolation ∨ ¬ s.extrapolation_enabled then
      { history_insert := history_insert, snapped := some snapshot,
        action_time_threshold := none, request := none }
    else
      let node_indices := connecting_node_indices s snapshot
      if node_indices.isEmpty then
        { history_insert := history_insert, snapped := some snapshot,
          action_time_threshold := none, request := none }
      else
        let entities := extrapolation_entities s node_indices
        let req : extrapolation_request Pools :=
          { start_time := snapshot_time
            entities := entities
            owned_entities :=
              entities.filter (fun ent => decide (s.entity_owner ent = some s.client_entity))
            snapshot := snapshot
            should_remap := true }
        { history_insert := history_insert, snapped := none,
          action_time_threshold := some s.action_time_threshold, request := some req }

/-- Modelled from the spec: `entity_map::insert`, the map with a mapping of
the remote entity to the local entity added. -/
def entity_map.insert (map : entity_map) (remote loc : entity) : entity_map :=
  map ++ [(remote, loc)]

/-- Modelled from the spec: packet `entity_entered` of
`edyn/networking/packet/entity_entered.hpp`, three lists in which position `i`
describes one entity: the remote entity, its asset and its owner. The type of
the assets is a parameter. -/
structure entity_entered (Asset : Type) where
  entities : List entity
  assets : List Asset
  owners : List entity

/-- What `process_packet(entity_entered)` reads and writes: the entity map of
the client network context, the identifier that `registry.create()` hands out
next, the components `asset_ref`, `entity_owner` and `networked_tag` that it
emplaces, the pairs collected for the `update_entity_map` packet and the
local entities collected for the `entity_entered_signal`. -/
structure entity_entered_state (Asset : Type) where
  entity_map : entity_map
  next_entity : Nat
  asset_ref : List (entity × Asset)
  entity_owner : List (entity × entity)
  networked_tag : List entity
  pairs : List (entity × entity)
  local_entities : List entity

/-- Body of the loop of `process_packet(entity_entered)` for the index `i`;
`none` when an element of a list of the packet is read out of bounds. -/
def entity_entered_step {Asset : Type} (packet : entity_entered Asset) (i : Nat)
    (s : entity_entered_state Asset) : Option (entity_entered_state Asset) := do
  let remote_entity ← packet.entities[i]?
  if s.entity_map.contains remote_entity then some s
  else
    let local_entity := entity.id s.next_entity
    let s := { s with next_entity := s.next_entity + 1 }
    let s := { s with local_entities := s.local_entities ++ [local_entity] }
    let s := { s with entity_map := s.entity_map.insert remote_entity local_entity }
    let s := { s with pairs := s.pairs ++ [(remote_entity, local_entity)] }
    let asset ← packet.assets[i]?
    let s := { s with asset_ref := s.asset_ref ++ [(local_entity, asset)] }
    -- Assign owner to asset.
    let remote_owner ← packet.owners[i]?
    let s :=
      if remote_owner ≠ entity.null then
        if s.entity_map.contains remote_owner then
          let local_owner := s.entity_map.at_rem remote_owner
          { s with entity_owner := s.entity_owner ++ [(local_entity, local_owner)] }
        else
          let local_owner := entity.id s.next_entity
          { s with
            next_entity := s.next_entity + 1
            entity_map := s.entity_map.insert remote_owner local_owner
            pairs := s.pairs ++ [(remote_owner, local_owner)]
            entity_owner := s.entity_owner ++ [(local_entity, local_owner)] }
      else s
    -- All remote entities must have a networked tag.
    if ¬ local_entity ∈ s.networked_tag then
      some { s with networked_tag := s.networked_tag ++ [local_entity] }
    else some s

/-- The loop `for (i = 0; i < packet.entities.size() && i < packet.assets.size(); ++i)`
of `process_packet(entity_entered)` from the index `i` on; the `fuel` bounds
the number of iterations, which is at most the number of entities. -/
def entity_entered_loop {Asset : Type} (packet : entity_entered Asset) :
    Nat → Nat → entity_entered_state Asset → Option (entity_entered_state Asset)
  | 0, _, s => some s
  | fuel + 1, i, s =>
    if i < packet.entities.length ∧ i < packet.assets.length then
      match entity_entered_step packet i s with
      | some s1 => entity_entered_loop packet fuel (i + 1) s1
      | none => none
    else some s

/-- Function `process_packet(registry, entity_entered)`: the state after the
loop, with the pairs that are published in an `update_entity_map` packet when
there are any, and the local entities that are published through the
`entity_entered_signal` when there are any; `none` when an element of a list
of the packet is read out of bounds. The state starts with no pairs and no
local entities collected. -/
def process_packet_entity_entered {Asset : Type} (packet : entity_entered Asset)
    (s : entity_entered_state Asset) : Option (entity_entered_state Asset) :=
  entity_entered_loop packet packet.entities.length 0 { s with pairs := [], local_entities := [] }

/-! ## Constraint rows -/

/-- Modelled from the spec: `vector3_x` of `edyn/math/vector3.hpp`, the unit
vector of the first axis. -/
def vector3_x : vector3 := ⟨1, 0, 0⟩

/-- Modelled from the spec: cross product of `edyn/math/vector3.hpp`. -/
def cross (a b : vector3) : vector3 :=
  ⟨a.y * b.z - a.z * b.y, a.z * b.x - a.x * b.z, a.x * b.y - a.y * b.x⟩

/-- Modelled from the spec: division of a vector by a scalar. -/
def vector3.div (v : vector3) (s : scalar) : vector3 := ⟨v.x / s, v.y / s, v.z / s⟩

/-- Modelled from the spec: row `0`, `1` or `2` of a matrix. -/
def matrix3x3.row (m : matrix3x3) : Fin 3 → vector3
  | 0 => m.row0
  | 1 => m.row1
  | 2 => m.row2

/-- Modelled from the spec: `matrix3x3_identity`. -/
def matrix3x3_identity : matrix3x3 := ⟨⟨1, 0, 0⟩, ⟨0, 1, 0⟩, ⟨0, 0, 1⟩⟩

/-- Modelled from the spec: `skew_matrix` of `edyn/math/matrix3x3.hpp`, the
matrix `S` with `S * w = cross(v, w)`. -/
def skew_matrix (v : vector3) : matrix3x3 :=
  ⟨⟨0, -v.z, v.y⟩, ⟨v.z, 0, -v.x⟩, ⟨-v.y, v.x, 0⟩⟩

/-- Modelled from the spec: `to_sign` of `edyn/math/math.hpp`, `1` for `true`
and `-1` for `false`. -/
def to_sign (b : Bool) : scalar := if b then 1 else -1

/-- Modelled from the spec: `pi2` of `edyn/math/constants.hpp`, twice the
constant `pi`, which is a parameter of the model. -/
def pi2 (pi : scalar) : scalar := pi * 2

/-- Modelled from the spec: `constraint_row_options` of
`edyn/constraints/constraint_row_options.hpp`, with the fields the sources
write; both start at zero. -/
structure constraint_row_options where
  error : scalar := 0
  restitution : scalar := 0
deriving DecidableEq

/-- Modelled from the spec: one element of the `constraint_row_prep_cache` of
`edyn/dynamics/row_cache.hpp`: the row written through the reference that
`add_row()` returns, together with the options that `get_options()` returns
for it. The Jacobian `J` is an array of four vectors. -/
structure constraint_row_prep where
  J : vector3 × vector3 × vector3 × vector3
  lower_limit : scalar
  upper_limit : scalar
  impulse : scalar
  options : constraint_row_options := {}
deriving DecidableEq

/-- Modelled from the spec: the `constraint_row_prep_cache` of
`edyn/dynamics/row_cache.hpp` as the list of the rows added so far;
`add_row()` appends at the end. -/
abbrev constraint_row_prep_cache := List constraint_row_prep

/-! ## `soft_distance_constraint.cpp` -/

/-- Modelled from the spec: `soft_distance_constraint` of
`edyn/constraints/soft_distance_constraint.hpp`, with the fields that
`prepare_constraint` reads. -/
structure soft_distance_constraint where
  pivot : Fin 2 → vector3
  distance : scalar
  stiffness : scalar
  damping : scalar
  impulse : Fin 2 → scalar

/-- Function `prepare_constraint<soft_distance_constraint>`. The constants
`EDYN_EPSILON` and `large_scalar` and the function `std::sqrt` are
parameters; the registry, the entity, the inverse masses and the inverse
inertias are not read and are left out. The result is the row cache after the
call. -/
def prepare_constraint_soft_distance_constraint (EDYN_EPSILON large_scalar : scalar)
    (sqrt : scalar → scalar) (con : soft_distance_constraint)
    (cache : constraint_row_prep_cache) (dt : scalar)
    (originA posA : vector3) (ornA : quaternion) (linvelA angvelA : vector3)
    (originB posB : vector3) (ornB : quaternion) (linvelB angvelB : vector3) :
    constraint_row_prep_cache :=
  let pivotA := to_world_space (con.pivot 0) originA ornA
  let pivotB := to_world_space (con.pivot 1) originB ornB
  let rA := pivotA - posA
  let rB := pivotB - posB
  let d := pivotA - pivotB
  let dist_sqr := length_sqr d
  let dist := sqrt dist_sqr
  let dn := if dist_sqr > EDYN_EPSILON then d.div dist else vector3_x
  let p := cross rA dn
  let q := cross rB dn
  -- Spring row.
  let error := con.distance - dist
  let spring_force := con.stiffness * error
  let spring_impulse := spring_force * dt
  let cache := cache ++ [
    { J := (dn, p, -dn, -q)
      lower_limit := min spring_impulse 0
      upper_limit := max 0 spring_impulse
      impulse := con.impulse 0
      options := { error := if spring_impulse > 0 then -large_scalar else large_scalar } }]
  -- Damping row.
  let J : vector3 × vector3 × vector3 × vector3 := (dn, p, -dn, -q)
  let relspd := dot J.1 linvelA + dot J.2.1 angvelA + dot J.2.2.1 linvelB + dot J.2.2.2 angvelB
  let damping_force := con.damping * relspd
  let damping_impulse := damping_force * dt
  let impulse := |damping_impulse|
  cache ++ [
    { J := J
      lower_limit := -impulse
      upper_limit := impulse
      impulse := con.impulse 1 }]

/-! ## `hinge_constraint.cpp` -/

/-- Modelled from the spec: `hinge_constraint` of
`edyn/constraints/hinge_constraint.hpp`, with the fields that
`prepare_constraint` reads and writes. -/
structure hinge_constraint where
  pivot : Fin 2 → vector3
  frame : Fin 2 → matrix3x3
  angle_min : scalar
  angle_max : scalar
  limit_restitution : scalar
  stiffness : scalar
  damping : scalar
  friction_torque : scalar
  rest_angle : scalar
  angle : scalar
  bump_stop_angle : scalar
  bump_stop_stiffness : scalar
  impulse : Nat → scalar

/-- The three rows of `prepare_constraint<hinge_constraint>` that make the
pivot points match (the loop `for (int i = 0; i < 3; ++i)`), added to the
cache; the second component is `row_idx`. -/
def hinge_pivot_rows (EDYN_SCALAR_MAX : scalar) (con : hinge_constraint)
    (rA rB : vector3) (cache : constraint_row_prep_cache) (row_idx : Nat) :
    constraint_row_prep_cache × Nat :=
  let rA_skew := skew_matrix rA
  let rB_skew := skew_matrix rB
  let I := matrix3x3_identity
  (List.finRange 3).foldl
    (fun st i =>
      (st.1 ++ [
        { J := (I.row i, -(rA_skew.row i), -(I.row i), rB_skew.row i)
          lower_limit := -EDYN_SCALAR_MAX
          upper_limit := EDYN_SCALAR_MAX
          impulse := con.impulse st.2 }],
       st.2 + 1))
    (cache, row_idx)

/-- One of the two rows of `prepare_constraint<hinge_constraint>` that bring
the relative angular velocity to zero along a direction `p` orthogonal to the
hinge axis. -/
def hinge_angular_row (EDYN_SCALAR_MAX : scalar) (con : hinge_constraint) (p : vector3)
    (cache : constraint_row_prep_cache) (row_idx : Nat) : constraint_row_prep_cache × Nat :=
  (cache ++ [
    { J := (vector3_zero, p, vector3_zero, -p)
      lower_limit := -EDYN_SCALAR_MAX
      upper_limit := EDYN_SCALAR_MAX
      impulse := con.impulse row_idx }],
   row_idx + 1)

/-- The angle tracking of `prepare_constraint<hinge_constraint>` (the block
under `if (has_limit || has_spring)`): `angle` is the newly measured angle;
the result is the new value of `con.angle`. The function `normalize_angle` of
`edyn/math/math.hpp` is a parameter. -/
def hinge_track_angle (pi : scalar) (normalize_angle : scalar → scalar)
    (con : hinge_constraint) (angle : scalar) : scalar :=
  let previous_angle := normalize_angle con.angle
  -- Find shortest path from previous angle to current in the [-π, π] range.
  let angle_delta0 := angle - previous_angle
  let angle_delta1 := angle_delta0 + pi2 pi * to_sign (decide (angle_delta0 < 0))
  let angle_delta := if |angle_delta0| < |angle_delta1| then angle_delta0 else angle_delta1
  con.angle + angle_delta

/-- The rows of `prepare_constraint<hinge_constraint>` for the angular limits
(the block under `if (has_limit)`): one row for the limit and, when the bump
stop is set and deflected, another row for the bump stop spring. -/
def hinge_limit_rows (large_scalar : scalar) (con : hinge_constraint) (dt : scalar)
    (hinge_axis : vector3) (cache : constraint_row_prep_cache) (row_idx : Nat) :
    constraint_row_prep_cache × Nat :=
  let halfway_limit := (con.angle_min + con.angle_max) / 2
  -- Set constraint limits according to which is the closer angular limit.
  let row : constraint_row_prep :=
    if con.angle < halfway_limit then
      { J := (vector3_zero, hinge_axis, vector3_zero, -hinge_axis)
        impulse := con.impulse row_idx
        lower_limit := -large_scalar
        upper_limit := 0
        options := { error := (con.angle_min - con.angle) / dt
                     restitution := con.limit_restitution } }
    else
      { J := (vector3_zero, hinge_axis, vector3_zero, -hinge_axis)
        impulse := con.impulse row_idx
        lower_limit := 0
        upper_limit := large_scalar
        options := { error := (con.angle_max - con.angle) / dt
                     restitution := con.limit_restitution } }
  let cache := cache ++ [row]
  let row_idx := row_idx + 1
  -- Another row for bump stop spring.
  if con.bump_stop_stiffness > 0 ∧ con.bump_stop_angle > 0 then
    let bump_stop_min := con.angle_min + con.bump_stop_angle
    let bump_stop_max := con.angle_max - con.bump_stop_angle
    let bump_stop_deflection : scalar :=
      if con.angle < bump_stop_min then con.angle - bump_stop_min
      else if con.angle > bump_stop_max then con.angle - bump_stop_max
      else 0
    if bump_stop_deflection ≠ 0 then
      let spring_force := con.bump_stop_stiffness * bump_stop_deflection
      let spring_impulse := spring_force * dt
      (cache ++ [
        { J := (vector3_zero, hinge_axis, vector3_zero, -hinge_axis)
          impulse := con.impulse row_idx
          lower_limit := min spring_impulse 0
          upper_limit := max 0 spring_impulse
          options := { error := -bump_stop_deflection / dt } }],
       row_idx + 1)
    else (cache, row_idx)
  else (cache, row_idx)

/-- The spring row of `prepare_constraint<hinge_constraint>` (the block under
`if (has_spring)`). -/
def hinge_spring_row (con : hinge_constraint) (dt : scalar) (hinge_axis : vector3)
    (cache : constraint_row_prep_cache) (row_idx : Nat) : constraint_row_prep_cache × Nat :=
  let deflection := con.angle - con.rest_angle
  let spring_force := con.stiffness * deflection
  let spring_impulse := spring_force * dt
  (cache ++ [
    { J := (vector3_zero, hinge_axis, vector3_zero, -hinge_axis)
      impulse := con.impulse row_idx
      lower_limit := min spring_impulse 0
      upper_limit := max 0 spring_impulse
      options := { error := -deflection / dt } }],
   row_idx + 1)

/-- The friction row of `prepare_constraint<hinge_constraint>` (the block
under `if (has_friction)`): a single row for both damping and constant
friction. -/
def hinge_friction_row (con : hinge_constraint) (dt : scalar) (hinge_axis : vector3)
    (angvelA angvelB : vector3) (cache : constraint_row_prep_cache) (row_idx : Nat) :
    constraint_row_prep_cache × Nat :=
  let friction_impulse := con.friction_torque * dt
  let friction_impulse :=
    if con.damping > 0 then
      let relvel := dot angvelA hinge_axis - dot angvelB hinge_axis
      friction_impulse + |relvel| * con.damping * dt
    else friction_impulse
  (cache ++ [
    { J := (vector3_zero, hinge_axis, vector3_zero, -hinge_axis)
      impulse := con.impulse row_idx
      lower_limit := -friction_impulse
      upper_limit := friction_impulse }],
   row_idx + 1)

/-- Function `prepare_constraint<hinge_constraint>`, composed of its blocks in
the order of the source. The constants `pi`, `EDYN_SCALAR_MAX` and
`large_scalar` and the functions `std::atan2` and `normalize_angle` are
parameters; the registry, the entity, the linear velocities, the inverse
masses and the inverse inertias are not read and are left out. The vector
`hinge_axis` is left uninitialised by the source when no block reads it; the
model puts the zero vector there. The result is the constraint, whose `angle`
may be updated, and the row cache after the call. -/
def prepare_constraint_hinge_constraint (pi EDYN_SCALAR_MAX large_scalar : scalar)
    (atan2 : scalar → scalar → scalar) (normalize_angle : scalar → scalar)
    (con : hinge_constraint) (cache : constraint_row_prep_cache) (dt : scalar)
    (originA posA : vector3) (ornA : quaternion) (angvelA : vector3)
    (originB posB : vector3) (ornB : quaternion) (angvelB : vector3) :
    hinge_constraint × constraint_row_prep_cache :=
  let pivotA := to_world_space (con.pivot 0) originA ornA
  let pivotB := to_world_space (con.pivot 1) originB ornB
  let rA := pivotA - posA
  let rB := pivotB - posB
  -- Make the position of pivot points match, akin to a point constraint.
  let st := hinge_pivot_rows EDYN_SCALAR_MAX con rA rB cache 0
  -- Make relative angular velocity go to zero along directions orthogonal
  -- to the hinge axis where rotations are allowed.
  let p := rotate ornA ((con.frame 0).column 1)
  let q := rotate ornA ((con.frame 0).column 2)
  let st := hinge_angular_row EDYN_SCALAR_MAX con p st.1 st.2
  let st := hinge_angular_row EDYN_SCALAR_MAX con q st.1 st.2
  -- Handle angular limits and friction.
  let has_limit := decide (con.angle_min < con.angle_max)
  let has_spring := decide (con.stiffness > 0)
  let has_friction := decide (con.friction_torque > 0 ∨ con.damping > 0)
  let hinge_axis :=
    if has_limit ∨ has_spring ∨ has_friction then rotate ornA ((con.frame 0).column 0)
    else vector3_zero
  let con :=
    if has_limit ∨ has_spring then
      let angle_axisB := rotate ornB ((con.frame 1).column 1)
      let angle := atan2 (dot angle_axisB q) (dot angle_axisB p)
      { con with angle := hinge_track_angle pi normalize_angle con angle }
    else con
  let st := if has_limit then hinge_limit_rows large_scalar con dt hinge_axis st.1 st.2 else st
  let st := if has_spring then hinge_spring_row con dt hinge_axis st.1 st.2 else st
  let st :=
    if has_friction then hinge_friction_row con dt hinge_axis angvelA angvelB st.1 st.2
    else st
  (con, st.1)

/-! ## `sphere_shape.cpp` -/

/-- Modelled from the spec: `sphere_shape` of `edyn/shapes/sphere_shape.hpp`. -/
structure sphere_shape where
  radius : scalar
deriving DecidableEq

/-- Modelled from the spec: a point of the manifold that `collide` returns in
the revision of `sphere_shape.cpp`, with the fields that it writes. -/
structure manifold_point where
  pivotA : vector3
  pivotB : vector3
  normalB : vector3
deriving DecidableEq

/-- Modelled from the spec: the `contact_manifold` of the revision of
`sphere_shape.cpp`, a value with a field `num_points` and an array of points;
`contact_manifold {}` is the manifold without points. -/
structure collide_manifold where
  num_points : Nat := 0
  point : Fin max_contacts → manifold_point := fun _ => ⟨vector3_zero, vector3_zero, vector3_zero⟩

/-- Modelled from the spec: `inverse` of `edyn/math/quaternion.hpp`, the
conjugate divided by the squared length. -/
def inverse (q : quaternion) : quaternion :=
  let l := q.x * q.x + q.y * q.y + q.z * q.z + q.w * q.w
  ⟨q.x / -l, q.y / -l, q.z / -l, q.w / l⟩

/-- Function `collide(shA, posA, ornA, shB, posB, ornB)` for two spheres; the
function `std::sqrt` is a parameter and `length2` is the squared length. -/
def collide_sphere_sphere (sqrt : scalar → scalar)
    (shA : sphere_shape) (posA : vector3) (ornA : quaternion)
    (shB : sphere_shape) (posB : vector3) (ornB : quaternion) : collide_manifold :=
  let d := posA - posB
  let l2 := length_sqr d
  if l2 < shA.radius * shA.radius + shB.radius * shB.radius then
    let l := sqrt l2
    let dn := d.div l
    let rA := shA.radius * (-dn)
    let rA := rotate (inverse ornA) rA
    let rB := shB.radius * dn
    let rB := rotate (inverse ornB) rB
    { num_points := 1
      point := Function.update
        (fun _ => ⟨vector3_zero, vector3_zero, vector3_zero⟩) ⟨0, by decide⟩
        { pivotA := rA, pivotB := rB, normalB := rotate (inverse ornB) dn } }
  else {}

/-! ## Quantities in which the properties of the later sections are stated -/

/-- The entries of `l` whose remaining time is at least `elapsed_ms`, each
with its remaining time lowered by `elapsed_ms`. -/
def update_kept (elapsed_ms : Nat) (l : List comp_index_time) : List comp_index_time :=
  (l.filter (fun e => decide (elapsed_ms ≤ e.remaining))).map
    (fun e => { e with remaining := e.remaining - elapsed_ms })

/-- The entity has an `entity_owner` that names a client other than
`client_entity`. -/
def exporter_registry.owned_by_another (r : exporter_registry) (client_entity e : entity) :
    Prop :=
  ∃ c, r.owner e = some c ∧ c ≠ client_entity

/-- Lever arm of a pivot of a constraint: the pivot in world space minus the
position of the body. -/
def pivot_arm (pivot origin pos : vector3) (orn : quaternion) : vector3 :=
  to_world_space pivot origin orn - pos

/-- Vector `d` of the soft distance constraint, from the pivot of body B to
the pivot of body A in world space. -/
def soft_distance_d (con : soft_distance_constraint) (originA : vector3) (ornA : quaternion)
    (originB : vector3) (ornB : quaternion) : vector3 :=
  to_world_space (con.pivot 0) originA ornA - to_world_space (con.pivot 1) originB ornB

/-- Direction `dn` of the soft distance constraint: `d` divided by its length,
or the first axis when the pivots coincide. -/
def soft_distance_dn (EDYN_EPSILON : scalar) (sqrt : scalar → scalar)
    (con : soft_distance_constraint) (originA : vector3) (ornA : quaternion)
    (originB : vector3) (ornB : quaternion) : vector3 :=
  if length_sqr (soft_distance_d con originA ornA originB ornB) > EDYN_EPSILON then
    (soft_distance_d con originA ornA originB ornB).div
      (sqrt (length_sqr (soft_distance_d con originA ornA originB ornB)))
  else vector3_x

/-- Jacobian of a row applied to the velocities of the two bodies. -/
def row_relspd (J : vector3 × vector3 × vector3 × vector3)
    (linvelA angvelA linvelB angvelB : vector3) : scalar :=
  dot J.1 linvelA + dot J.2.1 angvelA + dot J.2.2.1 linvelB + dot J.2.2.2 angvelB

/-- Angle that `prepare_constraint<hinge_constraint>` measures between the
frames of the two bodies, `atan2(dot(angle_axisB, q), dot(angle_axisB, p))`. -/
def hinge_measured_angle (atan2 : scalar → scalar → scalar) (con : hinge_constraint)
    (ornA ornB : quaternion) : scalar :=
  atan2
    (dot (rotate ornB ((con.frame 1).column 1)) (rotate ornA ((con.frame 0).column 2)))
    (dot (rotate ornB ((con.frame 1).column 1)) (rotate ornA ((con.frame 0).column 1)))

/-- Hinge axis in world space, `rotate(ornA, con.frame[0].column(0))`. -/
def hinge_axis (con : hinge_constraint) (ornA : quaternion) : vector3 :=
  rotate ornA ((con.frame 0).column 0)

/-- Number `L` of limit rows of a hinge: `1` if and only if
`angle_min < angle_max`. -/
def hinge_limit_count (con : hinge_constraint) : Nat :=
  if con.angle_min < con.angle_max then 1 else 0

/-- Number `B` of bump stop rows of a hinge whose tracked angle is `con.angle`:
`1` if and only if there is a limit row, `bump_stop_stiffness > 0`,
`bump_stop_angle > 0` and the angle is below `angle_min + bump_stop_angle` or
above `angle_max - bump_stop_angle`. -/
def hinge_bump_stop_count (con : hinge_constraint) : Nat :=
  if con.angle_min < con.angle_max ∧ con.bump_stop_stiffness > 0 ∧ con.bump_stop_angle > 0 ∧
      (con.angle < con.angle_min + con.bump_stop_angle ∨
        con.angle > con.angle_max - con.bump_stop_angle) then 1
  else 0

/-- Number `S` of spring rows of a hinge: `1` if and only if `stiffness > 0`. -/
def hinge_spring_count (con : hinge_constraint) : Nat :=
  if con.stiffness > 0 then 1 else 0

/-- Number `F` of friction rows of a hinge: `1` if and only if
`friction_torque > 0` or `damping > 0`. -/
def hinge_friction_count (con : hinge_constraint) : Nat :=
  if con.friction_torque > 0 ∨ con.damping > 0 then 1 else 0

/-- The hinge after the angle tracking of `prepare_constraint`: with a limit
or a spring the tracked angle is updated from the measured angle, otherwise
the constraint is as it was. -/
def hinge_tracked (pi : scalar) (atan2 : scalar → scalar → scalar)
    (normalize_angle : scalar → scalar) (con : hinge_constraint) (ornA ornB : quaternion) :
    hinge_constraint :=
  if con.angle_min < con.angle_max ∨ con.stiffness > 0 then
    { con with
      angle := hinge_track_angle pi normalize_angle con
        (hinge_measured_angle atan2 con ornA ornB) }
  else con

/-- The rows of the list are warm-started with the impulses of the hinge from
the index `k` on: the row at position `j` holds `con.impulse[k + j]`. -/
def warm_started (con : hinge_constraint) (k : Nat) (rows : List constraint_row_prep) : Prop :=
  ∀ j row, rows[j]? = some row → row.impulse = con.impulse (k + j)

/-- Jacobian `(0, axis, 0, -axis)` of a row about an axis. -/
def axis_jacobian (axis : vector3) : vector3 × vector3 × vector3 × vector3 :=
  (vector3_zero, axis, vector3_zero, -axis)

/-- Relative angular velocity of the two bodies about an axis,
`dot(angvelA, axis) - dot(angvelB, axis)`. -/
def hinge_relvel (angvelA angvelB axis : vector3) : scalar :=
  dot angvelA axis - dot angvelB axis

/-- A call that changes a `modified_components`: a notification
`on_update<Component>` for the component type of the given index, or an
`update(time)` after the given number of milliseconds. -/
inductive exporter_event where
  | on_update (index : Nat) : exporter_event
  | update (elapsed_ms : Nat) : exporter_event
deriving DecidableEq

/-- The record after a sequence of calls, first call first; `none` when the
assertion `count < N` of `on_update` fails on the way. -/
def modified_components.run (N : Nat) :
    List exporter_event → modified_components → Option modified_components
  | [], m => some m
  | exporter_event.on_update index :: rest, m =>
    match on_update_modified N index m with
    | some m1 => modified_components.run N rest m1
    | none => none
  | exporter_event.update elapsed_ms :: rest, m =>
    modified_components.run N rest (update_modified elapsed_ms m)

/-- The invariant of a `modified_components` for `N` networked component
types: the component indices of its entries are pairwise distinct and are
indices of component types. -/
def modified_components.distinct_indices (N : Nat) (m : modified_components) : Prop :=
  (m.entry.map (fun e => e.index)).Nodup ∧ ∀ e, e ∈ m.entry → e.index < N

/-! ## Sample inputs -/

/-- A cached contact point between bodies `1` and `2` with both pivots at the
origin and the normal along `x`. -/
def sample_contact_point : contact_point :=
  { body := (entity.id 1, entity.id 2)
    pivotA := vector3_zero
    pivotB := vector3_zero
    normal := ⟨1, 0, 0⟩
    local_normal := vector3_zero
    normal_attachment := contact_normal_attachment.none
    friction := 0
    spin_friction := 0
    roll_friction := 0
    restitution := 0
    lifetime := 0
    distance := 0
    featureA := none
    featureB := none }

/-- A candidate point with the given pivots, normal along `x`. -/
def sample_collision_point (pivotA pivotB : vector3) : collision_point :=
  { pivotA := pivotA
    pivotB := pivotB
    normal := ⟨1, 0, 0⟩
    distance := 0
    normal_attachment := contact_normal_attachment.none
    featureA := none
    featureB := none }

/-- A result with three candidates: the first is far from the cached sample
point, the second and the third are equally near to it. -/
def sample_result : collision_result :=
  { num_points := 3
    point := fun i =>
      if i = 0 then sample_collision_point ⟨1, 0, 0⟩ ⟨1, 0, 0⟩
      else if i = 1 then sample_collision_point ⟨1 / 100, 0, 0⟩ ⟨1, 0, 0⟩
      else sample_collision_point ⟨0, 1, 0⟩ ⟨0, 1 / 100, 0⟩ }

/-- A manifold between bodies `1` and `2` whose first `n` slots hold the
contact point entities `10, 11, ...` and whose other slots are `null`. -/
def sample_manifold (n : Nat) : contact_manifold :=
  { body := (entity.id 1, entity.id 2)
    separation_threshold := 0
    point := fun i => if i.val < n then entity.id (10 + i.val) else entity.null }

/-- The sample contact point with pivot A moved along the normal by exactly
the distance `1/50`. -/
def sample_contact_point_at_threshold : contact_point :=
  { sample_contact_point with pivotA := ⟨1 / 50, 0, 0⟩ }

/-- Diagonal matrix with the given diagonal. -/
def sample_diagonal (a b c : scalar) : matrix3x3 :=
  ⟨⟨a, 0, 0⟩, ⟨0, b, 0⟩, ⟨0, 0, c⟩⟩

/-- Bounding box of a sphere of the given radius, used for the sample bodies,
whose shape is the radius of a sphere. -/
def sample_shape_aabb (radius : scalar) (pos : vector3) (_ : quaternion) : AABB :=
  ⟨pos - ⟨radius, radius, radius⟩, pos + ⟨radius, radius, radius⟩⟩

/-- Moment of inertia of a solid sphere of the given radius and mass. -/
def sample_moment_of_inertia (radius mass : scalar) : matrix3x3 :=
  sample_diagonal (2 / 5 * mass * radius * radius) (2 / 5 * mass * radius * radius)
    (2 / 5 * mass * radius * radius)

/-- A definition of a sphere of radius `1` at the origin with inertia
`diag(1, 2, 3)`, velocities `(1, 0, 0)` and `(0, 1, 0)`, and the given kind,
mass and orientation. -/
def sample_rigidbody_def (kind : rigidbody_kind) (mass : scalar) (orientation : quaternion) :
    rigidbody_def scalar :=
  { kind := kind
    position := vector3_zero
    orientation := orientation
    mass := mass
    inertia := sample_diagonal 1 2 3
    linvel := ⟨1, 0, 0⟩
    angvel := ⟨0, 1, 0⟩
    gravity := ⟨0, -981 / 100, 0⟩
    restitution := 0
    friction := 1 / 2
    stiffness := 1000000
    damping := 1000000
    sensor := false
    presentation := true
    continuous_contacts := false
    shape_opt := some 1
    collision_group := 1
    collision_mask := 1 }

/-- A value standing for `EDYN_SCALAR_MAX` in the samples. -/
def sample_scalar_max : scalar := 10 ^ 38

/-- A unit quaternion turning about the `z` axis, with rational entries. -/
def sample_orientation : quaternion := ⟨0, 0, 3 / 5, 4 / 5⟩

/-- A pool configuration for a non-empty component type with index `5`,
`dynamic_tag` having index `0`, in which no entity is fully owned by a client
and `merge` leaves the value as it is. -/
def sample_import_config : import_pool_config Nat :=
  { component_index := 5
    is_empty := false
    dynamic_tag_index := 0
    is_fully_owned_by_client := fun _ _ _ => false
    merge := fun _ v => v }

/-- A registry with the client entity `100`, the dynamic body `1` and the
body `2` without `dynamic_tag`, both holding component `5`; the client maps
the remote entities `11`, `12` and `13` to `1`, `2` and the invalid `3`. -/
def sample_registry : registry Nat :=
  { valid := fun e => decide (e = entity.id 1 ∨ e = entity.id 2 ∨ e = entity.id 100)
    component := fun e i =>
      if e = entity.id 1 then (if i = 0 then some 0 else if i = 5 then some 7 else none)
      else if e = entity.id 2 then (if i = 5 then some 8 else none)
      else none
    dirty := fun _ => none
    remote_client := fun e =>
      if e = entity.id 100 then
        some [(entity.id 11, entity.id 1), (entity.id 12, entity.id 2),
          (entity.id 13, entity.id 3)]
      else none }

/-- The dynamic sphere of mass `1` and radius `1` with the sample orientation,
as `make_rigidbody` creates it from the sample definition. -/
def sample_rigidbody : rigidbody scalar :=
  { position := vector3_zero
    orientation := sample_orientation
    mass := 1
    mass_inv := 1
    inertia := sample_diagonal 1 2 3
    inertia_inv := sample_diagonal 1 (1 / 2) (1 / 3)
    inertia_world_inv := sample_diagonal 1 (1 / 2) (1 / 3)
    linvel := ⟨1, 0, 0⟩
    angvel := ⟨0, 1, 0⟩
    linacc := some ⟨0, -981 / 100, 0⟩
    material := some ⟨0, 1 / 2, 1000000, 1000000⟩
    present_position := some vector3_zero
    present_orientation := some sample_orientation
    shape := some 1
    aabb := some ⟨⟨-1, -1, -1⟩, ⟨1, 1, 1⟩⟩
    collision_filter := some ⟨1, 1⟩
    continuous_contacts_tag := false
    dynamic_tag := true
    procedural_tag := true
    kinematic_tag := false
    static_tag := false
    continuous := true
    non_connecting := false }

/-- A record of three modified components with `400`, `100` and `250`
milliseconds remaining. -/
def sample_modified : modified_components :=
  ⟨[⟨0, 400⟩, ⟨3, 100⟩, ⟨5, 250⟩]⟩

/-- An exporter last updated at time `0` in which entity `1` holds the
sample record and no other entity is tracked. -/
def sample_exporter_state : exporter_state :=
  { m_last_time := 0
    modified := fun e => if e = entity.id 1 then some sample_modified else none }

/-- An exporter configuration with eight networked component types:
`position`, `orientation`, `linvel`, `angvel` and `action_history` have the
indices `0` to `4` and the type of index `5` derives from `network_input`. -/
def sample_exporter_config : exporter_config :=
  { N := 8
    position_index := 0
    orientation_index := 1
    linvel_index := 2
    angvel_index := 3
    action_history_index := 4
    is_network_input := fun i => decide (i = 5) }

/-- A registry with three dynamic bodies `1`, `2` and `3` in one connected
component of the entity graph (nodes `0`, `1`, `2`): body `1` is owned by the
client `100` and has a modified position, a modified input and a pending
action; body `2` has no owner and a modified linear velocity; body `3` is
owned by the client `200` and has a modified position. -/
def sample_exporter_registry : exporter_registry :=
  { modified := fun e =>
      if e = entity.id 1 then some ⟨[⟨0, 400⟩, ⟨5, 100⟩]⟩
      else if e = entity.id 2 then some ⟨[⟨2, 100⟩]⟩
      else if e = entity.id 3 then some ⟨[⟨0, 400⟩]⟩
      else none
    sleeping := fun _ => false
    owner := fun e =>
      if e = entity.id 1 then some (entity.id 100)
      else if e = entity.id 3 then some (entity.id 200)
      else none
    node := fun e =>
      if e = entity.id 1 then some 0
      else if e = entity.id 2 then some 1
      else if e = entity.id 3 then some 2
      else none
    edge := fun _ => none
    body := fun e => decide (e = entity.id 1 ∨ e = entity.id 2 ∨ e = entity.id 3)
    history := fun e => if e = entity.id 1 then some ⟨[(0, 0, [1])]⟩ else none
    edge_node_entities := fun _ => (entity.null, entity.null)
    node_entity := fun i => entity.id (i + 1)
    traverse := fun i => if i < 3 then [0, 1, 2] else [i] }

/-- A client that owns body `1` and maps the remote entities `11`, `12` and
`13` to the bodies `1`, `2` and the invalid entity `3`; body `1` is a
connecting node of the entity graph and body `2` is not; the clock is
synchronised with no offset and no playout delay, the time step is `1/60`
and extrapolation is enabled. -/
def sample_client_state : client_state Unit :=
  { entity_map :=
      [(entity.id 11, entity.id 1), (entity.id 12, entity.id 2), (entity.id 13, entity.id 3)]
    owned_entities := [entity.id 1]
    clock_sync_count := 1
    clock_sync_time_delta := 0
    server_playout_delay := 0
    client_entity := entity.id 100
    fixed_dt := 1 / 60
    round_trip_time := 1 / 10
    extrapolation_enabled := true
    action_time_threshold := 1 / 10
    valid := fun e => decide (e = entity.id 1 ∨ e = entity.id 2 ∨ e = entity.id 100)
    graph_node := fun e =>
      if e = entity.id 1 then some 0 else if e = entity.id 2 then some 1 else none
    contact_manifold := fun _ => false
    static_tag := [entity.id 2]
    entity_owner := fun e => if e = entity.id 1 then some (entity.id 100) else none
    is_connecting_node := fun i => decide (i = 0)
    reach := fun l => l.map (fun i => (true, entity.id (i + 1)))
    convert_pools := fun _ p => p }

/-- A snapshot of the given remote entities taken at the server time `0`. -/
def sample_snapshot (entities : List entity) : registry_snapshot Unit :=
  { entities := entities, pools := (), timestamp := 0 }

/-- A normalisation of angles in the manner of `edyn/math/math.hpp`: the
remainder of the division by `2 * pi`, truncated towards zero, brought into
`[-pi, pi]`. -/
def sample_normalize_angle (pi s : scalar) : scalar :=
  let r := s - pi2 pi * (if 0 ≤ s then ⌊s / pi2 pi⌋ else ⌈s / pi2 pi⌉)
  if r < -pi then r + pi2 pi else if r > pi then r - pi2 pi else r

/-- A stand-in for `std::atan2` that is exact on the four half axes when
`22/7` stands for `pi`. -/
def sample_atan2 (y x : scalar) : scalar :=
  if 0 < y then 11 / 7 else if y < 0 then -(11 / 7) else if x < 0 then 22 / 7 else 0

/-- A hinge about the first axis with the limits `-1` and `1` and no spring,
bump stop or friction, whose tracked angle is `-20 / 7`. -/
def sample_hinge : hinge_constraint :=
  { pivot := fun _ => vector3_zero
    frame := fun _ => matrix3x3_identity
    angle_min := -1
    angle_max := 1
    limit_restitution := 0
    stiffness := 0
    damping := 0
    friction_torque := 0
    rest_angle := 0
    angle := -(20 / 7)
    bump_stop_angle := 0
    bump_stop_stiffness := 0
    impulse := fun _ => 0 }

/-- Half a turn about the first axis. -/
def sample_half_turn : quaternion := ⟨1, 0, 0, 0⟩

/-- Mixing functions for the samples: the product of the frictions and the
larger or smaller of the other values. -/
def sample_mix : material_mixing :=
  { material_mix_friction := fun a b => a * b
    material_mix_restitution := fun a b => max a b
    material_mix_roll_friction := fun a b => max a b
    material_mix_spin_friction := fun a b => max a b
    material_mix_stiffness := fun a b => min a b
    material_mix_damping := fun a b => min a b }

/-- A material with the given `id`, friction and restitution and with a rigid
contact. -/
def sample_material (id : Nat) (friction restitution : scalar) : contact_material :=
  { id := id
    restitution := restitution
    friction := friction
    spin_friction := 0
    roll_friction := 0
    stiffness := 1000000
    damping := 1000000 }

/-- A triangle mesh with the friction `9/10` at its vertices, `8/10` on its
edges and `7/10` on its faces, and the restitution `1/5` everywhere. -/
def sample_trimesh (has_per_vertex_friction : Bool) : triangle_mesh :=
  { has_per_vertex_friction := has_per_vertex_friction
    has_per_vertex_restitution := false
    get_vertex_friction := fun _ => 9 / 10
    get_edge_friction := fun _ _ => 8 / 10
    get_face_friction := fun _ _ => 7 / 10
    get_vertex_restitution := fun _ => 1 / 5
    get_edge_restitution := fun _ _ => 1 / 5
    get_face_restitution := fun _ _ => 1 / 5 }

/-- A registry with four bodies: body `1` is a ball; bodies `2` and `5` carry
a mesh with per-vertex friction; body `3` carries a mesh without per-vertex
friction. The material mix table has one entry, for the materials of the
bodies `1` and `5`. -/
def sample_contact_registry : contact_registry :=
  { material_view := fun e =>
      if e = entity.id 1 then some (sample_material 1 (1 / 2) 0)
      else if e = entity.id 2 then some (sample_material 2 (3 / 10) 0)
      else if e = entity.id 3 then some (sample_material 3 (1 / 2) 0)
      else if e = entity.id 5 then some (sample_material 5 (3 / 10) 0)
      else none
    mesh_shape_view := fun e =>
      if e = entity.id 2 ∨ e = entity.id 5 then some (sample_trimesh true)
      else if e = entity.id 3 then some (sample_trimesh false)
      else none
    paged_mesh_shape_view := fun _ => none
    material_table := fun ids =>
      if ids = (1, 5) then
        some { restitution := 1 / 10, friction := 1 / 20, spin_friction := 1 / 100,
               roll_friction := 1 / 200, stiffness := 5000, damping := 50 }
      else none }

/-- A contact point between the two given bodies that touches a vertex of
each of them. -/
def sample_contact (bodyA bodyB : entity) : contact_point :=
  { sample_contact_point with
    body := (bodyA, bodyB)
    featureA := some ⟨feature_variant.triangle triangle_feature.vertex, 0, 0⟩
    featureB := some ⟨feature_variant.triangle triangle_feature.vertex, 0, 0⟩ }

/-- A candidate point with the given attachment of the normal, which is along
`y`, on a face of the mesh of body B. -/
def sample_candidate (normal_attachment : contact_normal_attachment) : collision_point :=
  { pivotA := ⟨1 / 10, 0, 0⟩
    pivotB := ⟨0, 1 / 10, 0⟩
    normal := ⟨0, 1, 0⟩
    distance := -(1 / 100)
    normal_attachment := normal_attachment
    featureA := none
    featureB := some ⟨feature_variant.triangle triangle_feature.face, 3, 0⟩ }

/-- The sample client with a contact manifold `50` between the bodies and
with a kinematic body `4`, mapped from the remote entity `14`, whose node `3`
is not a connecting node: the graph traversal visits the entity of each node
it starts from and then the manifold as the entity of an edge. -/
def sample_client_state_manifold : client_state Unit :=
  { sample_client_state with
    entity_map := sample_client_state.entity_map ++ [(entity.id 14, entity.id 4)]
    valid := fun e => sample_client_state.valid e || decide (e = entity.id 4)
    graph_node := fun e =>
      if e = entity.id 4 then some 3 else sample_client_state.graph_node e
    contact_manifold := fun e => decide (e = entity.id 50)
    reach := fun l => l.map (fun i => (true, entity.id (i + 1))) ++ [(false, entity.id 50)] }

/-- A hinge about the first axis without limits and spring, with the friction
torque `1` and the negative damping `-1`. -/
def sample_hinge_negative_damping : hinge_constraint :=
  { sample_hinge with angle_min := 0, angle_max := 0, friction_torque := 1, damping := -1 }

/-- A hinge about the first axis without limits and spring, with the friction
torque `1` and the damping `2`. -/
def sample_hinge_friction : hinge_constraint :=
  { sample_hinge with angle_min := 0, angle_max := 0, friction_torque := 1, damping := 2 }

/-- A client that knows no remote entity yet and whose registry hands out the
entity `1` next. -/
def sample_entered_state : entity_entered_state Nat :=
  { entity_map := []
    next_entity := 1
    asset_ref := []
    entity_owner := []
    networked_tag := []
    pairs := []
    local_entities := [] }

/-! # Theorems -/

/-! ## Componentwise vector operations -/

@[simp] theorem vector3.add_x (a b : vector3) : (a + b).x = a.x + b.x := rfl

@[simp] theorem vector3.add_y (a b : vector3) : (a + b).y = a.y + b.y := rfl

@[simp] theorem vector3.add_z (a b : vector3) : (a + b).z = a.z + b.z := rfl

@[simp] theorem vector3.sub_x (a b : vector3) : (a - b).x = a.x - b.x := rfl

@[simp] theorem vector3.sub_y (a b : vector3) : (a - b).y = a.y - b.y := rfl

@[simp] theorem vector3.sub_z (a b : vector3) : (a - b).z = a.z - b.z := rfl

@[simp] theorem vector3.smul_x (s : scalar) (a : vector3) : (s * a).x = s * a.x := rfl

@[simp] theorem vector3.smul_y (s : scalar) (a : vector3) : (s * a).y = s * a.y := rfl

@[simp] theorem vector3.smul_z (s : scalar) (a : vector3) : (s * a).z = s * a.z := rfl

/-! ## Coherence of the math primitives -/

/-- Rotating by a unit quaternion undoes rotating by its conjugate. -/
theorem rotate_rotate_conjugate (q : quaternion) (v : vector3)
    (hq : q.x * q.x + q.y * q.y + q.z * q.z + q.w * q.w = 1) :
    rotate q (rotate (conjugate q) v) = v := by
  obtain ⟨x, y, z, w⟩ := q
  obtain ⟨a, b, c⟩ := v
  simp only [rotate, quaternion.mul_vec, quaternion.mul, conjugate, vector3.mk.injEq] at hq ⊢
  refine ⟨?_, ?_, ?_⟩
  · linear_combination (a * (x * x + y * y + z * z + w * w + 1)) * hq
  · linear_combination (b * (x * x + y * y + z * z + w * w + 1)) * hq
  · linear_combination (c * (x * x + y * y + z * z + w * w + 1)) * hq

/-- For a unit quaternion, `rotate` is the product with the rotation matrix
`to_matrix3x3`. -/
theorem rotate_eq_to_matrix3x3 (q : quaternion) (v : vector3)
    (hq : q.x * q.x + q.y * q.y + q.z * q.z + q.w * q.w = 1) :
    rotate q v
      = ⟨dot (to_matrix3x3 q).row0 v, dot (to_matrix3x3 q).row1 v,
          dot (to_matrix3x3 q).row2 v⟩ := by
  obtain ⟨x, y, z, w⟩ := q
  obtain ⟨a, b, c⟩ := v
  simp only [rotate, quaternion.mul_vec, quaternion.mul, conjugate, vector3.mk.injEq,
    to_matrix3x3, dot] at hq ⊢
  rw [hq]
  refine ⟨?_, ?_, ?_⟩
  · linear_combination a * hq
  · linear_combination b * hq
  · linear_combination c * hq

/-! ## Theorems about `find_nearest_contact` -/

theorem find_nearest_contact_step_cases (cp : contact_point) (result : collision_result)
    (i : Nat) (st : scalar × Nat) :
    (st.1 ≤ pivot_dist_sqr cp result i ∧ find_nearest_contact_step cp result i st = st) ∨
    (pivot_dist_sqr cp result i < st.1 ∧
      find_nearest_contact_step cp result i st = (pivot_dist_sqr cp result i, i)) := by
  unfold find_nearest_contact_step pivot_dist_sqr
  simp only
  by_cases hA : length_sqr ((result.point i).pivotA - cp.pivotA) < st.1
  · right
    rw [if_pos hA]
    by_cases hB : length_sqr ((result.point i).pivotB - cp.pivotB)
        < length_sqr ((result.point i).pivotA - cp.pivotA)
    · simp only [if_pos hB, min_eq_right hB.le, and_true]
      exact hB.trans hA
    · simp only [if_neg hB, min_eq_left (not_lt.mp hB), and_true]
      exact hA
  · rw [if_neg hA]
    by_cases hB : length_sqr ((result.point i).pivotB - cp.pivotB) < st.1
    · right
      have hBA := hB.trans_le (not_lt.mp hA)
      simp only [if_pos hB, min_eq_right hBA.le, and_true]
      exact hB
    · left
      simp only [if_neg hB, and_true]
      exact le_min (not_lt.mp hA) (not_lt.mp hB)

/-- Invariant of the loop of `find_nearest_contact` after `k` iterations: the
running distance bounds every candidate seen so far, and either nothing was
found yet or the running index is the first candidate attaining the running
distance, which is below the threshold. -/
theorem find_nearest_contact_loop_inv (thr : scalar) (cp : contact_point)
    (result : collision_result) (k : Nat) :
    (∀ j, j < k →
      (find_nearest_contact_loop thr cp result k).1 ≤ pivot_dist_sqr cp result j) ∧
    (((find_nearest_contact_loop thr cp result k).2 = result.num_points ∧
        (find_nearest_contact_loop thr cp result k).1 = square thr) ∨
      ((find_nearest_contact_loop thr cp result k).2 < k ∧
        (find_nearest_contact_loop thr cp result k).1 < square thr ∧
        (find_nearest_contact_loop thr cp result k).1 =
          pivot_dist_sqr cp result (find_nearest_contact_loop thr cp result k).2 ∧
        ∀ j, j < (find_nearest_contact_loop thr cp result k).2 →
          (find_nearest_contact_loop thr cp result k).1 < pivot_dist_sqr cp result j)) := by
  induction k with
  | zero =>
    refine ⟨fun j hj => absurd hj (Nat.not_lt_zero j), Or.inl ⟨rfl, rfl⟩⟩
  | succ k ih =>
    obtain ⟨hbound, hstate⟩ := ih
    have hle : (find_nearest_contact_loop thr cp result k).1 ≤ square thr := by
      rcases hstate with h | h
      · exact h.2.le
      · exact h.2.1.le
    show (∀ j, j < k + 1 →
      (find_nearest_contact_step cp result k (find_nearest_contact_loop thr cp result k)).1
        ≤ pivot_dist_sqr cp result j) ∧ _
    rcases find_nearest_contact_step_cases cp result k
      (find_nearest_contact_loop thr cp result k) with ⟨hkeep, heq⟩ | ⟨hnew, heq⟩
    · have heq2 : find_nearest_contact_loop thr cp result (k + 1)
          = find_nearest_contact_loop thr cp result k := heq
      rw [heq, heq2]
      refine ⟨fun j hj => ?_, ?_⟩
      · rcases Nat.lt_succ_iff_lt_or_eq.mp hj with h | h
        · exact hbound j h
        · rw [h]; exact hkeep
      · rcases hstate with h | h
        · exact Or.inl h
        · exact Or.inr ⟨Nat.lt_succ_of_lt h.1, h.2⟩
    · have heq2 : find_nearest_contact_loop thr cp result (k + 1)
          = (pivot_dist_sqr cp result k, k) := heq
      rw [heq, heq2]
      refine ⟨fun j hj => ?_, Or.inr ⟨Nat.lt_succ_self k, hnew.trans_le hle, rfl, fun j hj => ?_⟩⟩
      · rcases Nat.lt_succ_iff_lt_or_eq.mp hj with h | h
        · exact (hnew.trans_le (hbound j h)).le
        · rw [h]
      · exact hnew.trans_le (hbound j hj)

/-- C1: `find_nearest_contact` returns an index below `result.num_points`
exactly when some candidate has one of its two pivots at a squared distance
strictly below `contact_caching_threshold²` from the corresponding pivot of
the cached point; when no candidate has, and so for every empty result, it
returns `result.num_points`. -/
theorem find_nearest_contact_lt_iff (contact_caching_threshold : scalar)
    (cp : contact_point) (result : collision_result) :
    (find_nearest_contact contact_caching_threshold cp result < result.num_points ↔
      ∃ j, j < result.num_points ∧
        (length_sqr ((result.point j).pivotA - cp.pivotA) < square contact_caching_threshold ∨
          length_sqr ((result.point j).pivotB - cp.pivotB)
            < square contact_caching_threshold)) ∧
    ((¬ ∃ j, j < result.num_points ∧
        (length_sqr ((result.point j).pivotA - cp.pivotA) < square contact_caching_threshold ∨
          length_sqr ((result.point j).pivotB - cp.pivotB)
            < square contact_caching_threshold)) →
      find_nearest_contact contact_caching_threshold cp result = result.num_points) ∧
    (result.num_points = 0 →
      find_nearest_contact contact_caching_threshold cp result = result.num_points) := by
  have hiff : find_nearest_contact contact_caching_threshold cp result < result.num_points ↔
      ∃ j, j < result.num_points ∧
        (length_sqr ((result.point j).pivotA - cp.pivotA) < square contact_caching_threshold ∨
          length_sqr ((result.point j).pivotB - cp.pivotB)
            < square contact_caching_threshold) := by
    obtain ⟨hbound, hstate⟩ :=
      find_nearest_contact_loop_inv contact_caching_threshold cp result result.num_points
    unfold find_nearest_contact
    constructor
    · intro hlt
      rcases hstate with h | h
      · exact absurd h.1 (Nat.ne_of_lt hlt)
      · refine ⟨_, h.1, ?_⟩
        have hmin := h.2.1
        rw [h.2.2.1] at hmin
        exact min_lt_iff.mp hmin
    · rintro ⟨j, hj, hnear⟩
      rcases hstate with h | h
      · have hb := hbound j hj
        rw [h.2] at hb
        exact absurd (min_lt_iff.mpr hnear) (not_lt.mpr hb)
      · exact h.1
  have hnone : (¬ ∃ j, j < result.num_points ∧
        (length_sqr ((result.point j).pivotA - cp.pivotA) < square contact_caching_threshold ∨
          length_sqr ((result.point j).pivotB - cp.pivotB)
            < square contact_caching_threshold)) →
      find_nearest_contact contact_caching_threshold cp result = result.num_points := by
    intro hno
    have hnlt := mt hiff.mp hno
    obtain ⟨_, hstate⟩ :=
      find_nearest_contact_loop_inv contact_caching_threshold cp result result.num_points
    unfold find_nearest_contact at hnlt ⊢
    rcases hstate with h | h
    · exact h.1
    · exact absurd h.1 hnlt
  refine ⟨hiff, hnone, fun hzero => hnone ?_⟩
  rintro ⟨j, hj, _⟩
  rw [hzero] at hj
  exact Nat.not_lt_zero j hj

/-- C2: when `find_nearest_contact` returns an index `i` below
`result.num_points`, candidate `i` attains the minimum over all candidates of
the smaller of the two squared pivot distances, and `i` is the smallest index
attaining that minimum. -/
theorem find_nearest_contact_first_minimum (contact_caching_threshold : scalar)
    (cp : contact_point) (result : collision_result)
    (hfound : find_nearest_contact contact_caching_threshold cp result < result.num_points) :
    (∀ j, j < result.num_points →
      pivot_dist_sqr cp result (find_nearest_contact contact_caching_threshold cp result)
        ≤ pivot_dist_sqr cp result j) ∧
    (∀ j, j < result.num_points →
      pivot_dist_sqr cp result j
        = pivot_dist_sqr cp result (find_nearest_contact contact_caching_threshold cp result) →
      find_nearest_contact contact_caching_threshold cp result ≤ j) := by
  obtain ⟨hbound, hstate⟩ :=
    find_nearest_contact_loop_inv contact_caching_threshold cp result result.num_points
  unfold find_nearest_contact at hfound ⊢
  rcases hstate with h | h
  · exact absurd h.1 (Nat.ne_of_lt hfound)
  · obtain ⟨_, _, hval, hfirst⟩ := h
    refine ⟨fun j hj => ?_, fun j _ hj => ?_⟩
    · rw [← hval]
      exact hbound j hj
    · by_contra hlt
      have hstrict := hfirst j (not_le.mp hlt)
      rw [hval, hj] at hstrict
      exact lt_irrefl _ hstrict

/-- Witness of C2: on the sample result the second candidate (index `1`) is
returned, although the third one is equally near. -/
theorem find_nearest_contact_first_minimum_witness :
    find_nearest_contact (1 / 25) sample_contact_point sample_result = 1 ∧
    pivot_dist_sqr sample_contact_point sample_result 1
      = pivot_dist_sqr sample_contact_point sample_result 2 ∧
    ((∀ j, j < sample_result.num_points →
      pivot_dist_sqr sample_contact_point sample_result
          (find_nearest_contact (1 / 25) sample_contact_point sample_result)
        ≤ pivot_dist_sqr sample_contact_point sample_result j) ∧
    (∀ j, j < sample_result.num_points →
      pivot_dist_sqr sample_contact_point sample_result j
        = pivot_dist_sqr sample_contact_point sample_result
            (find_nearest_contact (1 / 25) sample_contact_point sample_result) →
      find_nearest_contact (1 / 25) sample_contact_point sample_result ≤ j)) := by
  have hval : find_nearest_contact (1 / 25) sample_contact_point sample_result = 1 := by
    norm_num [find_nearest_contact, find_nearest_contact_loop, find_nearest_contact_step,
      sample_result, sample_contact_point, sample_collision_point, length_sqr, dot, square,
      vector3_zero]
  refine ⟨hval, ?_, find_nearest_contact_first_minimum (1 / 25) sample_contact_point
    sample_result ?_⟩
  · norm_num [pivot_dist_sqr, sample_result, sample_contact_point, sample_collision_point,
      length_sqr, dot, vector3_zero]
  · rw [hval]
    decide

/-! ## Theorems about `maybe_remove_point` -/

/-- The flag returned by `maybe_remove_point` on a manifold with at least one
point: `false` exactly when both separations are strictly below their
thresholds. -/
theorem maybe_remove_point_flag (thr : scalar) (manifold : contact_manifold)
    (cp : contact_point) (pt_idx : Fin max_contacts)
    (posA : vector3) (ornA : quaternion) (posB : vector3) (ornB : quaternion)
    (hn : 0 < manifold.num_points) :
    (maybe_remove_point thr manifold cp pt_idx posA ornA posB ornB).map Prod.fst
      = some (decide (¬ (normal_separation cp posA ornA posB ornB < thr ∧
          tangential_separation_sqr cp posA ornA posB ornB < thr * thr))) := by
  unfold maybe_remove_point normal_separation tangential_separation_sqr
  simp only [normal_separation]
  split_ifs with h
  · simp [h]
  · simp [h]

/-- Evaluation of the two separations of the sample point at the threshold. -/
theorem sample_contact_point_at_threshold_separation :
    normal_separation sample_contact_point_at_threshold vector3_zero quaternion_identity
      vector3_zero quaternion_identity = 1 / 50 ∧
    tangential_separation_sqr sample_contact_point_at_threshold vector3_zero
      quaternion_identity vector3_zero quaternion_identity = 0 := by
  constructor <;>
  norm_num [normal_separation, tangential_separation_sqr, to_world_space, rotate,
    quaternion.mul_vec, quaternion.mul, conjugate, quaternion_identity,
    sample_contact_point_at_threshold, sample_contact_point, vector3_zero, dot, length_sqr]

/-- C3 (as stated, refuted): a point whose normal separation is exactly
`contact_breaking_threshold` and whose tangential separation is zero is
removed, although neither separation is greater than its threshold. -/
theorem maybe_remove_point_removes_at_threshold :
    (maybe_remove_point (1 / 50) (sample_manifold 1) sample_contact_point_at_threshold
        ⟨0, by decide⟩ vector3_zero quaternion_identity vector3_zero quaternion_identity).map
      Prod.fst = some true ∧
    ¬ (normal_separation sample_contact_point_at_threshold vector3_zero quaternion_identity
          vector3_zero quaternion_identity > 1 / 50 ∨
        tangential_separation_sqr sample_contact_point_at_threshold vector3_zero
          quaternion_identity vector3_zero quaternion_identity > 1 / 50 * (1 / 50)) := by
  rw [maybe_remove_point_flag _ _ _ _ _ _ _ _ (by decide),
    sample_contact_point_at_threshold_separation.1,
    sample_contact_point_at_threshold_separation.2]
  norm_num

/-- C3 (amended): on a manifold with at least one point, `maybe_remove_point`
returns `true` if and only if the normal separation `dot(pA - pB, n)` is
greater than or equal to `contact_breaking_threshold` or the squared
tangential separation is greater than or equal to
`contact_breaking_threshold²`; in every other case it returns `false`. -/
theorem maybe_remove_point_true_iff (contact_breaking_threshold : scalar)
    (manifold : contact_manifold) (cp : contact_point) (pt_idx : Fin max_contacts)
    (posA : vector3) (ornA : quaternion) (posB : vector3) (ornB : quaternion)
    (hn : 0 < manifold.num_points) :
    ((maybe_remove_point contact_breaking_threshold manifold cp pt_idx posA ornA posB
        ornB).map Prod.fst = some true ↔
      (contact_breaking_threshold ≤ normal_separation cp posA ornA posB ornB ∨
        contact_breaking_threshold * contact_breaking_threshold
          ≤ tangential_separation_sqr cp posA ornA posB ornB)) ∧
    (¬ (contact_breaking_threshold ≤ normal_separation cp posA ornA posB ornB ∨
        contact_breaking_threshold * contact_breaking_threshold
          ≤ tangential_separation_sqr cp posA ornA posB ornB) →
      (maybe_remove_point contact_breaking_threshold manifold cp pt_idx posA ornA posB
        ornB).map Prod.fst = some false) := by
  rw [maybe_remove_point_flag _ _ _ _ _ _ _ _ hn]
  constructor
  · simp only [Option.some.injEq, decide_eq_true_eq, not_and_or, not_lt]
  · intro h
    rw [not_or, not_le, not_le] at h
    simp [h.1, h.2]

/-- Witness of C3 (amended): the sample point at the threshold, in a manifold
with one point. -/
theorem maybe_remove_point_true_iff_witness :
    0 < (sample_manifold 1).num_points ∧
    (maybe_remove_point (1 / 50) (sample_manifold 1) sample_contact_point_at_threshold
        ⟨0, by decide⟩ vector3_zero quaternion_identity vector3_zero quaternion_identity).map
      Prod.fst = some true :=
  ⟨by decide,
    (maybe_remove_point_true_iff (1 / 50) (sample_manifold 1)
      sample_contact_point_at_threshold ⟨0, by decide⟩ vector3_zero quaternion_identity
      vector3_zero quaternion_identity (by decide)).1.mpr
      (Or.inl (by rw [sample_contact_point_at_threshold_separation.1]))⟩

/-! ## Theorems about the number of points of a manifold -/

theorem contact_manifold.num_points_le (m : contact_manifold) :
    m.num_points ≤ max_contacts := by
  have hle := Finset.card_filter_le (Finset.univ : Finset (Fin max_contacts))
    (fun i => m.point i ≠ entity.null)
  rw [Finset.card_univ, Fintype.card_fin] at hle
  exact hle

theorem card_filter_val_lt (n k : Nat) (hk : k ≤ n) :
    (Finset.univ.filter (fun i : Fin n => i.val < k)).card = k := by
  have hmap : (Finset.univ.filter (fun i : Fin n => i.val < k)).map Fin.valEmbedding
      = Finset.range k := by
    ext x
    simp only [Finset.mem_map, Finset.mem_filter, Finset.mem_univ, true_and,
      Fin.valEmbedding_apply, Finset.mem_range]
    constructor
    · rintro ⟨i, hi, rfl⟩
      exact hi
    · intro hx
      exact ⟨⟨x, lt_of_lt_of_le hx hk⟩, hx, rfl⟩
  rw [← Finset.card_map Fin.valEmbedding, hmap, Finset.card_range]

/-- A manifold whose non-null slots are exactly the first `k` has `k` points. -/
theorem contact_manifold.num_points_eq_of_iff (m : contact_manifold) (k : Nat)
    (hk : k ≤ max_contacts)
    (h : ∀ i : Fin max_contacts, m.point i ≠ entity.null ↔ i.val < k) :
    m.num_points = k := by
  unfold contact_manifold.num_points
  rw [Finset.filter_congr (fun i _ => h i)]
  exact card_filter_val_lt max_contacts k hk

/-- Swapping a slot with the last one and clearing the last one never
increases the number of non-null slots. -/
theorem num_points_swap_with_last_le (m : contact_manifold) (pt_idx last_idx : Fin max_contacts) :
    ({ m with
        point := (Function.update (Function.update m.point pt_idx (m.point last_idx))
          last_idx entity.null) } : contact_manifold).num_points ≤ m.num_points := by
  unfold contact_manifold.num_points
  simp only
  by_cases hlast : m.point last_idx = entity.null
  · apply Finset.card_le_card
    intro i
    simp only [Finset.mem_filter, Finset.mem_univ, true_and]
    by_cases h1 : i = last_idx
    · subst h1
      simp
    · rw [Function.update_noteq h1]
      by_cases h2 : i = pt_idx
      · subst h2
        simp [hlast]
      · rw [Function.update_noteq h2]
        exact id
  · have hmem : last_idx ∈ Finset.univ.filter (fun i : Fin max_contacts => m.point i ≠ entity.null) := by
      simp [hlast]
    have hsub : Finset.univ.filter (fun i : Fin max_contacts =>
          Function.update (Function.update m.point pt_idx (m.point last_idx)) last_idx
            entity.null i ≠ entity.null)
        ⊆ insert pt_idx ((Finset.univ.filter
            (fun i : Fin max_contacts => m.point i ≠ entity.null)).erase last_idx) := by
      intro i
      simp only [Finset.mem_filter, Finset.mem_univ, true_and, Finset.mem_insert,
        Finset.mem_erase]
      by_cases h1 : i = last_idx
      · subst h1
        simp
      · rw [Function.update_noteq h1]
        by_cases h2 : i = pt_idx
        · exact fun _ => Or.inl h2
        · rw [Function.update_noteq h2]
          exact fun h => Or.inr ⟨h1, h⟩
    calc _ ≤ (insert pt_idx ((Finset.univ.filter
            (fun i : Fin max_contacts => m.point i ≠ entity.null)).erase last_idx)).card :=
          Finset.card_le_card hsub
      _ ≤ ((Finset.univ.filter
            (fun i : Fin max_contacts => m.point i ≠ entity.null)).erase last_idx).card + 1 :=
          Finset.card_insert_le _ _
      _ = (Finset.univ.filter (fun i : Fin max_contacts => m.point i ≠ entity.null)).card := by
          rw [Finset.card_erase_of_mem hmem]
          have hpos := Finset.card_pos.mpr ⟨last_idx, hmem⟩
          omega

/-- Storing a non-null entity at index `num_points()` of a compact manifold
makes the first `num_points() + 1` slots the non-null ones. -/
theorem compact_store_at_num_points (m : contact_manifold) (hc : m.compact)
    (h : m.num_points < max_contacts) (e : entity) (he : e ≠ entity.null)
    (i : Fin max_contacts) :
    Function.update m.point ⟨m.num_points, h⟩ e i ≠ entity.null ↔ i.val < m.num_points + 1 := by
  by_cases hi : i = ⟨m.num_points, h⟩
  · subst hi
    simp [he]
  · rw [Function.update_noteq hi, hc i]
    have hne : i.val ≠ m.num_points := fun hv => hi (Fin.ext hv)
    omega

/-- Swap-with-last at a live index of a compact manifold makes the first
`num_points() - 1` slots the non-null ones. -/
theorem compact_swap_with_last (m : contact_manifold) (hc : m.compact)
    (pt_idx last_idx : Fin max_contacts) (hlast : last_idx.val = m.num_points - 1)
    (hpt : pt_idx.val < m.num_points) (i : Fin max_contacts) :
    Function.update (Function.update m.point pt_idx (m.point last_idx)) last_idx entity.null i
      ≠ entity.null ↔ i.val < m.num_points - 1 := by
  by_cases h1 : i = last_idx
  · subst h1
    simp [hlast]
  · rw [Function.update_noteq h1]
    have hne : i.val ≠ m.num_points - 1 := fun hv => h1 (Fin.ext (hv.trans hlast.symm))
    by_cases h2 : i = pt_idx
    · subst h2
      rw [Function.update_same, hc last_idx]
      omega
    · rw [Function.update_noteq h2, hc i]
      omega

/-- C4: `num_points() ≤ max_contacts` is an invariant of a contact manifold
under `create_contact_point` and `maybe_remove_point`. For a manifold whose
live points occupy its first slots (as they do in every manifold built from
the empty one by these two functions): the count is at most `max_contacts`;
`create_contact_point`, under its precondition `num_points() < max_contacts`
(and a non-degenerate normal), stores the new point entity at index
`num_points()`, so that the count becomes `num_points() + 1 ≤ max_contacts`,
and keeps the live points in the first slots; `maybe_remove_point` returns
whenever the manifold has a point, never increases the count, and keeps the
live points in the first slots when called on the index of a live point. -/
theorem contact_manifold_num_points_invariant (m : contact_manifold) (hc : m.compact) :
    m.num_points ≤ max_contacts ∧
    (∀ (EDYN_EPSILON : scalar) (orn : entity → quaternion)
        (continuous_contacts_tag : entity → Bool) (fresh : Nat) (rp : collision_point),
      EDYN_EPSILON < length_sqr rp.normal →
      ∀ hlt : m.num_points < max_contacts,
      ∃ r, create_contact_point EDYN_EPSILON orn continuous_contacts_tag fresh m rp = some r ∧
        r.contact_entity ≠ entity.null ∧
        r.manifold.point ⟨m.num_points, hlt⟩ = r.contact_entity ∧
        (∀ i : Fin max_contacts, i.val ≠ m.num_points → r.manifold.point i = m.point i) ∧
        r.manifold.num_points = m.num_points + 1 ∧
        r.manifold.num_points ≤ max_contacts ∧
        r.manifold.compact) ∧
    (∀ (contact_breaking_threshold : scalar) (cp : contact_point) (pt_idx : Fin max_contacts)
        (posA : vector3) (ornA : quaternion) (posB : vector3) (ornB : quaternion),
      (0 < m.num_points →
        ∃ res, maybe_remove_point contact_breaking_threshold m cp pt_idx posA ornA posB ornB
          = some res) ∧
      ∀ res, maybe_remove_point contact_breaking_threshold m cp pt_idx posA ornA posB ornB
          = some res →
        res.2.num_points ≤ m.num_points ∧
        res.2.num_points ≤ max_contacts ∧
        (pt_idx.val < m.num_points → res.2.compact)) := by
  refine ⟨m.num_points_le, ?_, ?_⟩
  · intro eps orn tag fresh rp hnormal hlt
    have hiff := compact_store_at_num_points m hc hlt (entity.id fresh) (by simp)
    have hcount : ({ m with
        point := (Function.update m.point ⟨m.num_points, hlt⟩ (entity.id fresh)) } :
          contact_manifold).num_points = m.num_points + 1 :=
      contact_manifold.num_points_eq_of_iff _ _ hlt hiff
    unfold create_contact_point
    simp only [dif_pos hlt, if_pos hnormal]
    refine ⟨_, rfl, by simp, by simp, ?_, hcount, ?_, ?_⟩
    · intro i hi
      exact Function.update_noteq (fun h => hi (congrArg Fin.val h)) _ _
    · rw [hcount]
      exact hlt
    · intro i
      rw [hcount]
      exact hiff i
  · intro thr cp pt_idx posA ornA posB ornB
    constructor
    · intro hpos
      unfold maybe_remove_point
      simp only [dif_pos hpos]
      split_ifs
      · exact ⟨_, rfl⟩
      · exact ⟨_, rfl⟩
    · intro res hres
      unfold maybe_remove_point at hres
      simp only at hres
      split_ifs at hres with hkeep hpos
      · cases hres
        exact ⟨le_refl _, m.num_points_le, fun _ => hc⟩
      · cases hres
        refine ⟨num_points_swap_with_last_le m pt_idx _, contact_manifold.num_points_le _, ?_⟩
        intro hpt
        have hiff := compact_swap_with_last m hc pt_idx
          ⟨m.num_points - 1, by have := m.num_points_le; omega⟩ rfl hpt
        have hcount := contact_manifold.num_points_eq_of_iff
          ({ m with
            point := (Function.update (Function.update m.point pt_idx
              (m.point ⟨m.num_points - 1, by have := m.num_points_le; omega⟩))
              ⟨m.num_points - 1, by have := m.num_points_le; omega⟩ entity.null) })
          (m.num_points - 1) (by have := m.num_points_le; omega) hiff
        intro i
        rw [hcount]
        exact hiff i

/-- Witness of C4: the sample manifold with two points is compact; creating a
point in it gives three points, and removing a separated point from it does
not give more than two. -/
theorem contact_manifold_num_points_invariant_witness :
    (sample_manifold 2).compact ∧
    (sample_manifold 2).num_points = 2 ∧
    (∃ r, create_contact_point 0 (fun _ => quaternion_identity) (fun _ => false) 12
        (sample_manifold 2) (sample_collision_point vector3_zero vector3_zero) = some r ∧
      r.manifold.num_points = 3) ∧
    (∃ res, maybe_remove_point (1 / 50) (sample_manifold 2) sample_contact_point_at_threshold
        ⟨0, by decide⟩ vector3_zero quaternion_identity vector3_zero quaternion_identity
        = some res ∧ res.2.num_points ≤ 2) := by
  have hc : (sample_manifold 2).compact := by decide
  have hn : (sample_manifold 2).num_points = 2 := by decide
  have hall := contact_manifold_num_points_invariant (sample_manifold 2) hc
  refine ⟨hc, hn, ?_, ?_⟩
  · obtain ⟨r, hr, _, _, _, hcount, _⟩ := hall.2.1 0 (fun _ => quaternion_identity)
      (fun _ => false) 12 (sample_collision_point vector3_zero vector3_zero)
      (by norm_num [sample_collision_point, length_sqr, dot]) (by rw [hn]; decide)
    exact ⟨r, hr, by rw [hcount, hn]⟩
  · obtain ⟨hex, hle⟩ := hall.2.2 (1 / 50) sample_contact_point_at_threshold ⟨0, by decide⟩
      vector3_zero quaternion_identity vector3_zero quaternion_identity
    obtain ⟨res, hres⟩ := hex (by rw [hn]; decide)
    exact ⟨res, hres, by rw [← hn]; exact (hle res hres).1⟩

/-! ## Theorems about `make_rigidbody` and `rigidbody_set_mass` -/

/-- A dynamic definition with positive mass is accepted, and the components
are those of the dynamic branch. -/
theorem make_rigidbody_mass_inertia_dynamic {Shape : Type} (EDYN_SCALAR_MAX : scalar)
    (d : rigidbody_def Shape) (hk : d.kind = rigidbody_kind.rb_dynamic) (hm : 0 < d.mass) :
    make_rigidbody_mass_inertia EDYN_SCALAR_MAX d
      = some (d.mass, (if d.mass < EDYN_SCALAR_MAX then 1 / d.mass else 0), d.inertia,
          inverse_matrix_symmetric d.inertia, inverse_matrix_symmetric d.inertia) := by
  unfold make_rigidbody_mass_inertia
  rw [if_pos hk, if_pos hm]

/-- A definition that is not dynamic is accepted, and the components are
those of the other branch. -/
theorem make_rigidbody_mass_inertia_not_dynamic {Shape : Type} (EDYN_SCALAR_MAX : scalar)
    (d : rigidbody_def Shape) (hk : d.kind ≠ rigidbody_kind.rb_dynamic) :
    make_rigidbody_mass_inertia EDYN_SCALAR_MAX d
      = some (EDYN_SCALAR_MAX, 0, matrix3x3_zero, matrix3x3_zero, matrix3x3_zero) := by
  unfold make_rigidbody_mass_inertia
  rw [if_neg hk]

/-- C5: for every `rigidbody_def` that `make_rigidbody` accepts (a dynamic
definition has a positive mass), the body is created with
`mass_inv = 1 / mass` when its stored mass is below `EDYN_SCALAR_MAX` and
`mass_inv = 0` otherwise, so that `mass * mass_inv` is `0` or `1`; a dynamic
body stores `def.mass`, a kinematic or static one stores `EDYN_SCALAR_MAX`
and `mass_inv = 0`. -/
theorem make_rigidbody_mass_inv {Shape : Type} (EDYN_SCALAR_MAX : scalar)
    (shape_aabb : Shape → vector3 → quaternion → AABB) (d : rigidbody_def Shape)
    (haccept : d.kind = rigidbody_kind.rb_dynamic → 0 < d.mass) :
    ∃ b, make_rigidbody EDYN_SCALAR_MAX shape_aabb d = some b ∧
      (b.mass < EDYN_SCALAR_MAX → b.mass_inv = 1 / b.mass) ∧
      (¬ b.mass < EDYN_SCALAR_MAX → b.mass_inv = 0) ∧
      (b.mass * b.mass_inv = 0 ∨ b.mass * b.mass_inv = 1) ∧
      (d.kind = rigidbody_kind.rb_dynamic → b.mass = d.mass) ∧
      (d.kind ≠ rigidbody_kind.rb_dynamic → b.mass = EDYN_SCALAR_MAX ∧ b.mass_inv = 0) := by
  by_cases hk : d.kind = rigidbody_kind.rb_dynamic
  · have hm := haccept hk
    unfold make_rigidbody
    rw [make_rigidbody_mass_inertia_dynamic EDYN_SCALAR_MAX d hk hm]
    refine ⟨_, rfl, ?_, ?_, ?_, fun _ => rfl, fun h => absurd hk h⟩
    · intro hlt
      exact if_pos hlt
    · intro hge
      exact if_neg hge
    · show d.mass * (if d.mass < EDYN_SCALAR_MAX then 1 / d.mass else 0) = 0 ∨
        d.mass * (if d.mass < EDYN_SCALAR_MAX then 1 / d.mass else 0) = 1
      split_ifs
      · right
        exact mul_one_div_cancel (ne_of_gt hm)
      · left
        exact mul_zero _
  · unfold make_rigidbody
    rw [make_rigidbody_mass_inertia_not_dynamic EDYN_SCALAR_MAX d hk]
    refine ⟨_, rfl, ?_, fun _ => rfl, Or.inl (mul_zero _), fun h => absurd h hk,
      fun _ => ⟨rfl, rfl⟩⟩
    intro hlt
    exact absurd hlt (lt_irrefl _)

/-- Witness of C5: a dynamic sphere of mass `2` is created with
`mass_inv = 1/2`. -/
theorem make_rigidbody_mass_inv_witness :
    ∃ b, make_rigidbody sample_scalar_max sample_shape_aabb
        (sample_rigidbody_def rigidbody_kind.rb_dynamic 2 quaternion_identity) = some b ∧
      b.mass = 2 ∧ b.mass_inv = 1 / 2 ∧ b.mass * b.mass_inv = 1 := by
  obtain ⟨b, hb, hinv, _, _, hmass, _⟩ :=
    make_rigidbody_mass_inv sample_scalar_max sample_shape_aabb
      (sample_rigidbody_def rigidbody_kind.rb_dynamic 2 quaternion_identity)
      (fun _ => by norm_num [sample_rigidbody_def])
  have hm : b.mass = 2 := hmass rfl
  have hi : b.mass_inv = 1 / 2 := by
    rw [hinv (by rw [hm]; norm_num [sample_scalar_max]), hm]
  exact ⟨b, hb, hm, hi, by rw [hm, hi]; norm_num⟩

/-- The `mass_inv` assigned by the listener `on_construct_or_replace_mass` of
`world.cpp` for a positive mass: `1 / m` below `EDYN_SCALAR_MAX`, else `0`. -/
theorem on_construct_or_replace_mass_eq (EDYN_SCALAR_MAX m : scalar) (hm : 0 < m) :
    on_construct_or_replace_mass EDYN_SCALAR_MAX m
      = some (if m < EDYN_SCALAR_MAX then 1 / m else 0) := by
  unfold on_construct_or_replace_mass
  rw [if_pos hm]

/-- C7: for every `rigidbody_def` whose kind is static or kinematic,
`make_rigidbody` stores `mass = EDYN_SCALAR_MAX`, `mass_inv = 0` and
`inertia_inv = inertia_world_inv = 0`, whatever `def.mass` and `def.inertia`
are; when the kind is static it stores `linvel = angvel = 0`, whatever
`def.linvel` and `def.angvel` are. -/
theorem make_rigidbody_static_or_kinematic {Shape : Type} (EDYN_SCALAR_MAX : scalar)
    (shape_aabb : Shape → vector3 → quaternion → AABB) (d : rigidbody_def Shape)
    (hkind : d.kind = rigidbody_kind.rb_static ∨ d.kind = rigidbody_kind.rb_kinematic) :
    ∃ b, make_rigidbody EDYN_SCALAR_MAX shape_aabb d = some b ∧
      b.mass = EDYN_SCALAR_MAX ∧ b.mass_inv = 0 ∧
      b.inertia_inv = matrix3x3_zero ∧ b.inertia_world_inv = matrix3x3_zero ∧
      (d.kind = rigidbody_kind.rb_static → b.linvel = vector3_zero ∧ b.angvel = vector3_zero) := by
  have hk : d.kind ≠ rigidbody_kind.rb_dynamic := by
    rcases hkind with h | h <;> rw [h] <;> decide
  unfold make_rigidbody
  rw [make_rigidbody_mass_inertia_not_dynamic EDYN_SCALAR_MAX d hk]
  refine ⟨_, rfl, rfl, rfl, rfl, rfl, fun hs => ?_⟩
  show (make_rigidbody_velocity d).1 = vector3_zero ∧ (make_rigidbody_velocity d).2 = vector3_zero
  unfold make_rigidbody_velocity
  rw [if_pos hs]
  exact ⟨rfl, rfl⟩

/-- Witness of C7: a static sphere defined with mass `2`, inertia
`diag(1, 2, 3)` and non-zero velocities. -/
theorem make_rigidbody_static_or_kinematic_witness :
    ∃ b, make_rigidbody sample_scalar_max sample_shape_aabb
        (sample_rigidbody_def rigidbody_kind.rb_static 2 quaternion_identity) = some b ∧
      b.mass = sample_scalar_max ∧ b.mass_inv = 0 ∧
      b.inertia_inv = matrix3x3_zero ∧ b.inertia_world_inv = matrix3x3_zero ∧
      b.linvel = vector3_zero ∧ b.angvel = vector3_zero := by
  obtain ⟨b, hb, h1, h2, h3, h4, h5⟩ :=
    make_rigidbody_static_or_kinematic sample_scalar_max sample_shape_aabb
      (sample_rigidbody_def rigidbody_kind.rb_static 2 quaternion_identity) (Or.inl rfl)
  exact ⟨b, hb, h1, h2, h3, h4, (h5 rfl).1, (h5 rfl).2⟩

/-- What `rigidbody_set_mass` does on a body with a shape: it stores the new
mass and recomputes the three inertia components, and it leaves `mass_inv`
as it was. -/
theorem rigidbody_set_mass_eq {Shape : Type} (moment_of_inertia : Shape → scalar → matrix3x3)
    (b : rigidbody Shape) (m : scalar) (shape : Shape) (hshape : b.shape = some shape) :
    ∃ b2, rigidbody_set_mass moment_of_inertia b m = some b2 ∧
      b2.mass = m ∧ b2.mass_inv = b.mass_inv ∧
      b2.inertia = moment_of_inertia shape m ∧
      b2.inertia_inv = inverse_matrix_symmetric (moment_of_inertia shape m) ∧
      b2.inertia_world_inv = to_matrix3x3 b.orientation
        * inverse_matrix_symmetric (moment_of_inertia shape m)
        * transpose (to_matrix3x3 b.orientation) := by
  unfold rigidbody_set_mass rigidbody_update_inertia
  simp only [hshape]
  exact ⟨_, rfl, rfl, rfl, rfl, rfl, rfl⟩

/-- C6 (code evaluated at the failing input): a dynamic sphere created with
mass `1` has `mass_inv = 1`; after `rigidbody_set_mass` with the new mass `2`
its mass is `2` and its `mass_inv` is still `1`, not `1/2`. -/
theorem rigidbody_set_mass_stale_mass_inv :
    ∃ b b2, make_rigidbody sample_scalar_max sample_shape_aabb
        (sample_rigidbody_def rigidbody_kind.rb_dynamic 1 quaternion_identity) = some b ∧
      b.dynamic_tag = true ∧ b.mass = 1 ∧ b.mass_inv = 1 ∧
      (0 : scalar) < 2 ∧ (2 : scalar) < sample_scalar_max ∧
      rigidbody_set_mass sample_moment_of_inertia b 2 = some b2 ∧
      b2.mass = 2 ∧ b2.mass_inv = 1 ∧ b2.mass_inv ≠ 1 / 2 := by
  have hmi : make_rigidbody_mass_inertia sample_scalar_max
      (sample_rigidbody_def rigidbody_kind.rb_dynamic 1 quaternion_identity)
      = some (1, 1, sample_diagonal 1 2 3, inverse_matrix_symmetric (sample_diagonal 1 2 3),
          inverse_matrix_symmetric (sample_diagonal 1 2 3)) := by
    rw [make_rigidbody_mass_inertia_dynamic _ _ rfl (by norm_num [sample_rigidbody_def])]
    norm_num [sample_rigidbody_def, sample_scalar_max]
  unfold make_rigidbody
  rw [hmi]
  refine ⟨_, _, rfl, rfl, rfl, rfl, by norm_num, by norm_num [sample_scalar_max], rfl, rfl, rfl,
    by norm_num⟩

theorem matrix3x3.mul_def (m n : matrix3x3) : m * n = matrix3x3.mul m n := rfl

/-- The inverse of `diag(1, 2, 3)` computed by `inverse_matrix_symmetric`. -/
theorem inverse_matrix_symmetric_sample :
    inverse_matrix_symmetric (sample_diagonal 1 2 3) = sample_diagonal 1 (1 / 2) (1 / 3) := by
  norm_num [inverse_matrix_symmetric, determinant, sample_diagonal]

/-- The rotation matrix of the sample orientation. -/
theorem to_matrix3x3_sample_orientation :
    to_matrix3x3 sample_orientation
      = ⟨⟨7 / 25, -24 / 25, 0⟩, ⟨24 / 25, 7 / 25, 0⟩, ⟨0, 0, 1⟩⟩ := by
  norm_num [to_matrix3x3, sample_orientation]

/-- C8 (as stated, refuted): a dynamic body created by `make_rigidbody` with
the unit orientation `(0, 0, 3/5, 4/5)` and inertia `diag(1, 2, 3)` gets
`inertia_world_inv = inertia_inv`, which is not
`R * inertia_inv * transpose(R)` for the rotation matrix `R` of its
orientation: `make_rigidbody` stores the inverse inertia as it is, and the
rotation is applied by `rigidbody_update_inertia`. -/
theorem make_rigidbody_inertia_world_inv_not_rotated :
    ∃ b, make_rigidbody sample_scalar_max sample_shape_aabb
        (sample_rigidbody_def rigidbody_kind.rb_dynamic 1 sample_orientation) = some b ∧
      b.dynamic_tag = true ∧
      b.orientation.x * b.orientation.x + b.orientation.y * b.orientation.y
        + b.orientation.z * b.orientation.z + b.orientation.w * b.orientation.w = 1 ∧
      b.inertia_inv = inverse_matrix_symmetric (sample_diagonal 1 2 3) ∧
      b.inertia_world_inv = b.inertia_inv ∧
      b.inertia_world_inv ≠
        to_matrix3x3 b.orientation * b.inertia_inv * transpose (to_matrix3x3 b.orientation) := by
  have hmi : make_rigidbody_mass_inertia sample_scalar_max
      (sample_rigidbody_def rigidbody_kind.rb_dynamic 1 sample_orientation)
      = some (1, 1, sample_diagonal 1 2 3, inverse_matrix_symmetric (sample_diagonal 1 2 3),
          inverse_matrix_symmetric (sample_diagonal 1 2 3)) := by
    rw [make_rigidbody_mass_inertia_dynamic _ _ rfl (by norm_num [sample_rigidbody_def])]
    norm_num [sample_rigidbody_def, sample_scalar_max]
  unfold make_rigidbody
  rw [hmi]
  refine ⟨_, rfl, rfl, ?_, rfl, rfl, ?_⟩
  · norm_num [sample_rigidbody_def, sample_orientation]
  · show inverse_matrix_symmetric (sample_diagonal 1 2 3) ≠
      to_matrix3x3 sample_orientation * inverse_matrix_symmetric (sample_diagonal 1 2 3)
        * transpose (to_matrix3x3 sample_orientation)
    rw [inverse_matrix_symmetric_sample, to_matrix3x3_sample_orientation]
    intro h
    have hx := congrArg (fun m : matrix3x3 => m.row0.x) h
    norm_num [sample_diagonal, transpose, matrix3x3.column, matrix3x3.mul_def, matrix3x3.mul,
      dot] at hx

/-- C8 (amended): for every body with a shape, and so for every dynamic body
with unit orientation `q`, `rigidbody_update_inertia` returns and right after
it `inertia_world_inv = R * inertia_inv * transpose(R)`, where `R` is the
rotation matrix of the orientation `q` of the body, which the function leaves
as it is, and `inertia_inv` is the inverse that `inverse_matrix_symmetric`
computes of the body-frame inertia. -/
theorem rigidbody_update_inertia_world_inv {Shape : Type}
    (moment_of_inertia : Shape → scalar → matrix3x3) (b : rigidbody Shape)
    (hshape : b.shape.isSome = true) :
    ∃ b2, rigidbody_update_inertia moment_of_inertia b = some b2 ∧
      b2.orientation = b.orientation ∧
      b2.inertia_inv = inverse_matrix_symmetric b2.inertia ∧
      b2.inertia_world_inv
        = to_matrix3x3 b.orientation * b2.inertia_inv
          * transpose (to_matrix3x3 b.orientation) := by
  obtain ⟨shape, hs⟩ := Option.isSome_iff_exists.mp hshape
  unfold rigidbody_update_inertia
  simp only [hs]
  exact ⟨_, rfl, rfl, rfl, rfl⟩

/-- Witness of C8 (amended): the dynamic sample body, a sphere with the unit
orientation `(0, 0, 3/5, 4/5)` that holds the unrotated `diag(1, 1/2, 1/3)`,
has the rotated inverse inertia after `rigidbody_update_inertia`; for the
sphere this is `diag(5/2, 5/2, 5/2)`. -/
theorem rigidbody_update_inertia_world_inv_witness :
    sample_rigidbody.dynamic_tag = true ∧ sample_orientation.is_unit ∧
    ∃ b2, rigidbody_update_inertia sample_moment_of_inertia sample_rigidbody = some b2 ∧
      b2.inertia_world_inv
        = to_matrix3x3 sample_orientation * b2.inertia_inv
          * transpose (to_matrix3x3 sample_orientation) ∧
      b2.inertia_world_inv = sample_diagonal (5 / 2) (5 / 2) (5 / 2) := by
  obtain ⟨b2, hb2, _, hinv, hW⟩ :=
    rigidbody_update_inertia_world_inv sample_moment_of_inertia sample_rigidbody rfl
  refine ⟨rfl, by norm_num [quaternion.is_unit, sample_orientation], b2, hb2, hW, ?_⟩
  have heq : some b2 = rigidbody_update_inertia sample_moment_of_inertia sample_rigidbody :=
    hb2.symm
  have hb : b2.inertia_world_inv
      = to_matrix3x3 sample_orientation
          * inverse_matrix_symmetric (sample_moment_of_inertia 1 1)
          * transpose (to_matrix3x3 sample_orientation) := by
    rw [Option.some.inj heq]
    rfl
  rw [hb, to_matrix3x3_sample_orientation]
  norm_num [inverse_matrix_symmetric, determinant, sample_moment_of_inertia, sample_diagonal,
    transpose, matrix3x3.column, matrix3x3.mul_def, matrix3x3.mul, dot]

/-! ## Theorems about `import_pool_server` -/

/-- Writing a component leaves the components with another index as they
are. -/
theorem registry.set_component_other {Payload : Type} (r : registry Payload) (e x : entity)
    (component_index i : Nat) (value : Payload) (hi : i ≠ component_index) :
    (r.set_component e component_index value).component x i = r.component x i := by
  unfold registry.set_component
  by_cases hx : x = e
  · subst hx
    simp [Function.update_noteq hi]
  · simp [Function.update_noteq hx]

/-- One iteration of the import writes no component other than the one of the
pool's type, and changes the validity of no entity. -/
theorem import_pool_entry_other {Payload : Type} (cfg : import_pool_config Payload)
    (client_entity : entity) (r : registry Payload) (pair : entity × Payload) :
    (import_pool_entry cfg client_entity r pair).valid = r.valid ∧
    ∀ x i, i ≠ cfg.component_index →
      (import_pool_entry cfg client_entity r pair).component x i = r.component x i := by
  unfold import_pool_entry
  simp only
  split_ifs <;>
    first
    | exact ⟨rfl, fun _ _ _ => rfl⟩
    | exact ⟨rfl, fun x i hi => registry.set_component_other r _ x _ i _ hi⟩

/-- The loop of the import writes no component other than the one of the
pool's type, and changes the validity of no entity. -/
theorem import_pool_loop_other {Payload : Type} (cfg : import_pool_config Payload)
    (client_entity : entity) (pool : List (entity × Payload)) :
    ∀ r : registry Payload,
      (import_pool_loop cfg client_entity r pool).valid = r.valid ∧
      ∀ x i, i ≠ cfg.component_index →
        (import_pool_loop cfg client_entity r pool).component x i = r.component x i := by
  induction pool with
  | nil =>
    intro r
    exact ⟨rfl, fun _ _ _ => rfl⟩
  | cons p ps ih =>
    intro r
    obtain ⟨hv, hc⟩ := import_pool_entry_other cfg client_entity r p
    obtain ⟨hv2, hc2⟩ := ih (import_pool_entry cfg client_entity r p)
    exact ⟨hv2.trans hv, fun x i hi => (hc2 x i hi).trans (hc x i hi)⟩

/-- An entry whose remote entity has no mapping leaves the registry as it is. -/
theorem import_pool_entry_unknown {Payload : Type} (cfg : import_pool_config Payload)
    (client_entity : entity) (r : registry Payload) (pair : entity × Payload)
    (hunknown : (r.client_entity_map client_entity).has_rem pair.1 = false) :
    import_pool_entry cfg client_entity r pair = r := by
  unfold import_pool_entry
  simp only
  rw [if_pos (by simp [hunknown])]

/-- An entry whose remote entity is mapped to an invalid local entity only
erases that mapping from the client's entity map. -/
theorem import_pool_entry_invalid {Payload : Type} (cfg : import_pool_config Payload)
    (client_entity : entity) (r : registry Payload) (pair : entity × Payload)
    (hknown : (r.client_entity_map client_entity).has_rem pair.1 = true)
    (hinvalid : r.valid ((r.client_entity_map client_entity).remloc pair.1) = false) :
    import_pool_entry cfg client_entity r pair =
      { r with
        remote_client := Function.update r.remote_client client_entity
          (some ((r.client_entity_map client_entity).erase_loc
            ((r.client_entity_map client_entity).remloc pair.1))) } := by
  unfold import_pool_entry
  simp only
  rw [if_neg (by simp [hknown]), if_pos (by simp [hinvalid])]

/-- The loop of the import never removes the `remote_client` component of the
client entity. -/
theorem import_pool_loop_remote_client_isSome {Payload : Type}
    (cfg : import_pool_config Payload) (client_entity : entity)
    (pool : List (entity × Payload)) :
    ∀ r : registry Payload, (r.remote_client client_entity).isSome = true →
      ((import_pool_loop cfg client_entity r pool).remote_client client_entity).isSome
        = true := by
  induction pool with
  | nil =>
    intro r h
    exact h
  | cons p ps ih =>
    intro r h
    apply ih
    unfold import_pool_entry
    simp only
    split_ifs <;> first | exact h | simp

/-- C10: for every pool entry whose remote entity has no mapping in the
client's entity map, or whose mapped local entity is not valid in the
registry, `import_pool_server` constructs and replaces no component for that
entry: with `r1` the registry reached after the entries before it, the entry
leaves `r1` as it is in the first case and only erases the stale mapping from
the client's entity map in the second case; and the import of the whole pool
is the loop run over the entries after it from that state, so every other
entry is still processed. -/
theorem import_pool_server_skips_stale_entry {Payload : Type}
    (cfg : import_pool_config Payload) (r : registry Payload) (client_entity : entity)
    (pre : List (entity × Payload)) (p : entity × Payload) (post : List (entity × Payload))
    (hrc : (r.remote_client client_entity).isSome = true) :
    ∃ r1, import_pool_server cfg r client_entity pre = some r1 ∧
      ((r1.client_entity_map client_entity).has_rem p.1 = false →
        import_pool_entry cfg client_entity r1 p = r1 ∧
        import_pool_server cfg r client_entity (pre ++ p :: post)
          = some (import_pool_loop cfg client_entity r1 post)) ∧
      ((r1.client_entity_map client_entity).has_rem p.1 = true →
        r1.valid ((r1.client_entity_map client_entity).remloc p.1) = false →
        (import_pool_entry cfg client_entity r1 p).component = r1.component ∧
        (import_pool_entry cfg client_entity r1 p).dirty = r1.dirty ∧
        (import_pool_entry cfg client_entity r1 p).valid = r1.valid ∧
        (import_pool_entry cfg client_entity r1 p).remote_client
          = Function.update r1.remote_client client_entity
              (some ((r1.client_entity_map client_entity).erase_loc
                ((r1.client_entity_map client_entity).remloc p.1))) ∧
        import_pool_server cfg r client_entity (pre ++ p :: post)
          = some (import_pool_loop cfg client_entity
              (import_pool_entry cfg client_entity r1 p) post)) := by
  obtain ⟨map, hmap⟩ := Option.isSome_iff_exists.mp hrc
  have hsplit : import_pool_server cfg r client_entity (pre ++ p :: post)
      = some (import_pool_loop cfg client_entity
          (import_pool_entry cfg client_entity (import_pool_loop cfg client_entity r pre) p)
          post) := by
    unfold import_pool_server import_pool_loop
    rw [hmap, List.foldl_append, List.foldl_cons]
  refine ⟨import_pool_loop cfg client_entity r pre, ?_, ?_, ?_⟩
  · unfold import_pool_server
    rw [hmap]
  · intro hunknown
    have hstep := import_pool_entry_unknown cfg client_entity _ p hunknown
    refine ⟨hstep, ?_⟩
    rw [hsplit, hstep]
  · intro hknown hinvalid
    have hstep := import_pool_entry_invalid cfg client_entity _ p hknown hinvalid
    refine ⟨?_, ?_, ?_, ?_, hsplit⟩ <;> rw [hstep]

/-- Witness of C10: in the sample registry, an entry for the unknown remote
entity `14` is dropped and an entry for the remote entity `13`, mapped to the
invalid local entity `3`, only erases that mapping; the entry for body `2`
that follows is applied in both cases. -/
theorem import_pool_server_skips_stale_entry_witness :
    (∃ r2, import_pool_server sample_import_config sample_registry (entity.id 100)
        [(entity.id 14, 71), (entity.id 12, 80)] = some r2 ∧
      r2.component (entity.id 2) 5 = some 80 ∧
      r2.remote_client (entity.id 100) = sample_registry.remote_client (entity.id 100)) ∧
    (∃ r2, import_pool_server sample_import_config sample_registry (entity.id 100)
        [(entity.id 13, 72), (entity.id 12, 80)] = some r2 ∧
      r2.component (entity.id 2) 5 = some 80 ∧
      r2.component (entity.id 3) 5 = none ∧
      r2.remote_client (entity.id 100)
        = some [(entity.id 11, entity.id 1), (entity.id 12, entity.id 2)]) := by
  constructor
  · obtain ⟨r1, hr1, hunknown, _⟩ :=
      import_pool_server_skips_stale_entry sample_import_config sample_registry
        (entity.id 100) [] (entity.id 14, 71) [(entity.id 12, 80)] (by decide)
    have heq : sample_registry = r1 := Option.some.inj hr1
    subst heq
    refine ⟨_, (hunknown (by decide)).2, by decide, by decide⟩
  · obtain ⟨r1, hr1, _, hinvalid⟩ :=
      import_pool_server_skips_stale_entry sample_import_config sample_registry
        (entity.id 100) [] (entity.id 13, 72) [(entity.id 12, 80)] (by decide)
    have heq : sample_registry = r1 := Option.some.inj hr1
    subst heq
    refine ⟨_, (hinvalid (by decide) (by decide)).2.2.2.2, by decide, by decide, by decide⟩

/-! ## Further properties of `rigidbody.cpp` and `world.cpp` -/

/-- On a body with a shape, `rigidbody_update_inertia` returns; it stores the
moment of inertia of the shape for the body's mass, its inverse, and the
world-space inverse `R * inertia_inv * transpose(R)`, `R` being the rotation
matrix of the orientation; mass, `mass_inv` and orientation are left as they
were. -/
theorem rigidbody_update_inertia_eq {Shape : Type}
    (moment_of_inertia : Shape → scalar → matrix3x3) (b : rigidbody Shape) (shape : Shape)
    (hshape : b.shape = some shape) :
    ∃ b2, rigidbody_update_inertia moment_of_inertia b = some b2 ∧
      b2.inertia = moment_of_inertia shape b.mass ∧
      b2.inertia_inv = inverse_matrix_symmetric b2.inertia ∧
      b2.inertia_world_inv
        = to_matrix3x3 b2.orientation * b2.inertia_inv * transpose (to_matrix3x3 b2.orientation) ∧
      b2.orientation = b.orientation ∧ b2.mass = b.mass ∧ b2.mass_inv = b.mass_inv := by
  unfold rigidbody_update_inertia
  simp only [hshape]
  exact ⟨_, rfl, rfl, rfl, rfl, rfl, rfl, rfl⟩

/-- The sample body after `rigidbody_update_inertia`: its world-space inverse
inertia is the rotated one. -/
theorem rigidbody_update_inertia_eq_witness :
    ∃ b2, rigidbody_update_inertia sample_moment_of_inertia sample_rigidbody = some b2 ∧
      b2.inertia = sample_diagonal (2 / 5) (2 / 5) (2 / 5) ∧
      b2.inertia_world_inv
        = to_matrix3x3 sample_orientation * b2.inertia_inv
          * transpose (to_matrix3x3 sample_orientation) := by
  obtain ⟨b2, hb2, hI, _, hW, hq, _, _⟩ :=
    rigidbody_update_inertia_eq sample_moment_of_inertia sample_rigidbody 1 rfl
  refine ⟨b2, hb2, ?_, ?_⟩
  · rw [hI]
    norm_num [sample_moment_of_inertia, sample_rigidbody]
  · rw [hW, hq]
    rfl

/-- The sample body after `rigidbody_set_mass` with the new mass `2`: the
mass is `2` and `mass_inv` is what it was. -/
theorem rigidbody_set_mass_eq_witness :
    ∃ b2, rigidbody_set_mass sample_moment_of_inertia sample_rigidbody 2 = some b2 ∧
      b2.mass = 2 ∧ b2.mass_inv = 1 := by
  obtain ⟨b2, hb2, hm, hinv, _⟩ :=
    rigidbody_set_mass_eq sample_moment_of_inertia sample_rigidbody 2 1 rfl
  exact ⟨b2, hb2, hm, hinv⟩

/-- The listener `on_construct_or_replace_mass` of `world.cpp`, for a positive
mass `m`, assigns `mass_inv = 1 / m` when `m < EDYN_SCALAR_MAX` and `0`
otherwise, so that `m * mass_inv` is `0` or `1`. -/
theorem on_construct_or_replace_mass_inv (EDYN_SCALAR_MAX m : scalar) (hm : 0 < m) :
    ∃ inv, on_construct_or_replace_mass EDYN_SCALAR_MAX m = some inv ∧
      (m < EDYN_SCALAR_MAX → inv = 1 / m) ∧
      (¬ m < EDYN_SCALAR_MAX → inv = 0) ∧
      (m * inv = 0 ∨ m * inv = 1) := by
  rw [on_construct_or_replace_mass_eq EDYN_SCALAR_MAX m hm]
  refine ⟨_, rfl, fun h => if_pos h, fun h => if_neg h, ?_⟩
  split_ifs
  · right
    exact mul_one_div_cancel (ne_of_gt hm)
  · left
    exact mul_zero _

/-- The listener on the mass `4`: `mass_inv = 1/4`. -/
theorem on_construct_or_replace_mass_inv_witness :
    ∃ inv, on_construct_or_replace_mass sample_scalar_max 4 = some inv ∧ inv = 1 / 4 := by
  obtain ⟨inv, hinv, hlt, _, _⟩ :=
    on_construct_or_replace_mass_inv sample_scalar_max 4 (by norm_num)
  exact ⟨inv, hinv, hlt (by norm_num [sample_scalar_max])⟩

/-- The sample body is the one that `make_rigidbody` creates from the sample
definition of a dynamic sphere of mass `1` with the sample orientation. -/
theorem make_rigidbody_sample :
    make_rigidbody sample_scalar_max sample_shape_aabb
      (sample_rigidbody_def rigidbody_kind.rb_dynamic 1 sample_orientation)
      = some sample_rigidbody := by
  have hmi : make_rigidbody_mass_inertia sample_scalar_max
      (sample_rigidbody_def rigidbody_kind.rb_dynamic 1 sample_orientation)
      = some (1, 1, sample_diagonal 1 2 3, sample_diagonal 1 (1 / 2) (1 / 3),
          sample_diagonal 1 (1 / 2) (1 / 3)) := by
    rw [make_rigidbody_mass_inertia_dynamic _ _ rfl (by norm_num [sample_rigidbody_def]),
      show (sample_rigidbody_def rigidbody_kind.rb_dynamic 1 sample_orientation).inertia
        = sample_diagonal 1 2 3 from rfl, inverse_matrix_symmetric_sample]
    norm_num [sample_rigidbody_def, sample_scalar_max]
  unfold make_rigidbody
  rw [hmi]
  norm_num [sample_rigidbody, sample_rigidbody_def, make_rigidbody_velocity, sample_shape_aabb,
    vector3_zero, sample_orientation]
  refine ⟨rfl, rfl, ⟨?_, ?_⟩, by decide, by decide⟩
  · show (⟨0 - 1, 0 - 1, 0 - 1⟩ : vector3) = ⟨-1, -1, -1⟩
    norm_num
  · show (⟨0 + 1, 0 + 1, 0 + 1⟩ : vector3) = ⟨1, 1, 1⟩
    norm_num

/-! ## Theorems about `modified_components` -/

theorem update_kept_perm (elapsed_ms : Nat) {l1 l2 : List comp_index_time} (h : l1.Perm l2) :
    (update_kept elapsed_ms l1).Perm (update_kept elapsed_ms l2) :=
  (h.filter _).map _

theorem getElem?_append_length_cons {α : Type} (done : List α) (x : α) (rest : List α) :
    (done ++ x :: rest)[done.length]? = some x := by
  rw [List.getElem?_append_right (le_refl _)]
  simp

theorem set_append_length_cons {α : Type} (done : List α) (x y : α) (rest : List α) :
    (done ++ x :: rest).set done.length y = done ++ y :: rest := by
  induction done with
  | nil => rfl
  | cons a done ih => simp [ih]

theorem getLastD_append_cons_concat {α : Type} (done : List α) (x y d : α) (rest : List α) :
    (done ++ x :: (rest ++ [y])).getLastD d = y := by
  have h1 : done ++ x :: (rest ++ [y]) = (done ++ x :: rest) ++ [y] := by simp
  rw [h1, List.getLastD_concat]

/-- The loop of `update`, started at the position after `done` with enough
fuel for the entries `todo` that follow, keeps `done` and leaves of `todo` the
entries with enough remaining time, lowered, in some order. -/
theorem update_modified_loop_perm (elapsed_ms : Nat) :
    ∀ (fuel : Nat) (done todo : List comp_index_time), todo.length ≤ fuel →
      (update_modified_loop elapsed_ms fuel done.length (done ++ todo)).Perm
        (done ++ update_kept elapsed_ms todo) := by
  intro fuel
  induction fuel with
  | zero =>
    intro done todo h
    have : todo = [] := List.length_eq_zero.mp (Nat.le_zero.mp h)
    subst this
    simp [update_modified_loop, update_kept]
  | succ fuel ih =>
    intro done todo h
    cases todo with
    | nil => simp [update_modified_loop, update_kept]
    | cons x rest =>
      unfold update_modified_loop
      simp only [getElem?_append_length_cons]
      have hlen : rest.length ≤ fuel := by simpa using h
      split_ifs with hdrop
      · have hx : update_kept elapsed_ms (x :: rest) = update_kept elapsed_ms rest := by
          simp [update_kept, List.filter_cons, Nat.not_le.mpr hdrop]
        rw [hx]
        rcases List.eq_nil_or_concat rest with hnil | ⟨rest1, y, hrest⟩
        · subst hnil
          rw [set_append_length_cons]
          have hlast : (done ++ [(done ++ [x]).getLastD x]).dropLast = done := by
            rw [List.dropLast_concat]
          rw [hlast]
          have h0 := ih done [] (Nat.zero_le _)
          simpa [update_kept] using h0
        · rw [List.concat_eq_append] at hrest
          subst hrest
          rw [set_append_length_cons, getLastD_append_cons_concat]
          have hstep : (done ++ y :: (rest1 ++ [y])).dropLast = done ++ y :: rest1 := by
            have h1 : done ++ y :: (rest1 ++ [y]) = (done ++ y :: rest1) ++ [y] := by simp
            rw [h1, List.dropLast_concat]
          rw [hstep]
          have h1 := ih done (y :: rest1) (by simpa using hlen)
          refine h1.trans (List.Perm.append_left done (update_kept_perm elapsed_ms ?_))
          exact (List.perm_append_singleton y rest1).symm
      · rw [set_append_length_cons]
        have hx : update_kept elapsed_ms (x :: rest)
            = { x with remaining := x.remaining - elapsed_ms } :: update_kept elapsed_ms rest := by
          simp [update_kept, List.filter_cons, Nat.not_lt.mp hdrop]
        rw [hx]
        have h1 := ih (done ++ [{ x with remaining := x.remaining - elapsed_ms }]) rest hlen
        simpa using h1

/-- What `update` does to one record: it leaves the entries with at least
`elapsed_ms` remaining, lowered by `elapsed_ms`, in some order. -/
theorem update_modified_perm (elapsed : Nat) (m : modified_components) :
    (update_modified elapsed m).entry.Perm (update_kept elapsed m.entry) := by
  have h := update_modified_loop_perm elapsed m.count [] m.entry (le_refl _)
  simpa [update_modified] using h

/-- The milliseconds elapsed between the times `0` and `1/4`. -/
theorem elapsed_ms_sample : elapsed_ms 0 (1 / 4) = 250 := by
  unfold elapsed_ms
  have h : ((1 / 4 - 0) * 1000 : ℚ) = ((250 : ℤ) : ℚ) := by norm_num
  rw [h, Int.floor_intCast]
  decide

/-- Within the range of a 32-bit `unsigned`, `elapsed_ms` is the number of
whole milliseconds between the two times. -/
theorem elapsed_ms_whole (m_last_time time : scalar) (htime : ¬ time < m_last_time)
    (hrange : (time - m_last_time) * 1000 < 2 ^ 32) :
    elapsed_ms m_last_time time < 2 ^ 32 ∧
    (elapsed_ms m_last_time time : scalar) ≤ (time - m_last_time) * 1000 ∧
    (time - m_last_time) * 1000 < (elapsed_ms m_last_time time : scalar) + 1 := by
  have h0 : 0 ≤ (time - m_last_time) * 1000 :=
    mul_nonneg (sub_nonneg.mpr (not_lt.mp htime)) (by norm_num)
  have hf0 : 0 ≤ ⌊(time - m_last_time) * 1000⌋ := Int.floor_nonneg.mpr h0
  have hlt : ⌊(time - m_last_time) * 1000⌋ < ((2 ^ 32 : ℕ) : ℤ) := by
    rw [Int.floor_lt]
    push_cast
    exact hrange
  have hnat : Int.toNat ⌊(time - m_last_time) * 1000⌋ < 2 ^ 32 := (Int.toNat_lt hf0).mpr hlt
  have heq : elapsed_ms m_last_time time = Int.toNat ⌊(time - m_last_time) * 1000⌋ := by
    unfold elapsed_ms
    exact Nat.mod_eq_of_lt hnat
  have hcast : ((Int.toNat ⌊(time - m_last_time) * 1000⌋ : ℕ) : scalar)
      = ((⌊(time - m_last_time) * 1000⌋ : ℤ) : scalar) := by
    have h := congrArg (Int.cast : ℤ → scalar) (Int.toNat_of_nonneg hf0)
    rw [← h]
    exact (Int.cast_natCast _).symm
  rw [heq, hcast]
  exact ⟨hnat, Int.floor_le _, Int.lt_floor_add_one _⟩

/-- Past the range of a 32-bit `unsigned` the count wraps: `4294967.5`
seconds after the last update `elapsed_ms` is `204`. -/
theorem elapsed_ms_wraps : elapsed_ms 0 (8589935 / 2) = 204 := by
  unfold elapsed_ms
  have h : ((8589935 / 2 - 0) * 1000 : ℚ) = ((4294967500 : ℤ) : ℚ) := by norm_num
  rw [h, Int.floor_intCast]
  decide

/-- C15 (as stated, refuted): after `update` with `250` milliseconds elapsed,
the entry that had exactly `250` milliseconds remaining is still tracked, with
`0` remaining, so the tracked entries are not the old entries with more than
`250` milliseconds remaining. -/
theorem update_keeps_entry_reaching_zero :
    ∃ s2 m2, update sample_exporter_state (1 / 4) = some s2 ∧
      s2.modified (entity.id 1) = some m2 ∧
      m2.entry = [⟨0, 150⟩, ⟨5, 0⟩] ∧
      ¬ m2.entry.Perm
        ((sample_modified.entry.filter (fun e => decide (250 < e.remaining))).map
          (fun e => { e with remaining := e.remaining - 250 })) := by
  have hupd : update sample_exporter_state (1 / 4)
      = some { m_last_time := 1 / 4
               modified := fun e =>
                 (sample_exporter_state.modified e).map (update_modified 250) } := by
    unfold update
    rw [if_neg (by norm_num [sample_exporter_state])]
    simp only [show sample_exporter_state.m_last_time = 0 from rfl, elapsed_ms_sample]
  refine ⟨_, update_modified 250 sample_modified, hupd, by simp [sample_exporter_state],
    by decide, ?_⟩
  intro hperm
  have hlen := hperm.length_eq
  revert hlen
  decide

/-- Method `update(time)`, the time not being earlier than the last update,
returns and leaves in every `modified_components` the entries with at least
`elapsed_ms` remaining, lowered by `elapsed_ms`. -/
theorem update_eq (s : exporter_state) (time : scalar) (htime : ¬ time < s.m_last_time) :
    ∃ s2, update s time = some s2 ∧ s2.m_last_time = time ∧
      ∀ e, (s.modified e = none → s2.modified e = none) ∧
        ∀ m, s.modified e = some m →
          ∃ m2, s2.modified e = some m2 ∧
            m2.entry.Perm (update_kept (elapsed_ms s.m_last_time time) m.entry) := by
  unfold update
  rw [if_neg htime]
  refine ⟨_, rfl, rfl, fun e => ⟨fun h => ?_, fun m h => ?_⟩⟩
  · simp [h]
  · exact ⟨update_modified (elapsed_ms s.m_last_time time) m, by simp [h],
      update_modified_perm _ m⟩

/-- C15 (amended): `update(time)` lowers the remaining time of every tracked
entry by the elapsed milliseconds and drops every entry whose remaining time
is less than the elapsed milliseconds: after it, the tracked entries of every
entity are exactly the old entries with old remaining at least the elapsed
milliseconds, each with remaining = old remaining - elapsed, which is `0` or
more. The elapsed milliseconds `elapsed` are the whole milliseconds between
the last update and `time`. The function is called with a time that is not
earlier than the last update (`htime`, its assertion) and less than `2 ^ 32`
milliseconds after it (`hrange`, the range of the `unsigned` that the elapsed
time is converted to). -/
theorem update_tracked_entries (s : exporter_state) (time : scalar)
    (htime : ¬ time < s.m_last_time)
    (hrange : (time - s.m_last_time) * 1000 < 2 ^ 32) :
    ∃ s2 elapsed, update s time = some s2 ∧ s2.m_last_time = time ∧
      elapsed = elapsed_ms s.m_last_time time ∧
      (elapsed : scalar) ≤ (time - s.m_last_time) * 1000 ∧
      (time - s.m_last_time) * 1000 < (elapsed : scalar) + 1 ∧
      ∀ e, (s.modified e = none → s2.modified e = none) ∧
        ∀ m, s.modified e = some m →
          ∃ m2, s2.modified e = some m2 ∧
            m2.entry.Perm
              ((m.entry.filter (fun x => decide (elapsed ≤ x.remaining))).map
                (fun x => { x with remaining := x.remaining - elapsed })) := by
  obtain ⟨s2, hs2, hlast, hall⟩ := update_eq s time htime
  obtain ⟨_, hle, hlt⟩ := elapsed_ms_whole s.m_last_time time htime hrange
  exact ⟨s2, elapsed_ms s.m_last_time time, hs2, hlast, rfl, hle, hlt, hall⟩

/-- Witness of C15 (amended): the sample exporter updated at time `1/4`. -/
theorem update_tracked_entries_witness :
    ∃ s2, update sample_exporter_state (1 / 4) = some s2 ∧
      ∃ m2, s2.modified (entity.id 1) = some m2 ∧
        m2.entry.Perm [⟨0, 150⟩, ⟨5, 0⟩] := by
  obtain ⟨s2, elapsed, hs2, _, helapsed, _, _, hall⟩ :=
    update_tracked_entries sample_exporter_state (1 / 4) (by norm_num [sample_exporter_state])
      (by norm_num [sample_exporter_state])
  obtain ⟨m2, hm2, hperm⟩ := (hall (entity.id 1)).2 sample_modified
    (by simp [sample_exporter_state])
  refine ⟨s2, hs2, m2, hm2, ?_⟩
  rw [helapsed, show sample_exporter_state.m_last_time = 0 from rfl, elapsed_ms_sample]
    at hperm
  exact hperm

/-- Marking the entries of one component index as just modified, the loop of
`on_update`. -/
theorem on_update_mark_idem (index : Nat) (l : List comp_index_time) :
    (l.map (fun e => if e.index = index then { e with remaining := 400 } else e)).map
        (fun e => if e.index = index then { e with remaining := 400 } else e)
      = l.map (fun e => if e.index = index then { e with remaining := 400 } else e) := by
  rw [List.map_map]
  apply List.map_congr_left
  intro a _
  simp only [Function.comp]
  split_ifs <;> simp_all

theorem on_update_mark_any (index : Nat) (l : List comp_index_time) :
    (l.map (fun e => if e.index = index then { e with remaining := 400 } else e)).any
        (fun e => decide (e.index = index))
      = l.any (fun e => decide (e.index = index)) := by
  induction l with
  | nil => rfl
  | cons a l ih =>
    simp only [List.map_cons, List.any_cons, ih]
    split_ifs with h <;> simp [h]

/-- What `on_update` leaves in a record: the old entries, those of the
component index marked with `400` milliseconds, and a new entry for the
component index when there was none. -/
theorem on_update_modified_eq (N index : Nat) (m : modified_components)
    (hroom : m.entry.any (fun e => decide (e.index = index)) = true ∨ m.count < N) :
    on_update_modified N index m
      = some ⟨m.entry.map (fun e => if e.index = index then { e with remaining := 400 } else e)
          ++ (if m.entry.any (fun e => decide (e.index = index)) = true then []
              else [⟨index, 400⟩])⟩ := by
  unfold on_update_modified
  simp only
  by_cases hfound : m.entry.any (fun e => decide (e.index = index)) = true
  · simp [hfound]
  · have hlt : m.count < N := hroom.resolve_left hfound
    simp [hfound, hlt]

/-- A second `on_update` for the same component index changes nothing. -/
theorem on_update_modified_twice (N index : Nat) (m m1 : modified_components)
    (h : on_update_modified N index m = some m1) :
    on_update_modified N index m1 = some m1 := by
  have hroom : m.entry.any (fun e => decide (e.index = index)) = true ∨ m.count < N := by
    unfold on_update_modified at h
    simp only at h
    by_cases hfound : m.entry.any (fun e => decide (e.index = index)) = true
    · exact Or.inl hfound
    · right
      by_contra hlt
      simp [hfound, hlt] at h
  rw [on_update_modified_eq N index m hroom] at h
  have hm1 := Option.some.inj h
  have hany : m1.entry.any (fun e => decide (e.index = index)) = true := by
    rw [← hm1]
    by_cases hfound : m.entry.any (fun e => decide (e.index = index)) = true
    · simp only [hfound, if_true, List.append_nil]
      rw [on_update_mark_any]
      exact hfound
    · simp [hfound]
  rw [on_update_modified_eq N index m1 (Or.inl hany)]
  simp only [hany, if_true, List.append_nil]
  congr 1
  rw [← hm1]
  simp only [List.map_append, on_update_mark_idem]
  by_cases hfound : m.entry.any (fun e => decide (e.index = index)) = true
  · simp [hfound]
  · simp [hfound]

/-- With pairwise distinct component indices, the marked entries hold exactly
one entry for the component index if there was one, and none otherwise. -/
theorem on_update_mark_filter (index : Nat) (l : List comp_index_time)
    (hnodup : (l.map (fun e => e.index)).Nodup) :
    (l.map (fun e => if e.index = index then { e with remaining := 400 } else e)).filter
        (fun e => decide (e.index = index))
      = if l.any (fun e => decide (e.index = index)) = true then [⟨index, 400⟩] else [] := by
  induction l with
  | nil => rfl
  | cons a l ih =>
    rw [List.map_cons, List.nodup_cons] at hnodup
    obtain ⟨hnotin, hnodup⟩ := hnodup
    have ih := ih hnodup
    by_cases ha : a.index = index
    · have hnone : l.any (fun e => decide (e.index = index)) = false := by
        rw [Bool.eq_false_iff]
        intro hany
        rw [List.any_eq_true] at hany
        obtain ⟨x, hx, hxi⟩ := hany
        apply hnotin
        rw [List.mem_map]
        exact ⟨x, hx, by rw [ha]; exact of_decide_eq_true hxi⟩
      rw [hnone] at ih
      simp only [List.map_cons, if_pos ha, List.any_cons, ha, decide_True, Bool.true_or,
        if_true]
      rw [List.filter_cons_of_pos (by simp [ha]), ih]
      simp
    · simp only [List.map_cons, if_neg ha, List.any_cons, ha, decide_False, Bool.false_or]
      rw [List.filter_cons_of_neg (by simp [ha]), ih]

/-- C16: modification tracking is idempotent. With the observer enabled, on an
entity whose record has an entry for the component or room for one,
`on_update` returns, and a second `on_update` for the same component type on
the same entity leaves the registry exactly as the first one did, so the
count is not increased by the second call; after the first call every entry
for that component index has `remaining = 400` and there is one, and exactly
one when the component indices of the record were pairwise distinct. With the
observer disabled, `on_update` leaves the registry unchanged. -/
theorem on_update_idempotent (N index : Nat) (registry : entity → Option modified_components)
    (e : entity) (m : modified_components) (hm : registry e = some m)
    (hroom : m.entry.any (fun x => decide (x.index = index)) = true ∨ m.count < N) :
    (∃ r1 m1, on_update N true index registry e = some r1 ∧
      r1 e = some m1 ∧
      (∀ e2, e2 ≠ e → r1 e2 = registry e2) ∧
      on_update N true index r1 e = some r1 ∧
      (∃ x, x ∈ m1.entry ∧ x.index = index) ∧
      (∀ x, x ∈ m1.entry → x.index = index → x.remaining = 400) ∧
      ((m.entry.map (fun x => x.index)).Nodup →
        m1.entry.filter (fun x => decide (x.index = index)) = [⟨index, 400⟩])) ∧
    on_update N false index registry e = some registry := by
  have heq := on_update_modified_eq N index m hroom
  have htwice := on_update_modified_twice N index m _ heq
  refine ⟨⟨Function.update registry e (some
      ⟨m.entry.map (fun e => if e.index = index then { e with remaining := 400 } else e)
        ++ (if m.entry.any (fun e => decide (e.index = index)) = true then []
            else [⟨index, 400⟩])⟩), _, ?_, Function.update_same _ _ _,
    fun e2 h2 => Function.update_noteq h2 _ _, ?_, ?_, ?_, ?_⟩, ?_⟩
  · unfold on_update
    simp only [hm, heq]
    rfl
  · unfold on_update
    simp only [Function.update_same, htwice, Function.update_idem]
    rfl
  · by_cases hfound : m.entry.any (fun x => decide (x.index = index)) = true
    · rw [List.any_eq_true] at hfound
      obtain ⟨x, hx, hxi⟩ := hfound
      have hxi := of_decide_eq_true hxi
      refine ⟨{ x with remaining := 400 }, ?_, hxi⟩
      apply List.mem_append_left
      rw [List.mem_map]
      exact ⟨x, hx, by rw [if_pos hxi]⟩
    · exact ⟨⟨index, 400⟩, by simp [hfound], rfl⟩
  · intro x hx hxi
    rcases List.mem_append.mp hx with h | h
    · rw [List.mem_map] at h
      obtain ⟨y, _, hy⟩ := h
      by_cases hyi : y.index = index
      · rw [if_pos hyi] at hy
        rw [← hy]
      · rw [if_neg hyi] at hy
        rw [hy] at hyi
        exact absurd hxi hyi
    · by_cases hfound : m.entry.any (fun x => decide (x.index = index)) = true
      · simp [hfound] at h
      · simp [hfound] at h
        rw [h]
  · intro hnodup
    rw [List.filter_append, on_update_mark_filter index m.entry hnodup]
    by_cases hfound : m.entry.any (fun x => decide (x.index = index)) = true
    · simp [hfound]
    · simp [hfound]
  · unfold on_update
    simp

/-- Witness of C16: two notifications for component `3` on entity `1` of the
sample exporter, whose record tracks `0`, `3` and `5`, and two notifications
for component `7`, which it does not track yet. -/
theorem on_update_idempotent_witness :
    (∃ r1, on_update 8 true 3 sample_exporter_state.modified (entity.id 1) = some r1 ∧
      r1 (entity.id 1) = some ⟨[⟨0, 400⟩, ⟨3, 400⟩, ⟨5, 250⟩]⟩ ∧
      on_update 8 true 3 r1 (entity.id 1) = some r1) ∧
    (∃ r1, on_update 8 true 7 sample_exporter_state.modified (entity.id 1) = some r1 ∧
      r1 (entity.id 1) = some ⟨[⟨0, 400⟩, ⟨3, 100⟩, ⟨5, 250⟩, ⟨7, 400⟩]⟩ ∧
      on_update 8 true 7 r1 (entity.id 1) = some r1) := by
  constructor
  · obtain ⟨⟨r1, m1, h1, hm1, _, h2, _⟩, _⟩ :=
      on_update_idempotent 8 3 sample_exporter_state.modified (entity.id 1) sample_modified
        (by decide) (by decide)
    refine ⟨r1, h1, ?_, h2⟩
    have hr : (on_update 8 true 3 sample_exporter_state.modified (entity.id 1)).map
        (fun r => r (entity.id 1)) = some (some ⟨[⟨0, 400⟩, ⟨3, 400⟩, ⟨5, 250⟩]⟩) := by
      decide
    rw [h1] at hr
    exact Option.some.inj hr
  · obtain ⟨⟨r1, m1, h1, hm1, _, h2, _⟩, _⟩ :=
      on_update_idempotent 8 7 sample_exporter_state.modified (entity.id 1) sample_modified
        (by decide) (by decide)
    refine ⟨r1, h1, ?_, h2⟩
    have hr : (on_update 8 true 7 sample_exporter_state.modified (entity.id 1)).map
        (fun r => r (entity.id 1))
        = some (some ⟨[⟨0, 400⟩, ⟨3, 100⟩, ⟨5, 250⟩, ⟨7, 400⟩]⟩) := by
      decide
    rw [h1] at hr
    exact Option.some.inj hr

/-! ## Theorems about `export_modified` -/

/-- Every tuple in the snapshot after the loop over the entries of a record
was there before or is a tuple of the entity and the index of an entry that
passes the test. -/
theorem mem_foldl_snapshot_insert (ent : entity) (p : Nat → Bool)
    (entries : List comp_index_time) (w : entity × Nat) :
    ∀ snap : List (entity × Nat),
      w ∈ entries.foldl
          (fun s e => if p e.index = true then snapshot_insert_entity ent s e.index else s) snap →
      w ∈ snap ∨ (w.1 = ent ∧ p w.2 = true ∧ ∃ x, x ∈ entries ∧ x.index = w.2) := by
  induction entries with
  | nil =>
    intro snap h
    exact Or.inl h
  | cons a l ih =>
    intro snap h
    rw [List.foldl_cons] at h
    rcases ih _ h with h1 | ⟨h1, h2, x, hx, hxi⟩
    · by_cases hp : p a.index = true
      · rw [if_pos hp] at h1
        unfold snapshot_insert_entity at h1
        rcases List.mem_append.mp h1 with h3 | h3
        · exact Or.inl h3
        · rw [List.mem_singleton] at h3
          right
          rw [h3]
          exact ⟨rfl, hp, a, List.mem_cons_self _ _, rfl⟩
      · rw [if_neg hp] at h1
        exact Or.inl h1
    · exact Or.inr ⟨h1, h2, x, List.mem_cons_of_mem _ hx, hxi⟩

/-- The loop over the entries of a record keeps what the snapshot held. -/
theorem subset_foldl_snapshot_insert (ent : entity) (p : Nat → Bool)
    (entries : List comp_index_time) (w : entity × Nat) :
    ∀ snap : List (entity × Nat), w ∈ snap →
      w ∈ entries.foldl
          (fun s e => if p e.index = true then snapshot_insert_entity ent s e.index else s)
          snap := by
  induction entries with
  | nil =>
    intro snap h
    exact h
  | cons a l ih =>
    intro snap h
    rw [List.foldl_cons]
    apply ih
    split_ifs
    · exact List.mem_append_left _ h
    · exact h

/-- Every tuple in the snapshot after the loop "always include actions" was
there before or is the `action_history` of an owned entity with pending
entries. -/
theorem mem_export_actions (cfg : exporter_config) (r : exporter_registry)
    (owned_entities : List entity) (snap : List (entity × Nat)) (w : entity × Nat)
    (h : w ∈ export_actions cfg r owned_entities snap) :
    w ∈ snap ∨ (w.1 ∈ owned_entities ∧ w.2 = cfg.action_history_index ∧
      ∃ history, r.history w.1 = some history ∧ history.entries ≠ []) := by
  unfold export_actions at h
  induction owned_entities using List.reverseRecOn with
  | nil => exact Or.inl h
  | append_singleton l a ih =>
    rw [List.foldl_append, List.foldl_cons, List.foldl_nil] at h
    have hprev : w ∈ List.foldl
          (fun s ent =>
            match r.history ent with
            | some history =>
              if ¬ history.entries.isEmpty then
                snapshot_insert_entity ent s cfg.action_history_index
              else s
            | none => s) snap l →
        w ∈ snap ∨ (w.1 ∈ l ++ [a] ∧ w.2 = cfg.action_history_index ∧
          ∃ history, r.history w.1 = some history ∧ history.entries ≠ []) :=
      fun hw => (ih hw).imp id (fun h1 => ⟨List.mem_append_left _ h1.1, h1.2⟩)
    cases hhist : r.history a with
    | none =>
      rw [hhist] at h
      exact hprev h
    | some history =>
      rw [hhist] at h
      simp only at h
      split_ifs at h with hempty
      · exact hprev h
      · rcases List.mem_append.mp h with h3 | h3
        · exact hprev h3
        · rw [List.mem_singleton] at h3
          right
          rw [h3]
          refine ⟨by simp, rfl, history, hhist, ?_⟩
          intro hnil
          apply hempty
          rw [hnil]
          rfl

/-- The loop "always include actions" keeps what the snapshot held. -/
theorem subset_export_actions (cfg : exporter_config) (r : exporter_registry)
    (owned_entities : List entity) (w : entity × Nat) :
    ∀ snap : List (entity × Nat), w ∈ snap → w ∈ export_actions cfg r owned_entities snap := by
  unfold export_actions
  induction owned_entities with
  | nil =>
    intro snap h
    exact h
  | cons a l ih =>
    intro snap h
    rw [List.foldl_cons]
    apply ih
    cases r.history a with
    | none => exact h
    | some history =>
      simp only
      split_ifs
      · exact h
      · exact List.mem_append_left _ h

/-- What the loop of the input-only mode writes. -/
theorem mem_export_input_only (cfg : exporter_config) (r : exporter_registry)
    (w : entity × Nat) (owned_entities : List entity) :
    ∀ (snap result : List (entity × Nat)),
      export_input_only cfg r owned_entities snap = some result → w ∈ result →
      w ∈ snap ∨ (w.1 ∈ owned_entities ∧ r.sleeping w.1 = false ∧
        cfg.is_network_input w.2 = true ∧
        ∃ m, r.modified w.1 = some m ∧ ∃ x, x ∈ m.entry ∧ x.index = w.2) := by
  induction owned_entities with
  | nil =>
    intro snap result h hw
    unfold export_input_only at h
    rw [← Option.some.inj h] at hw
    exact Or.inl hw
  | cons a l ih =>
    intro snap result h hw
    unfold export_input_only at h
    by_cases hs : r.sleeping a = true
    · rw [if_pos hs] at h
      exact (ih snap result h hw).imp id (fun ⟨h1, h2⟩ => ⟨List.mem_cons_of_mem _ h1, h2⟩)
    · rw [if_neg hs] at h
      cases hm : r.modified a with
      | none =>
        rw [hm] at h
        exact absurd h (by simp)
      | some m =>
        rw [hm] at h
        simp only at h
        rcases ih _ result h hw with h1 | ⟨h1, h2⟩
        · have h3 := mem_foldl_snapshot_insert a
            (fun i => decide (i < cfg.N ∧ cfg.is_network_input i = true)) m.entry w snap
            (by simpa using h1)
          rcases h3 with h3 | ⟨h4, h5, x, hx, hxi⟩
          · exact Or.inl h3
          · right
            rw [h4]
            refine ⟨List.mem_cons_self _ _, by simpa using hs, ?_, m, hm, x, hx, hxi⟩
            exact (of_decide_eq_true h5).2
        · exact Or.inr ⟨List.mem_cons_of_mem _ h1, h2⟩

/-- The loop of the input-only mode returns when every owned entity that is
not sleeping has a `modified_components`. -/
theorem export_input_only_isSome (cfg : exporter_config) (r : exporter_registry)
    (owned_entities : List entity)
    (hmod : ∀ e, e ∈ owned_entities → r.sleeping e = false → (r.modified e).isSome = true) :
    ∀ snap : List (entity × Nat), ∃ result,
      export_input_only cfg r owned_entities snap = some result := by
  induction owned_entities with
  | nil =>
    intro snap
    exact ⟨snap, rfl⟩
  | cons a l ih =>
    intro snap
    have ih := ih (fun e he => hmod e (List.mem_cons_of_mem _ he))
    unfold export_input_only
    by_cases hs : r.sleeping a = true
    · rw [if_pos hs]
      exact ih snap
    · rw [if_neg hs]
      obtain ⟨m, hm⟩ := Option.isSome_iff_exists.mp
        (hmod a (List.mem_cons_self _ _) (by simpa using hs))
      rw [hm]
      exact ih _

/-- C14: in the input-only mode (`allow_full_ownership = false`), every owned
entity that is not sleeping holding a `modified_components`, `export_modified`
returns and every tuple (entity, component) that it writes into the snapshot
is either a modified component whose type derives from `network_input` on a
non-sleeping entity of `owned_entities`, or the `action_history` of an entity
of `owned_entities` with a non-empty entry list; nothing is written for any
entity outside `owned_entities`. -/
theorem export_modified_input_only (cfg : exporter_config) (r : exporter_registry)
    (snap : List (entity × Nat)) (client_entity : entity) (owned_entities : List entity)
    (hmod : ∀ e, e ∈ owned_entities → r.sleeping e = false → (r.modified e).isSome = true) :
    ∃ result, export_modified cfg r snap client_entity owned_entities false = some result ∧
      (∀ w, w ∈ snap → w ∈ result) ∧
      (∀ w, w ∈ result → w ∈ snap ∨
        (w.1 ∈ owned_entities ∧ r.sleeping w.1 = false ∧ cfg.is_network_input w.2 = true ∧
          ∃ m, r.modified w.1 = some m ∧ ∃ x, x ∈ m.entry ∧ x.index = w.2) ∨
        (w.1 ∈ owned_entities ∧ w.2 = cfg.action_history_index ∧
          ∃ history, r.history w.1 = some history ∧ history.entries ≠ [])) ∧
      (∀ w, w ∈ result → w ∈ snap ∨ w.1 ∈ owned_entities) := by
  obtain ⟨snap1, hsnap1⟩ := export_input_only_isSome cfg r owned_entities hmod snap
  have hres : export_modified cfg r snap client_entity owned_entities false
      = some (export_actions cfg r owned_entities snap1) := by
    unfold export_modified
    simp [hsnap1]
  have hcases : ∀ w, w ∈ export_actions cfg r owned_entities snap1 → w ∈ snap ∨
      (w.1 ∈ owned_entities ∧ r.sleeping w.1 = false ∧ cfg.is_network_input w.2 = true ∧
        ∃ m, r.modified w.1 = some m ∧ ∃ x, x ∈ m.entry ∧ x.index = w.2) ∨
      (w.1 ∈ owned_entities ∧ w.2 = cfg.action_history_index ∧
        ∃ history, r.history w.1 = some history ∧ history.entries ≠ []) := by
    intro w hw
    rcases mem_export_actions cfg r owned_entities snap1 w hw with h1 | h1
    · rcases mem_export_input_only cfg r w owned_entities snap snap1 hsnap1 h1 with h2 | h2
      · exact Or.inl h2
      · exact Or.inr (Or.inl h2)
    · exact Or.inr (Or.inr h1)
  refine ⟨_, hres, ?_, hcases, ?_⟩
  · intro w hw
    apply subset_export_actions
    clear hres hcases
    induction owned_entities generalizing snap with
    | nil =>
      unfold export_input_only at hsnap1
      rw [← Option.some.inj hsnap1]
      exact hw
    | cons a l ih =>
      unfold export_input_only at hsnap1
      by_cases hs : r.sleeping a = true
      · rw [if_pos hs] at hsnap1
        exact ih snap (fun e he => hmod e (List.mem_cons_of_mem _ he)) hsnap1 hw
      · rw [if_neg hs] at hsnap1
        cases hm : r.modified a with
        | none =>
          rw [hm] at hsnap1
          exact absurd hsnap1 (by simp)
        | some m =>
          rw [hm] at hsnap1
          simp only at hsnap1
          refine ih _ (fun e he => hmod e (List.mem_cons_of_mem _ he)) hsnap1 ?_
          have h3 := subset_foldl_snapshot_insert a
            (fun i => decide (i < cfg.N ∧ cfg.is_network_input i = true)) m.entry w snap hw
          simpa using h3
  · intro w hw
    rcases hcases w hw with h | h | h
    · exact Or.inl h
    · exact Or.inr h.1
    · exact Or.inr h.1

/-- Witness of C14: in the sample registry with body `1` owned, the input-only
export writes the modified input (index `5`) and the pending actions (index
`4`) of body `1`, and not its modified position. -/
theorem export_modified_input_only_witness :
    export_modified sample_exporter_config sample_exporter_registry [] (entity.id 100)
        [entity.id 1] false = some [(entity.id 1, 5), (entity.id 1, 4)] ∧
    ∃ result, export_modified sample_exporter_config sample_exporter_registry []
        (entity.id 100) [entity.id 1] false = some result ∧
      ∀ w, w ∈ result → w ∈ ([] : List (entity × Nat)) ∨ w.1 ∈ [entity.id 1] := by
  refine ⟨by decide, ?_⟩
  obtain ⟨result, hres, _, _, hout⟩ :=
    export_modified_input_only sample_exporter_config sample_exporter_registry []
      (entity.id 100) [entity.id 1] (by decide)
  exact ⟨result, hres, hout⟩

theorem export_entity_full_of_owned_by_another (cfg : exporter_config) (r : exporter_registry)
    (client_entity : entity) (snap : List (entity × Nat)) (ent : entity)
    (h : r.owned_by_another client_entity ent) :
    export_entity_full cfg r client_entity snap ent = snap := by
  obtain ⟨c, hc, hne⟩ := h
  unfold export_entity_full
  simp [hc, hne]

theorem export_entity_full_of_not_owned_by_another (cfg : exporter_config)
    (r : exporter_registry) (client_entity : entity) (snap : List (entity × Nat)) (ent : entity)
    (h : ¬ r.owned_by_another client_entity ent) :
    export_entity_full cfg r client_entity snap ent
      = (match r.modified ent with
          | some modified =>
            modified.entry.foldl
              (fun s e => if decide (e.index < cfg.N) = true then
                snapshot_insert_entity ent s e.index else s) snap
          | none => snap)
        ++ (if r.body ent = true then
              [(ent, cfg.position_index), (ent, cfg.orientation_index), (ent, cfg.linvel_index),
                (ent, cfg.angvel_index)]
            else []) := by
  have hno : (match r.owner ent with
      | some owner => decide (owner ≠ client_entity)
      | none => false) = false := by
    cases hc : r.owner ent with
    | none => rfl
    | some c =>
      simp only [decide_eq_false_iff_not, not_not]
      by_contra hne
      exact h ⟨c, hc, hne⟩
  unfold export_entity_full
  simp only [hno]
  cases r.modified ent <;> cases r.body ent <;>
    simp [snapshot_insert_entity]

/-- What the export of one entity writes in the full ownership mode. -/
theorem mem_export_entity_full (cfg : exporter_config) (r : exporter_registry)
    (client_entity : entity) (snap : List (entity × Nat)) (ent : entity) (w : entity × Nat)
    (h : w ∈ export_entity_full cfg r client_entity snap ent) :
    w ∈ snap ∨ (w.1 = ent ∧ ¬ r.owned_by_another client_entity ent) := by
  by_cases hown : r.owned_by_another client_entity ent
  · rw [export_entity_full_of_owned_by_another cfg r client_entity snap ent hown] at h
    exact Or.inl h
  · rw [export_entity_full_of_not_owned_by_another cfg r client_entity snap ent hown] at h
    rcases List.mem_append.mp h with h1 | h1
    · cases hm : r.modified ent with
      | none =>
        rw [hm] at h1
        exact Or.inl h1
      | some m =>
        rw [hm] at h1
        rcases mem_foldl_snapshot_insert ent (fun i => decide (i < cfg.N)) m.entry w snap h1
          with h2 | h2
        · exact Or.inl h2
        · exact Or.inr ⟨h2.1, hown⟩
    · right
      refine ⟨?_, hown⟩
      split_ifs at h1
      · simp only [List.mem_cons, List.mem_singleton, List.not_mem_nil, or_false] at h1
        rcases h1 with h2 | h2 | h2 | h2 <;> rw [h2]
      · exact absurd h1 (List.not_mem_nil _)

/-- The export of one entity keeps what the snapshot held. -/
theorem subset_export_entity_full (cfg : exporter_config) (r : exporter_registry)
    (client_entity : entity) (snap : List (entity × Nat)) (ent : entity) (w : entity × Nat)
    (h : w ∈ snap) : w ∈ export_entity_full cfg r client_entity snap ent := by
  by_cases hown : r.owned_by_another client_entity ent
  · rw [export_entity_full_of_owned_by_another cfg r client_entity snap ent hown]
    exact h
  · rw [export_entity_full_of_not_owned_by_another cfg r client_entity snap ent hown]
    apply List.mem_append_left
    cases r.modified ent with
    | none => exact h
    | some m =>
      exact subset_foldl_snapshot_insert ent (fun i => decide (i < cfg.N)) m.entry w snap h

/-- The export of a body that no other client owns writes its position,
orientation and velocities. -/
theorem body_mem_export_entity_full (cfg : exporter_config) (r : exporter_registry)
    (client_entity : entity) (snap : List (entity × Nat)) (ent : entity)
    (hown : ¬ r.owned_by_another client_entity ent) (hbody : r.body ent = true) :
    (ent, cfg.position_index) ∈ export_entity_full cfg r client_entity snap ent ∧
    (ent, cfg.orientation_index) ∈ export_entity_full cfg r client_entity snap ent ∧
    (ent, cfg.linvel_index) ∈ export_entity_full cfg r client_entity snap ent ∧
    (ent, cfg.angvel_index) ∈ export_entity_full cfg r client_entity snap ent := by
  rw [export_entity_full_of_not_owned_by_another cfg r client_entity snap ent hown, if_pos hbody]
  refine ⟨?_, ?_, ?_, ?_⟩ <;> apply List.mem_append_right <;> simp

/-- What the export of a list of entities writes in the full ownership mode. -/
theorem mem_foldl_export_entity_full (cfg : exporter_config) (r : exporter_registry)
    (client_entity : entity) (w : entity × Nat) (entities : List entity) :
    ∀ snap : List (entity × Nat),
      w ∈ entities.foldl (export_entity_full cfg r client_entity) snap →
      w ∈ snap ∨ ¬ r.owned_by_another client_entity w.1 := by
  induction entities with
  | nil =>
    intro snap h
    exact Or.inl h
  | cons a l ih =>
    intro snap h
    rw [List.foldl_cons] at h
    rcases ih _ h with h1 | h1
    · rcases mem_export_entity_full cfg r client_entity snap a w h1 with h2 | h2
      · exact Or.inl h2
      · right
        rw [h2.1]
        exact h2.2
    · exact Or.inr h1

theorem subset_foldl_export_entity_full (cfg : exporter_config) (r : exporter_registry)
    (client_entity : entity) (w : entity × Nat) (entities : List entity) :
    ∀ snap : List (entity × Nat), w ∈ snap →
      w ∈ entities.foldl (export_entity_full cfg r client_entity) snap := by
  induction entities with
  | nil =>
    intro snap h
    exact h
  | cons a l ih =>
    intro snap h
    rw [List.foldl_cons]
    exact ih _ (subset_export_entity_full cfg r client_entity snap a w h)

/-- The export of a list of entities writes the position, orientation and
velocities of every body in the list that no other client owns. -/
theorem body_mem_foldl_export_entity_full (cfg : exporter_config) (r : exporter_registry)
    (client_entity : entity) (ent : entity)
    (hown : ¬ r.owned_by_another client_entity ent) (hbody : r.body ent = true)
    (entities : List entity) (hmem : ent ∈ entities) :
    ∀ snap : List (entity × Nat),
      (ent, cfg.position_index) ∈ entities.foldl (export_entity_full cfg r client_entity) snap ∧
      (ent, cfg.orientation_index)
        ∈ entities.foldl (export_entity_full cfg r client_entity) snap ∧
      (ent, cfg.linvel_index) ∈ entities.foldl (export_entity_full cfg r client_entity) snap ∧
      (ent, cfg.angvel_index) ∈ entities.foldl (export_entity_full cfg r client_entity) snap := by
  induction entities with
  | nil => exact absurd hmem (List.not_mem_nil _)
  | cons a l ih =>
    intro snap
    rw [List.foldl_cons]
    rcases List.mem_cons.mp hmem with h | h
    · subst h
      obtain ⟨h1, h2, h3, h4⟩ := body_mem_export_entity_full cfg r client_entity snap ent hown hbody
      exact ⟨subset_foldl_export_entity_full cfg r client_entity _ l _ h1,
        subset_foldl_export_entity_full cfg r client_entity _ l _ h2,
        subset_foldl_export_entity_full cfg r client_entity _ l _ h3,
        subset_foldl_export_entity_full cfg r client_entity _ l _ h4⟩
    · exact ih h _

/-- One turn of the loop over `to_visit`, spelt out. -/
theorem export_visit_loop_cons (cfg : exporter_config) (r : exporter_registry)
    (client_entity : entity) (fuel : Nat) (first : entity) (rest : List entity)
    (snap : List (entity × Nat)) (node_index : Nat) (hnode : r.node first = some node_index) :
    export_visit_loop cfg r client_entity (fuel + 1) (first :: rest) snap
      = export_visit_loop cfg r client_entity fuel
          ((first :: rest).filter (fun e => ¬ e ∈ r.visited_entities node_index))
          (if (r.visited_entities node_index).any
              (fun node_entity => decide (r.owner node_entity = some client_entity)) = true then
            (r.visited_entities node_index).foldl (export_entity_full cfg r client_entity) snap
          else snap) := by
  rw [export_visit_loop]
  simp only [hnode]

/-- What the loop over `to_visit` writes, and that it keeps what the snapshot
held. -/
theorem mem_export_visit_loop (cfg : exporter_config) (r : exporter_registry)
    (client_entity : entity) (w : entity × Nat) :
    ∀ (fuel : Nat) (to_visit : List entity) (snap result : List (entity × Nat)),
      export_visit_loop cfg r client_entity fuel to_visit snap = some result →
      (w ∈ snap → w ∈ result) ∧
      (w ∈ result → w ∈ snap ∨ ¬ r.owned_by_another client_entity w.1) := by
  intro fuel
  induction fuel with
  | zero =>
    intro to_visit snap result h
    cases to_visit with
    | nil =>
      rw [export_visit_loop] at h
      rw [← Option.some.inj h]
      exact ⟨id, Or.inl⟩
    | cons a l =>
      rw [export_visit_loop] at h
      exact absurd h (by simp)
  | succ fuel ih =>
    intro to_visit snap result h
    cases to_visit with
    | nil =>
      rw [export_visit_loop] at h
      rw [← Option.some.inj h]
      exact ⟨id, Or.inl⟩
    | cons first rest =>
      cases hnode : r.node first with
      | none =>
        rw [export_visit_loop] at h
        simp only [hnode] at h
        exact absurd h (by simp)
      | some node_index =>
        rw [export_visit_loop_cons cfg r client_entity fuel first rest snap node_index hnode] at h
        obtain ⟨hsub, hmem⟩ := ih _ _ _ h
        constructor
        · intro hw
          apply hsub
          split_ifs
          · exact subset_foldl_export_entity_full cfg r client_entity w _ snap hw
          · exact hw
        · intro hw
          rcases hmem hw with h1 | h1
          · split_ifs at h1
            · exact mem_foldl_export_entity_full cfg r client_entity w _ snap h1
            · exact Or.inl h1
          · exact Or.inr h1

/-- The loop over `to_visit` returns when every node to visit has a
`graph_node` and is visited by the traversal that starts from it. -/
theorem export_visit_loop_isSome (cfg : exporter_config) (r : exporter_registry)
    (client_entity : entity) :
    ∀ (fuel : Nat) (to_visit : List entity) (snap : List (entity × Nat)),
      to_visit.length ≤ fuel →
      (∀ t, t ∈ to_visit → ∃ i, r.node t = some i ∧ t ∈ r.visited_entities i) →
      ∃ result, export_visit_loop cfg r client_entity fuel to_visit snap = some result := by
  intro fuel
  induction fuel with
  | zero =>
    intro to_visit snap hlen _
    have : to_visit = [] := List.length_eq_zero.mp (Nat.le_zero.mp hlen)
    subst this
    exact ⟨snap, by rw [export_visit_loop]⟩
  | succ fuel ih =>
    intro to_visit snap hlen hnodes
    cases to_visit with
    | nil => exact ⟨snap, by rw [export_visit_loop]⟩
    | cons first rest =>
      obtain ⟨i, hi, hvisited⟩ := hnodes first (List.mem_cons_self _ _)
      rw [export_visit_loop_cons cfg r client_entity fuel first rest snap i hi]
      apply ih
      · rw [List.filter_cons_of_neg (by simpa using hvisited)]
        exact (List.length_filter_le _ _).trans (by simpa using hlen)
      · intro t ht
        exact hnodes t (List.mem_of_mem_filter ht)

/-- The loop over `to_visit` writes the position, orientation and velocities
of every body, not owned by another client, that is visited from a node to
visit that the client owns. -/
theorem body_mem_export_visit_loop (cfg : exporter_config) (r : exporter_registry)
    (client_entity : entity)
    (htrans : ∀ a ia b ib c, r.node a = some ia → r.node b = some ib →
      b ∈ r.visited_entities ia → c ∈ r.visited_entities ib → c ∈ r.visited_entities ia)
    (o : entity) (io : Nat) (hio : r.node o = some io) (howner : r.owner o = some client_entity)
    (ent : entity) (hvisited : ent ∈ r.visited_entities io)
    (hown : ¬ r.owned_by_another client_entity ent) (hbody : r.body ent = true) :
    ∀ (fuel : Nat) (to_visit : List entity) (snap result : List (entity × Nat)),
      export_visit_loop cfg r client_entity fuel to_visit snap = some result →
      o ∈ to_visit →
      (ent, cfg.position_index) ∈ result ∧ (ent, cfg.orientation_index) ∈ result ∧
      (ent, cfg.linvel_index) ∈ result ∧ (ent, cfg.angvel_index) ∈ result := by
  intro fuel
  induction fuel with
  | zero =>
    intro to_visit snap result h ho
    cases to_visit with
    | nil => exact absurd ho (List.not_mem_nil _)
    | cons a l =>
      rw [export_visit_loop] at h
      exact absurd h (by simp)
  | succ fuel ih =>
    intro to_visit snap result h ho
    cases to_visit with
    | nil => exact absurd ho (List.not_mem_nil _)
    | cons first rest =>
      cases hnode : r.node first with
      | none =>
        rw [export_visit_loop] at h
        simp only [hnode] at h
        exact absurd h (by simp)
      | some node_index =>
        rw [export_visit_loop_cons cfg r client_entity fuel first rest snap node_index hnode] at h
        by_cases hov : o ∈ r.visited_entities node_index
        · have hreach : (r.visited_entities node_index).any
              (fun node_entity => decide (r.owner node_entity = some client_entity)) = true := by
            rw [List.any_eq_true]
            exact ⟨o, hov, by simp [howner]⟩
          rw [if_pos hreach] at h
          have hent : ent ∈ r.visited_entities node_index :=
            htrans first node_index o io ent hnode hio hov hvisited
          obtain ⟨h1, h2, h3, h4⟩ := body_mem_foldl_export_entity_full cfg r client_entity ent
            hown hbody _ hent snap
          exact ⟨(mem_export_visit_loop cfg r client_entity _ _ _ _ _ h).1 h1,
            (mem_export_visit_loop cfg r client_entity _ _ _ _ _ h).1 h2,
            (mem_export_visit_loop cfg r client_entity _ _ _ _ _ h).1 h3,
            (mem_export_visit_loop cfg r client_entity _ _ _ _ _ h).1 h4⟩
        · apply ih _ _ _ h
          rw [List.mem_filter]
          exact ⟨ho, by simpa using hov⟩

/-- The nodes collected in `to_visit`: every owned node that is not sleeping
and is not an edge is among them, and each of them is such a node or the
first node of an owned edge. -/
theorem mem_export_collect_to_visit (r : exporter_registry) (owned_entities : List entity) :
    (∀ o, o ∈ owned_entities → r.sleeping o = false → r.edge o = none →
      (r.node o).isSome = true → o ∈ export_collect_to_visit r owned_entities) ∧
    (∀ t, t ∈ export_collect_to_visit r owned_entities →
      (t ∈ owned_entities ∧ (r.node t).isSome = true) ∨
      ∃ o idx, o ∈ owned_entities ∧ r.edge o = some idx ∧ t = (r.edge_node_entities idx).1) := by
  unfold export_collect_to_visit
  induction owned_entities using List.reverseRecOn with
  | nil =>
    exact ⟨fun o ho => absurd ho (List.not_mem_nil _), fun t ht => absurd ht (List.not_mem_nil _)⟩
  | append_singleton l a ih =>
    rw [List.foldl_append, List.foldl_cons, List.foldl_nil]
    generalize List.foldl _ [] l = tv at ih ⊢
    obtain ⟨ih1, ih2⟩ := ih
    have hup : ∀ t, ((t ∈ l ∧ (r.node t).isSome = true) ∨
          ∃ o idx, o ∈ l ∧ r.edge o = some idx ∧ t = (r.edge_node_entities idx).1) →
        ((t ∈ l ++ [a] ∧ (r.node t).isSome = true) ∨
          ∃ o idx, o ∈ l ++ [a] ∧ r.edge o = some idx ∧ t = (r.edge_node_entities idx).1) := by
      intro t ht
      rcases ht with ht | ⟨o, idx, ho, he, ht⟩
      · exact Or.inl ⟨List.mem_append_left _ ht.1, ht.2⟩
      · exact Or.inr ⟨o, idx, List.mem_append_left _ ho, he, ht⟩
    by_cases hs : r.sleeping a = true
    · simp only [hs, if_true]
      constructor
      · intro o ho hso heo hno
        rcases List.mem_append.mp ho with h | h
        · exact ih1 o h hso heo hno
        · rw [List.mem_singleton] at h
          rw [h, hs] at hso
          exact absurd hso (by simp)
      · intro t ht
        exact hup t (ih2 t ht)
    · simp only [hs]
      cases hedge : r.edge a with
      | some idx =>
        simp only
        by_cases hin : (r.edge_node_entities idx).1 ∈ tv
        · rw [if_neg (not_not.mpr hin)]
          constructor
          · intro o ho hso heo hno
            rcases List.mem_append.mp ho with h | h
            · exact ih1 o h hso heo hno
            · rw [List.mem_singleton] at h
              rw [h, hedge] at heo
              exact absurd heo (by simp)
          · intro t ht
            exact hup t (ih2 t ht)
        · rw [if_pos hin]
          constructor
          · intro o ho hso heo hno
            rcases List.mem_append.mp ho with h | h
            · exact List.mem_append_left _ (ih1 o h hso heo hno)
            · rw [List.mem_singleton] at h
              rw [h, hedge] at heo
              exact absurd heo (by simp)
          · intro t ht
            rcases List.mem_append.mp ht with h | h
            · exact hup t (ih2 t h)
            · rw [List.mem_singleton] at h
              exact Or.inr ⟨a, idx, by simp, hedge, h⟩
      | none =>
        simp only
        by_cases hc : (r.node a).isSome = true ∧ ¬ a ∈ tv
        · rw [if_pos hc]
          constructor
          · intro o ho hso heo hno
            rcases List.mem_append.mp ho with h | h
            · exact List.mem_append_left _ (ih1 o h hso heo hno)
            · rw [List.mem_singleton] at h
              rw [h]
              exact List.mem_append_right _ (List.mem_singleton_self _)
          · intro t ht
            rcases List.mem_append.mp ht with h | h
            · exact hup t (ih2 t h)
            · rw [List.mem_singleton] at h
              exact Or.inl ⟨by simp [h], by rw [h]; exact hc.1⟩
        · rw [if_neg hc]
          constructor
          · intro o ho hso heo hno
            rcases List.mem_append.mp ho with h | h
            · exact ih1 o h hso heo hno
            · rw [List.mem_singleton] at h
              rw [h] at hno ⊢
              by_contra hnot
              exact hc ⟨hno, hnot⟩
          · intro t ht
            exact hup t (ih2 t ht)

/-- C13: in the full ownership mode (`allow_full_ownership = true`), provided
`owned_entities` contains only entities owned by `client_entity`,
`export_modified` returns and writes into the snapshot no component of any
entity whose `entity_owner` names a client other than `client_entity`; and
for every dynamic body that is visited by the graph traversal from a
non-sleeping owned node (it is in the connected component of that node) and
is not owned by another client, it writes position, orientation, linvel and
angvel, whether or not they are marked modified. The entity graph is not
among the sources: it is assumed that the first node of an owned edge has a
`graph_node`, that a traversal visits the node it starts from, and that it
visits whatever a traversal from a node it visits would visit. -/
theorem export_modified_full_ownership (cfg : exporter_config) (r : exporter_registry)
    (snap : List (entity × Nat)) (client_entity : entity) (owned_entities : List entity)
    (howned : ∀ e, e ∈ owned_entities → r.owner e = some client_entity)
    (hedge : ∀ e idx, e ∈ owned_entities → r.edge e = some idx →
      (r.node (r.edge_node_entities idx).1).isSome = true)
    (hrefl : ∀ e i, r.node e = some i → e ∈ r.visited_entities i)
    (htrans : ∀ a ia b ib c, r.node a = some ia → r.node b = some ib →
      b ∈ r.visited_entities ia → c ∈ r.visited_entities ib → c ∈ r.visited_entities ia) :
    ∃ result, export_modified cfg r snap client_entity owned_entities true = some result ∧
      (∀ w, w ∈ result → w ∈ snap ∨ ¬ r.owned_by_another client_entity w.1) ∧
      (∀ o io ent, o ∈ owned_entities → r.sleeping o = false → r.edge o = none →
        r.node o = some io → ent ∈ r.visited_entities io → r.body ent = true →
        ¬ r.owned_by_another client_entity ent →
        (ent, cfg.position_index) ∈ result ∧ (ent, cfg.orientation_index) ∈ result ∧
        (ent, cfg.linvel_index) ∈ result ∧ (ent, cfg.angvel_index) ∈ result) := by
  obtain ⟨hcollect1, hcollect2⟩ := mem_export_collect_to_visit r owned_entities
  have hnodes : ∀ t, t ∈ export_collect_to_visit r owned_entities →
      ∃ i, r.node t = some i ∧ t ∈ r.visited_entities i := by
    intro t ht
    have hsome : (r.node t).isSome = true := by
      rcases hcollect2 t ht with h | ⟨o, idx, ho, he, h⟩
      · exact h.2
      · rw [h]
        exact hedge o idx ho he
    obtain ⟨i, hi⟩ := Option.isSome_iff_exists.mp hsome
    exact ⟨i, hi, hrefl t i hi⟩
  obtain ⟨snap1, hsnap1⟩ := export_visit_loop_isSome cfg r client_entity
    (export_collect_to_visit r owned_entities).length (export_collect_to_visit r owned_entities)
    snap (le_refl _) hnodes
  have hres : export_modified cfg r snap client_entity owned_entities true
      = some (export_actions cfg r owned_entities snap1) := by
    unfold export_modified
    simp [hsnap1]
  refine ⟨_, hres, ?_, ?_⟩
  · intro w hw
    rcases mem_export_actions cfg r owned_entities snap1 w hw with h1 | h1
    · exact (mem_export_visit_loop cfg r client_entity w _ _ _ _ hsnap1).2 h1
    · right
      rintro ⟨c, hc, hne⟩
      rw [howned w.1 h1.1] at hc
      exact hne (Option.some.inj hc).symm
  · intro o io ent ho hso heo hio hvisited hbody hown
    have hov : o ∈ export_collect_to_visit r owned_entities :=
      hcollect1 o ho hso heo (by rw [hio]; rfl)
    obtain ⟨h1, h2, h3, h4⟩ := body_mem_export_visit_loop cfg r client_entity htrans o io hio
      (howned o ho) ent hvisited hown hbody _ _ _ _ hsnap1 hov
    exact ⟨subset_export_actions cfg r owned_entities _ snap1 h1,
      subset_export_actions cfg r owned_entities _ snap1 h2,
      subset_export_actions cfg r owned_entities _ snap1 h3,
      subset_export_actions cfg r owned_entities _ snap1 h4⟩

/-- Witness of C13: in the sample registry with body `1` owned, the full
ownership export writes nothing of body `3`, which the client `200` owns, and
writes the position, orientation and velocities of body `2`, of which only the
linear velocity is marked modified. -/
theorem export_modified_full_ownership_witness :
    ∃ result, export_modified sample_exporter_config sample_exporter_registry []
        (entity.id 100) [entity.id 1] true = some result ∧
      (∀ w, w ∈ result → w.1 ≠ entity.id 3) ∧
      (entity.id 2, 0) ∈ result ∧ (entity.id 2, 1) ∈ result ∧
      (entity.id 2, 2) ∈ result ∧ (entity.id 2, 3) ∈ result := by
  have hvisited : ∀ i, sample_exporter_registry.visited_entities i
      = if i < 3 then [entity.id 1, entity.id 2, entity.id 3] else [entity.id (i + 1)] := by
    intro i
    unfold exporter_registry.visited_entities
    by_cases h : i < 3 <;> simp [sample_exporter_registry, h]
  have hnode : ∀ e i, sample_exporter_registry.node e = some i →
      i < 3 ∧ e = entity.id (i + 1) := by
    intro e i h
    simp only [sample_exporter_registry] at h
    split_ifs at h with h1 h2 h3
    · rw [← Option.some.inj h, h1]; exact ⟨by decide, rfl⟩
    · rw [← Option.some.inj h, h2]; exact ⟨by decide, rfl⟩
    · rw [← Option.some.inj h, h3]; exact ⟨by decide, rfl⟩
  obtain ⟨result, hres, hnot, hbody⟩ :=
    export_modified_full_ownership sample_exporter_config sample_exporter_registry []
      (entity.id 100) [entity.id 1] (by decide)
      (fun e idx _ h => absurd h (by simp [sample_exporter_registry]))
      (by
        intro e i h
        obtain ⟨hi, he⟩ := hnode e i h
        rw [hvisited, if_pos hi, he]
        interval_cases i <;> simp)
      (by
        intro a ia b ib c ha hb hba hcb
        obtain ⟨hia, _⟩ := hnode a ia ha
        obtain ⟨hib, _⟩ := hnode b ib hb
        rw [hvisited, if_pos hib] at hcb
        rw [hvisited, if_pos hia]
        exact hcb)
  have h2 := hbody (entity.id 1) 0 (entity.id 2) (by decide) (by decide) (by decide)
    (by decide) (by decide) (by decide) (by
      rintro ⟨c, hc, _⟩
      simp [sample_exporter_registry] at hc)
  refine ⟨result, hres, ?_, h2⟩
  intro w hw hw3
  rcases hnot w hw with h | h
  · exact absurd h (List.not_mem_nil _)
  · apply h
    rw [hw3]
    exact ⟨entity.id 200, by decide, by decide⟩

/-! ## Theorems about `process_packet(registry_snapshot)` -/

/-- Function `contains_unknown_entities` answers `true` exactly when one of
the remote entities has no mapping or is mapped to an invalid entity. -/
theorem contains_unknown_entities_iff {Pools : Type} (s : client_state Pools)
    (remote_entities : List entity) :
    contains_unknown_entities s remote_entities = true ↔
      ∃ remote, remote ∈ remote_entities ∧
        (s.entity_map.contains remote = false ∨
          s.valid (s.entity_map.at_rem remote) = false) := by
  induction remote_entities with
  | nil => simp [contains_unknown_entities]
  | cons a l ih =>
    unfold contains_unknown_entities
    cases h1 : s.entity_map.contains a
    · simp only [Bool.false_eq_true, not_false_eq_true, if_true, true_iff]
      exact ⟨a, List.mem_cons_self _ _, Or.inl h1⟩
    · simp only [not_true_eq_false, if_false]
      cases h2 : s.valid (s.entity_map.at_rem a)
      · simp only [Bool.false_eq_true, not_false_eq_true, if_true, true_iff]
        exact ⟨a, List.mem_cons_self _ _, Or.inr h2⟩
      · simp only [not_true_eq_false, if_false]
        rw [ih]
        constructor
        · rintro ⟨x, hx, hu⟩
          exact ⟨x, List.mem_cons_of_mem _ hx, hu⟩
        · rintro ⟨x, hx, hu⟩
          rcases List.mem_cons.mp hx with h | h
          · subst h
            rcases hu with hu | hu
            · rw [h1] at hu
              exact absurd hu (by simp)
            · rw [h2] at hu
              exact absurd hu (by simp)
          · exact ⟨x, h, hu⟩

/-- C11: if a `registry_snapshot` names at least one remote entity that is
absent from the client's entity map, or whose mapped local entity is invalid,
processing the packet is a no-op: no snapshot is applied to the registry (no
component is changed), nothing is added to the input history and no
extrapolation request is sent. -/
theorem process_packet_unknown_entity_noop {Pools : Type} (s : client_state Pools)
    (time : scalar) (snapshot : registry_snapshot Pools) (remote : entity)
    (hmem : remote ∈ snapshot.entities)
    (hunknown : s.entity_map.contains remote = false ∨
      s.valid (s.entity_map.at_rem remote) = false) :
    process_packet_registry_snapshot s time snapshot
      = { history_insert := none, snapped := none, action_time_threshold := none,
          request := none } := by
  have h : contains_unknown_entities s snapshot.entities = true :=
    (contains_unknown_entities_iff s snapshot.entities).mpr ⟨remote, hmem, hunknown⟩
  unfold process_packet_registry_snapshot
  rw [if_pos h]

/-- Witness of C11: a snapshot that names the known remote entity `11`, the
remote entity `13` mapped to an invalid entity and the unknown remote entity
`14` is dropped by the sample client, both because of `13` and of `14`. -/
theorem process_packet_unknown_entity_noop_witness :
    process_packet_registry_snapshot sample_client_state 1
        (sample_snapshot [entity.id 11, entity.id 13])
      = { history_insert := none, snapped := none, action_time_threshold := none,
          request := none } ∧
    process_packet_registry_snapshot sample_client_state 1
        (sample_snapshot [entity.id 11, entity.id 14])
      = { history_insert := none, snapped := none, action_time_threshold := none,
          request := none } :=
  ⟨process_packet_unknown_entity_noop sample_client_state 1 _ (entity.id 13) (by decide)
      (Or.inr (by decide)),
    process_packet_unknown_entity_noop sample_client_state 1 _ (entity.id 14) (by decide)
      (Or.inl (by decide))⟩

/-- What `process_packet(registry_snapshot)` does with a snapshot whose
entities are all known. -/
theorem process_packet_known {Pools : Type} (s : client_state Pools) (time : scalar)
    (snapshot : registry_snapshot Pools)
    (hknown : contains_unknown_entities s snapshot.entities = false) :
    process_packet_registry_snapshot s time snapshot
      = if time - snapshot_time s time (convert_remloc s snapshot) ≤ s.fixed_dt ∨
            s.extrapolation_enabled = false ∨
            connecting_node_indices s (convert_remloc s snapshot) = [] then
          { history_insert := insert_input_to_state_history s (convert_remloc s snapshot)
              (snapshot_time s time (convert_remloc s snapshot))
            snapped := some (convert_remloc s snapshot)
            action_time_threshold := none
            request := none }
        else
          { history_insert := insert_input_to_state_history s (convert_remloc s snapshot)
              (snapshot_time s time (convert_remloc s snapshot))
            snapped := none
            action_time_threshold := some s.action_time_threshold
            request := some
              { start_time := snapshot_time s time (convert_remloc s snapshot)
                entities := extrapolation_entities s
                  (connecting_node_indices s (convert_remloc s snapshot))
                owned_entities :=
                  (extrapolation_entities s
                    (connecting_node_indices s (convert_remloc s snapshot))).filter
                    (fun ent => decide (s.entity_owner ent = some s.client_entity))
                snapshot := convert_remloc s snapshot
                should_remap := true } } := by
  unfold process_packet_registry_snapshot
  simp only [hknown, Bool.false_eq_true, if_false]
  by_cases h1 : time - snapshot_time s time (convert_remloc s snapshot) ≤ s.fixed_dt
  · simp [h1, not_lt.mpr h1]
  · by_cases h2 : s.extrapolation_enabled = false
    · simp [h2]
    · by_cases h3 : connecting_node_indices s (convert_remloc s snapshot) = []
      · simp [h2, h3]
      · simp [h1, h2, h3, not_le.mp h1]

/-- The sample client converts the snapshot of the remote entity `11` into a
snapshot of body `1`, which is a connecting node, and the snapshot of the
remote entity `12` into a snapshot of body `2`, which is not. -/
theorem sample_snapshot_converted :
    (convert_remloc sample_client_state (sample_snapshot [entity.id 11])).entities
        = [entity.id 1] ∧
      connecting_node_indices sample_client_state
        (convert_remloc sample_client_state (sample_snapshot [entity.id 11])) = [0] ∧
      (convert_remloc sample_client_state (sample_snapshot [entity.id 12])).entities
        = [entity.id 2] ∧
      connecting_node_indices sample_client_state
        (convert_remloc sample_client_state (sample_snapshot [entity.id 12])) = [] := by
  refine ⟨?_, ?_, ?_, ?_⟩ <;> decide

/-- The sample client places a snapshot taken at the server time `0` at the
local time `0`. -/
theorem sample_snapshot_time (time : scalar) (entities : List entity) :
    snapshot_time sample_client_state time
      (convert_remloc sample_client_state (sample_snapshot entities)) = 0 := by
  norm_num [snapshot_time, convert_remloc, sample_client_state, sample_snapshot]

/-- Counterexample to C12: (1) a snapshot of known entities whose timestamp
differs from the current time by exactly `fixed_dt` is snapped into the
registry although the difference is not less than `fixed_dt` and
extrapolation is enabled; (2) a snapshot that is a whole second old is
snapped as well, with extrapolation enabled, because none of its entities is
a connecting node of the entity graph. In neither case is an extrapolation
request sent. -/
theorem process_packet_snaps_at_fixed_dt :
    (contains_unknown_entities sample_client_state
        (sample_snapshot [entity.id 11]).entities = false ∧
      ¬ ((1 / 60 : scalar) - snapshot_time sample_client_state (1 / 60)
            (convert_remloc sample_client_state (sample_snapshot [entity.id 11]))
          < sample_client_state.fixed_dt) ∧
      sample_client_state.extrapolation_enabled = true ∧
      (process_packet_registry_snapshot sample_client_state (1 / 60)
          (sample_snapshot [entity.id 11])).snapped
        = some (convert_remloc sample_client_state (sample_snapshot [entity.id 11])) ∧
      (process_packet_registry_snapshot sample_client_state (1 / 60)
          (sample_snapshot [entity.id 11])).request = none) ∧
    (contains_unknown_entities sample_client_state
        (sample_snapshot [entity.id 12]).entities = false ∧
      ¬ ((1 : scalar) - snapshot_time sample_client_state 1
            (convert_remloc sample_client_state (sample_snapshot [entity.id 12]))
          < sample_client_state.fixed_dt) ∧
      sample_client_state.extrapolation_enabled = true ∧
      (process_packet_registry_snapshot sample_client_state 1
          (sample_snapshot [entity.id 12])).snapped
        = some (convert_remloc sample_client_state (sample_snapshot [entity.id 12])) ∧
      (process_packet_registry_snapshot sample_client_state 1
          (sample_snapshot [entity.id 12])).request = none) := by
  have hk1 : contains_unknown_entities sample_client_state
      (sample_snapshot [entity.id 11]).entities = false := by decide
  have hk2 : contains_unknown_entities sample_client_state
      (sample_snapshot [entity.id 12]).entities = false := by decide
  have hdt : sample_client_state.fixed_dt = 1 / 60 := rfl
  refine ⟨⟨hk1, ?_, rfl, ?_, ?_⟩, ⟨hk2, ?_, rfl, ?_, ?_⟩⟩
  · rw [sample_snapshot_time, hdt]; norm_num
  · rw [process_packet_known _ _ _ hk1, if_pos]
    left
    rw [sample_snapshot_time, hdt]; norm_num
  · rw [process_packet_known _ _ _ hk1, if_pos]
    left
    rw [sample_snapshot_time, hdt]; norm_num
  · rw [sample_snapshot_time, hdt]; norm_num
  · rw [process_packet_known _ _ _ hk2, if_pos]
    exact Or.inr (Or.inr sample_snapshot_converted.2.2.2)
  · rw [process_packet_known _ _ _ hk2, if_pos]
    exact Or.inr (Or.inr sample_snapshot_converted.2.2.2)

/-- C12 (amended): a `registry_snapshot` whose entities are all known is
snapped directly into the registry, and no extrapolation request is sent,
exactly when its timestamp differs from the current time by at most
`fixed_dt`, or extrapolation is disabled, or none of its entities is a
connecting node of the entity graph; in every other case nothing is snapped
and an extrapolation request that starts at the snapshot time and carries
the converted snapshot is sent to the extrapolation worker. -/
theorem process_packet_snap_or_extrapolate {Pools : Type} (s : client_state Pools)
    (time : scalar) (snapshot : registry_snapshot Pools)
    (hknown : ∀ remote, remote ∈ snapshot.entities →
      s.entity_map.contains remote = true ∧ s.valid (s.entity_map.at_rem remote) = true) :
    ((time - snapshot_time s time (convert_remloc s snapshot) ≤ s.fixed_dt ∨
        s.extrapolation_enabled = false ∨
        connecting_node_indices s (convert_remloc s snapshot) = []) →
      (process_packet_registry_snapshot s time snapshot).snapped
          = some (convert_remloc s snapshot) ∧
        (process_packet_registry_snapshot s time snapshot).request = none) ∧
    (¬ (time - snapshot_time s time (convert_remloc s snapshot) ≤ s.fixed_dt ∨
        s.extrapolation_enabled = false ∨
        connecting_node_indices s (convert_remloc s snapshot) = []) →
      (process_packet_registry_snapshot s time snapshot).snapped = none ∧
        ∃ req, (process_packet_registry_snapshot s time snapshot).request = some req ∧
          req.start_time = snapshot_time s time (convert_remloc s snapshot) ∧
          req.snapshot = convert_remloc s snapshot ∧
          req.entities = extrapolation_entities s
            (connecting_node_indices s (convert_remloc s snapshot))) := by
  have hk : contains_unknown_entities s snapshot.entities = false := by
    cases h : contains_unknown_entities s snapshot.entities
    · rfl
    · obtain ⟨x, hx, hu⟩ := (contains_unknown_entities_iff s snapshot.entities).mp h
      obtain ⟨h1, h2⟩ := hknown x hx
      rcases hu with hu | hu
      · rw [h1] at hu
        exact absurd hu (by simp)
      · rw [h2] at hu
        exact absurd hu (by simp)
  rw [process_packet_known s time snapshot hk]
  constructor
  · intro h
    rw [if_pos h]
    exact ⟨rfl, rfl⟩
  · intro h
    rw [if_neg h]
    exact ⟨rfl, _, rfl, rfl, rfl, rfl⟩

/-- Witness of C12 (amended): the sample client snaps a snapshot of body `1`
that is exactly `fixed_dt` old, and sends a snapshot of the same body that is
a whole second old to the extrapolation worker. -/
theorem process_packet_snap_or_extrapolate_witness :
    ((process_packet_registry_snapshot sample_client_state (1 / 60)
          (sample_snapshot [entity.id 11])).snapped
        = some (convert_remloc sample_client_state (sample_snapshot [entity.id 11])) ∧
      (process_packet_registry_snapshot sample_client_state (1 / 60)
          (sample_snapshot [entity.id 11])).request = none) ∧
    ((process_packet_registry_snapshot sample_client_state 1
          (sample_snapshot [entity.id 11])).snapped = none ∧
      ∃ req, (process_packet_registry_snapshot sample_client_state 1
          (sample_snapshot [entity.id 11])).request = some req ∧
        req.start_time = snapshot_time sample_client_state 1
          (convert_remloc sample_client_state (sample_snapshot [entity.id 11])) ∧
        req.snapshot = convert_remloc sample_client_state (sample_snapshot [entity.id 11]) ∧
        req.entities = extrapolation_entities sample_client_state
          (connecting_node_indices sample_client_state
            (convert_remloc sample_client_state (sample_snapshot [entity.id 11])))) :=
  ⟨(process_packet_snap_or_extrapolate sample_client_state (1 / 60)
      (sample_snapshot [entity.id 11]) (by decide)).1
      (Or.inl (by
        rw [sample_snapshot_time]
        norm_num [sample_client_state])),
    (process_packet_snap_or_extrapolate sample_client_state 1
      (sample_snapshot [entity.id 11]) (by decide)).2
      (by
        rw [sample_snapshot_time, sample_snapshot_converted.2.1]
        norm_num [sample_client_state])⟩

/-! ## Theorems about `prepare_constraint<soft_distance_constraint>` -/

/-- C18: `prepare_constraint<soft_distance_constraint>` adds exactly two rows
to the cache, both with the Jacobian `(dn, rA × dn, -dn, -(rB × dn))`. The
first has the impulse bounds `[min(s, 0), max(0, s)]` with
`s = stiffness * (distance - |d|) * dt` and the error `-large_scalar` when
`s > 0` and `large_scalar` otherwise. The second has the symmetric bounds
`[-|c|, |c|]` with `c = damping * relspd * dt`, where `relspd` is the Jacobian
applied to the velocities of the bodies. The rows are warm-started with
`con.impulse[0]` and `con.impulse[1]`. -/
theorem prepare_soft_distance_two_rows (EDYN_EPSILON large_scalar : scalar)
    (sqrt : scalar → scalar) (con : soft_distance_constraint)
    (cache : constraint_row_prep_cache) (dt : scalar)
    (originA posA : vector3) (ornA : quaternion) (linvelA angvelA : vector3)
    (originB posB : vector3) (ornB : quaternion) (linvelB angvelB : vector3) :
    ∃ row0 row1 : constraint_row_prep,
      prepare_constraint_soft_distance_constraint EDYN_EPSILON large_scalar sqrt con cache dt
          originA posA ornA linvelA angvelA originB posB ornB linvelB angvelB
        = cache ++ [row0, row1] ∧
      row0.J =
        (soft_distance_dn EDYN_EPSILON sqrt con originA ornA originB ornB,
          cross (pivot_arm (con.pivot 0) originA posA ornA)
            (soft_distance_dn EDYN_EPSILON sqrt con originA ornA originB ornB),
          -soft_distance_dn EDYN_EPSILON sqrt con originA ornA originB ornB,
          -cross (pivot_arm (con.pivot 1) originB posB ornB)
            (soft_distance_dn EDYN_EPSILON sqrt con originA ornA originB ornB)) ∧
      row1.J = row0.J ∧
      row0.lower_limit =
        min (con.stiffness *
          (con.distance - sqrt (length_sqr (soft_distance_d con originA ornA originB ornB)))
          * dt) 0 ∧
      row0.upper_limit =
        max 0 (con.stiffness *
          (con.distance - sqrt (length_sqr (soft_distance_d con originA ornA originB ornB)))
          * dt) ∧
      row0.options.error =
        (if con.stiffness *
            (con.distance - sqrt (length_sqr (soft_distance_d con originA ornA originB ornB)))
            * dt > 0
          then -large_scalar else large_scalar) ∧
      row1.lower_limit =
        -|con.damping * row_relspd row0.J linvelA angvelA linvelB angvelB * dt| ∧
      row1.upper_limit =
        |con.damping * row_relspd row0.J linvelA angvelA linvelB angvelB * dt| ∧
      row0.impulse = con.impulse 0 ∧
      row1.impulse = con.impulse 1 := by
  apply Exists.intro
  apply Exists.intro
  constructor
  · unfold prepare_constraint_soft_distance_constraint
    simp only [List.append_assoc, List.singleton_append]
    rfl
  · exact ⟨rfl, rfl, rfl, rfl, rfl, rfl, rfl, rfl, rfl⟩

/-! ## Theorems about `prepare_constraint<hinge_constraint>` -/

/-- The increment that the angle tracking adds is `delta` or `delta ± 2 pi`,
whichever is shortest, where `delta` is the measured angle minus the
normalised previous angle. -/
theorem hinge_track_angle_shortest (pi : scalar) (hpi : 0 < pi)
    (normalize_angle : scalar → scalar) (con : hinge_constraint) (angle : scalar) :
    (hinge_track_angle pi normalize_angle con angle - con.angle
        = angle - normalize_angle con.angle ∨
      hinge_track_angle pi normalize_angle con angle - con.angle
        = angle - normalize_angle con.angle + pi2 pi ∨
      hinge_track_angle pi normalize_angle con angle - con.angle
        = angle - normalize_angle con.angle - pi2 pi) ∧
    |hinge_track_angle pi normalize_angle con angle - con.angle|
      = min |angle - normalize_angle con.angle|
          (min |angle - normalize_angle con.angle + pi2 pi|
            |angle - normalize_angle con.angle - pi2 pi|) := by
  unfold hinge_track_angle pi2 to_sign
  simp only [add_sub_cancel_left]
  generalize angle - normalize_angle con.angle = d
  by_cases hd : d < 0
  · simp only [hd, decide_True, if_true, mul_one]
    by_cases hc : |d| < |d + pi * 2|
    · rw [if_pos hc]
      refine ⟨Or.inl rfl, ?_⟩
      have h3 : |d| ≤ |d - pi * 2| := by
        rw [abs_of_neg hd, abs_of_neg (by linarith)]
        linarith
      rw [min_eq_left (le_min hc.le h3)]
    · rw [if_neg hc]
      refine ⟨Or.inr (Or.inl rfl), ?_⟩
      have h3 : |d + pi * 2| ≤ |d - pi * 2| := by
        rw [abs_of_neg (show d - pi * 2 < 0 by linarith)]
        rcases abs_cases (d + pi * 2) with ⟨h, _⟩ | ⟨h, _⟩ <;> rw [h] <;> linarith
      rw [min_eq_left h3, min_eq_right (not_lt.mp hc)]
  · simp only [hd, decide_False, if_false, Bool.false_eq_true, mul_neg, mul_one]
    have hd0 : 0 ≤ d := not_lt.mp hd
    rw [← sub_eq_add_neg]
    by_cases hc : |d| < |d - pi * 2|
    · rw [if_pos hc]
      refine ⟨Or.inl rfl, ?_⟩
      have h3 : |d| ≤ |d + pi * 2| := by
        rw [abs_of_nonneg hd0, abs_of_nonneg (by linarith)]
        linarith
      rw [min_eq_left (le_min h3 hc.le)]
    · rw [if_neg hc]
      refine ⟨Or.inr (Or.inr rfl), ?_⟩
      have h3 : |d - pi * 2| ≤ |d + pi * 2| := by
        rw [abs_of_nonneg (show 0 ≤ d + pi * 2 by linarith)]
        rcases abs_cases (d - pi * 2) with ⟨h, _⟩ | ⟨h, _⟩ <;> rw [h] <;> linarith
      rw [min_eq_right h3, min_eq_right (not_lt.mp hc)]

/-- The increment that the angle tracking adds has magnitude at most `pi`
when the measured angle and the normalised previous angle lie in
`[-pi, pi]`. -/
theorem hinge_track_angle_abs_le (pi : scalar)
    (normalize_angle : scalar → scalar) (con : hinge_constraint) (angle : scalar)
    (hangle : -pi ≤ angle ∧ angle ≤ pi)
    (hrange : -pi ≤ normalize_angle con.angle ∧ normalize_angle con.angle ≤ pi) :
    |hinge_track_angle pi normalize_angle con angle - con.angle| ≤ pi := by
  unfold hinge_track_angle pi2 to_sign
  simp only [add_sub_cancel_left]
  have hlo : -(pi * 2) ≤ angle - normalize_angle con.angle := by linarith [hangle.1, hrange.2]
  have hhi : angle - normalize_angle con.angle ≤ pi * 2 := by linarith [hangle.2, hrange.1]
  generalize angle - normalize_angle con.angle = d at hlo hhi
  by_cases hd : d < 0
  · simp only [hd, decide_True, if_true, mul_one]
    have h1 : |d| = -d := abs_of_neg hd
    have h2 : |d + pi * 2| = d + pi * 2 := abs_of_nonneg (by linarith)
    rw [h1, h2]
    split_ifs with hc
    · rw [h1]; linarith
    · rw [h2]; linarith
  · simp only [hd, decide_False, if_false, Bool.false_eq_true, mul_neg, mul_one]
    have hd0 : 0 ≤ d := not_lt.mp hd
    have h1 : |d| = d := abs_of_nonneg hd0
    have h2 : |d + -(pi * 2)| = -(d + -(pi * 2)) := abs_of_nonpos (by linarith)
    rw [h1, h2]
    split_ifs with hc
    · rw [h1]; linarith
    · rw [h2]; linarith

/-- The tracked angle after the update differs from the measured angle by a
whole number of turns when the normalised previous angle differs from the
previous angle by a whole number of turns. -/
theorem hinge_track_angle_congruent (pi : scalar)
    (normalize_angle : scalar → scalar) (con : hinge_constraint) (angle : scalar)
    (hperiod : ∃ k : ℤ, con.angle - normalize_angle con.angle = k * pi2 pi) :
    ∃ k : ℤ, hinge_track_angle pi normalize_angle con angle - angle = k * pi2 pi := by
  obtain ⟨k, hk⟩ := hperiod
  unfold hinge_track_angle to_sign
  by_cases hd : angle - normalize_angle con.angle < 0
  · simp only [hd, decide_True, if_true, mul_one]
    split_ifs
    · exact ⟨k, by linarith⟩
    · exact ⟨k + 1, by push_cast; linarith⟩
  · simp only [hd, decide_False, if_false, Bool.false_eq_true, mul_neg, mul_one]
    split_ifs
    · exact ⟨k, by linarith⟩
    · exact ⟨k - 1, by push_cast; linarith⟩

/-- The angle that `prepare_constraint<hinge_constraint>` leaves in the
constraint: the tracked angle when a limit or a spring is enabled, the
previous angle otherwise. -/
theorem prepare_hinge_angle (pi EDYN_SCALAR_MAX large_scalar : scalar)
    (atan2 : scalar → scalar → scalar) (normalize_angle : scalar → scalar)
    (con : hinge_constraint) (cache : constraint_row_prep_cache) (dt : scalar)
    (originA posA : vector3) (ornA : quaternion) (angvelA : vector3)
    (originB posB : vector3) (ornB : quaternion) (angvelB : vector3) :
    (prepare_constraint_hinge_constraint pi EDYN_SCALAR_MAX large_scalar atan2 normalize_angle
        con cache dt originA posA ornA angvelA originB posB ornB angvelB).1.angle
      = if con.angle_min < con.angle_max ∨ con.stiffness > 0 then
          hinge_track_angle pi normalize_angle con (hinge_measured_angle atan2 con ornA ornB)
        else con.angle := by
  unfold prepare_constraint_hinge_constraint hinge_measured_angle
  simp only [decide_eq_true_eq]
  split_ifs <;> rfl
/-- The remainder that `sample_normalize_angle` starts from lies strictly
within one turn of zero. -/
theorem sample_fmod_bounds (pi : scalar) (hpi : 0 < pi) (s : scalar) :
    -(pi2 pi) < s - pi2 pi * (if 0 ≤ s then ⌊s / pi2 pi⌋ else ⌈s / pi2 pi⌉) ∧
      s - pi2 pi * (if 0 ≤ s then ⌊s / pi2 pi⌋ else ⌈s / pi2 pi⌉) < pi2 pi := by
  have h2 : 0 < pi2 pi := by unfold pi2; linarith
  generalize pi2 pi = t at h2
  by_cases hs : 0 ≤ s
  · rw [if_pos hs]
    have h1 : (⌊s / t⌋ : scalar) ≤ s / t := Int.floor_le _
    have h3 : s / t < ⌊s / t⌋ + 1 := Int.lt_floor_add_one _
    rw [le_div_iff₀ h2] at h1
    rw [div_lt_iff₀ h2] at h3
    constructor <;> nlinarith
  · rw [if_neg hs]
    have h1 : s / t ≤ (⌈s / t⌉ : scalar) := Int.le_ceil _
    have h3 : (⌈s / t⌉ : scalar) < s / t + 1 := Int.ceil_lt_add_one _
    rw [div_le_iff₀ h2] at h1
    have h4 : (⌈s / t⌉ : scalar) * t < (s / t + 1) * t := mul_lt_mul_of_pos_right h3 h2
    have h5 : (s / t + 1) * t = s + t := by field_simp
    rw [h5] at h4
    constructor <;> nlinarith

/-- The function `sample_normalize_angle` answers an angle in `[-pi, pi]`. -/
theorem sample_normalize_angle_range (pi : scalar) (hpi : 0 < pi) (s : scalar) :
    -pi ≤ sample_normalize_angle pi s ∧ sample_normalize_angle pi s ≤ pi := by
  obtain ⟨h1, h2⟩ := sample_fmod_bounds pi hpi s
  unfold sample_normalize_angle
  simp only
  generalize s - pi2 pi * (if 0 ≤ s then ⌊s / pi2 pi⌋ else ⌈s / pi2 pi⌉) = r at h1 h2
  unfold pi2 at h1 h2 ⊢
  split_ifs with ha hb
  · constructor <;> linarith
  · constructor <;> linarith
  · constructor <;> linarith

/-- The function `sample_normalize_angle` changes an angle by a whole number
of turns. -/
theorem sample_normalize_angle_period (pi : scalar) (s : scalar) :
    ∃ k : ℤ, s - sample_normalize_angle pi s = k * pi2 pi := by
  unfold sample_normalize_angle
  simp only
  generalize (if 0 ≤ s then ⌊s / pi2 pi⌋ else ⌈s / pi2 pi⌉) = k
  split_ifs
  · exact ⟨k - 1, by push_cast; ring⟩
  · exact ⟨k + 1, by push_cast; ring⟩
  · exact ⟨k, by ring⟩

/-- C17: hinge angle tracking across the wrap at `±pi`. In
`prepare_constraint<hinge_constraint>` with a limit or a spring enabled, for
every previous tracked angle and every newly measured angle in `[-pi, pi]`,
the increment added to `con.angle` has magnitude at most `pi`; it is the
shortest of `delta` and `delta ± 2 pi`, where `delta` is the measured angle
minus `normalize_angle` of the previous angle; and the updated `con.angle`
differs from the measured angle by an integer multiple of `2 pi`. The
function `normalize_angle` is taken with its contract: its value lies in
`[-pi, pi]` and differs from its argument by an integer multiple of
`2 pi`. -/
theorem prepare_hinge_angle_tracking (pi EDYN_SCALAR_MAX large_scalar : scalar)
    (atan2 : scalar → scalar → scalar) (normalize_angle : scalar → scalar)
    (con : hinge_constraint) (cache : constraint_row_prep_cache) (dt : scalar)
    (originA posA : vector3) (ornA : quaternion) (angvelA : vector3)
    (originB posB : vector3) (ornB : quaternion) (angvelB : vector3)
    (hpi : 0 < pi)
    (henabled : con.angle_min < con.angle_max ∨ con.stiffness > 0)
    (hmeasured : -pi ≤ hinge_measured_angle atan2 con ornA ornB ∧
      hinge_measured_angle atan2 con ornA ornB ≤ pi)
    (hrange : -pi ≤ normalize_angle con.angle ∧ normalize_angle con.angle ≤ pi)
    (hperiod : ∃ k : ℤ, con.angle - normalize_angle con.angle = k * pi2 pi) :
    |(prepare_constraint_hinge_constraint pi EDYN_SCALAR_MAX large_scalar atan2
          normalize_angle con cache dt originA posA ornA angvelA originB posB ornB
          angvelB).1.angle - con.angle| ≤ pi ∧
      |(prepare_constraint_hinge_constraint pi EDYN_SCALAR_MAX large_scalar atan2
          normalize_angle con cache dt originA posA ornA angvelA originB posB ornB
          angvelB).1.angle - con.angle|
        = min |hinge_measured_angle atan2 con ornA ornB - normalize_angle con.angle|
            (min |hinge_measured_angle atan2 con ornA ornB - normalize_angle con.angle
                + pi2 pi|
              |hinge_measured_angle atan2 con ornA ornB - normalize_angle con.angle
                - pi2 pi|) ∧
      ((prepare_constraint_hinge_constraint pi EDYN_SCALAR_MAX large_scalar atan2
          normalize_angle con cache dt originA posA ornA angvelA originB posB ornB
          angvelB).1.angle - con.angle
          = hinge_measured_angle atan2 con ornA ornB - normalize_angle con.angle ∨
        (prepare_constraint_hinge_constraint pi EDYN_SCALAR_MAX large_scalar atan2
          normalize_angle con cache dt originA posA ornA angvelA originB posB ornB
          angvelB).1.angle - con.angle
          = hinge_measured_angle atan2 con ornA ornB - normalize_angle con.angle
            + pi2 pi ∨
        (prepare_constraint_hinge_constraint pi EDYN_SCALAR_MAX large_scalar atan2
          normalize_angle con cache dt originA posA ornA angvelA originB posB ornB
          angvelB).1.angle - con.angle
          = hinge_measured_angle atan2 con ornA ornB - normalize_angle con.angle
            - pi2 pi) ∧
      ∃ k : ℤ,
        (prepare_constraint_hinge_constraint pi EDYN_SCALAR_MAX large_scalar atan2
          normalize_angle con cache dt originA posA ornA angvelA originB posB ornB
          angvelB).1.angle - hinge_measured_angle atan2 con ornA ornB = k * pi2 pi := by
  rw [prepare_hinge_angle, if_pos henabled]
  exact ⟨hinge_track_angle_abs_le pi normalize_angle con _ hmeasured hrange,
    (hinge_track_angle_shortest pi hpi normalize_angle con _).2,
    (hinge_track_angle_shortest pi hpi normalize_angle con _).1,
    hinge_track_angle_congruent pi normalize_angle con _ hperiod⟩

/-- The sample hinge, with body B half a turn away from body A, measures the
angle `22/7`. -/
theorem sample_hinge_measured_angle :
    hinge_measured_angle sample_atan2 sample_hinge quaternion_identity sample_half_turn
      = 22 / 7 := by
  norm_num [hinge_measured_angle, sample_atan2, sample_hinge, quaternion_identity,
    sample_half_turn, matrix3x3_identity, matrix3x3.column, rotate, quaternion.mul_vec,
    quaternion.mul, conjugate, dot]

/-- Witness of C17: with `22/7` for `pi`, the sample hinge tracked at
`-20/7` and measured at `22/7` moves by at most `22/7` and ends a whole
number of turns away from the measured angle. -/
theorem prepare_hinge_angle_tracking_witness :
    |(prepare_constraint_hinge_constraint (22 / 7) 1000000 1000 sample_atan2
          (sample_normalize_angle (22 / 7)) sample_hinge [] (1 / 60) vector3_zero
          vector3_zero quaternion_identity vector3_zero vector3_zero vector3_zero
          sample_half_turn vector3_zero).1.angle - sample_hinge.angle| ≤ 22 / 7 ∧
      ∃ k : ℤ,
        (prepare_constraint_hinge_constraint (22 / 7) 1000000 1000 sample_atan2
          (sample_normalize_angle (22 / 7)) sample_hinge [] (1 / 60) vector3_zero
          vector3_zero quaternion_identity vector3_zero vector3_zero vector3_zero
          sample_half_turn vector3_zero).1.angle
          - hinge_measured_angle sample_atan2 sample_hinge quaternion_identity
              sample_half_turn = k * pi2 (22 / 7) :=
  have h := prepare_hinge_angle_tracking (22 / 7) 1000000 1000 sample_atan2
    (sample_normalize_angle (22 / 7)) sample_hinge [] (1 / 60) vector3_zero vector3_zero
    quaternion_identity vector3_zero vector3_zero vector3_zero sample_half_turn vector3_zero
    (by norm_num) (Or.inl (by norm_num [sample_hinge]))
    (by rw [sample_hinge_measured_angle]; norm_num)
    (sample_normalize_angle_range (22 / 7) (by norm_num) _)
    (sample_normalize_angle_period (22 / 7) _)
  ⟨h.1, h.2.2.2⟩

/-- The sample hinge tracked at `-20/7` and measured at `22/7` takes the short
way across the wrap: the tracked angle becomes `-22/7`, one turn below the
measured angle. -/
theorem sample_hinge_tracked_angle :
    (prepare_constraint_hinge_constraint (22 / 7) 1000000 1000 sample_atan2
        (sample_normalize_angle (22 / 7)) sample_hinge [] (1 / 60) vector3_zero
        vector3_zero quaternion_identity vector3_zero vector3_zero vector3_zero
        sample_half_turn vector3_zero).1.angle = -(22 / 7) := by
  have hc : ⌈(-(5 / 11) : scalar)⌉ = 0 := by
    rw [Int.ceil_eq_iff]
    norm_num
  have hn : sample_normalize_angle (22 / 7) sample_hinge.angle = -(20 / 7) := by
    have ha : sample_hinge.angle = -(20 / 7) := rfl
    rw [ha]
    norm_num [sample_normalize_angle, pi2, hc]
  rw [prepare_hinge_angle, if_pos (Or.inl (by norm_num [sample_hinge])),
    sample_hinge_measured_angle]
  unfold hinge_track_angle
  simp only [hn]
  norm_num [sample_hinge, pi2, to_sign]
  rw [if_neg]
  · norm_num
  · norm_num [abs_of_nonneg, abs_of_neg]

/-! ## Theorems about `create_contact_constraint` -/

/-- Function `get_trimesh_friction` answers a value on a triangle feature. -/
theorem get_trimesh_friction_triangle (trimesh : triangle_mesh) (pivot : vector3)
    (f : collision_feature) (tf : triangle_feature)
    (h : f.feature = feature_variant.triangle tf) :
    ∃ x, get_trimesh_friction trimesh pivot f = some x := by
  unfold get_trimesh_friction
  rw [h]
  cases tf <;> exact ⟨_, rfl⟩

/-- Function `get_trimesh_restitution` answers a value on a triangle
feature. -/
theorem get_trimesh_restitution_triangle (trimesh : triangle_mesh) (pivot : vector3)
    (f : collision_feature) (tf : triangle_feature)
    (h : f.feature = feature_variant.triangle tf) :
    ∃ x, get_trimesh_restitution trimesh pivot f = some x := by
  unfold get_trimesh_restitution
  rw [h]
  cases tf <;> exact ⟨_, rfl⟩

/-- Function `get_paged_mesh_friction` answers a value on a triangle
feature. -/
theorem get_paged_mesh_friction_triangle (shape : paged_triangle_mesh) (pivot : vector3)
    (f : collision_feature) (tf : triangle_feature)
    (h : f.feature = feature_variant.triangle tf) :
    ∃ x, get_paged_mesh_friction shape pivot f = some x := by
  unfold get_paged_mesh_friction
  cases shape.get_submesh f.part with
  | none => exact ⟨_, rfl⟩
  | some submesh => exact get_trimesh_friction_triangle submesh pivot f tf h

/-- Function `get_paged_mesh_restitution` answers a value on a triangle
feature. -/
theorem get_paged_mesh_restitution_triangle (shape : paged_triangle_mesh) (pivot : vector3)
    (f : collision_feature) (tf : triangle_feature)
    (h : f.feature = feature_variant.triangle tf) :
    ∃ x, get_paged_mesh_restitution shape pivot f = some x := by
  unfold get_paged_mesh_restitution
  cases shape.get_submesh f.part with
  | none => exact ⟨_, rfl⟩
  | some submesh => exact get_trimesh_restitution_triangle submesh pivot f tf h

/-- Function `try_assign_per_vertex_restitution` returns, and changes at most
the restitution of the contact point, when both bodies have a material and
the feature on the side of every body that carries a mesh is a triangle
feature. -/
theorem try_assign_per_vertex_restitution_some (mix : material_mixing)
    (r : contact_registry) (cp : contact_point) (materialA materialB : contact_material)
    (hA : r.material_view cp.body.1 = some materialA)
    (hB : r.material_view cp.body.2 = some materialB)
    (hfA : (r.mesh_shape_view cp.body.1).isSome ∨ (r.paged_mesh_shape_view cp.body.1).isSome →
      ∃ fA tf, cp.featureA = some fA ∧ fA.feature = feature_variant.triangle tf)
    (hfB : (r.mesh_shape_view cp.body.2).isSome ∨ (r.paged_mesh_shape_view cp.body.2).isSome →
      ∃ fB tf, cp.featureB = some fB ∧ fB.feature = feature_variant.triangle tf) :
    ∃ b x, try_assign_per_vertex_restitution mix r cp
      = some (b, { cp with restitution := x }) := by
  unfold try_assign_per_vertex_restitution
  cases hmA : r.mesh_shape_view cp.body.1 with
  | some shapeA =>
    obtain ⟨fA, tf, h1, h2⟩ := hfA (Or.inl (by rw [hmA]; rfl))
    obtain ⟨x, hx⟩ := get_trimesh_restitution_triangle shapeA cp.pivotA fA tf h2
    by_cases hpv : shapeA.has_per_vertex_restitution = true
    · exact ⟨true, _, by simp [hpv, hB, h1, hx]; rfl⟩
    · exact ⟨false, cp.restitution, by simp [hpv]⟩
  | none =>
    cases hmB : r.mesh_shape_view cp.body.2 with
    | some shapeB =>
      obtain ⟨fB, tf, h1, h2⟩ := hfB (Or.inl (by rw [hmB]; rfl))
      obtain ⟨x, hx⟩ := get_trimesh_restitution_triangle shapeB cp.pivotB fB tf h2
      by_cases hpv : shapeB.has_per_vertex_restitution = true
      · exact ⟨true, _, by simp [hpv, hA, h1, hx]; rfl⟩
      · exact ⟨false, cp.restitution, by simp [hpv]⟩
    | none =>
      cases hpA : r.paged_mesh_shape_view cp.body.1 with
      | some shapeA =>
        obtain ⟨fA, tf, h1, h2⟩ := hfA (Or.inr (by rw [hpA]; rfl))
        obtain ⟨x, hx⟩ := get_paged_mesh_restitution_triangle shapeA cp.pivotA fA tf h2
        by_cases hpv : shapeA.has_per_vertex_restitution = true
        · exact ⟨true, _, by simp [hpv, hB, h1, hx]; rfl⟩
        · exact ⟨false, cp.restitution, by simp [hpv]⟩
      | none =>
        cases hpB : r.paged_mesh_shape_view cp.body.2 with
        | some shapeB =>
          obtain ⟨fB, tf, h1, h2⟩ := hfB (Or.inr (by rw [hpB]; rfl))
          obtain ⟨x, hx⟩ := get_paged_mesh_restitution_triangle shapeB cp.pivotB fB tf h2
          by_cases hpv : shapeB.has_per_vertex_restitution = true
          · exact ⟨true, _, by simp [hpv, hA, h1, hx]; rfl⟩
          · exact ⟨false, cp.restitution, by simp [hpv]⟩
        | none => exact ⟨false, cp.restitution, rfl⟩

/-- C19: material mix table precedence. Whenever the material mix table has
an entry for the pair `(materialA.id, materialB.id)`,
`create_contact_constraint` sets the friction, restitution, roll friction and
spin friction of the contact point and the stiffness and damping of the
contact constraint to the values stored in the entry, whatever the material
scalars of the two bodies and the per-vertex materials of their meshes; the
other fields of the contact point are left as they are. -/
theorem create_contact_constraint_mix_table (mix : material_mixing) (large_scalar : scalar)
    (r : contact_registry) (cp : contact_point) (materialA materialB : contact_material)
    (entry : material_base)
    (hA : r.material_view cp.body.1 = some materialA)
    (hB : r.material_view cp.body.2 = some materialB)
    (hentry : r.material_table (materialA.id, materialB.id) = some entry) :
    ∃ cp1 contact,
      create_contact_constraint mix large_scalar r cp = some (cp1, contact) ∧
      cp1.friction = entry.friction ∧
      cp1.restitution = entry.restitution ∧
      cp1.roll_friction = entry.roll_friction ∧
      cp1.spin_friction = entry.spin_friction ∧
      contact.stiffness = entry.stiffness ∧
      contact.damping = entry.damping ∧
      cp1 = { cp with friction := entry.friction, restitution := entry.restitution,
                      roll_friction := entry.roll_friction,
                      spin_friction := entry.spin_friction } ∧
      contact.body = cp.body := by
  refine ⟨{ cp with friction := entry.friction, restitution := entry.restitution,
                    roll_friction := entry.roll_friction,
                    spin_friction := entry.spin_friction },
    { body := cp.body, stiffness := entry.stiffness, damping := entry.damping },
    ?_, rfl, rfl, rfl, rfl, rfl, rfl, rfl, rfl⟩
  unfold create_contact_constraint
  simp only [hA, hB, Option.bind_eq_bind, Option.some_bind, hentry]

/-- Witness of C19: for the ball `1` on the mesh `5`, whose materials have an
entry in the sample mix table, the contact takes the values of the entry
although the mesh has per-vertex friction. -/
theorem create_contact_constraint_mix_table_witness :
    ∃ cp1 contact,
      create_contact_constraint sample_mix 1000000 sample_contact_registry
          (sample_contact (entity.id 1) (entity.id 5)) = some (cp1, contact) ∧
      cp1.friction = 1 / 20 ∧
      cp1.restitution = 1 / 10 ∧
      cp1.roll_friction = 1 / 200 ∧
      cp1.spin_friction = 1 / 100 ∧
      contact.stiffness = 5000 ∧
      contact.damping = 50 :=
  have h := create_contact_constraint_mix_table sample_mix 1000000 sample_contact_registry
    (sample_contact (entity.id 1) (entity.id 5)) (sample_material 1 (1 / 2) 0)
    (sample_material 5 (3 / 10) 0)
    { restitution := 1 / 10, friction := 1 / 20, spin_friction := 1 / 100,
      roll_friction := 1 / 200, stiffness := 5000, damping := 50 }
    rfl rfl rfl
  match h with
  | ⟨cp1, contact, h0, h1, h2, h3, h4, h5, h6, _, _⟩ =>
    ⟨cp1, contact, h0, h1, h2, h3, h4, h5, h6⟩

/-- What `create_contact_constraint` computes when the material mix table has
no entry for the pair of materials, in terms of what the two
`try_assign_per_vertex` functions return. -/
theorem create_contact_constraint_no_entry (mix : material_mixing) (large_scalar : scalar)
    (r : contact_registry) (cp : contact_point) (materialA materialB : contact_material)
    (hA : r.material_view cp.body.1 = some materialA)
    (hB : r.material_view cp.body.2 = some materialB)
    (hentry : r.material_table (materialA.id, materialB.id) = none)
    (hfA : (r.mesh_shape_view cp.body.1).isSome ∨ (r.paged_mesh_shape_view cp.body.1).isSome →
      ∃ fA tf, cp.featureA = some fA ∧ fA.feature = feature_variant.triangle tf)
    (hfB : (r.mesh_shape_view cp.body.2).isSome ∨ (r.paged_mesh_shape_view cp.body.2).isSome →
      ∃ fB tf, cp.featureB = some fB ∧ fB.feature = feature_variant.triangle tf)
    (b : Bool) (x : scalar)
    (hfr : try_assign_per_vertex_friction mix r cp = some (b, { cp with friction := x })) :
    ∃ cp1 contact,
      create_contact_constraint mix large_scalar r cp = some (cp1, contact) ∧
      cp1.friction
        = if b then x else mix.material_mix_friction materialA.friction materialB.friction := by
  obtain ⟨b2, y, hy⟩ := try_assign_per_vertex_restitution_some mix r
    (if ¬ b = true then
        { cp with friction := mix.material_mix_friction materialA.friction materialB.friction }
      else { cp with friction := x }) materialA materialB
    (by split_ifs <;> exact hA) (by split_ifs <;> exact hB)
    (by split_ifs <;> exact hfA) (by split_ifs <;> exact hfB)
  unfold create_contact_constraint
  simp only [hA, hB, Option.bind_eq_bind, Option.some_bind, hentry, hfr, hy]
  cases b <;> cases b2 <;> exact ⟨_, _, rfl, by simp⟩

/-- The friction for every combination of shapes: when the material mix table
has no entry for the pair of materials, `create_contact_constraint` takes the
first shape it finds in the order mesh of body A, mesh of body B, paged mesh
of body A, paged mesh of body B. If that shape has per-vertex friction, the
contact friction is `material_mix_friction` of the friction of the mesh
looked up on the contact feature of that body and the material friction of
the other body. If that
shape has no per-vertex friction, or no body carries a mesh or paged mesh, it
is `material_mix_friction(materialA.friction, materialB.friction)`. Both
bodies have a material, and the feature on the side of a body that carries a
mesh is a triangle feature. -/
theorem create_contact_constraint_friction_chain (mix : material_mixing)
    (large_scalar : scalar) (r : contact_registry) (cp : contact_point) (materialA materialB : contact_material)
    (hA : r.material_view cp.body.1 = some materialA)
    (hB : r.material_view cp.body.2 = some materialB)
    (hentry : r.material_table (materialA.id, materialB.id) = none)
    (hfA : (r.mesh_shape_view cp.body.1).isSome ∨ (r.paged_mesh_shape_view cp.body.1).isSome →
      ∃ fA tf, cp.featureA = some fA ∧ fA.feature = feature_variant.triangle tf)
    (hfB : (r.mesh_shape_view cp.body.2).isSome ∨ (r.paged_mesh_shape_view cp.body.2).isSome →
      ∃ fB tf, cp.featureB = some fB ∧ fB.feature = feature_variant.triangle tf) :
    ∃ cp1 contact,
      create_contact_constraint mix large_scalar r cp = some (cp1, contact) ∧
      (∀ shapeA, r.mesh_shape_view cp.body.1 = some shapeA →
        (shapeA.has_per_vertex_friction = true →
          ∃ fA f, cp.featureA = some fA ∧
            get_trimesh_friction shapeA cp.pivotA fA = some f ∧
            cp1.friction = mix.material_mix_friction f materialB.friction) ∧
        (shapeA.has_per_vertex_friction = false →
          cp1.friction
            = mix.material_mix_friction materialA.friction materialB.friction)) ∧
      (r.mesh_shape_view cp.body.1 = none →
        ∀ shapeB, r.mesh_shape_view cp.body.2 = some shapeB →
        (shapeB.has_per_vertex_friction = true →
          ∃ fB f, cp.featureB = some fB ∧
            get_trimesh_friction shapeB cp.pivotB fB = some f ∧
            cp1.friction = mix.material_mix_friction materialA.friction f) ∧
        (shapeB.has_per_vertex_friction = false →
          cp1.friction
            = mix.material_mix_friction materialA.friction materialB.friction)) ∧
      (r.mesh_shape_view cp.body.1 = none → r.mesh_shape_view cp.body.2 = none →
        ∀ shapeA, r.paged_mesh_shape_view cp.body.1 = some shapeA →
        (shapeA.has_per_vertex_friction = true →
          ∃ fA f, cp.featureA = some fA ∧
            get_paged_mesh_friction shapeA cp.pivotA fA = some f ∧
            cp1.friction = mix.material_mix_friction f materialB.friction) ∧
        (shapeA.has_per_vertex_friction = false →
          cp1.friction
            = mix.material_mix_friction materialA.friction materialB.friction)) ∧
      (r.mesh_shape_view cp.body.1 = none → r.mesh_shape_view cp.body.2 = none →
        r.paged_mesh_shape_view cp.body.1 = none →
        ∀ shapeB, r.paged_mesh_shape_view cp.body.2 = some shapeB →
        (shapeB.has_per_vertex_friction = true →
          ∃ fB f, cp.featureB = some fB ∧
            get_paged_mesh_friction shapeB cp.pivotB fB = some f ∧
            cp1.friction = mix.material_mix_friction materialA.friction f) ∧
        (shapeB.has_per_vertex_friction = false →
          cp1.friction
            = mix.material_mix_friction materialA.friction materialB.friction)) ∧
      (r.mesh_shape_view cp.body.1 = none → r.mesh_shape_view cp.body.2 = none →
        r.paged_mesh_shape_view cp.body.1 = none →
        r.paged_mesh_shape_view cp.body.2 = none →
        cp1.friction
          = mix.material_mix_friction materialA.friction materialB.friction) := by
  cases hmA : r.mesh_shape_view cp.body.1 with
  | some shapeA =>
    obtain ⟨fA, tf, h1, h2⟩ := hfA (Or.inl (by rw [hmA]; rfl))
    obtain ⟨f, hf⟩ := get_trimesh_friction_triangle shapeA cp.pivotA fA tf h2
    by_cases hpv : shapeA.has_per_vertex_friction = true
    · obtain ⟨cp1, contact, hc, hfric⟩ := create_contact_constraint_no_entry mix large_scalar
        r cp materialA materialB hA hB hentry hfA hfB true
        (mix.material_mix_friction f materialB.friction)
        (by unfold try_assign_per_vertex_friction; simp [hmA, hpv, hB, h1, hf])
      refine ⟨cp1, contact, hc, ?_, by simp, by simp, by simp, by simp⟩
      intro s hs
      cases Option.some.inj hs
      exact ⟨fun _ => ⟨fA, f, h1, hf, by simpa using hfric⟩, fun h => by simp [hpv] at h⟩
    · obtain ⟨cp1, contact, hc, hfric⟩ := create_contact_constraint_no_entry mix large_scalar
        r cp materialA materialB hA hB hentry hfA hfB false cp.friction
        (by unfold try_assign_per_vertex_friction; simp [hmA, hpv])
      refine ⟨cp1, contact, hc, ?_, by simp, by simp, by simp, by simp⟩
      intro s hs
      cases Option.some.inj hs
      exact ⟨fun h => absurd h hpv, fun _ => by simpa using hfric⟩
  | none =>
    cases hmB : r.mesh_shape_view cp.body.2 with
    | some shapeB =>
      obtain ⟨fB, tf, h1, h2⟩ := hfB (Or.inl (by rw [hmB]; rfl))
      obtain ⟨f, hf⟩ := get_trimesh_friction_triangle shapeB cp.pivotB fB tf h2
      by_cases hpv : shapeB.has_per_vertex_friction = true
      · obtain ⟨cp1, contact, hc, hfric⟩ := create_contact_constraint_no_entry mix
          large_scalar r cp materialA materialB hA hB hentry hfA hfB true
          (mix.material_mix_friction materialA.friction f)
          (by unfold try_assign_per_vertex_friction; simp [hmA, hmB, hpv, hA, h1, hf])
        refine ⟨cp1, contact, hc, by simp, ?_, by simp, by simp, by simp⟩
        intro _ s hs
        cases Option.some.inj hs
        exact ⟨fun _ => ⟨fB, f, h1, hf, by simpa using hfric⟩, fun h => by simp [hpv] at h⟩
      · obtain ⟨cp1, contact, hc, hfric⟩ := create_contact_constraint_no_entry mix
          large_scalar r cp materialA materialB hA hB hentry hfA hfB false cp.friction
          (by unfold try_assign_per_vertex_friction; simp [hmA, hmB, hpv])
        refine ⟨cp1, contact, hc, by simp, ?_, by simp, by simp, by simp⟩
        intro _ s hs
        cases Option.some.inj hs
        exact ⟨fun h => absurd h hpv, fun _ => by simpa using hfric⟩
    | none =>
      cases hpA : r.paged_mesh_shape_view cp.body.1 with
      | some shapeA =>
        obtain ⟨fA, tf, h1, h2⟩ := hfA (Or.inr (by rw [hpA]; rfl))
        obtain ⟨f, hf⟩ := get_paged_mesh_friction_triangle shapeA cp.pivotA fA tf h2
        by_cases hpv : shapeA.has_per_vertex_friction = true
        · obtain ⟨cp1, contact, hc, hfric⟩ := create_contact_constraint_no_entry mix
            large_scalar r cp materialA materialB hA hB hentry hfA hfB true
            (mix.material_mix_friction f materialB.friction)
            (by unfold try_assign_per_vertex_friction; simp [hmA, hmB, hpA, hpv, hB, h1, hf])
          refine ⟨cp1, contact, hc, by simp, by simp, ?_, by simp, by simp⟩
          intro _ _ s hs
          cases Option.some.inj hs
          exact ⟨fun _ => ⟨fA, f, h1, hf, by simpa using hfric⟩,
            fun h => by simp [hpv] at h⟩
        · obtain ⟨cp1, contact, hc, hfric⟩ := create_contact_constraint_no_entry mix
            large_scalar r cp materialA materialB hA hB hentry hfA hfB false cp.friction
            (by unfold try_assign_per_vertex_friction; simp [hmA, hmB, hpA, hpv])
          refine ⟨cp1, contact, hc, by simp, by simp, ?_, by simp, by simp⟩
          intro _ _ s hs
          cases Option.some.inj hs
          exact ⟨fun h => absurd h hpv, fun _ => by simpa using hfric⟩
      | none =>
        cases hpB : r.paged_mesh_shape_view cp.body.2 with
        | some shapeB =>
          obtain ⟨fB, tf, h1, h2⟩ := hfB (Or.inr (by rw [hpB]; rfl))
          obtain ⟨f, hf⟩ := get_paged_mesh_friction_triangle shapeB cp.pivotB fB tf h2
          by_cases hpv : shapeB.has_per_vertex_friction = true
          · obtain ⟨cp1, contact, hc, hfric⟩ := create_contact_constraint_no_entry mix
              large_scalar r cp materialA materialB hA hB hentry hfA hfB true
              (mix.material_mix_friction materialA.friction f)
              (by unfold try_assign_per_vertex_friction
                  simp [hmA, hmB, hpA, hpB, hpv, hA, h1, hf])
            refine ⟨cp1, contact, hc, by simp, by simp, by simp, ?_, by simp⟩
            intro _ _ _ s hs
            cases Option.some.inj hs
            exact ⟨fun _ => ⟨fB, f, h1, hf, by simpa using hfric⟩,
              fun h => by simp [hpv] at h⟩
          · obtain ⟨cp1, contact, hc, hfric⟩ := create_contact_constraint_no_entry mix
              large_scalar r cp materialA materialB hA hB hentry hfA hfB false cp.friction
              (by unfold try_assign_per_vertex_friction; simp [hmA, hmB, hpA, hpB, hpv])
            refine ⟨cp1, contact, hc, by simp, by simp, by simp, ?_, by simp⟩
            intro _ _ _ s hs
            cases Option.some.inj hs
            exact ⟨fun h => absurd h hpv, fun _ => by simpa using hfric⟩
        | none =>
          obtain ⟨cp1, contact, hc, hfric⟩ := create_contact_constraint_no_entry mix
            large_scalar r cp materialA materialB hA hB hentry hfA hfB false cp.friction
            (by unfold try_assign_per_vertex_friction; simp [hmA, hmB, hpA, hpB])
          exact ⟨cp1, contact, hc, by simp, by simp, by simp, by simp,
            fun _ _ _ _ => by simpa using hfric⟩

/-- Function `get_trimesh_friction` looks the friction up on the feature of
the contact: by vertex index on a vertex, by edge index and pivot on an edge,
by face index and pivot on a face. -/
theorem get_trimesh_friction_by_feature (trimesh : triangle_mesh) (pivot : vector3)
    (index part : Nat) :
    get_trimesh_friction trimesh pivot
        ⟨feature_variant.triangle triangle_feature.vertex, index, part⟩
      = some (trimesh.get_vertex_friction index) ∧
    get_trimesh_friction trimesh pivot
        ⟨feature_variant.triangle triangle_feature.edge, index, part⟩
      = some (trimesh.get_edge_friction index pivot) ∧
    get_trimesh_friction trimesh pivot
        ⟨feature_variant.triangle triangle_feature.face, index, part⟩
      = some (trimesh.get_face_friction index pivot) :=
  ⟨rfl, rfl, rfl⟩

/-- Function `get_paged_mesh_friction` looks the friction up in the submesh
`part` of the feature, and answers `0` when that submesh is not loaded. -/
theorem get_paged_mesh_friction_by_part (shape : paged_triangle_mesh) (pivot : vector3)
    (f : collision_feature) :
    (∀ submesh, shape.get_submesh f.part = some submesh →
      get_paged_mesh_friction shape pivot f = get_trimesh_friction submesh pivot f) ∧
    (shape.get_submesh f.part = none → get_paged_mesh_friction shape pivot f = some 0) := by
  unfold get_paged_mesh_friction
  constructor
  · intro submesh h
    rw [h]
  · intro h
    rw [h]

/-- A contact between two meshes, which the `if` / `else if` chain of
`try_assign_per_vertex_friction` is not written for: the sample mix table has
no entry for the materials of the bodies `3` and `2`, and body `2` carries a
mesh with per-vertex friction whose friction at the vertex of the contact is
`9/10`; yet the contact friction is `material_mix_friction` of the two material
frictions, `1/2 * 3/10`, and not of the friction of the mesh, because body
`3`, the first body of the contact, carries a mesh without per-vertex
friction. -/
theorem create_contact_constraint_ignores_second_mesh :
    sample_contact_registry.material_table (3, 2) = none ∧
    sample_contact_registry.material_view (entity.id 3) = some (sample_material 3 (1 / 2) 0) ∧
    sample_contact_registry.material_view (entity.id 2)
      = some (sample_material 2 (3 / 10) 0) ∧
    sample_contact_registry.mesh_shape_view (entity.id 2) = some (sample_trimesh true) ∧
    (sample_trimesh true).has_per_vertex_friction = true ∧
    get_trimesh_friction (sample_trimesh true)
        (sample_contact (entity.id 3) (entity.id 2)).pivotB
        ⟨feature_variant.triangle triangle_feature.vertex, 0, 0⟩ = some (9 / 10) ∧
    ∃ cp1 contact,
      create_contact_constraint sample_mix 1000000 sample_contact_registry
          (sample_contact (entity.id 3) (entity.id 2)) = some (cp1, contact) ∧
      cp1.friction = sample_mix.material_mix_friction (1 / 2) (3 / 10) ∧
      cp1.friction ≠ sample_mix.material_mix_friction (1 / 2) (9 / 10) := by
  refine ⟨rfl, rfl, rfl, rfl, rfl, rfl, ?_⟩
  obtain ⟨cp1, contact, hc, hfric⟩ := create_contact_constraint_no_entry sample_mix 1000000
    sample_contact_registry (sample_contact (entity.id 3) (entity.id 2))
    (sample_material 3 (1 / 2) 0) (sample_material 2 (3 / 10) 0) rfl rfl rfl
    (fun _ => ⟨_, _, rfl, rfl⟩) (fun _ => ⟨_, _, rfl, rfl⟩) false
    (sample_contact (entity.id 3) (entity.id 2)).friction rfl
  refine ⟨cp1, contact, hc, ?_, ?_⟩
  · simpa [sample_material] using hfric
  · rw [hfric]
    norm_num [sample_material, sample_mix]

/-- The chain on the sample: for the ball `1` on the mesh `2`, which has
per-vertex friction, the contact friction mixes the material friction `1/2`
of the ball with the friction `9/10` of the vertex of the mesh. -/
theorem create_contact_constraint_friction_chain_sample :
    ∃ cp1 contact,
      create_contact_constraint sample_mix 1000000 sample_contact_registry
          (sample_contact (entity.id 1) (entity.id 2)) = some (cp1, contact) ∧
      cp1.friction = sample_mix.material_mix_friction (1 / 2) (9 / 10) := by
  obtain ⟨cp1, contact, hc, _, h2, _⟩ := create_contact_constraint_friction_chain sample_mix
    1000000
    sample_contact_registry (sample_contact (entity.id 1) (entity.id 2))
    (sample_material 1 (1 / 2) 0) (sample_material 2 (3 / 10) 0) rfl rfl rfl
    (fun _ => ⟨_, _, rfl, rfl⟩) (fun _ => ⟨_, _, rfl, rfl⟩)
  obtain ⟨fB, f, hfB, hf, hfr⟩ := (h2 rfl (sample_trimesh true) rfl).1 rfl
  have hfB1 : fB = ⟨feature_variant.triangle triangle_feature.vertex, 0, 0⟩ :=
    (Option.some.inj hfB).symm
  subst hfB1
  have hf1 : f = 9 / 10 := (Option.some.inj hf).symm
  subst hf1
  exact ⟨cp1, contact, hc, hfr⟩

/-- Function `try_assign_per_vertex_friction` returns, and changes at most the
friction of the contact point, when both bodies have a material and the
feature on the side of every body that carries a mesh is a triangle
feature. -/
theorem try_assign_per_vertex_friction_some (mix : material_mixing)
    (r : contact_registry) (cp : contact_point) (materialA materialB : contact_material)
    (hA : r.material_view cp.body.1 = some materialA)
    (hB : r.material_view cp.body.2 = some materialB)
    (hfA : (r.mesh_shape_view cp.body.1).isSome ∨ (r.paged_mesh_shape_view cp.body.1).isSome →
      ∃ fA tf, cp.featureA = some fA ∧ fA.feature = feature_variant.triangle tf)
    (hfB : (r.mesh_shape_view cp.body.2).isSome ∨ (r.paged_mesh_shape_view cp.body.2).isSome →
      ∃ fB tf, cp.featureB = some fB ∧ fB.feature = feature_variant.triangle tf) :
    ∃ b x, try_assign_per_vertex_friction mix r cp = some (b, { cp with friction := x }) := by
  unfold try_assign_per_vertex_friction
  cases hmA : r.mesh_shape_view cp.body.1 with
  | some shapeA =>
    obtain ⟨fA, tf, h1, h2⟩ := hfA (Or.inl (by rw [hmA]; rfl))
    obtain ⟨x, hx⟩ := get_trimesh_friction_triangle shapeA cp.pivotA fA tf h2
    by_cases hpv : shapeA.has_per_vertex_friction = true
    · exact ⟨true, _, by simp [hpv, hB, h1, hx]; rfl⟩
    · exact ⟨false, cp.friction, by simp [hpv]⟩
  | none =>
    cases hmB : r.mesh_shape_view cp.body.2 with
    | some shapeB =>
      obtain ⟨fB, tf, h1, h2⟩ := hfB (Or.inl (by rw [hmB]; rfl))
      obtain ⟨x, hx⟩ := get_trimesh_friction_triangle shapeB cp.pivotB fB tf h2
      by_cases hpv : shapeB.has_per_vertex_friction = true
      · exact ⟨true, _, by simp [hpv, hA, h1, hx]; rfl⟩
      · exact ⟨false, cp.friction, by simp [hpv]⟩
    | none =>
      cases hpA : r.paged_mesh_shape_view cp.body.1 with
      | some shapeA =>
        obtain ⟨fA, tf, h1, h2⟩ := hfA (Or.inr (by rw [hpA]; rfl))
        obtain ⟨x, hx⟩ := get_paged_mesh_friction_triangle shapeA cp.pivotA fA tf h2
        by_cases hpv : shapeA.has_per_vertex_friction = true
        · exact ⟨true, _, by simp [hpv, hB, h1, hx]; rfl⟩
        · exact ⟨false, cp.friction, by simp [hpv]⟩
      | none =>
        cases hpB : r.paged_mesh_shape_view cp.body.2 with
        | some shapeB =>
          obtain ⟨fB, tf, h1, h2⟩ := hfB (Or.inr (by rw [hpB]; rfl))
          obtain ⟨x, hx⟩ := get_paged_mesh_friction_triangle shapeB cp.pivotB fB tf h2
          by_cases hpv : shapeB.has_per_vertex_friction = true
          · exact ⟨true, _, by simp [hpv, hA, h1, hx]; rfl⟩
          · exact ⟨false, cp.friction, by simp [hpv]⟩
        | none => exact ⟨false, cp.friction, rfl⟩

/-- Without a per-vertex material on either body,
`try_assign_per_vertex_friction` returns `false` and leaves the contact point
as it is. -/
theorem try_assign_per_vertex_friction_of_no_per_vertex (mix : material_mixing)
    (r : contact_registry) (cp : contact_point)
    (h : r.no_per_vertex_material cp.body) :
    try_assign_per_vertex_friction mix r cp = some (false, cp) := by
  have h0 := h 0
  have h1 := h 1
  simp only [body_at, if_true, Fin.isValue, one_ne_zero, if_false] at h0 h1
  unfold try_assign_per_vertex_friction
  cases hmA : r.mesh_shape_view cp.body.1 with
  | some shapeA => simp [(h0.1 shapeA hmA).1]
  | none =>
    cases hmB : r.mesh_shape_view cp.body.2 with
    | some shapeB => simp [(h1.1 shapeB hmB).1]
    | none =>
      cases hpA : r.paged_mesh_shape_view cp.body.1 with
      | some shapeA => simp [(h0.2 shapeA hpA).1]
      | none =>
        cases hpB : r.paged_mesh_shape_view cp.body.2 with
        | some shapeB => simp [(h1.2 shapeB hpB).1]
        | none => rfl

/-- Without a per-vertex material on either body,
`try_assign_per_vertex_restitution` returns `false` and leaves the contact
point as it is. -/
theorem try_assign_per_vertex_restitution_of_no_per_vertex (mix : material_mixing)
    (r : contact_registry) (cp : contact_point)
    (h : r.no_per_vertex_material cp.body) :
    try_assign_per_vertex_restitution mix r cp = some (false, cp) := by
  have h0 := h 0
  have h1 := h 1
  simp only [body_at, if_true, Fin.isValue, one_ne_zero, if_false] at h0 h1
  unfold try_assign_per_vertex_restitution
  cases hmA : r.mesh_shape_view cp.body.1 with
  | some shapeA => simp [(h0.1 shapeA hmA).2]
  | none =>
    cases hmB : r.mesh_shape_view cp.body.2 with
    | some shapeB => simp [(h1.1 shapeB hmB).2]
    | none =>
      cases hpA : r.paged_mesh_shape_view cp.body.1 with
      | some shapeA => simp [(h0.2 shapeA hpA).2]
      | none =>
        cases hpB : r.paged_mesh_shape_view cp.body.2 with
        | some shapeB => simp [(h1.2 shapeB hpB).2]
        | none => rfl

/-- Function `merge_point` first writes the fields of the candidate and the
local normal, then runs the two `try_assign_per_vertex` functions. -/
theorem merge_point_bind (mix : material_mixing) (orn : entity → quaternion)
    (r : contact_registry) (rp : collision_point) (cp : contact_point) :
    merge_point mix orn r rp cp
      = (try_assign_per_vertex_friction mix r (merged_fields orn rp cp)).bind
          (fun assigned =>
            (try_assign_per_vertex_restitution mix r assigned.2).bind
              (fun assigned => some assigned.2)) := by
  unfold merge_point merged_fields
  cases hatt : rp.normal_attachment <;> simp [body_at]

/-- What `merge_point` returns: the cached point with the fields of the
candidate and the local normal written, and with a friction and a restitution
that are the previous ones when no body has a per-vertex material. -/
theorem merge_point_eq (mix : material_mixing) (orn : entity → quaternion)
    (r : contact_registry) (rp : collision_point) (cp : contact_point)
    (hreturn : r.no_per_vertex_material cp.body ∨
      r.features_readable cp.body rp.featureA rp.featureB) :
    ∃ friction restitution,
      merge_point mix orn r rp cp
        = some { merged_fields orn rp cp with
                 friction := friction, restitution := restitution } ∧
      (r.no_per_vertex_material cp.body →
        friction = cp.friction ∧ restitution = cp.restitution) := by
  rw [merge_point_bind]
  by_cases hno : r.no_per_vertex_material cp.body
  · refine ⟨cp.friction, cp.restitution, ?_, fun _ => ⟨rfl, rfl⟩⟩
    have h1 := try_assign_per_vertex_friction_of_no_per_vertex mix r
      (merged_fields orn rp cp) hno
    have h2 := try_assign_per_vertex_restitution_of_no_per_vertex mix r
      (merged_fields orn rp cp) hno
    rw [h1]
    simp only [Option.some_bind]
    rw [h2]
    rfl
  · rcases hreturn with h | ⟨hA, hB, hfA, hfB⟩
    · exact absurd h hno
    · obtain ⟨materialA, hA⟩ := Option.isSome_iff_exists.mp hA
      obtain ⟨materialB, hB⟩ := Option.isSome_iff_exists.mp hB
      obtain ⟨b, x, hx⟩ := try_assign_per_vertex_friction_some mix r
        (merged_fields orn rp cp) materialA materialB hA hB hfA hfB
      obtain ⟨b2, y, hy⟩ := try_assign_per_vertex_restitution_some mix r
        { merged_fields orn rp cp with friction := x } materialA materialB hA hB hfA hfB
      refine ⟨x, y, ?_, fun h => absurd h hno⟩
      rw [hx]
      simp only [Option.some_bind]
      rw [hy]
      rfl

/-- C21: `merge_point(rp, cp, ...)` overwrites `pivotA`, `pivotB`, `normal`,
`distance`, `normal_attachment`, `featureA` and `featureB` of the cached point
with the values of the candidate and leaves `cp.body` and `cp.lifetime`
unchanged (and the spin and roll friction too); when neither body has a mesh
with a per-vertex material it also leaves `cp.friction` and `cp.restitution`
unchanged. The function returns when no body has a per-vertex material, or
when what it dereferences is there: the materials of both bodies and a
triangle feature on the side of a body that carries a mesh. -/
theorem merge_point_overwrites (mix : material_mixing) (orn : entity → quaternion)
    (r : contact_registry) (rp : collision_point) (cp : contact_point)
    (hreturn : r.no_per_vertex_material cp.body ∨
      r.features_readable cp.body rp.featureA rp.featureB) :
    ∃ cp1, merge_point mix orn r rp cp = some cp1 ∧
      cp1.pivotA = rp.pivotA ∧ cp1.pivotB = rp.pivotB ∧ cp1.normal = rp.normal ∧
      cp1.distance = rp.distance ∧ cp1.normal_attachment = rp.normal_attachment ∧
      cp1.featureA = rp.featureA ∧ cp1.featureB = rp.featureB ∧
      cp1.body = cp.body ∧ cp1.lifetime = cp.lifetime ∧
      cp1.spin_friction = cp.spin_friction ∧ cp1.roll_friction = cp.roll_friction ∧
      (r.no_per_vertex_material cp.body →
        cp1.friction = cp.friction ∧ cp1.restitution = cp.restitution) := by
  obtain ⟨friction, restitution, heq, hno⟩ := merge_point_eq mix orn r rp cp hreturn
  exact ⟨_, heq, rfl, rfl, rfl, rfl, rfl, rfl, rfl, rfl, rfl, rfl, rfl, hno⟩

/-- Witness of C21: merging the sample candidate into the contact of the ball
`1` with the mesh `3`, which has no per-vertex material, and into the contact
of the ball `1` with the mesh `2`, which has per-vertex friction. -/
theorem merge_point_overwrites_witness :
    (∃ cp1, merge_point sample_mix (fun _ => sample_orientation) sample_contact_registry
        (sample_candidate contact_normal_attachment.normal_on_B)
        (sample_contact (entity.id 1) (entity.id 3)) = some cp1 ∧
      cp1.pivotA = ⟨1 / 10, 0, 0⟩ ∧ cp1.body = (entity.id 1, entity.id 3) ∧
      cp1.friction = 0 ∧ cp1.restitution = 0) ∧
    (∃ cp1, merge_point sample_mix (fun _ => sample_orientation) sample_contact_registry
        (sample_candidate contact_normal_attachment.normal_on_B)
        (sample_contact (entity.id 1) (entity.id 2)) = some cp1 ∧
      cp1.pivotA = ⟨1 / 10, 0, 0⟩ ∧ cp1.body = (entity.id 1, entity.id 2)) := by
  have hno : sample_contact_registry.no_per_vertex_material
      (sample_contact (entity.id 1) (entity.id 3)).body := by
    intro i
    fin_cases i <;>
      simp [sample_contact_registry, sample_contact, body_at, sample_trimesh]
  have hread : sample_contact_registry.features_readable
      (sample_contact (entity.id 1) (entity.id 2)).body
      (sample_candidate contact_normal_attachment.normal_on_B).featureA
      (sample_candidate contact_normal_attachment.normal_on_B).featureB :=
    ⟨rfl, rfl, fun h => absurd h (by simp [sample_contact_registry, sample_contact]),
      fun _ => ⟨_, _, rfl, rfl⟩⟩
  obtain ⟨cp1, h1, hA, _, _, _, _, _, _, hb, _, _, _, hfr⟩ :=
    merge_point_overwrites sample_mix (fun _ => sample_orientation) sample_contact_registry
      (sample_candidate contact_normal_attachment.normal_on_B)
      (sample_contact (entity.id 1) (entity.id 3)) (Or.inl hno)
  obtain ⟨cp2, h2, hA2, _, _, _, _, _, _, hb2, _⟩ :=
    merge_point_overwrites sample_mix (fun _ => sample_orientation) sample_contact_registry
      (sample_candidate contact_normal_attachment.normal_on_B)
      (sample_contact (entity.id 1) (entity.id 2)) (Or.inr hread)
  exact ⟨⟨cp1, h1, hA, hb, (hfr hno).1, (hfr hno).2⟩, ⟨cp2, h2, hA2, hb2⟩⟩

/-- C22: normal attachment round trip. For every contact point created by
`create_contact_point` or refreshed by `merge_point` with
`normal_attachment = normal_on_A` (respectively `normal_on_B`), `local_normal`
equals the world normal of the candidate rotated by the conjugate of the unit
orientation `q` of body A (respectively B), so `rotate(q, local_normal)` gives
back the world normal; with the attachment `none`, `local_normal` is the zero
vector. The orientations are unit quaternions, `create_contact_point` is
called under its assertions and `merge_point` where it returns. -/
theorem local_normal_round_trip (EDYN_EPSILON : scalar) (mix : material_mixing)
    (orn : entity → quaternion) (continuous_contacts_tag : entity → Bool) (fresh : Nat)
    (manifold : contact_manifold) (r : contact_registry) (rp : collision_point)
    (cp : contact_point)
    (hunit : ∀ e, (orn e).is_unit)
    (hidx : manifold.num_points < max_contacts)
    (hnormal : EDYN_EPSILON < length_sqr rp.normal)
    (hreturn : r.no_per_vertex_material cp.body ∨
      r.features_readable cp.body rp.featureA rp.featureB) :
    (∃ res, create_contact_point EDYN_EPSILON orn continuous_contacts_tag fresh manifold rp
        = some res ∧
      res.cp.normal = rp.normal ∧ res.cp.normal_attachment = rp.normal_attachment ∧
      (res.cp.normal_attachment = contact_normal_attachment.normal_on_A →
        res.cp.local_normal = rotate (conjugate (orn manifold.body.1)) rp.normal ∧
        rotate (orn manifold.body.1) res.cp.local_normal = res.cp.normal) ∧
      (res.cp.normal_attachment = contact_normal_attachment.normal_on_B →
        res.cp.local_normal = rotate (conjugate (orn manifold.body.2)) rp.normal ∧
        rotate (orn manifold.body.2) res.cp.local_normal = res.cp.normal) ∧
      (res.cp.normal_attachment = contact_normal_attachment.none →
        res.cp.local_normal = vector3_zero)) ∧
    (∃ cp1, merge_point mix orn r rp cp = some cp1 ∧
      cp1.normal = rp.normal ∧ cp1.normal_attachment = rp.normal_attachment ∧
      (cp1.normal_attachment = contact_normal_attachment.normal_on_A →
        cp1.local_normal = rotate (conjugate (orn cp.body.1)) rp.normal ∧
        rotate (orn cp.body.1) cp1.local_normal = cp1.normal) ∧
      (cp1.normal_attachment = contact_normal_attachment.normal_on_B →
        cp1.local_normal = rotate (conjugate (orn cp.body.2)) rp.normal ∧
        rotate (orn cp.body.2) cp1.local_normal = cp1.normal) ∧
      (cp1.normal_attachment = contact_normal_attachment.none →
        cp1.local_normal = vector3_zero)) := by
  constructor
  · unfold create_contact_point
    simp only [hidx, dif_pos, hnormal, if_true]
    refine ⟨_, rfl, rfl, rfl, ?_, ?_, ?_⟩
    · intro h
      have h1 : rp.normal_attachment = contact_normal_attachment.normal_on_A := h
      simp only [h1, body_at]
      exact ⟨by simp, by simpa using rotate_rotate_conjugate _ _ (hunit manifold.body.1)⟩
    · intro h
      have h1 : rp.normal_attachment = contact_normal_attachment.normal_on_B := h
      simp only [h1, body_at]
      exact ⟨by simp, by simpa using rotate_rotate_conjugate _ _ (hunit manifold.body.2)⟩
    · intro h
      have h1 : rp.normal_attachment = contact_normal_attachment.none := h
      simp [h1]
  · obtain ⟨friction, restitution, heq, _⟩ := merge_point_eq mix orn r rp cp hreturn
    refine ⟨_, heq, rfl, rfl, ?_, ?_, ?_⟩
    · intro h
      have h1 : rp.normal_attachment = contact_normal_attachment.normal_on_A := h
      simp only [merged_fields, h1]
      exact ⟨trivial, rotate_rotate_conjugate _ _ (hunit cp.body.1)⟩
    · intro h
      have h1 : rp.normal_attachment = contact_normal_attachment.normal_on_B := h
      simp only [merged_fields, h1]
      exact ⟨trivial, rotate_rotate_conjugate _ _ (hunit cp.body.2)⟩
    · intro h
      have h1 : rp.normal_attachment = contact_normal_attachment.none := h
      simp only [merged_fields, h1]

/-- Witness of C22: with every body turned by the sample orientation, the
point created from the sample candidate attached to body A, and the sample
contact refreshed with it, hold a local normal that the orientation rotates
back to the world normal `(0, 1, 0)`. -/
theorem local_normal_round_trip_witness :
    (∃ res, create_contact_point 0 (fun _ => sample_orientation) (fun _ => false) 12
        (sample_manifold 2) (sample_candidate contact_normal_attachment.normal_on_A)
        = some res ∧
      rotate sample_orientation res.cp.local_normal = ⟨0, 1, 0⟩) ∧
    (∃ cp1, merge_point sample_mix (fun _ => sample_orientation) sample_contact_registry
        (sample_candidate contact_normal_attachment.normal_on_A)
        (sample_contact (entity.id 1) (entity.id 2)) = some cp1 ∧
      rotate sample_orientation cp1.local_normal = ⟨0, 1, 0⟩) := by
  have hread : sample_contact_registry.features_readable
      (sample_contact (entity.id 1) (entity.id 2)).body
      (sample_candidate contact_normal_attachment.normal_on_A).featureA
      (sample_candidate contact_normal_attachment.normal_on_A).featureB :=
    ⟨rfl, rfl, fun h => absurd h (by simp [sample_contact_registry, sample_contact]),
      fun _ => ⟨_, _, rfl, rfl⟩⟩
  obtain ⟨⟨res, hres, hn, ha, hA, _⟩, ⟨cp1, hcp1, hn1, ha1, hA1, _⟩⟩ :=
    local_normal_round_trip 0 sample_mix (fun _ => sample_orientation) (fun _ => false) 12
      (sample_manifold 2) sample_contact_registry
      (sample_candidate contact_normal_attachment.normal_on_A)
      (sample_contact (entity.id 1) (entity.id 2))
      (fun _ => by norm_num [quaternion.is_unit, sample_orientation])
      (by decide)
      (by norm_num [sample_candidate, length_sqr, dot])
      (Or.inr hread)
  refine ⟨⟨res, hres, ?_⟩, ⟨cp1, hcp1, ?_⟩⟩
  · rw [(hA ha).2, hn]
    rfl
  · rw [(hA1 ha1).2, hn1]
    rfl

/-! ## Theorems about the extrapolation request -/

/-- Membership in a `std::set` after an insertion. -/
theorem mem_set_insert (x a : Nat) (l : List Nat) : a ∈ set_insert x l ↔ a = x ∨ a ∈ l := by
  induction l with
  | nil => simp [set_insert]
  | cons y ys ih =>
    unfold set_insert
    split_ifs with h1 h2
    · simp
    · subst h2
      simp
    · rw [List.mem_cons, ih, List.mem_cons]
      tauto

/-- The set `node_indices` holds exactly the indices of the connecting nodes
among the entities of the snapshot. -/
theorem mem_connecting_node_indices {Pools : Type} (s : client_state Pools)
    (snapshot : registry_snapshot Pools) (i : Nat) :
    i ∈ connecting_node_indices s snapshot ↔
      ∃ ent, ent ∈ snapshot.entities ∧ s.graph_node ent = some i ∧
        s.is_connecting_node i = true := by
  unfold connecting_node_indices
  induction snapshot.entities using List.reverseRecOn with
  | nil => simp
  | append_singleton l a ih =>
    rw [List.foldl_append]
    simp only [List.foldl_cons, List.foldl_nil, List.mem_append, List.mem_singleton]
    cases hg : s.graph_node a with
    | none =>
      simp only [ih]
      constructor
      · rintro ⟨ent, h1, h2⟩
        exact ⟨ent, Or.inl h1, h2⟩
      · rintro ⟨ent, h1 | h1, h2⟩
        · exact ⟨ent, h1, h2⟩
        · subst h1
          rw [hg] at h2
          exact absurd h2.1 (by simp)
    | some j =>
      by_cases hc : s.is_connecting_node j = true
      · simp only [hc, if_true, mem_set_insert, ih]
        constructor
        · rintro (h | ⟨ent, h1, h2⟩)
          · subst h
            exact ⟨a, Or.inr rfl, hg, hc⟩
          · exact ⟨ent, Or.inl h1, h2⟩
        · rintro ⟨ent, h1 | h1, h2⟩
          · exact Or.inr ⟨ent, h1, h2⟩
          · subst h1
            rw [hg] at h2
            exact Or.inl (Option.some.inj h2.1).symm
      · simp only [hc, Bool.false_eq_true, if_false, ih]
        constructor
        · rintro ⟨ent, h1, h2⟩
          exact ⟨ent, Or.inl h1, h2⟩
        · rintro ⟨ent, h1 | h1, h2⟩
          · exact ⟨ent, h1, h2⟩
          · subst h1
            rw [hg] at h2
            have hij : j = i := Option.some.inj h2.1
            subst hij
            exact absurd h2.2 hc

/-- Appending the entities that pass a test and are not yet in the list, as
the callbacks of `graph.reach` and the loop over `static_tag` do, keeps what
the list held and adds exactly the entities that pass the test. -/
theorem mem_foldl_emplace_new {β : Type} (key : β → entity) (f : List entity → β → List entity)
    (p : β → Prop)
    (hf1 : ∀ acc x, p x ∧ ¬ key x ∈ acc → f acc x = acc ++ [key x])
    (hf2 : ∀ acc x, ¬ (p x ∧ ¬ key x ∈ acc) → f acc x = acc)
    (l : List β) (init : List entity) (e : entity) :
    e ∈ l.foldl f init ↔ e ∈ init ∨ ∃ x, x ∈ l ∧ p x ∧ key x = e := by
  induction l generalizing init with
  | nil => simp
  | cons a l ih =>
    rw [List.foldl_cons, ih]
    by_cases hc : p a ∧ ¬ key a ∈ init
    · rw [hf1 _ _ hc]
      simp only [List.mem_append, List.mem_cons, List.not_mem_nil, or_false]
      constructor
      · rintro ((h | h) | ⟨x, hx, hp, hk⟩)
        · exact Or.inl h
        · exact Or.inr ⟨a, Or.inl rfl, hc.1, h.symm⟩
        · exact Or.inr ⟨x, Or.inr hx, hp, hk⟩
      · rintro (h | ⟨x, hx | hx, hp, hk⟩)
        · exact Or.inl (Or.inl h)
        · subst hx
          exact Or.inl (Or.inr hk.symm)
        · exact Or.inr ⟨x, hx, hp, hk⟩
    · rw [hf2 _ _ hc]
      simp only [List.mem_cons]
      constructor
      · rintro (h | ⟨x, hx, hp, hk⟩)
        · exact Or.inl h
        · exact Or.inr ⟨x, Or.inr hx, hp, hk⟩
      · rintro (h | ⟨x, hx | hx, hp, hk⟩)
        · exact Or.inl h
        · subst hx
          by_cases hin : key x ∈ init
          · rw [hk] at hin
            exact Or.inl hin
          · exact absurd ⟨hp, hin⟩ hc
        · exact Or.inr ⟨x, hx, hp, hk⟩

/-- Appending only entities that are not yet in the list keeps the list free
of duplicates. -/
theorem nodup_foldl_emplace_new {β : Type} (key : β → entity)
    (f : List entity → β → List entity) (p : β → Prop)
    (hf1 : ∀ acc x, p x ∧ ¬ key x ∈ acc → f acc x = acc ++ [key x])
    (hf2 : ∀ acc x, ¬ (p x ∧ ¬ key x ∈ acc) → f acc x = acc)
    (l : List β) (init : List entity) (hinit : init.Nodup) :
    (l.foldl f init).Nodup := by
  induction l generalizing init with
  | nil => exact hinit
  | cons a l ih =>
    rw [List.foldl_cons]
    apply ih
    by_cases hc : p a ∧ ¬ key a ∈ init
    · rw [hf1 _ _ hc]
      rw [List.nodup_append]
      refine ⟨hinit, List.nodup_singleton _, ?_⟩
      intro x hx hx2
      rw [List.mem_singleton] at hx2
      subst hx2
      exact hc.2 hx
    · rw [hf2 _ _ hc]
      exact hinit

/-- The entities to extrapolate are the entities of the nodes that the graph
traversal visits, the entities of the edges it visits that are not contact
manifolds, and the entities with `static_tag`. -/
theorem mem_extrapolation_entities {Pools : Type} (s : client_state Pools)
    (node_indices : List Nat) (e : entity) :
    e ∈ extrapolation_entities s node_indices ↔
      (∃ visit, visit ∈ s.reach node_indices ∧ visit.2 = e ∧
        (visit.1 = true ∨ s.contact_manifold e = false)) ∨
      e ∈ s.static_tag := by
  unfold extrapolation_entities
  rw [mem_foldl_emplace_new (fun ent => ent) _ (fun _ => True)
      (fun acc x hc => by simp [hc.2]) (fun acc x hc => by
        have : x ∈ acc := by simpa using hc
        simp [this]),
    mem_foldl_emplace_new (fun visit => visit.2) _
      (fun visit => visit.1 = true ∨ s.contact_manifold visit.2 = false)
      (fun acc x hc => by
        obtain ⟨h1 | h1, h2⟩ := hc
        · simp [h1, h2]
        · cases hx : x.1 <;> simp [h1, h2])
      (fun acc x hc => by
        cases hx : x.1
        · cases hm : s.contact_manifold x.2
          · have h3 : x.2 ∈ acc := by
              by_contra hn
              exact hc ⟨Or.inr hm, hn⟩
            simp [h3]
          · simp
        · have h3 : x.2 ∈ acc := by
            by_contra hn
            exact hc ⟨Or.inl hx, hn⟩
          simp [h3])]
  simp only [List.not_mem_nil, false_or, true_and]
  constructor
  · rintro (⟨x, hx, hp, hk⟩ | ⟨x, hx, hk⟩)
    · subst hk
      exact Or.inl ⟨x, hx, rfl, hp⟩
    · subst hk
      exact Or.inr hx
  · rintro (⟨x, hx, hk, hp⟩ | h)
    · subst hk
      exact Or.inl ⟨x, hx, hp, rfl⟩
    · exact Or.inr ⟨e, h, rfl⟩

/-- The entities to extrapolate form a set: no entity is listed twice. -/
theorem nodup_extrapolation_entities {Pools : Type} (s : client_state Pools)
    (node_indices : List Nat) : (extrapolation_entities s node_indices).Nodup := by
  unfold extrapolation_entities
  apply nodup_foldl_emplace_new (fun ent => ent) _ (fun _ => True)
    (fun acc x hc => by simp [hc.2]) (fun acc x hc => by
      have : x ∈ acc := by simpa using hc
      simp [this])
  apply nodup_foldl_emplace_new (fun visit => visit.2) _
    (fun visit => visit.1 = true ∨ s.contact_manifold visit.2 = false)
    (fun acc x hc => by
      obtain ⟨h1 | h1, h2⟩ := hc
      · simp [h1, h2]
      · cases hx : x.1 <;> simp [h1, h2])
    (fun acc x hc => by
      cases hx : x.1
      · cases hm : s.contact_manifold x.2
        · have h3 : x.2 ∈ acc := by
            by_contra hn
            exact hc ⟨Or.inr hm, hn⟩
          simp [h3]
        · simp
      · have h3 : x.2 ∈ acc := by
          by_contra hn
          exact hc ⟨Or.inl hx, hn⟩
        simp [h3])
  exact List.nodup_nil

/-- The request that `process_packet(registry_snapshot)` sends, when it sends
one. -/
theorem process_packet_request {Pools : Type} (s : client_state Pools) (time : scalar)
    (snapshot : registry_snapshot Pools) (req : extrapolation_request Pools)
    (hreq : (process_packet_registry_snapshot s time snapshot).request = some req) :
    req.entities = extrapolation_entities s
        (connecting_node_indices s (convert_remloc s snapshot)) ∧
      req.owned_entities = req.entities.filter
        (fun ent => decide (s.entity_owner ent = some s.client_entity)) ∧
      req.snapshot = convert_remloc s snapshot := by
  cases hk : contains_unknown_entities s snapshot.entities
  · rw [process_packet_known s time snapshot hk] at hreq
    by_cases hc : time - snapshot_time s time (convert_remloc s snapshot) ≤ s.fixed_dt ∨
        s.extrapolation_enabled = false ∨
        connecting_node_indices s (convert_remloc s snapshot) = []
    · rw [if_pos hc] at hreq
      exact absurd hreq (by simp)
    · rw [if_neg hc] at hreq
      have h := Option.some.inj hreq
      subst h
      exact ⟨rfl, rfl, rfl⟩
  · unfold process_packet_registry_snapshot at hreq
    rw [if_pos hk] at hreq
    exact absurd hreq (by simp)

/-- The request that the sample client with a contact manifold sends for a
snapshot of body `1` that is one second old. -/
theorem sample_manifold_request :
    (process_packet_registry_snapshot sample_client_state_manifold 1
        (sample_snapshot [entity.id 11])).request
      = some
        { start_time := 0
          entities := [entity.id 1, entity.id 2]
          owned_entities := [entity.id 1]
          snapshot := convert_remloc sample_client_state_manifold
            (sample_snapshot [entity.id 11])
          should_remap := true } := by
  have hk : contains_unknown_entities sample_client_state_manifold
      (sample_snapshot [entity.id 11]).entities = false := by decide
  have hst : snapshot_time sample_client_state_manifold 1
      (convert_remloc sample_client_state_manifold (sample_snapshot [entity.id 11])) = 0 := by
    norm_num [snapshot_time, convert_remloc, sample_client_state_manifold,
      sample_client_state, sample_snapshot]
  have hnodes : connecting_node_indices sample_client_state_manifold
      (convert_remloc sample_client_state_manifold (sample_snapshot [entity.id 11]))
      = [0] := by decide
  have hdt : sample_client_state_manifold.fixed_dt = 1 / 60 := rfl
  have hen : sample_client_state_manifold.extrapolation_enabled = true := rfl
  rw [process_packet_known _ _ _ hk, if_neg (by rw [hst, hnodes, hdt, hen]; norm_num)]
  simp only [hst, hnodes]
  have hent : extrapolation_entities sample_client_state_manifold [0]
      = [entity.id 1, entity.id 2] := by decide
  rw [hent]
  have hown : List.filter
      (fun ent => decide (sample_client_state_manifold.entity_owner ent
        = some sample_client_state_manifold.client_entity)) [entity.id 1, entity.id 2]
      = [entity.id 1] := by decide
  rw [hown]

/-- The request that the sample client with a contact manifold sends for a
snapshot of body `1` and of the kinematic body `4` that is one second old. -/
theorem sample_kinematic_request :
    (process_packet_registry_snapshot sample_client_state_manifold 1
        (sample_snapshot [entity.id 11, entity.id 14])).request
      = some
        { start_time := 0
          entities := [entity.id 1, entity.id 2]
          owned_entities := [entity.id 1]
          snapshot := convert_remloc sample_client_state_manifold
            (sample_snapshot [entity.id 11, entity.id 14])
          should_remap := true } := by
  have hk : contains_unknown_entities sample_client_state_manifold
      (sample_snapshot [entity.id 11, entity.id 14]).entities = false := by decide
  have hst : snapshot_time sample_client_state_manifold 1
      (convert_remloc sample_client_state_manifold
        (sample_snapshot [entity.id 11, entity.id 14])) = 0 := by
    norm_num [snapshot_time, convert_remloc, sample_client_state_manifold,
      sample_client_state, sample_snapshot]
  have hnodes : connecting_node_indices sample_client_state_manifold
      (convert_remloc sample_client_state_manifold
        (sample_snapshot [entity.id 11, entity.id 14])) = [0] := by decide
  have hdt : sample_client_state_manifold.fixed_dt = 1 / 60 := rfl
  have hen : sample_client_state_manifold.extrapolation_enabled = true := rfl
  rw [process_packet_known _ _ _ hk, if_neg (by rw [hst, hnodes, hdt, hen]; norm_num)]
  simp only [hst, hnodes]
  have hent : extrapolation_entities sample_client_state_manifold [0]
      = [entity.id 1, entity.id 2] := by decide
  rw [hent]
  have hown : List.filter
      (fun ent => decide (sample_client_state_manifold.entity_owner ent
        = some sample_client_state_manifold.client_entity)) [entity.id 1, entity.id 2]
      = [entity.id 1] := by decide
  rw [hown]

/-- Counterexample to C23: (1) the sample client builds a request for a
snapshot of body `1`; the graph traversal from the node of body `1` visits the
contact manifold `50` as the entity of an edge, so that it is reachable in the
entity graph from the entities of the snapshot, and yet the manifold is not
among the entities of the request. (2) It builds a request for a snapshot of
body `1` and of the kinematic body `4`, which has a node in the entity graph
that is not a connecting node and has no `static_tag`; body `4` is an entity
of the snapshot and yet it is not among the entities of the request. -/
theorem extrapolation_request_leaves_out_manifold :
    (∃ req,
      (process_packet_registry_snapshot sample_client_state_manifold 1
        (sample_snapshot [entity.id 11])).request = some req ∧
      (false, entity.id 50) ∈ sample_client_state_manifold.reach
        (connecting_node_indices sample_client_state_manifold
          (convert_remloc sample_client_state_manifold (sample_snapshot [entity.id 11]))) ∧
      ¬ entity.id 50 ∈ req.entities) ∧
    (∃ req,
      (process_packet_registry_snapshot sample_client_state_manifold 1
        (sample_snapshot [entity.id 11, entity.id 14])).request = some req ∧
      entity.id 4 ∈ (convert_remloc sample_client_state_manifold
        (sample_snapshot [entity.id 11, entity.id 14])).entities ∧
      sample_client_state_manifold.graph_node (entity.id 4) = some 3 ∧
      ¬ entity.id 4 ∈ sample_client_state_manifold.static_tag ∧
      ¬ entity.id 4 ∈ req.entities) :=
  ⟨⟨_, sample_manifold_request, by decide, by decide⟩,
    ⟨_, sample_kinematic_request, by decide, by decide, by decide, by decide⟩⟩

/-- C23 (amended): when the client builds an extrapolation request for a
snapshot, the entity set of the request is the set of the entities of the
nodes, and of the edges that are not contact manifolds, that the graph
traversal visits from the connecting nodes among the entities of the snapshot,
together with every entity that has `static_tag`; and `req.owned_entities` is
exactly the subset of that set whose `entity_owner` is this client. -/
theorem extrapolation_request_entities {Pools : Type} (s : client_state Pools)
    (time : scalar) (snapshot : registry_snapshot Pools) (req : extrapolation_request Pools)
    (hreq : (process_packet_registry_snapshot s time snapshot).request = some req) :
    (∀ e, e ∈ req.entities ↔
      (∃ visit, visit ∈ s.reach (connecting_node_indices s (convert_remloc s snapshot)) ∧
        visit.2 = e ∧ (visit.1 = true ∨ s.contact_manifold e = false)) ∨
      e ∈ s.static_tag) ∧
    (∀ i, i ∈ connecting_node_indices s (convert_remloc s snapshot) ↔
      ∃ ent, ent ∈ (convert_remloc s snapshot).entities ∧ s.graph_node ent = some i ∧
        s.is_connecting_node i = true) ∧
    req.entities.Nodup ∧
    (∀ e, e ∈ req.owned_entities ↔
      e ∈ req.entities ∧ s.entity_owner e = some s.client_entity) ∧
    req.owned_entities.Nodup := by
  obtain ⟨h1, h2, _⟩ := process_packet_request s time snapshot req hreq
  have hnodup : req.entities.Nodup := by
    rw [h1]
    exact nodup_extrapolation_entities s _
  refine ⟨fun e => ?_, fun i => mem_connecting_node_indices s _ i, hnodup, fun e => ?_, ?_⟩
  · rw [h1]
    exact mem_extrapolation_entities s _ e
  · rw [h2, List.mem_filter, decide_eq_true_eq]
  · rw [h2]
    exact hnodup.filter _

/-- Witness of C23 (amended): the request of the sample client with a contact
manifold holds body `1`, visited by the traversal, and the static body `2`,
and not the manifold `50`; the client owns body `1`. -/
theorem extrapolation_request_entities_witness :
    ∃ req,
      (process_packet_registry_snapshot sample_client_state_manifold 1
        (sample_snapshot [entity.id 11])).request = some req ∧
      (∀ e, e ∈ req.entities ↔
        (∃ visit, visit ∈ sample_client_state_manifold.reach
            (connecting_node_indices sample_client_state_manifold
              (convert_remloc sample_client_state_manifold
                (sample_snapshot [entity.id 11]))) ∧
          visit.2 = e ∧
          (visit.1 = true ∨ sample_client_state_manifold.contact_manifold e = false)) ∨
        e ∈ sample_client_state_manifold.static_tag) ∧
      req.entities = [entity.id 1, entity.id 2] ∧
      req.owned_entities = [entity.id 1] :=
  ⟨_, sample_manifold_request,
    (extrapolation_request_entities sample_client_state_manifold 1
      (sample_snapshot [entity.id 11]) _ sample_manifold_request).1, rfl, rfl⟩

/-! ## Theorems about the rows of `prepare_constraint<hinge_constraint>` -/

/-- The three pivot rows, written out. -/
theorem hinge_pivot_rows_eq (EDYN_SCALAR_MAX : scalar) (con : hinge_constraint)
    (rA rB : vector3) (cache : constraint_row_prep_cache) (row_idx : Nat) :
    hinge_pivot_rows EDYN_SCALAR_MAX con rA rB cache row_idx
      = (cache ++
          [{ J := (matrix3x3_identity.row 0, -((skew_matrix rA).row 0),
                   -(matrix3x3_identity.row 0), (skew_matrix rB).row 0)
             lower_limit := -EDYN_SCALAR_MAX
             upper_limit := EDYN_SCALAR_MAX
             impulse := con.impulse row_idx },
           { J := (matrix3x3_identity.row 1, -((skew_matrix rA).row 1),
                   -(matrix3x3_identity.row 1), (skew_matrix rB).row 1)
             lower_limit := -EDYN_SCALAR_MAX
             upper_limit := EDYN_SCALAR_MAX
             impulse := con.impulse (row_idx + 1) },
           { J := (matrix3x3_identity.row 2, -((skew_matrix rA).row 2),
                   -(matrix3x3_identity.row 2), (skew_matrix rB).row 2)
             lower_limit := -EDYN_SCALAR_MAX
             upper_limit := EDYN_SCALAR_MAX
             impulse := con.impulse (row_idx + 2) }],
         row_idx + 3) := by
  unfold hinge_pivot_rows
  have h3 : List.finRange 3 = [0, 1, 2] := by decide
  simp only [h3, List.foldl_cons, List.foldl_nil, List.append_assoc, List.singleton_append,
    List.cons_append, List.nil_append]

/-- The limit block appends its rows to the cache and counts them: the limit
row and, when the bump stop is deflected, the bump stop row. -/
theorem hinge_limit_rows_append (large_scalar : scalar) (con : hinge_constraint) (dt : scalar)
    (hinge_axis : vector3) (cache : constraint_row_prep_cache) (row_idx : Nat) :
    hinge_limit_rows large_scalar con dt hinge_axis cache row_idx
      = (cache ++ (hinge_limit_rows large_scalar con dt hinge_axis [] row_idx).1,
         row_idx + (hinge_limit_rows large_scalar con dt hinge_axis [] row_idx).1.length) := by
  unfold hinge_limit_rows
  simp only [List.nil_append]
  split_ifs <;> simp

/-- The bump stop is deflected exactly when the angle is below
`angle_min + bump_stop_angle` or above `angle_max - bump_stop_angle`. -/
theorem hinge_bump_stop_deflection_ne_zero (con : hinge_constraint) :
    (if con.angle < con.angle_min + con.bump_stop_angle then
        con.angle - (con.angle_min + con.bump_stop_angle)
      else if con.angle > con.angle_max - con.bump_stop_angle then
        con.angle - (con.angle_max - con.bump_stop_angle)
      else (0 : scalar)) ≠ 0 ↔
      (con.angle < con.angle_min + con.bump_stop_angle ∨
        con.angle > con.angle_max - con.bump_stop_angle) := by
  by_cases h1 : con.angle < con.angle_min + con.bump_stop_angle
  · rw [if_pos h1]
    exact ⟨fun _ => Or.inl h1, fun _ => by linarith⟩
  · rw [if_neg h1]
    by_cases h2 : con.angle > con.angle_max - con.bump_stop_angle
    · rw [if_pos h2]
      exact ⟨fun _ => Or.inr h2, fun _ => by
        intro h
        linarith⟩
    · rw [if_neg h2]
      exact ⟨fun h => absurd rfl h, fun h => by tauto⟩

/-- The limit block writes one row, or two when the bump stop is deflected. -/
theorem hinge_limit_rows_length (large_scalar : scalar) (con : hinge_constraint) (dt : scalar)
    (hinge_axis : vector3) (row_idx : Nat) (hlimit : con.angle_min < con.angle_max) :
    (hinge_limit_rows large_scalar con dt hinge_axis [] row_idx).1.length
      = 1 + hinge_bump_stop_count con := by
  have hd := hinge_bump_stop_deflection_ne_zero con
  simp only [hinge_limit_rows, hinge_bump_stop_count, List.nil_append, hd, hlimit, true_and]
  by_cases hb1 : con.bump_stop_stiffness > 0
  · by_cases hb2 : con.bump_stop_angle > 0
    · by_cases hdefl : con.angle < con.angle_min + con.bump_stop_angle ∨
          con.angle > con.angle_max - con.bump_stop_angle
      · simp [hb1, hb2, hdefl]
      · simp [hb1, hb2, hdefl]
    · simp [hb1, hb2]
  · simp [hb1]

/-- The constraint that `prepare_constraint<hinge_constraint>` leaves behind is
the hinge with its tracked angle updated. -/
theorem prepare_hinge_tracked (pi EDYN_SCALAR_MAX large_scalar : scalar)
    (atan2 : scalar → scalar → scalar) (normalize_angle : scalar → scalar)
    (con : hinge_constraint) (cache : constraint_row_prep_cache) (dt : scalar)
    (originA posA : vector3) (ornA : quaternion) (angvelA : vector3)
    (originB posB : vector3) (ornB : quaternion) (angvelB : vector3) :
    (prepare_constraint_hinge_constraint pi EDYN_SCALAR_MAX large_scalar atan2 normalize_angle
        con cache dt originA posA ornA angvelA originB posB ornB angvelB).1
      = hinge_tracked pi atan2 normalize_angle con ornA ornB := by
  unfold prepare_constraint_hinge_constraint hinge_tracked hinge_measured_angle
  simp only [decide_eq_true_eq]

/-- The tracking changes nothing but the angle of the hinge. -/
theorem hinge_tracked_fields (pi : scalar) (atan2 : scalar → scalar → scalar)
    (normalize_angle : scalar → scalar) (con : hinge_constraint) (ornA ornB : quaternion) :
    hinge_tracked pi atan2 normalize_angle con ornA ornB
      = { con with angle := (hinge_tracked pi atan2 normalize_angle con ornA ornB).angle } := by
  unfold hinge_tracked
  split_ifs <;> rfl

/-- The rows that `prepare_constraint<hinge_constraint>` writes, block by
block: the pivot rows, the two angular rows, and the rows of the limit, spring
and friction blocks that are enabled, each block starting at the row index at
which the previous one stopped. -/
theorem prepare_hinge_rows (pi EDYN_SCALAR_MAX large_scalar : scalar)
    (atan2 : scalar → scalar → scalar) (normalize_angle : scalar → scalar)
    (con : hinge_constraint) (cache : constraint_row_prep_cache) (dt : scalar)
    (originA posA : vector3) (ornA : quaternion) (angvelA : vector3)
    (originB posB : vector3) (ornB : quaternion) (angvelB : vector3) :
    (prepare_constraint_hinge_constraint pi EDYN_SCALAR_MAX large_scalar atan2 normalize_angle
        con cache dt originA posA ornA angvelA originB posB ornB angvelB).2
      = cache ++
          ((hinge_pivot_rows EDYN_SCALAR_MAX con (pivot_arm (con.pivot 0) originA posA ornA)
              (pivot_arm (con.pivot 1) originB posB ornB) [] 0).1 ++
            (hinge_angular_row EDYN_SCALAR_MAX con
              (rotate ornA ((con.frame 0).column 1)) [] 3).1 ++
            (hinge_angular_row EDYN_SCALAR_MAX con
              (rotate ornA ((con.frame 0).column 2)) [] 4).1 ++
            (if con.angle_min < con.angle_max then
                (hinge_limit_rows large_scalar
                  (hinge_tracked pi atan2 normalize_angle con ornA ornB) dt
                  (hinge_axis con ornA) [] 5).1
              else []) ++
            (if con.stiffness > 0 then
                (hinge_spring_row (hinge_tracked pi atan2 normalize_angle con ornA ornB) dt
                  (hinge_axis con ornA) []
                  (5 + hinge_limit_count con +
                    hinge_bump_stop_count
                      (hinge_tracked pi atan2 normalize_angle con ornA ornB))).1
              else []) ++
            (if con.friction_torque > 0 ∨ con.damping > 0 then
                (hinge_friction_row (hinge_tracked pi atan2 normalize_angle con ornA ornB) dt
                  (hinge_axis con ornA) angvelA angvelB []
                  (5 + hinge_limit_count con +
                    hinge_bump_stop_count
                      (hinge_tracked pi atan2 normalize_angle con ornA ornB) +
                    hinge_spring_count con)).1
              else [])) := by
  have hb0 : ¬ con.angle_min < con.angle_max →
      hinge_bump_stop_count (hinge_tracked pi atan2 normalize_angle con ornA ornB) = 0 := by
    intro h
    unfold hinge_bump_stop_count
    rw [hinge_tracked_fields]
    simp [h]
  have hlen : con.angle_min < con.angle_max →
      (hinge_limit_rows large_scalar (hinge_tracked pi atan2 normalize_angle con ornA ornB) dt
        (hinge_axis con ornA) [] 5).1.length
      = 1 + hinge_bump_stop_count (hinge_tracked pi atan2 normalize_angle con ornA ornB) := by
    intro h
    apply hinge_limit_rows_length
    rw [hinge_tracked_fields]
    exact h
  unfold prepare_constraint_hinge_constraint
  simp only [hinge_pivot_rows_eq, hinge_angular_row, decide_eq_true_eq, List.nil_append]
  rw [show (if con.angle_min < con.angle_max ∨ con.stiffness > 0 then
        { con with
          angle := hinge_track_angle pi normalize_angle con
            (atan2
              (dot (rotate ornB ((con.frame 1).column 1)) (rotate ornA ((con.frame 0).column 2)))
              (dot (rotate ornB ((con.frame 1).column 1))
                (rotate ornA ((con.frame 0).column 1)))) }
      else con) = hinge_tracked pi atan2 normalize_angle con ornA ornB from rfl]
  generalize hinge_tracked pi atan2 normalize_angle con ornA ornB = con1 at hb0 hlen ⊢
  unfold hinge_limit_count hinge_spring_count pivot_arm
  unfold hinge_axis at hlen ⊢
  simp only [Nat.zero_add, Nat.reduceAdd]
  by_cases hL : con.angle_min < con.angle_max
  · have hl := hlen hL
    have h56 : ∀ n : Nat, 5 + (1 + n) = 5 + 1 + n := fun n => by omega
    by_cases hS : con.stiffness > 0
    · by_cases hF : con.friction_torque > 0 ∨ con.damping > 0
      · simp only [hL, hS, hF, true_or, or_true, if_true]
        rw [hinge_limit_rows_append]
        simp only [hinge_spring_row, hinge_friction_row, hl, h56, List.append_assoc,
          List.nil_append, List.cons_append]
      · simp only [hL, hS, hF, true_or, or_true, if_true, if_false]
        rw [hinge_limit_rows_append]
        simp only [hinge_spring_row, hl, h56, List.append_assoc,
          List.nil_append, List.cons_append, List.append_nil]
    · by_cases hF : con.friction_torque > 0 ∨ con.damping > 0
      · simp only [hL, hS, hF, true_or, or_true, if_true, if_false]
        rw [hinge_limit_rows_append]
        simp only [hinge_friction_row, hl, h56, List.append_assoc,
          List.nil_append, List.cons_append, List.append_nil, Nat.add_zero]
      · simp only [hL, hS, hF, true_or, or_true, if_true, if_false]
        rw [hinge_limit_rows_append]
        simp only [List.append_assoc, List.nil_append, List.cons_append, List.append_nil]
  · have hb := hb0 hL
    by_cases hS : con.stiffness > 0
    · by_cases hF : con.friction_torque > 0 ∨ con.damping > 0
      · simp [hL, hS, hF, hb, hinge_spring_row, hinge_friction_row]
      · simp [hL, hS, hF, hb, hinge_spring_row]
    · by_cases hF : con.friction_torque > 0 ∨ con.damping > 0
      · simp [hL, hS, hF, hb, hinge_friction_row]
      · simp [hL, hS, hF, hb]

/-- Warm starting of two lists of rows carries over to their concatenation. -/
theorem warm_started_append (con : hinge_constraint) (k : Nat)
    (a b : List constraint_row_prep) (ha : warm_started con k a)
    (hb : warm_started con (k + a.length) b) : warm_started con k (a ++ b) := by
  intro j row hj
  by_cases hlt : j < a.length
  · rw [List.getElem?_append_left hlt] at hj
    exact ha j row hj
  · rw [List.getElem?_append_right (not_lt.mp hlt)] at hj
    have h := hb _ row hj
    rw [h]
    congr 1
    omega

/-- The empty list of rows is warm-started. -/
theorem warm_started_nil (con : hinge_constraint) (k : Nat) : warm_started con k [] := by
  intro j row hj
  simp at hj

/-- A single row holding `con.impulse[k]` is warm-started from `k`. -/
theorem warm_started_singleton (con : hinge_constraint) (k : Nat) (row : constraint_row_prep)
    (h : row.impulse = con.impulse k) : warm_started con k [row] := by
  intro j r hj
  cases j with
  | zero =>
    simp only [List.getElem?_cons_zero, Option.some.injEq] at hj
    subst hj
    exact h
  | succ n => simp at hj

/-- A row holding `con.impulse[k]` before rows warm-started from `k + 1`. -/
theorem warm_started_cons (con : hinge_constraint) (k : Nat) (row : constraint_row_prep)
    (rest : List constraint_row_prep) (h : row.impulse = con.impulse k)
    (hrest : warm_started con (k + 1) rest) : warm_started con k (row :: rest) := by
  intro j r hj
  cases j with
  | zero =>
    simp only [List.getElem?_cons_zero, Option.some.injEq] at hj
    subst hj
    exact h
  | succ n =>
    rw [List.getElem?_cons_succ] at hj
    rw [hrest n r hj]
    congr 1
    omega

/-- Warm starting depends on the impulses of the hinge only. -/
theorem warm_started_congr (con con1 : hinge_constraint) (k : Nat)
    (rows : List constraint_row_prep) (himp : con1.impulse = con.impulse)
    (h : warm_started con1 k rows) : warm_started con k rows := by
  intro j row hj
  rw [h j row hj, himp]

/-- The limit block, from an empty cache, written out: the limit row, then the
bump stop row if the bump stop is set and deflected. -/
theorem hinge_limit_rows_eq (large_scalar : scalar) (con : hinge_constraint) (dt : scalar)
    (axis : vector3) (row_idx : Nat) :
    (hinge_limit_rows large_scalar con dt axis [] row_idx).1
      = (if con.angle < (con.angle_min + con.angle_max) / 2 then
            ({ J := (vector3_zero, axis, vector3_zero, -axis)
               impulse := con.impulse row_idx
               lower_limit := -large_scalar
               upper_limit := 0
               options := { error := (con.angle_min - con.angle) / dt
                            restitution := con.limit_restitution } } : constraint_row_prep)
          else
            { J := (vector3_zero, axis, vector3_zero, -axis)
              impulse := con.impulse row_idx
              lower_limit := 0
              upper_limit := large_scalar
              options := { error := (con.angle_max - con.angle) / dt
                           restitution := con.limit_restitution } }) ::
        (if con.bump_stop_stiffness > 0 ∧ con.bump_stop_angle > 0 ∧
            (con.angle < con.angle_min + con.bump_stop_angle ∨
              con.angle > con.angle_max - con.bump_stop_angle) then
          [{ J := (vector3_zero, axis, vector3_zero, -axis)
             impulse := con.impulse (row_idx + 1)
             lower_limit :=
               min (con.bump_stop_stiffness *
                 (if con.angle < con.angle_min + con.bump_stop_angle then
                    con.angle - (con.angle_min + con.bump_stop_angle)
                  else if con.angle > con.angle_max - con.bump_stop_angle then
                    con.angle - (con.angle_max - con.bump_stop_angle)
                  else 0) * dt) 0
             upper_limit :=
               max 0 (con.bump_stop_stiffness *
                 (if con.angle < con.angle_min + con.bump_stop_angle then
                    con.angle - (con.angle_min + con.bump_stop_angle)
                  else if con.angle > con.angle_max - con.bump_stop_angle then
                    con.angle - (con.angle_max - con.bump_stop_angle)
                  else 0) * dt)
             options :=
               { error :=
                   -(if con.angle < con.angle_min + con.bump_stop_angle then
                      con.angle - (con.angle_min + con.bump_stop_angle)
                    else if con.angle > con.angle_max - con.bump_stop_angle then
                      con.angle - (con.angle_max - con.bump_stop_angle)
                    else 0) / dt } }]
        else []) := by
  have hd := hinge_bump_stop_deflection_ne_zero con
  simp only [hinge_limit_rows, List.nil_append, hd]
  by_cases hb1 : con.bump_stop_stiffness > 0
  · by_cases hb2 : con.bump_stop_angle > 0
    · by_cases hdefl : con.angle < con.angle_min + con.bump_stop_angle ∨
          con.angle > con.angle_max - con.bump_stop_angle
      · simp only [hb1, hb2, hdefl, and_self, if_true, List.singleton_append]
      · simp only [hb1, hb2, hdefl, and_self, and_false, if_true, if_false]
    · simp only [hb1, hb2, and_false, false_and, if_false]
  · simp only [hb1, false_and, if_false]

/-- The limit block, from an empty cache: first the limit row, whose bounds
and error depend on the side of the midpoint on which the angle lies, then
the bump stop row if the bump stop is deflected; both about the hinge axis
and warm-started from `row_idx`. -/
theorem hinge_limit_rows_spec (large_scalar : scalar) (con : hinge_constraint) (dt : scalar)
    (axis : vector3) (row_idx : Nat) :
    ∃ row rest, (hinge_limit_rows large_scalar con dt axis [] row_idx).1 = row :: rest ∧
      row.J = axis_jacobian axis ∧
      (con.angle < (con.angle_min + con.angle_max) / 2 →
        row.lower_limit = -large_scalar ∧ row.upper_limit = 0 ∧
        row.options.error = (con.angle_min - con.angle) / dt) ∧
      (¬ con.angle < (con.angle_min + con.angle_max) / 2 →
        row.lower_limit = 0 ∧ row.upper_limit = large_scalar ∧
        row.options.error = (con.angle_max - con.angle) / dt) ∧
      row.options.restitution = con.limit_restitution ∧
      (∀ r, r ∈ rest → r.J = axis_jacobian axis) ∧
      warm_started con row_idx (row :: rest) := by
  rw [hinge_limit_rows_eq]
  refine ⟨_, _, rfl, ?_, ?_, ?_, ?_, ?_, ?_⟩
  · split_ifs <;> rfl
  · intro h
    rw [if_pos h]
    exact ⟨rfl, rfl, rfl⟩
  · intro h
    rw [if_neg h]
    exact ⟨rfl, rfl, rfl⟩
  · split_ifs <;> rfl
  · intro r hr
    by_cases hb : con.bump_stop_stiffness > 0 ∧ con.bump_stop_angle > 0 ∧
        (con.angle < con.angle_min + con.bump_stop_angle ∨
          con.angle > con.angle_max - con.bump_stop_angle)
    · rw [if_pos hb, List.mem_singleton] at hr
      subst hr
      rfl
    · rw [if_neg hb] at hr
      simp at hr
  · apply warm_started_cons
    · split_ifs <;> rfl
    · by_cases hb : con.bump_stop_stiffness > 0 ∧ con.bump_stop_angle > 0 ∧
          (con.angle < con.angle_min + con.bump_stop_angle ∨
            con.angle > con.angle_max - con.bump_stop_angle)
      · rw [if_pos hb]
        exact warm_started_singleton con _ _ rfl
      · rw [if_neg hb]
        exact warm_started_nil con _

/-- The tracking leaves the impulses and the parameters of the hinge as they
are. -/
theorem hinge_tracked_params (pi : scalar) (atan2 : scalar → scalar → scalar)
    (normalize_angle : scalar → scalar) (con : hinge_constraint) (ornA ornB : quaternion) :
    (hinge_tracked pi atan2 normalize_angle con ornA ornB).impulse = con.impulse ∧
    (hinge_tracked pi atan2 normalize_angle con ornA ornB).angle_min = con.angle_min ∧
    (hinge_tracked pi atan2 normalize_angle con ornA ornB).angle_max = con.angle_max ∧
    (hinge_tracked pi atan2 normalize_angle con ornA ornB).limit_restitution
      = con.limit_restitution ∧
    (hinge_tracked pi atan2 normalize_angle con ornA ornB).friction_torque
      = con.friction_torque ∧
    (hinge_tracked pi atan2 normalize_angle con ornA ornB).damping = con.damping := by
  rw [hinge_tracked_fields]
  exact ⟨rfl, rfl, rfl, rfl, rfl, rfl⟩

/-- The rows that `prepare_constraint<hinge_constraint>` writes: five rows,
written out, followed by the rows of the limit, spring and friction blocks. -/
theorem prepare_hinge_rows_cons (pi EDYN_SCALAR_MAX large_scalar : scalar)
    (atan2 : scalar → scalar → scalar) (normalize_angle : scalar → scalar)
    (con : hinge_constraint) (cache : constraint_row_prep_cache) (dt : scalar)
    (originA posA : vector3) (ornA : quaternion) (angvelA : vector3)
    (originB posB : vector3) (ornB : quaternion) (angvelB : vector3) :
    ∃ r0 r1 r2 r3 r4 : constraint_row_prep,
      (prepare_constraint_hinge_constraint pi EDYN_SCALAR_MAX large_scalar atan2
          normalize_angle con cache dt originA posA ornA angvelA originB posB ornB angvelB).2
        = cache ++ (r0 :: r1 :: r2 :: r3 :: r4 ::
            ((if con.angle_min < con.angle_max then
                (hinge_limit_rows large_scalar
                  (hinge_tracked pi atan2 normalize_angle con ornA ornB) dt
                  (hinge_axis con ornA) [] 5).1
              else []) ++
            (if con.stiffness > 0 then
                (hinge_spring_row (hinge_tracked pi atan2 normalize_angle con ornA ornB) dt
                  (hinge_axis con ornA) []
                  (5 + hinge_limit_count con +
                    hinge_bump_stop_count
                      (hinge_tracked pi atan2 normalize_angle con ornA ornB))).1
              else []) ++
            (if con.friction_torque > 0 ∨ con.damping > 0 then
                (hinge_friction_row (hinge_tracked pi atan2 normalize_angle con ornA ornB) dt
                  (hinge_axis con ornA) angvelA angvelB []
                  (5 + hinge_limit_count con +
                    hinge_bump_stop_count
                      (hinge_tracked pi atan2 normalize_angle con ornA ornB) +
                    hinge_spring_count con)).1
              else []))) ∧
      (∀ i : Fin 3, ∃ row, [r0, r1, r2][i.val]? = some row ∧
        row.J = (matrix3x3_identity.row i,
          -((skew_matrix (pivot_arm (con.pivot 0) originA posA ornA)).row i),
          -(matrix3x3_identity.row i),
          (skew_matrix (pivot_arm (con.pivot 1) originB posB ornB)).row i) ∧
        row.lower_limit = -EDYN_SCALAR_MAX ∧ row.upper_limit = EDYN_SCALAR_MAX) ∧
      (r3.J = axis_jacobian (rotate ornA ((con.frame 0).column 1)) ∧
        r3.lower_limit = -EDYN_SCALAR_MAX ∧ r3.upper_limit = EDYN_SCALAR_MAX) ∧
      (r4.J = axis_jacobian (rotate ornA ((con.frame 0).column 2)) ∧
        r4.lower_limit = -EDYN_SCALAR_MAX ∧ r4.upper_limit = EDYN_SCALAR_MAX) ∧
      warm_started con 0 [r0, r1, r2, r3, r4] := by
  rw [prepare_hinge_rows]
  simp only [hinge_pivot_rows_eq, hinge_angular_row, List.nil_append, List.append_assoc,
    List.cons_append]
  refine ⟨_, _, _, _, _, rfl, ?_, ⟨rfl, rfl, rfl⟩, ⟨rfl, rfl, rfl⟩, ?_⟩
  · intro i
    fin_cases i
    · exact ⟨_, rfl, rfl, rfl, rfl⟩
    · exact ⟨_, rfl, rfl, rfl, rfl⟩
    · exact ⟨_, rfl, rfl, rfl, rfl⟩
  · exact warm_started_cons con _ _ _ rfl (warm_started_cons con _ _ _ rfl
      (warm_started_cons con _ _ _ rfl (warm_started_cons con _ _ _ rfl
        (warm_started_singleton con _ _ rfl))))

/-- The rows of the limit, spring and friction blocks that are enabled: their
number, their Jacobian about the hinge axis and their warm starting from row
`5` on. Here `con1` is the hinge with its tracked angle updated. -/
theorem hinge_optional_rows_spec (large_scalar : scalar) (con con1 : hinge_constraint)
    (dt : scalar) (axis angvelA angvelB : vector3)
    (himp : con1.impulse = con.impulse) (hmin : con1.angle_min = con.angle_min)
    (hmax : con1.angle_max = con.angle_max) :
    ((if con.angle_min < con.angle_max then
          (hinge_limit_rows large_scalar con1 dt axis [] 5).1
        else []) ++
      (if con.stiffness > 0 then
          (hinge_spring_row con1 dt axis []
            (5 + hinge_limit_count con + hinge_bump_stop_count con1)).1
        else []) ++
      (if con.friction_torque > 0 ∨ con.damping > 0 then
          (hinge_friction_row con1 dt axis angvelA angvelB []
            (5 + hinge_limit_count con + hinge_bump_stop_count con1 +
              hinge_spring_count con)).1
        else [])).length
      = hinge_limit_count con + hinge_bump_stop_count con1 + hinge_spring_count con +
          hinge_friction_count con ∧
    (∀ row, row ∈
        (if con.angle_min < con.angle_max then
            (hinge_limit_rows large_scalar con1 dt axis [] 5).1
          else []) ++
        (if con.stiffness > 0 then
            (hinge_spring_row con1 dt axis []
              (5 + hinge_limit_count con + hinge_bump_stop_count con1)).1
          else []) ++
        (if con.friction_torque > 0 ∨ con.damping > 0 then
            (hinge_friction_row con1 dt axis angvelA angvelB []
              (5 + hinge_limit_count con + hinge_bump_stop_count con1 +
                hinge_spring_count con)).1
          else []) →
      row.J = axis_jacobian axis) ∧
    warm_started con 5
      ((if con.angle_min < con.angle_max then
          (hinge_limit_rows large_scalar con1 dt axis [] 5).1
        else []) ++
      (if con.stiffness > 0 then
          (hinge_spring_row con1 dt axis []
            (5 + hinge_limit_count con + hinge_bump_stop_count con1)).1
        else []) ++
      (if con.friction_torque > 0 ∨ con.damping > 0 then
          (hinge_friction_row con1 dt axis angvelA angvelB []
            (5 + hinge_limit_count con + hinge_bump_stop_count con1 +
              hinge_spring_count con)).1
        else [])) := by
  have hLlen : (if con.angle_min < con.angle_max then
        (hinge_limit_rows large_scalar con1 dt axis [] 5).1 else []).length
      = hinge_limit_count con + hinge_bump_stop_count con1 := by
    unfold hinge_limit_count
    by_cases hL : con.angle_min < con.angle_max
    · rw [if_pos hL, if_pos hL]
      exact hinge_limit_rows_length large_scalar con1 dt axis 5 (by rw [hmin, hmax]; exact hL)
    · rw [if_neg hL, if_neg hL]
      unfold hinge_bump_stop_count
      rw [if_neg (fun h => hL (by rw [← hmin, ← hmax]; exact h.1))]
      rfl
  have hSlen : (if con.stiffness > 0 then
        (hinge_spring_row con1 dt axis []
          (5 + hinge_limit_count con + hinge_bump_stop_count con1)).1 else []).length
      = hinge_spring_count con := by
    unfold hinge_spring_count
    split_ifs <;> rfl
  have hFlen : (if con.friction_torque > 0 ∨ con.damping > 0 then
        (hinge_friction_row con1 dt axis angvelA angvelB []
          (5 + hinge_limit_count con + hinge_bump_stop_count con1 +
            hinge_spring_count con)).1 else []).length
      = hinge_friction_count con := by
    unfold hinge_friction_count
    split_ifs <;> rfl
  obtain ⟨lrow, lrest, hleq, hlJ, _, _, _, hrestJ, hlwarm⟩ :=
    hinge_limit_rows_spec large_scalar con1 dt axis 5
  refine ⟨?_, ?_, ?_⟩
  · rw [List.length_append, List.length_append, hLlen, hSlen, hFlen]
  · intro row hrow
    rw [List.mem_append, List.mem_append] at hrow
    rcases hrow with (hrow | hrow) | hrow
    · by_cases hL : con.angle_min < con.angle_max
      · rw [if_pos hL, hleq, List.mem_cons] at hrow
        rcases hrow with h | h
        · rw [h]
          exact hlJ
        · exact hrestJ row h
      · rw [if_neg hL] at hrow
        simp at hrow
    · by_cases hS : con.stiffness > 0
      · rw [if_pos hS] at hrow
        simp only [hinge_spring_row, List.nil_append, List.mem_singleton] at hrow
        rw [hrow]
        rfl
      · rw [if_neg hS] at hrow
        simp at hrow
    · by_cases hF : con.friction_torque > 0 ∨ con.damping > 0
      · rw [if_pos hF] at hrow
        simp only [hinge_friction_row, List.nil_append, List.mem_singleton] at hrow
        rw [hrow]
        rfl
      · rw [if_neg hF] at hrow
        simp at hrow
  · apply warm_started_append
    · apply warm_started_append
      · by_cases hL : con.angle_min < con.angle_max
        · rw [if_pos hL, hleq]
          exact warm_started_congr con con1 5 _ himp hlwarm
        · rw [if_neg hL]
          exact warm_started_nil con 5
      · rw [hLlen]
        by_cases hS : con.stiffness > 0
        · rw [if_pos hS]
          apply warm_started_singleton
          simp only [himp]
          congr 1
          omega
        · rw [if_neg hS]
          exact warm_started_nil con _
    · rw [List.length_append, hLlen, hSlen]
      by_cases hF : con.friction_torque > 0 ∨ con.damping > 0
      · rw [if_pos hF]
        apply warm_started_singleton
        simp only [himp]
        congr 1
        omega
      · rw [if_neg hF]
        exact warm_started_nil con _

/-- C24: row layout of `prepare_constraint<hinge_constraint>`. It writes
exactly `5 + L + B + S + F` rows, where `L = 1` iff `angle_min < angle_max`,
`B = 1` iff `L = 1`, `bump_stop_stiffness > 0`, `bump_stop_angle > 0` and the
tracked angle is below `angle_min + bump_stop_angle` or above
`angle_max - bump_stop_angle`, `S = 1` iff `stiffness > 0`, and `F = 1` iff
`friction_torque > 0` or `damping > 0`. The rows come in the order: three
pivot rows with `J_i = (I_i, -skew(rA)_i, -I_i, skew(rB)_i)` and unbounded
limits, two angular rows, then the rows of the limit block (limit, bump stop),
of the spring block and of the friction block, all about the hinge axis; and
the `k`-th row written is warm-started with `con.impulse[k]`. The tracked
angle is the one of the constraint after the call. -/
theorem prepare_hinge_row_layout (pi EDYN_SCALAR_MAX large_scalar : scalar)
    (atan2 : scalar → scalar → scalar) (normalize_angle : scalar → scalar)
    (con : hinge_constraint) (cache : constraint_row_prep_cache) (dt : scalar)
    (originA posA : vector3) (ornA : quaternion) (angvelA : vector3)
    (originB posB : vector3) (ornB : quaternion) (angvelB : vector3) :
    ∃ rows : List constraint_row_prep,
      (prepare_constraint_hinge_constraint pi EDYN_SCALAR_MAX large_scalar atan2
          normalize_angle con cache dt originA posA ornA angvelA originB posB ornB angvelB).2
        = cache ++ rows ∧
      (prepare_constraint_hinge_constraint pi EDYN_SCALAR_MAX large_scalar atan2
          normalize_angle con cache dt originA posA ornA angvelA originB posB ornB angvelB).1
        = hinge_tracked pi atan2 normalize_angle con ornA ornB ∧
      rows.length
        = 5 + hinge_limit_count con +
            hinge_bump_stop_count (hinge_tracked pi atan2 normalize_angle con ornA ornB) +
            hinge_spring_count con + hinge_friction_count con ∧
      (∀ i : Fin 3, ∃ row, rows[i.val]? = some row ∧
        row.J = (matrix3x3_identity.row i,
          -((skew_matrix (pivot_arm (con.pivot 0) originA posA ornA)).row i),
          -(matrix3x3_identity.row i),
          (skew_matrix (pivot_arm (con.pivot 1) originB posB ornB)).row i) ∧
        row.lower_limit = -EDYN_SCALAR_MAX ∧ row.upper_limit = EDYN_SCALAR_MAX) ∧
      (∃ row, rows[3]? = some row ∧
        row.J = axis_jacobian (rotate ornA ((con.frame 0).column 1)) ∧
        row.lower_limit = -EDYN_SCALAR_MAX ∧ row.upper_limit = EDYN_SCALAR_MAX) ∧
      (∃ row, rows[4]? = some row ∧
        row.J = axis_jacobian (rotate ornA ((con.frame 0).column 2)) ∧
        row.lower_limit = -EDYN_SCALAR_MAX ∧ row.upper_limit = EDYN_SCALAR_MAX) ∧
      rows.drop 5
        = (if con.angle_min < con.angle_max then
              (hinge_limit_rows large_scalar
                (hinge_tracked pi atan2 normalize_angle con ornA ornB) dt
                (hinge_axis con ornA) [] 5).1
            else []) ++
          (if con.stiffness > 0 then
              (hinge_spring_row (hinge_tracked pi atan2 normalize_angle con ornA ornB) dt
                (hinge_axis con ornA) []
                (5 + hinge_limit_count con +
                  hinge_bump_stop_count
                    (hinge_tracked pi atan2 normalize_angle con ornA ornB))).1
            else []) ++
          (if con.friction_torque > 0 ∨ con.damping > 0 then
              (hinge_friction_row (hinge_tracked pi atan2 normalize_angle con ornA ornB) dt
                (hinge_axis con ornA) angvelA angvelB []
                (5 + hinge_limit_count con +
                  hinge_bump_stop_count
                    (hinge_tracked pi atan2 normalize_angle con ornA ornB) +
                  hinge_spring_count con)).1
            else []) ∧
      (∀ row, row ∈ rows.drop 5 → row.J = axis_jacobian (hinge_axis con ornA)) ∧
      warm_started con 0 rows := by
  obtain ⟨r0, r1, r2, r3, r4, heq, hpivot, h3, h4, hwarm⟩ :=
    prepare_hinge_rows_cons pi EDYN_SCALAR_MAX large_scalar atan2 normalize_angle con cache dt
      originA posA ornA angvelA originB posB ornB angvelB
  obtain ⟨himp, hmin, hmax, _⟩ := hinge_tracked_params pi atan2 normalize_angle con ornA ornB
  obtain ⟨hlen, hJ, hw⟩ := hinge_optional_rows_spec large_scalar con
    (hinge_tracked pi atan2 normalize_angle con ornA ornB) dt (hinge_axis con ornA)
    angvelA angvelB himp hmin hmax
  refine ⟨_, heq, prepare_hinge_tracked _ _ _ _ _ _ _ _ _ _ _ _ _ _ _ _, ?_, ?_,
    ⟨r3, by simp, h3⟩, ⟨r4, by simp, h4⟩, by simp, by simpa using hJ, ?_⟩
  · simp only [List.length_cons, hlen]
    omega
  · intro i
    obtain ⟨row, hrow, hrest⟩ := hpivot i
    refine ⟨row, ?_, hrest⟩
    fin_cases i <;> exact hrow
  · exact warm_started_append con 0 [r0, r1, r2, r3, r4] _ hwarm hw

/-- The sixth row that `prepare_constraint<hinge_constraint>` writes for a
hinge with limits is the first row of the limit block. -/
theorem prepare_hinge_sixth_row (pi EDYN_SCALAR_MAX large_scalar : scalar)
    (atan2 : scalar → scalar → scalar) (normalize_angle : scalar → scalar)
    (con : hinge_constraint) (cache : constraint_row_prep_cache) (dt : scalar)
    (originA posA : vector3) (ornA : quaternion) (angvelA : vector3)
    (originB posB : vector3) (ornB : quaternion) (angvelB : vector3)
    (hlimit : con.angle_min < con.angle_max) :
    ∃ rows, (prepare_constraint_hinge_constraint pi EDYN_SCALAR_MAX large_scalar atan2
          normalize_angle con cache dt originA posA ornA angvelA originB posB ornB angvelB).2
        = cache ++ rows ∧
      rows[5]? = (hinge_limit_rows large_scalar
        (hinge_tracked pi atan2 normalize_angle con ornA ornB) dt
        (hinge_axis con ornA) [] 5).1.head? := by
  obtain ⟨r0, r1, r2, r3, r4, heq, _⟩ :=
    prepare_hinge_rows_cons pi EDYN_SCALAR_MAX large_scalar atan2 normalize_angle con cache dt
      originA posA ornA angvelA originB posB ornB angvelB
  refine ⟨_, heq, ?_⟩
  obtain ⟨row, rest, hrows, _⟩ := hinge_limit_rows_spec large_scalar
    (hinge_tracked pi atan2 normalize_angle con ornA ornB) dt (hinge_axis con ornA) 5
  rw [if_pos hlimit, hrows]
  simp

/-- The last row that `prepare_constraint<hinge_constraint>` writes for a
hinge with friction or damping is the row of the friction block. -/
theorem prepare_hinge_last_row (pi EDYN_SCALAR_MAX large_scalar : scalar)
    (atan2 : scalar → scalar → scalar) (normalize_angle : scalar → scalar)
    (con : hinge_constraint) (cache : constraint_row_prep_cache) (dt : scalar)
    (originA posA : vector3) (ornA : quaternion) (angvelA : vector3)
    (originB posB : vector3) (ornB : quaternion) (angvelB : vector3)
    (hfriction : con.friction_torque > 0 ∨ con.damping > 0) :
    ((prepare_constraint_hinge_constraint pi EDYN_SCALAR_MAX large_scalar atan2
          normalize_angle con cache dt originA posA ornA angvelA originB posB ornB
          angvelB).2).getLast?
        = (hinge_friction_row (hinge_tracked pi atan2 normalize_angle con ornA ornB) dt
            (hinge_axis con ornA) angvelA angvelB []
            (5 + hinge_limit_count con +
              hinge_bump_stop_count (hinge_tracked pi atan2 normalize_angle con ornA ornB) +
              hinge_spring_count con)).1.head? := by
  obtain ⟨r0, r1, r2, r3, r4, heq, _⟩ :=
    prepare_hinge_rows_cons pi EDYN_SCALAR_MAX large_scalar atan2 normalize_angle con cache dt
      originA posA ornA angvelA originB posB ornB angvelB
  rw [heq, if_pos hfriction]
  simp only [hinge_friction_row, List.nil_append, List.head?_cons]
  generalize (if con.angle_min < con.angle_max then
      (hinge_limit_rows large_scalar (hinge_tracked pi atan2 normalize_angle con ornA ornB) dt
        (hinge_axis con ornA) [] 5).1 else []) ++
    (if con.stiffness > 0 then
      (hinge_spring_row (hinge_tracked pi atan2 normalize_angle con ornA ornB) dt
        (hinge_axis con ornA) []
        (5 + hinge_limit_count con +
          hinge_bump_stop_count (hinge_tracked pi atan2 normalize_angle con ornA ornB))).1
      else []) = X
  have h : ∀ x : constraint_row_prep,
      cache ++ r0 :: r1 :: r2 :: r3 :: r4 :: (X ++ [x])
        = (cache ++ r0 :: r1 :: r2 :: r3 :: r4 :: X) ++ [x] := fun x => by simp
  rw [h, List.getLast?_concat]

/-- C25: hinge limit row. When `angle_min < angle_max`, the limit row, which is
the sixth row written, has the Jacobian `(0, axis, 0, -axis)` and, if the
tracked angle is below the midpoint `(angle_min + angle_max) / 2`,
`lower_limit = -large_scalar`, `upper_limit = 0` and
`error = (angle_min - angle) / dt`; otherwise `lower_limit = 0`,
`upper_limit = large_scalar` and `error = (angle_max - angle) / dt`; in both
cases its restitution is `limit_restitution` and
`lower_limit ≤ 0 ≤ upper_limit`. The constant `large_scalar` is not
negative and the tracked angle is the one of the constraint after the call. -/
theorem prepare_hinge_limit_row (pi EDYN_SCALAR_MAX large_scalar : scalar)
    (atan2 : scalar → scalar → scalar) (normalize_angle : scalar → scalar)
    (con : hinge_constraint) (cache : constraint_row_prep_cache) (dt : scalar)
    (originA posA : vector3) (ornA : quaternion) (angvelA : vector3)
    (originB posB : vector3) (ornB : quaternion) (angvelB : vector3)
    (hlarge : 0 ≤ large_scalar)
    (hlimit : con.angle_min < con.angle_max) :
    ∃ rows row,
      (prepare_constraint_hinge_constraint pi EDYN_SCALAR_MAX large_scalar atan2
          normalize_angle con cache dt originA posA ornA angvelA originB posB ornB angvelB).2
        = cache ++ rows ∧
      rows[5]? = some row ∧
      row.J = (vector3_zero, hinge_axis con ornA, vector3_zero, -hinge_axis con ornA) ∧
      ((prepare_constraint_hinge_constraint pi EDYN_SCALAR_MAX large_scalar atan2
            normalize_angle con cache dt originA posA ornA angvelA originB posB ornB
            angvelB).1.angle < (con.angle_min + con.angle_max) / 2 →
        row.lower_limit = -large_scalar ∧ row.upper_limit = 0 ∧
        row.options.error
          = (con.angle_min -
              (prepare_constraint_hinge_constraint pi EDYN_SCALAR_MAX large_scalar atan2
                normalize_angle con cache dt originA posA ornA angvelA originB posB ornB
                angvelB).1.angle) / dt) ∧
      (¬ (prepare_constraint_hinge_constraint pi EDYN_SCALAR_MAX large_scalar atan2
            normalize_angle con cache dt originA posA ornA angvelA originB posB ornB
            angvelB).1.angle < (con.angle_min + con.angle_max) / 2 →
        row.lower_limit = 0 ∧ row.upper_limit = large_scalar ∧
        row.options.error
          = (con.angle_max -
              (prepare_constraint_hinge_constraint pi EDYN_SCALAR_MAX large_scalar atan2
                normalize_angle con cache dt originA posA ornA angvelA originB posB ornB
                angvelB).1.angle) / dt) ∧
      row.options.restitution = con.limit_restitution ∧
      row.lower_limit ≤ 0 ∧ 0 ≤ row.upper_limit := by
  obtain ⟨rows, heq, h5⟩ := prepare_hinge_sixth_row pi EDYN_SCALAR_MAX large_scalar atan2
    normalize_angle con cache dt originA posA ornA angvelA originB posB ornB angvelB hlimit
  obtain ⟨_, hmin, hmax, hrest, _⟩ :=
    hinge_tracked_params pi atan2 normalize_angle con ornA ornB
  obtain ⟨row, rest, hrows, hJ, hlow, hhigh, hres, _⟩ := hinge_limit_rows_spec large_scalar
    (hinge_tracked pi atan2 normalize_angle con ornA ornB) dt (hinge_axis con ornA) 5
  rw [hrows, List.head?_cons] at h5
  rw [prepare_hinge_tracked]
  rw [hmin, hmax] at hlow hhigh
  rw [hrest] at hres
  refine ⟨rows, row, heq, h5, hJ, hlow, hhigh, hres, ?_, ?_⟩
  · by_cases hmid : (hinge_tracked pi atan2 normalize_angle con ornA ornB).angle
        < (con.angle_min + con.angle_max) / 2
    · rw [(hlow hmid).1]
      linarith
    · rw [(hhigh hmid).1]
  · by_cases hmid : (hinge_tracked pi atan2 normalize_angle con ornA ornB).angle
        < (con.angle_min + con.angle_max) / 2
    · rw [(hlow hmid).2.1]
    · rw [(hhigh hmid).2.1]
      exact hlarge

/-- Witness of C25: the sample hinge, with the limits `-1` and `1`, gets a
sixth row about its axis whose bounds enclose zero and whose restitution is
the one of its limits. -/
theorem prepare_hinge_limit_row_witness :
    ∃ rows row,
      (prepare_constraint_hinge_constraint (22 / 7) 1000000 1000 sample_atan2
          (sample_normalize_angle (22 / 7)) sample_hinge [] (1 / 60) vector3_zero
          vector3_zero quaternion_identity vector3_zero vector3_zero vector3_zero
          sample_half_turn vector3_zero).2 = [] ++ rows ∧
      rows[5]? = some row ∧
      row.J = (vector3_zero, hinge_axis sample_hinge quaternion_identity, vector3_zero,
        -hinge_axis sample_hinge quaternion_identity) ∧
      row.options.restitution = sample_hinge.limit_restitution ∧
      row.lower_limit ≤ 0 ∧ 0 ≤ row.upper_limit := by
  obtain ⟨rows, row, h1, h2, h3, _, _, h4, h5, h6⟩ :=
    prepare_hinge_limit_row (22 / 7) 1000000 1000 sample_atan2
      (sample_normalize_angle (22 / 7)) sample_hinge [] (1 / 60) vector3_zero
      vector3_zero quaternion_identity vector3_zero vector3_zero vector3_zero
      sample_half_turn vector3_zero (by norm_num) (by norm_num [sample_hinge])
  exact ⟨rows, row, h1, h2, h3, h4, h5, h6⟩

/-- The bounds of the row of the friction block. -/
theorem hinge_friction_row_bounds (con : hinge_constraint) (dt : scalar)
    (axis angvelA angvelB : vector3) (k : Nat) :
    ∃ row, (hinge_friction_row con dt axis angvelA angvelB [] k).1.head? = some row ∧
      row.J = axis_jacobian axis ∧
      row.lower_limit = -row.upper_limit ∧
      (con.damping > 0 →
        row.upper_limit
          = con.friction_torque * dt + |hinge_relvel angvelA angvelB axis| * con.damping * dt) ∧
      (¬ con.damping > 0 → row.upper_limit = con.friction_torque * dt) := by
  unfold hinge_friction_row hinge_relvel
  refine ⟨_, rfl, rfl, rfl, ?_, ?_⟩
  · intro h
    simp only [h, if_true]
  · intro h
    simp only [h, if_false]

/-- Counterexample to C26: for the sample hinge with the friction torque `1`
and the damping `-1`, body A turning about the hinge axis at the rate `1` and
`dt = 1`, the last row written has the upper limit `1`, the friction torque
times `dt`, whereas `friction_torque*dt + |relvel|*damping*dt` is `0`. -/
theorem prepare_hinge_friction_row_negative_damping :
    sample_hinge_negative_damping.friction_torque > 0 ∧
    ∃ row,
      ((prepare_constraint_hinge_constraint (22 / 7) 1000000 1000 sample_atan2
          (sample_normalize_angle (22 / 7)) sample_hinge_negative_damping [] 1 vector3_zero
          vector3_zero quaternion_identity ⟨1, 0, 0⟩ vector3_zero vector3_zero
          quaternion_identity vector3_zero).2).getLast? = some row ∧
      row.upper_limit = 1 ∧
      sample_hinge_negative_damping.friction_torque * 1 +
          |hinge_relvel ⟨1, 0, 0⟩ vector3_zero
            (hinge_axis sample_hinge_negative_damping quaternion_identity)| *
            sample_hinge_negative_damping.damping * 1 = 0 := by
  refine ⟨by norm_num [sample_hinge_negative_damping], ?_⟩
  obtain ⟨row, hrow, _, _, _, hup⟩ := hinge_friction_row_bounds
    (hinge_tracked (22 / 7) sample_atan2 (sample_normalize_angle (22 / 7))
      sample_hinge_negative_damping quaternion_identity quaternion_identity) 1
    (hinge_axis sample_hinge_negative_damping quaternion_identity) ⟨1, 0, 0⟩ vector3_zero
    (5 + hinge_limit_count sample_hinge_negative_damping +
      hinge_bump_stop_count (hinge_tracked (22 / 7) sample_atan2
        (sample_normalize_angle (22 / 7)) sample_hinge_negative_damping quaternion_identity
        quaternion_identity) +
      hinge_spring_count sample_hinge_negative_damping)
  obtain ⟨_, _, _, _, htor, hdamp⟩ := hinge_tracked_params (22 / 7) sample_atan2
    (sample_normalize_angle (22 / 7)) sample_hinge_negative_damping quaternion_identity
    quaternion_identity
  refine ⟨row, ?_, ?_, ?_⟩
  · rw [prepare_hinge_last_row _ _ _ _ _ _ _ _ _ _ _ _ _ _ _ _
      (Or.inl (by norm_num [sample_hinge_negative_damping]))]
    exact hrow
  · rw [hup (by rw [hdamp]; norm_num [sample_hinge_negative_damping]), htor]
    norm_num [sample_hinge_negative_damping]
  · norm_num [sample_hinge_negative_damping, sample_hinge, hinge_relvel, hinge_axis,
      quaternion_identity, matrix3x3_identity, matrix3x3.column, rotate, quaternion.mul_vec,
      quaternion.mul, conjugate, dot, vector3_zero]

/-- C26 (amended): hinge friction row. Whenever `friction_torque > 0` or
`damping > 0`, the last row written by `prepare_constraint<hinge_constraint>`
is about the hinge axis and has the symmetric bounds `lower_limit = -f` and
`upper_limit = f`, with `f = friction_torque*dt + |relvel|*damping*dt` when
`damping > 0` and `f = friction_torque*dt` when `damping ≤ 0`, where
`relvel = dot(angvelA, axis) - dot(angvelB, axis)` and `axis` is the hinge
axis in world space. -/
theorem prepare_hinge_friction_row (pi EDYN_SCALAR_MAX large_scalar : scalar)
    (atan2 : scalar → scalar → scalar) (normalize_angle : scalar → scalar)
    (con : hinge_constraint) (cache : constraint_row_prep_cache) (dt : scalar)
    (originA posA : vector3) (ornA : quaternion) (angvelA : vector3)
    (originB posB : vector3) (ornB : quaternion) (angvelB : vector3)
    (hfriction : con.friction_torque > 0 ∨ con.damping > 0) :
    ∃ row,
      ((prepare_constraint_hinge_constraint pi EDYN_SCALAR_MAX large_scalar atan2
          normalize_angle con cache dt originA posA ornA angvelA originB posB ornB
          angvelB).2).getLast? = some row ∧
      row.J = (vector3_zero, hinge_axis con ornA, vector3_zero, -hinge_axis con ornA) ∧
      row.lower_limit = -row.upper_limit ∧
      (con.damping > 0 →
        row.upper_limit
          = con.friction_torque * dt +
              |hinge_relvel angvelA angvelB (hinge_axis con ornA)| * con.damping * dt) ∧
      (con.damping ≤ 0 → row.upper_limit = con.friction_torque * dt) ∧
      (0 ≤ con.damping →
        row.upper_limit
          = con.friction_torque * dt +
              |hinge_relvel angvelA angvelB (hinge_axis con ornA)| * con.damping * dt) := by
  obtain ⟨row, hrow, hJ, hlow, hpos, hneg⟩ := hinge_friction_row_bounds
    (hinge_tracked pi atan2 normalize_angle con ornA ornB) dt (hinge_axis con ornA)
    angvelA angvelB
    (5 + hinge_limit_count con +
      hinge_bump_stop_count (hinge_tracked pi atan2 normalize_angle con ornA ornB) +
      hinge_spring_count con)
  obtain ⟨_, _, _, _, htor, hdamp⟩ := hinge_tracked_params pi atan2 normalize_angle con
    ornA ornB
  rw [htor, hdamp] at hpos hneg
  refine ⟨row, ?_, hJ, hlow, hpos, fun h => hneg (not_lt.mpr h), fun h => ?_⟩
  · rw [prepare_hinge_last_row _ _ _ _ _ _ _ _ _ _ _ _ _ _ _ _ hfriction]
    exact hrow
  · rcases lt_or_eq_of_le h with h1 | h1
    · exact hpos h1
    · rw [hneg (by rw [← h1]; exact lt_irrefl _), ← h1]
      ring

/-- Witness of C26 (amended): for the sample hinge with the friction torque
`1` and the damping `2`, body A turning about the hinge axis at the rate `1`
and `dt = 1`, the last row written has the bounds `-3` and `3`. -/
theorem prepare_hinge_friction_row_witness :
    ∃ row,
      ((prepare_constraint_hinge_constraint (22 / 7) 1000000 1000 sample_atan2
          (sample_normalize_angle (22 / 7)) sample_hinge_friction [] 1 vector3_zero
          vector3_zero quaternion_identity ⟨1, 0, 0⟩ vector3_zero vector3_zero
          quaternion_identity vector3_zero).2).getLast? = some row ∧
      row.lower_limit = -3 ∧ row.upper_limit = 3 := by
  obtain ⟨row, hrow, _, hlow, hpos, _⟩ := prepare_hinge_friction_row (22 / 7) 1000000 1000
    sample_atan2 (sample_normalize_angle (22 / 7)) sample_hinge_friction [] 1 vector3_zero
    vector3_zero quaternion_identity ⟨1, 0, 0⟩ vector3_zero vector3_zero
    quaternion_identity vector3_zero (Or.inl (by norm_num [sample_hinge_friction]))
  have hup : row.upper_limit = 3 := by
    rw [hpos (by norm_num [sample_hinge_friction])]
    norm_num [sample_hinge_friction, sample_hinge, hinge_relvel, hinge_axis,
      quaternion_identity, matrix3x3_identity, matrix3x3.column, rotate, quaternion.mul_vec,
      quaternion.mul, conjugate, dot, vector3_zero]
  exact ⟨row, hrow, by rw [hlow, hup], hup⟩

/-! ## Theorems about the swap with the last point -/

/-- What `maybe_remove_point` returns on a manifold with a point: the manifold
as it is when the point is kept, and the manifold with slot `pt_idx`
overwritten with the last live slot and the last live slot cleared when the
point is removed. -/
theorem maybe_remove_point_eq (thr : scalar) (manifold : contact_manifold)
    (cp : contact_point) (pt_idx last_idx : Fin max_contacts)
    (posA : vector3) (ornA : quaternion) (posB : vector3) (ornB : quaternion)
    (hn : 0 < manifold.num_points) (hlast : last_idx.val = manifold.num_points - 1) :
    maybe_remove_point thr manifold cp pt_idx posA ornA posB ornB
      = some
        (if normal_separation cp posA ornA posB ornB < thr ∧
            tangential_separation_sqr cp posA ornA posB ornB < thr * thr then
          (false, manifold)
        else
          (true,
            { manifold with
              point := Function.update
                (Function.update manifold.point pt_idx (manifold.point last_idx))
                last_idx entity.null })) := by
  unfold maybe_remove_point normal_separation tangential_separation_sqr
  simp only [normal_separation]
  by_cases h : dot (to_world_space cp.pivotA posA ornA - to_world_space cp.pivotB posB ornB)
        cp.normal < thr ∧
      length_sqr (to_world_space cp.pivotA posA ornA - to_world_space cp.pivotB posB ornB -
        dot (to_world_space cp.pivotA posA ornA - to_world_space cp.pivotB posB ornB)
          cp.normal * cp.normal) < thr * thr
  · rw [if_pos h, if_pos h]
  · rw [if_neg h, if_neg h, dif_pos hn]
    have hl : (⟨manifold.num_points - 1, by
        have := manifold.num_points_le
        omega⟩ : Fin max_contacts) = last_idx := Fin.ext hlast.symm
    simp only [hl]

/-- Counterexample to C27: from the sample manifold with `n = 2` live points,
`maybe_remove_point` removes the point at `pt_idx = 1 < n`, which is the last
one; afterwards slot `pt_idx` is `null` and does not hold the entity `11` that
was in slot `n - 1`. -/
theorem maybe_remove_point_last_slot_cleared :
    (sample_manifold 2).num_points = 2 ∧
    (sample_manifold 2).point ⟨1, by decide⟩ = entity.id 11 ∧
    ∃ m1, maybe_remove_point (1 / 50) (sample_manifold 2) sample_contact_point_at_threshold
        ⟨1, by decide⟩ vector3_zero quaternion_identity vector3_zero quaternion_identity
        = some (true, m1) ∧
      m1.point ⟨1, by decide⟩ = entity.null ∧
      m1.point ⟨1, by decide⟩ ≠ (sample_manifold 2).point ⟨1, by decide⟩ := by
  refine ⟨by decide, by decide, ?_⟩
  rw [maybe_remove_point_eq (1 / 50) (sample_manifold 2) sample_contact_point_at_threshold
    ⟨1, by decide⟩ ⟨1, by decide⟩ vector3_zero quaternion_identity vector3_zero
    quaternion_identity (by decide) (by decide),
    sample_contact_point_at_threshold_separation.1, if_neg (by norm_num)]
  exact ⟨_, rfl, by decide, by decide⟩

/-- C27 (amended): swap-with-last removal. On a manifold whose `n` live points
occupy its first `n` slots and for `pt_idx < n`, `maybe_remove_point` returns;
when it removes the point (returns `true`), afterwards slot `n - 1` is `null`,
slot `pt_idx`, if it is not slot `n - 1`, holds the entity that was in slot
`n - 1`, every other slot is unchanged and `num_points() = n - 1`, the live
points again occupying the first slots, so that the surviving points are
exactly the previous ones minus the removed one; when it returns `false` the
manifold is unchanged. -/
theorem maybe_remove_point_swap_with_last (contact_breaking_threshold : scalar)
    (manifold : contact_manifold) (cp : contact_point) (pt_idx : Fin max_contacts)
    (posA : vector3) (ornA : quaternion) (posB : vector3) (ornB : quaternion)
    (hcompact : manifold.compact) (hpt : pt_idx.val < manifold.num_points) :
    ∃ res, maybe_remove_point contact_breaking_threshold manifold cp pt_idx posA ornA posB ornB
        = some res ∧
      (res.1 = false → res.2 = manifold) ∧
      (res.1 = true →
        (∀ last_idx : Fin max_contacts, last_idx.val = manifold.num_points - 1 →
          res.2.point last_idx = entity.null ∧
          (pt_idx ≠ last_idx → res.2.point pt_idx = manifold.point last_idx) ∧
          (∀ i, i ≠ pt_idx → i ≠ last_idx → res.2.point i = manifold.point i)) ∧
        res.2.num_points = manifold.num_points - 1 ∧
        res.2.compact ∧
        (∀ e, e ≠ entity.null →
          ((∃ i, res.2.point i = e) ↔ ∃ i, i ≠ pt_idx ∧ manifold.point i = e)) ∧
        res.2.body = manifold.body) := by
  have hle := manifold.num_points_le
  have hn : 0 < manifold.num_points := by omega
  have hlt : manifold.num_points - 1 < max_contacts := by omega
  rw [maybe_remove_point_eq contact_breaking_threshold manifold cp pt_idx
    ⟨manifold.num_points - 1, hlt⟩ posA ornA posB ornB hn rfl]
  refine ⟨_, rfl, ?_, ?_⟩
  · intro h
    by_cases hc : normal_separation cp posA ornA posB ornB < contact_breaking_threshold ∧
        tangential_separation_sqr cp posA ornA posB ornB
          < contact_breaking_threshold * contact_breaking_threshold
    · rw [if_pos hc]
    · rw [if_neg hc] at h
      exact absurd h (by simp)
  · intro h
    by_cases hc : normal_separation cp posA ornA posB ornB < contact_breaking_threshold ∧
        tangential_separation_sqr cp posA ornA posB ornB
          < contact_breaking_threshold * contact_breaking_threshold
    · rw [if_pos hc] at h
      exact absurd h (by simp)
    · rw [if_neg hc]
      have hiff := compact_swap_with_last manifold hcompact pt_idx
        ⟨manifold.num_points - 1, hlt⟩ rfl hpt
      have hslots : ∀ last_idx : Fin max_contacts, last_idx.val = manifold.num_points - 1 →
          last_idx = ⟨manifold.num_points - 1, hlt⟩ := fun l hl => Fin.ext hl
      refine ⟨?_, ?_, ?_, ?_, rfl⟩
      · intro last_idx hlast
        rw [hslots last_idx hlast]
        refine ⟨by simp, ?_, ?_⟩
        · intro hne
          simp only
          rw [Function.update_noteq hne, Function.update_same]
        · intro i h1 h2
          simp only
          rw [Function.update_noteq h2, Function.update_noteq h1]
      · exact contact_manifold.num_points_eq_of_iff _ _ (by omega) hiff
      · intro i
        have hnum : ({ manifold with
            point := Function.update
              (Function.update manifold.point pt_idx
                (manifold.point ⟨manifold.num_points - 1, hlt⟩))
              ⟨manifold.num_points - 1, hlt⟩ entity.null } : contact_manifold).num_points
            = manifold.num_points - 1 :=
          contact_manifold.num_points_eq_of_iff _ _ (by omega) hiff
        rw [hnum]
        exact hiff i
      · intro e he
        simp only
        constructor
        · rintro ⟨i, hi⟩
          by_cases h1 : i = ⟨manifold.num_points - 1, hlt⟩
          · subst h1
            rw [Function.update_same] at hi
            exact absurd hi.symm he
          · rw [Function.update_noteq h1] at hi
            by_cases h2 : i = pt_idx
            · subst h2
              rw [Function.update_same] at hi
              exact ⟨_, fun h3 => h1 h3.symm, hi⟩
            · rw [Function.update_noteq h2] at hi
              exact ⟨i, h2, hi⟩
        · rintro ⟨i, hne, hi⟩
          by_cases h1 : i = ⟨manifold.num_points - 1, hlt⟩
          · subst h1
            refine ⟨pt_idx, ?_⟩
            rw [Function.update_noteq (fun h3 => hne h3.symm), Function.update_same]
            exact hi
          · refine ⟨i, ?_⟩
            rw [Function.update_noteq h1, Function.update_noteq hne]
            exact hi

/-- Witness of C27 (amended): removing the first of the two points of the
sample manifold moves the point `11` of slot `1` into slot `0`, clears slot
`1` and leaves one live point. -/
theorem maybe_remove_point_swap_with_last_witness :
    ∃ res, maybe_remove_point (1 / 50) (sample_manifold 2) sample_contact_point_at_threshold
        ⟨0, by decide⟩ vector3_zero quaternion_identity vector3_zero quaternion_identity
        = some res ∧
      res.1 = true ∧
      res.2.point ⟨0, by decide⟩ = entity.id 11 ∧
      res.2.point ⟨1, by decide⟩ = entity.null ∧
      res.2.num_points = 1 := by
  obtain ⟨res, hres, _, htrue⟩ := maybe_remove_point_swap_with_last (1 / 50)
    (sample_manifold 2) sample_contact_point_at_threshold ⟨0, by decide⟩ vector3_zero
    quaternion_identity vector3_zero quaternion_identity (by decide) (by decide)
  have hflag := maybe_remove_point_flag (1 / 50) (sample_manifold 2)
    sample_contact_point_at_threshold ⟨0, by decide⟩ vector3_zero quaternion_identity
    vector3_zero quaternion_identity (by decide)
  rw [hres, sample_contact_point_at_threshold_separation.1] at hflag
  have h1 : res.1 = true := by
    have h2 := Option.some.inj hflag
    simp only at h2
    rw [h2]
    norm_num
  obtain ⟨hslots, hnum, _⟩ := htrue h1
  obtain ⟨hlast, hpt, _⟩ := hslots ⟨1, by decide⟩ (by decide)
  refine ⟨res, hres, h1, ?_, hlast, ?_⟩
  · rw [hpt (by decide)]
    decide
  · rw [hnum]
    decide

/-! ## Theorems about `collide` for two spheres -/

/-- The number of points of the manifold that `collide` returns for two
spheres: one if the squared distance of the centres is below the sum of the
squares of the radii, none otherwise. -/
theorem collide_sphere_sphere_num_points (sqrt : scalar → scalar)
    (shA : sphere_shape) (posA : vector3) (ornA : quaternion)
    (shB : sphere_shape) (posB : vector3) (ornB : quaternion) :
    (collide_sphere_sphere sqrt shA posA ornA shB posB ornB).num_points
      = if length_sqr (posA - posB) < shA.radius * shA.radius + shB.radius * shB.radius
        then 1 else 0 := by
  unfold collide_sphere_sphere
  simp only
  split_ifs <;> rfl

/-- C28 (code bug): two spheres of radius `1` whose centres are `3/2` apart
overlap, the distance being less than `1 + 1`, and yet `collide` returns the
manifold without points, because it compares the squared distance `9/4` with
the sum of the squared radii, `2`, and not with the square of their sum,
`4`. -/
theorem collide_sphere_sphere_misses_overlap (sqrt : scalar → scalar) :
    length_sqr ((⟨3 / 2, 0, 0⟩ : vector3) - vector3_zero) < (1 + 1) * (1 + 1) ∧
    (collide_sphere_sphere sqrt ⟨1⟩ ⟨3 / 2, 0, 0⟩ quaternion_identity ⟨1⟩ vector3_zero
      quaternion_identity).num_points = 0 := by
  have hl : length_sqr ((⟨3 / 2, 0, 0⟩ : vector3) - vector3_zero) = 9 / 4 := by
    norm_num [length_sqr, dot, vector3_zero]
  refine ⟨by rw [hl]; norm_num, ?_⟩
  rw [collide_sphere_sphere_num_points, hl, if_neg (by norm_num)]

/-! ## Theorems about the invariant of `modified_components` -/

/-- Pairwise distinct indices below `N` are at most `N`. -/
theorem length_le_of_nodup_of_lt (N : Nat) (l : List Nat) (hnodup : l.Nodup)
    (hlt : ∀ i, i ∈ l → i < N) : l.length ≤ N := by
  have hsub : l ⊆ List.range N := fun i hi => List.mem_range.mpr (hlt i hi)
  have h := (List.subperm_of_subset hnodup hsub).length_le
  rwa [List.length_range] at h

/-- A record with distinct indices holds at most `N` entries. -/
theorem count_le_of_distinct_indices (N : Nat) (m : modified_components)
    (h : m.distinct_indices N) : m.count ≤ N := by
  have hl := length_le_of_nodup_of_lt N (m.entry.map (fun e => e.index)) h.1
    (fun i hi => by
      obtain ⟨e, he, rfl⟩ := List.mem_map.mp hi
      exact h.2 e he)
  simpa [modified_components.count] using hl

/-- Marking the entries of a component index leaves the indices as they
are. -/
theorem on_update_mark_indices (index : Nat) (l : List comp_index_time) :
    (l.map (fun e => if e.index = index then { e with remaining := 400 } else e)).map
        (fun e => e.index)
      = l.map (fun e => e.index) := by
  rw [List.map_map]
  apply List.map_congr_left
  intro a _
  simp only [Function.comp]
  split_ifs <;> rfl

/-- A notification for a component type keeps the invariant, and its assertion
`count < N` holds. -/
theorem on_update_modified_distinct_indices (N index : Nat) (m : modified_components)
    (hindex : index < N) (h : m.distinct_indices N) :
    ∃ m1, on_update_modified N index m = some m1 ∧ m1.distinct_indices N := by
  obtain ⟨hnodup, hlt⟩ := h
  by_cases hfound : m.entry.any (fun e => decide (e.index = index)) = true
  · rw [on_update_modified_eq N index m (Or.inl hfound), if_pos hfound, List.append_nil]
    refine ⟨_, rfl, ?_, ?_⟩
    · simp only
      rw [on_update_mark_indices]
      exact hnodup
    · intro e he
      obtain ⟨a, ha, rfl⟩ := List.mem_map.mp he
      split_ifs
      · exact hlt a ha
      · exact hlt a ha
  · have hnotin : ¬ index ∈ m.entry.map (fun e => e.index) := by
      intro hin
      obtain ⟨a, ha, hai⟩ := List.mem_map.mp hin
      exact hfound (List.any_eq_true.mpr ⟨a, ha, by simpa using hai⟩)
    have hcount : m.count < N := by
      have hl := length_le_of_nodup_of_lt N (index :: m.entry.map (fun e => e.index))
        (List.nodup_cons.mpr ⟨hnotin, hnodup⟩)
        (fun i hi => by
          rcases List.mem_cons.mp hi with h1 | h1
          · rw [h1]
            exact hindex
          · obtain ⟨e, he, rfl⟩ := List.mem_map.mp h1
            exact hlt e he)
      simp only [List.length_cons, List.length_map] at hl
      exact hl
    rw [on_update_modified_eq N index m (Or.inr hcount), if_neg hfound]
    refine ⟨_, rfl, ?_, ?_⟩
    · simp only
      rw [List.map_append, on_update_mark_indices, List.map_singleton]
      rw [List.nodup_append]
      refine ⟨hnodup, List.nodup_singleton _, ?_⟩
      intro i hi hi2
      rw [List.mem_singleton] at hi2
      subst hi2
      exact hnotin hi
    · intro e he
      rcases List.mem_append.mp he with h1 | h1
      · obtain ⟨a, ha, rfl⟩ := List.mem_map.mp h1
        split_ifs
        · exact hlt a ha
        · exact hlt a ha
      · rw [List.mem_singleton] at h1
        rw [h1]
        exact hindex

/-- An `update` keeps the invariant. -/
theorem update_modified_distinct_indices (N elapsed : Nat) (m : modified_components)
    (h : m.distinct_indices N) : (update_modified elapsed m).distinct_indices N := by
  obtain ⟨hnodup, hlt⟩ := h
  have hperm := update_modified_perm elapsed m
  have hkept : ((update_kept elapsed m.entry).map (fun e => e.index)).Sublist
      (m.entry.map (fun e => e.index)) := by
    unfold update_kept
    rw [List.map_map]
    have h1 : ((fun e : comp_index_time => e.index) ∘
        fun e : comp_index_time => { e with remaining := e.remaining - elapsed })
        = fun e => e.index := rfl
    rw [h1]
    exact (List.filter_sublist _).map _
  constructor
  · exact ((hperm.map _).nodup_iff).mpr (hnodup.sublist hkept)
  · intro e he
    have he2 := hperm.subset he
    unfold update_kept at he2
    obtain ⟨a, ha, rfl⟩ := List.mem_map.mp he2
    exact hlt a (List.mem_of_mem_filter ha)

/-- The invariant holds after every sequence of calls that starts from a
record with the invariant, and no assertion fails on the way. -/
theorem run_distinct_indices (N : Nat) (events : List exporter_event)
    (hindex : ∀ index, exporter_event.on_update index ∈ events → index < N)
    (m : modified_components) (h : m.distinct_indices N) :
    ∃ m1, modified_components.run N events m = some m1 ∧ m1.distinct_indices N := by
  induction events generalizing m with
  | nil => exact ⟨m, rfl, h⟩
  | cons ev rest ih =>
    have hrest : ∀ index, exporter_event.on_update index ∈ rest → index < N :=
      fun index hi => hindex index (List.mem_cons_of_mem _ hi)
    cases ev with
    | on_update index =>
      obtain ⟨m1, hm1, hinv⟩ := on_update_modified_distinct_indices N index m
        (hindex index (List.mem_cons_self _ _)) h
      unfold modified_components.run
      rw [hm1]
      exact ih hrest m1 hinv
    | update elapsed =>
      unfold modified_components.run
      exact ih hrest _ (update_modified_distinct_indices N elapsed m h)

/-- C29: `modified_components` keeps the component indices of its entries
pairwise distinct and its count at most the number `N` of networked component
types, under every sequence of `on_update` notifications (for component types,
whose indices are below `N`) and `update(time)` calls that starts from the
empty record; the assertion `count < N` that guards the append in `on_update`
never fails, so every call of the sequence returns and `entry[count]` is never
written out of bounds. -/
theorem modified_components_invariant (N : Nat) (events : List exporter_event)
    (hindex : ∀ index, exporter_event.on_update index ∈ events → index < N) :
    ∃ m, modified_components.run N events ⟨[]⟩ = some m ∧
      (m.entry.map (fun e => e.index)).Nodup ∧
      m.count ≤ N ∧
      (∀ e, e ∈ m.entry → e.index < N) ∧
      ∀ index, index < N →
        ∃ m1, on_update_modified N index m = some m1 ∧ m1.count ≤ N := by
  obtain ⟨m, hm, hinv⟩ := run_distinct_indices N events hindex ⟨[]⟩
    ⟨List.nodup_nil, fun e he => absurd he (List.not_mem_nil e)⟩
  refine ⟨m, hm, hinv.1, count_le_of_distinct_indices N m hinv, hinv.2, ?_⟩
  intro index hi
  obtain ⟨m1, hm1, hinv1⟩ := on_update_modified_distinct_indices N index m hi hinv
  exact ⟨m1, hm1, count_le_of_distinct_indices N m1 hinv1⟩

/-- Witness of C29: with three component types, notifications for the types
`0`, `2`, `0` and `1` with two updates in between leave the entries of the
types `0` and `1`, the entry of type `2` having expired. -/
theorem modified_components_invariant_witness :
    ∃ m, modified_components.run 3
        [exporter_event.on_update 0, exporter_event.on_update 2, exporter_event.update 100,
          exporter_event.on_update 0, exporter_event.update 350, exporter_event.on_update 1]
        ⟨[]⟩ = some m ∧
      m.entry = [⟨0, 50⟩, ⟨1, 400⟩] ∧
      (m.entry.map (fun e => e.index)).Nodup ∧ m.count ≤ 3 := by
  obtain ⟨m, hm, hnodup, hcount, _⟩ := modified_components_invariant 3
    [exporter_event.on_update 0, exporter_event.on_update 2, exporter_event.update 100,
      exporter_event.on_update 0, exporter_event.update 350, exporter_event.on_update 1]
    (by
      intro index hi
      simp only [List.mem_cons, exporter_event.on_update.injEq, List.mem_singleton,
        List.not_mem_nil, or_false, reduceCtorEq, false_or] at hi
      omega)
  have heval : modified_components.run 3
      [exporter_event.on_update 0, exporter_event.on_update 2, exporter_event.update 100,
        exporter_event.on_update 0, exporter_event.update 350, exporter_event.on_update 1]
      ⟨[]⟩ = some ⟨[⟨0, 50⟩, ⟨1, 400⟩]⟩ := by decide
  have hmeq : m = ⟨[⟨0, 50⟩, ⟨1, 400⟩]⟩ := by
    rw [heval] at hm
    exact (Option.some.inj hm).symm
  exact ⟨m, hm, by rw [hmeq], hnodup, hcount⟩

/-! ## Theorems about `process_packet(entity_entered)` -/

/-- The body of the loop returns when the index is within the bounds of the
three lists of the packet. -/
theorem entity_entered_step_isSome {Asset : Type} (packet : entity_entered Asset) (i : Nat)
    (s : entity_entered_state Asset) (hE : i < packet.entities.length)
    (hA : i < packet.assets.length) (hO : i < packet.owners.length) :
    ∃ s1, entity_entered_step packet i s = some s1 := by
  unfold entity_entered_step
  rw [List.getElem?_eq_getElem hE, List.getElem?_eq_getElem hA, List.getElem?_eq_getElem hO]
  simp only [Option.bind_eq_bind, Option.some_bind]
  split_ifs <;> exact ⟨_, rfl⟩

/-- The body of the loop reads `packet.owners[i]` for an entity that is not
yet known: it fails when the list of owners is too short, although the index
is within the bounds of the entities and of the assets. -/
theorem entity_entered_step_owner_out_of_bounds {Asset : Type} (packet : entity_entered Asset)
    (i : Nat) (s : entity_entered_state Asset) (remote_entity : entity)
    (hE : packet.entities[i]? = some remote_entity) (hA : i < packet.assets.length)
    (hnew : s.entity_map.contains remote_entity = false)
    (hO : packet.owners.length ≤ i) :
    entity_entered_step packet i s = none := by
  unfold entity_entered_step
  rw [hE, List.getElem?_eq_getElem hA, List.getElem?_eq_none hO]
  simp [hnew]

/-- The loop returns when the list of owners is as long as the shorter of the
lists of entities and assets. -/
theorem entity_entered_loop_isSome {Asset : Type} (packet : entity_entered Asset)
    (hO : min packet.entities.length packet.assets.length ≤ packet.owners.length)
    (fuel i : Nat) (s : entity_entered_state Asset) :
    ∃ s1, entity_entered_loop packet fuel i s = some s1 := by
  induction fuel generalizing i s with
  | zero => exact ⟨s, rfl⟩
  | succ fuel ih =>
    unfold entity_entered_loop
    by_cases hc : i < packet.entities.length ∧ i < packet.assets.length
    · rw [if_pos hc]
      obtain ⟨s1, hs1⟩ := entity_entered_step_isSome packet i s hc.1 hc.2
        (lt_of_lt_of_le (lt_min hc.1 hc.2) hO)
      rw [hs1]
      exact ih (i + 1) s1
    · rw [if_neg hc]
      exact ⟨s, rfl⟩

/-- C30 (code bug): for the packet with one unknown entity, one asset and an
empty list of owners, the loop runs for `i = 0`, which is within the bounds of
`packet.entities` and `packet.assets`, and reads `packet.owners[0]` out of
bounds. -/
theorem process_packet_entity_entered_owner_out_of_bounds :
    (0 < [entity.id 20].length ∧ 0 < [7].length ∧ ¬ 0 < ([] : List entity).length) ∧
    process_packet_entity_entered
      ({ entities := [entity.id 20], assets := [7], owners := [] } : entity_entered Nat)
      sample_entered_state = none := by
  refine ⟨by decide, ?_⟩
  show entity_entered_loop _ (0 + 1) 0 _ = none
  rw [entity_entered_loop, if_pos (by decide)]
  rw [entity_entered_step_owner_out_of_bounds
    ({ entities := [entity.id 20], assets := [7], owners := [] } : entity_entered Nat) 0
    { sample_entered_state with pairs := [], local_entities := [] } (entity.id 20) rfl
    (by decide) rfl (by decide)]

/-- Processing an `entity_entered` packet returns, every element access being
within bounds, when the list of owners is at least as long as the shorter of
the lists of entities and assets. -/
theorem process_packet_entity_entered_isSome {Asset : Type} (packet : entity_entered Asset)
    (s : entity_entered_state Asset)
    (hO : min packet.entities.length packet.assets.length ≤ packet.owners.length) :
    ∃ s1, process_packet_entity_entered packet s = some s1 :=
  entity_entered_loop_isSome packet hO _ _ _

/-- A packet with two entities, of which the second is owned by the first, is
processed within bounds. -/
theorem process_packet_entity_entered_isSome_witness :
    ∃ s1, process_packet_entity_entered
      ({ entities := [entity.id 20, entity.id 21], assets := [7, 8],
         owners := [entity.null, entity.id 20] } : entity_entered Nat)
      sample_entered_state = some s1 :=
  process_packet_entity_entered_isSome _ _ (by decide)

end edyn
